import Mathlib

/-!
# Cactus caps: a shallow embedding of `api/impl/cactusCap.c`

A cap pair is one allocation holding two one-byte `Cap` structs followed by the
shared `CapContents` record.  A `Cap *` is modelled as a block number plus an
offset counted in `sizeof(Cap)` units, so that the pointer arithmetic of
`cap_getReverse` (`cap+1` / `cap-1`) and `cap_getContents` (`cap+2` / `cap+1`)
is kept as it is in the source.  Pointers to the collaborating objects (End,
Event, Sequence, Segment, Flower) are plain addresses with `NULL = 0`; their
accessors are parameters collected in `Collab`.  `assert` is modelled as
enabled: a failing assertion ends the run in `Outcome.assertFail`, carrying
the memory as it was when the assertion was evaluated.
-/

namespace Cactus

/-- Address of an End, Event, Sequence, Segment or Flower object. -/
abbrev Ptr := Nat

/-- The null address. -/
def NULL : Ptr := 0

/-- The `Name` type of the library (a 64 bit integer). -/
abbrev Name := Int

/-- The sentinel of an unset coordinate. -/
def INT64_MAX : Int := 9223372036854775807

/-- A `Cap *`: allocation block and offset in units of `sizeof(Cap)`. -/
structure CapPtr where
  blk : Nat
  off : Int
deriving DecidableEq, Repr

/-- Pointer arithmetic `cap + k`. -/
def CapPtr.add (p : CapPtr) (k : Int) : CapPtr := ⟨p.blk, p.off + k⟩

/-- The struct `_capContents` of `cactusCapPrivate.h` (`instance` and `end`
are reserved words, hence `instanceName` and `endPtr`). -/
structure CapContents where
  instanceName : Name
  coordinate : Int
  eventOrSequence : Ptr
  adjacency : Option CapPtr
  segment : Ptr
  endPtr : Ptr
  nCap : Option CapPtr
deriving DecidableEq, Repr

/-- An all-zero `CapContents`, as `st_calloc` hands it out. -/
def CapContents.zero : CapContents :=
  ⟨0, 0, NULL, none, NULL, NULL, none⟩

/-- The accessors of the collaborating End, Event, Sequence, Segment and Flower
objects that `cactusCap.c` calls, and the element codes of the binary format;
they are not changed by any cap operation.  `sequence_construct` gives the
Sequence it creates; the Flower's own record of it lies outside this memory. -/
structure Collab where
  NULL_NAME : Name
  end_getReverse : Ptr → Ptr
  end_getOrientation : Ptr → Bool
  end_getSide : Ptr → Bool
  end_getFlower : Ptr → Ptr
  sequence_getEvent : Ptr → Ptr
  segment_getReverse : Ptr → Ptr
  end_getName : Ptr → Name
  event_getName : Ptr → Name
  sequence_getName : Ptr → Name
  flower_getEventTree : Ptr → Ptr
  eventTree_getEvent : Ptr → Name → Ptr
  flower_getSequence : Ptr → Name → Ptr
  flower_getCactusDisk : Ptr → Ptr
  cactusDisk_getMetaSequence : Ptr → Name → Ptr
  sequence_construct : Ptr → Ptr → Ptr
  CODE_CAP : Int
  CODE_CAP_WITH_COORDINATES : Int
  CODE_CAP_WITH_COORDINATES_BUT_NO_SEQUENCE : Int
  CODE_ADJACENCY : Int
  CODE_PARENT : Int
  end_getRootInstance : Ptr → Option CapPtr
  end_getGroup : Ptr → Ptr
  end_isStubEnd : Ptr → Bool
  flower_builtTrees : Ptr → Bool
  segment_getOrientation : Ptr → Bool
  group_getNestedFlower : Ptr → Ptr
  flower_getEnd : Ptr → Name → Ptr

/-- The memory the cap functions work on: the allocation counter, the `bits`
byte of every `Cap` struct, the `CapContents` records, and the registries
kept by the End and Flower collaborators. -/
structure World where
  next : Nat
  bits : CapPtr → Nat
  contents : CapPtr → CapContents
  endInstances : List (Ptr × CapPtr)
  flowerCaps : List (Ptr × CapPtr)

/-- The memory before any cap is constructed. -/
def World.empty : World :=
  ⟨0, fun _ => 0, fun _ => CapContents.zero, [], []⟩

/-- Result of a function that may hit a failing `assert`. -/
inductive Outcome (α : Type) where
  | ok : α → Outcome α
  | assertFail : World → Outcome α

/-- `st_calloc(1, 2*sizeof(Cap) + sizeof(CapContents))`: a fresh zero-filled
block; the two `Cap` bytes sit at offsets 0 and 1, the contents at offset 2. -/
def st_calloc (w : World) : World × CapPtr :=
  ({ w with
      next := w.next + 1
      bits := fun p => if p.blk = w.next then 0 else w.bits p
      contents := fun p => if p.blk = w.next then CapContents.zero else w.contents p },
   ⟨w.next, 0⟩)

/-! ## Bit twiddling on the `bits` char -/

/-- The two stores of `cap_setBit` on the value of the `bits` byte:
`bits &= ~(1UL << bit)` and, if `value`, `bits |= 1UL << bit`. -/
def setBitValue (bits : Nat) (bit : Nat) (value : Bool) : Nat :=
  let cleared := (bits &&& (2 ^ 64 - 1 - (1 <<< bit) % 2 ^ 64)) % 2 ^ 8
  if value then (cleared ||| (1 <<< bit) % 2 ^ 64) % 2 ^ 8 else cleared

/-- The C function `cap_setBit`. -/
def cap_setBit (w : World) (cap : CapPtr) (bit : Nat) (value : Bool) : World :=
  { w with bits := fun p => if p = cap then setBitValue (w.bits cap) bit value else w.bits p }

/-- The C function `cap_getBit`: `(cap->bits >> bit) & 1`. -/
def cap_getBit (w : World) (cap : CapPtr) (bit : Nat) : Bool :=
  (w.bits cap >>> bit) &&& 1 != 0

/-- The C function `cap_setOrder`. -/
def cap_setOrder (w : World) (cap : CapPtr) (order : Bool) : World :=
  cap_setBit w cap 0 order

/-- The C function `cap_getOrder`. -/
def cap_getOrder (w : World) (cap : CapPtr) : Bool :=
  cap_getBit w cap 0

/-- The C function `cap_setStrand`. -/
def cap_setStrand (w : World) (cap : CapPtr) (strand : Bool) : World :=
  cap_setBit w cap 1 strand

/-- The C function `cap_getStrand`. -/
def cap_getStrand (w : World) (cap : CapPtr) : Bool :=
  cap_getBit w cap 1

/-- The C function `cap_setEventNotSequence`. -/
def cap_setEventNotSequence (w : World) (cap : CapPtr) (eventNotSequence : Bool) : World :=
  cap_setBit w cap 2 eventNotSequence

/-- The C function `cap_getHasEventNotSequence`. -/
def cap_getHasEventNotSequence (w : World) (cap : CapPtr) : Bool :=
  cap_getBit w cap 2

/-! ## Cap contents -/

/-- The C function `cap_getContents`: `cap_getOrder(cap) ? cap+2 : cap+1`. -/
def cap_getContents (w : World) (cap : CapPtr) : CapPtr :=
  if cap_getOrder w cap then cap.add 2 else cap.add 1

/-- The C function `cap_getReverse`: `cap_getOrder(cap) ? cap+1 : cap-1`. -/
def cap_getReverse (w : World) (cap : CapPtr) : CapPtr :=
  if cap_getOrder w cap then cap.add 1 else cap.add (-1)

/-- A store `cap_getContents(cap)->... = ...`: the record at address `c` is
replaced by `f` of it. -/
def World.modifyContents (w : World) (c : CapPtr) (f : CapContents → CapContents) : World :=
  { w with contents := fun p => if p = c then f (w.contents c) else w.contents p }

/-- The C function `cap_getName`. -/
def cap_getName (w : World) (cap : CapPtr) : Name :=
  (w.contents (cap_getContents w cap)).instanceName

/-- The C function `cap_getEnd`. -/
def cap_getEnd (env : Collab) (w : World) (cap : CapPtr) : Ptr :=
  let e := (w.contents (cap_getContents w cap)).endPtr
  if cap_getOrder w cap then e else env.end_getReverse e

/-- The C function `cap_getOrientation`. -/
def cap_getOrientation (env : Collab) (w : World) (cap : CapPtr) : Bool :=
  env.end_getOrientation (cap_getEnd env w cap)

/-- The C function `cap_getPositiveOrientation`. -/
def cap_getPositiveOrientation (env : Collab) (w : World) (cap : CapPtr) : CapPtr :=
  if cap_getOrientation env w cap then cap else cap_getReverse w cap

/-- The C function `cap_getEvent`. -/
def cap_getEvent (env : Collab) (w : World) (cap : CapPtr) : Ptr :=
  let e := (w.contents (cap_getContents w cap)).eventOrSequence
  if cap_getHasEventNotSequence w cap then e else env.sequence_getEvent e

/-- The C function `cap_getSegment`. -/
def cap_getSegment (env : Collab) (w : World) (cap : CapPtr) : Ptr :=
  if cap_getOrientation env w cap then (w.contents (cap_getContents w cap)).segment
  else if (w.contents (cap_getContents w cap)).segment ≠ NULL then
    env.segment_getReverse (w.contents (cap_getContents w cap)).segment
  else NULL

/-- The C function `cap_getCoordinate`. -/
def cap_getCoordinate (w : World) (cap : CapPtr) : Int :=
  (w.contents (cap_getContents w cap)).coordinate

/-- The C function `cap_getSide`. -/
def cap_getSide (env : Collab) (w : World) (cap : CapPtr) : Bool :=
  env.end_getSide (cap_getEnd env w cap)

/-- The C function `cap_getSequence`. -/
def cap_getSequence (w : World) (cap : CapPtr) : Ptr :=
  if cap_getHasEventNotSequence w cap then NULL
  else (w.contents (cap_getContents w cap)).eventOrSequence

/-- The C function `cap_getP`. -/
def cap_getP (env : Collab) (w : World) (cap : CapPtr) (connectedCap : Option CapPtr) :
    Option CapPtr :=
  match connectedCap with
  | none => none
  | some c => if cap_getOrientation env w cap then some c else some (cap_getReverse w c)

/-- The C function `cap_getAdjacency`. -/
def cap_getAdjacency (env : Collab) (w : World) (cap : CapPtr) : Option CapPtr :=
  cap_getP env w cap (w.contents (cap_getContents w cap)).adjacency

/-- The C function `cap_getParent`: the parent links are disabled, it returns NULL. -/
def cap_getParent (_w : World) (_cap : CapPtr) : Option CapPtr :=
  none

/-- The C function `cap_setSegment`. -/
def cap_setSegment (env : Collab) (w : World) (cap : CapPtr) (segment : Ptr) : World :=
  w.modifyContents (cap_getContents w cap) fun c =>
    { c with segment := if cap_getOrientation env w cap then segment
                        else env.segment_getReverse segment }

/-- The C function `cap_breakAdjacency`. -/
def cap_breakAdjacency (env : Collab) (w : World) (cap : CapPtr) : World :=
  match cap_getAdjacency env w cap with
  | none => w
  | some cap2 =>
    let w1 := w.modifyContents (cap_getContents w cap2) fun c => { c with adjacency := none }
    w1.modifyContents (cap_getContents w1 cap) fun c => { c with adjacency := none }

/-- The C function `cap_makeAdjacent`. -/
def cap_makeAdjacent (env : Collab) (w : World) (cap cap2 : CapPtr) : Outcome World :=
  let cap := if cap_getStrand w cap then cap else cap_getReverse w cap
  let cap2 := if cap_getStrand w cap2 then cap2 else cap_getReverse w cap2
  if cap = cap2 then .assertFail w
  else if cap_getEvent env w cap ≠ cap_getEvent env w cap2 then .assertFail w
  else
    let w1 := cap_breakAdjacency env w cap
    let w2 := cap_breakAdjacency env w1 cap2
    let adj := if cap_getOrientation env w2 cap then cap2 else cap_getReverse w2 cap2
    let w3 := w2.modifyContents (cap_getContents w2 cap) fun c => { c with adjacency := some adj }
    let adj2 := if cap_getOrientation env w3 cap2 then cap else cap_getReverse w3 cap
    let w4 := w3.modifyContents (cap_getContents w3 cap2) fun c => { c with adjacency := some adj2 }
    .ok w4

/-- The C function `cap_setCoordinates`. -/
def cap_setCoordinates (w : World) (cap : CapPtr) (coordinate : Int) (strand : Bool)
    (sequence : Ptr) : World :=
  let w1 := w.modifyContents (cap_getContents w cap) fun c => { c with coordinate := coordinate }
  let w2 := cap_setStrand w1 cap strand
  let w3 := cap_setStrand w2 (cap_getReverse w2 cap) (!strand)
  if sequence ≠ NULL then
    let w4 := w3.modifyContents (cap_getContents w3 cap) fun c =>
      { c with eventOrSequence := sequence }
    let w5 := cap_setEventNotSequence w4 cap false
    cap_setEventNotSequence w5 (cap_getReverse w5 cap) false
  else w3

/-! ## The End and Flower registries -/

/-- Modelled from the spec: `end_addInstance` of the End collaborator, whose
code is not among these sources.  The End records the cap handed to it. -/
def end_addInstance (w : World) (endPtr : Ptr) (cap : CapPtr) : World :=
  { w with endInstances := (endPtr, cap) :: w.endInstances }

/-- Modelled from the spec: `end_getInstance` of the End collaborator, whose
code is not among these sources.  An added instance is found by name in the
End it was added to and, reversed, in the reverse End. -/
def end_getInstance (env : Collab) (w : World) (endPtr : Ptr) (name : Name) : Option CapPtr :=
  match w.endInstances.find? fun x =>
      decide (cap_getName w x.2 = name ∧ (x.1 = endPtr ∨ env.end_getReverse x.1 = endPtr)) with
  | none => none
  | some x => if x.1 = endPtr then some x.2 else some (cap_getReverse w x.2)

/-- Modelled from the spec: `flower_addCap` of the Flower collaborator, whose
code is not among these sources.  The Flower's name index records the cap. -/
def flower_addCap (w : World) (flower : Ptr) (cap : CapPtr) : World :=
  { w with flowerCaps := (flower, cap) :: w.flowerCaps }

/-- Modelled from the spec: `flower_getCap` of the Flower collaborator, whose
code is not among these sources.  The cap indexed under the name is returned
in its positive-orientation form. -/
def flower_getCap (env : Collab) (w : World) (flower : Ptr) (name : Name) : Option CapPtr :=
  match w.flowerCaps.find? fun x => decide (x.1 = flower ∧ cap_getName w x.2 = name) with
  | none => none
  | some x => some (cap_getPositiveOrientation env w x.2)

/-! ## Construction -/

/-- The assertions that close `cap_construct3` (lines 112 to 139), evaluated on
the memory as it is there. -/
def cap_construct3_asserts (env : Collab) (w : World) (cap : CapPtr) (instanceName : Name)
    (event endPtr : Ptr) : Bool :=
  cap_getOrder w cap
  && !cap_getOrder w (cap.add 1)
  && (cap_getStrand w cap == env.end_getOrientation endPtr)
  && (cap_getStrand w (cap_getReverse w cap)
        == env.end_getOrientation (env.end_getReverse endPtr))
  && decide (cap_getReverse w (cap_getReverse w cap) = cap)
  && decide (cap_getContents w cap = cap_getContents w (cap_getReverse w cap))
  && decide (cap_getName w cap = instanceName)
  && decide (cap_getCoordinate w cap = INT64_MAX)
  && decide (cap_getSequence w cap = NULL)
  && decide (cap_getAdjacency env w cap = none)
  && decide (cap_getSegment env w cap = NULL)
  && decide (cap_getEvent env w cap = event)
  && decide (cap_getEnd env w cap = endPtr)
  && decide (cap_getName w (cap_getReverse w cap) = instanceName)
  && decide (cap_getCoordinate w (cap_getReverse w cap) = INT64_MAX)
  && decide (cap_getSequence w (cap_getReverse w cap) = NULL)
  && decide (cap_getAdjacency env w (cap_getReverse w cap) = none)
  && decide (cap_getSegment env w (cap_getReverse w cap) = NULL)
  && decide (cap_getEvent env w (cap_getReverse w cap) = event)
  && decide (cap_getEnd env w (cap_getReverse w cap) = env.end_getReverse endPtr)
  && decide (end_getInstance env w endPtr instanceName = some cap)
  && decide (end_getInstance env w (env.end_getReverse endPtr) instanceName
        = some (cap_getReverse w cap))
  && decide (flower_getCap env w (env.end_getFlower endPtr) instanceName
        = some (cap_getPositiveOrientation env w cap))

/-- The stores of `cap_construct3` (lines 75 to 109), in source order. -/
def cap_construct3_body (env : Collab) (w : World) (instanceName : Name) (event endPtr : Ptr) :
    World × CapPtr :=
  let (w, cap) := st_calloc w
  let w := cap_setOrder w cap true
  let w := w.modifyContents (cap_getContents w cap) fun c => { c with nCap := none }
  let w := w.modifyContents (cap_getContents w cap) fun c => { c with instanceName := instanceName }
  let w := w.modifyContents (cap_getContents w cap) fun c => { c with coordinate := INT64_MAX }
  let w := w.modifyContents (cap_getContents w cap) fun c => { c with adjacency := none }
  let w := w.modifyContents (cap_getContents w cap) fun c => { c with segment := NULL }
  let w := w.modifyContents (cap_getContents w cap) fun c => { c with eventOrSequence := event }
  let w := cap_setEventNotSequence w cap true
  let w := cap_setEventNotSequence w (cap_getReverse w cap) true
  let w := cap_setStrand w cap (env.end_getOrientation endPtr)
  let w := cap_setStrand w (cap_getReverse w cap)
    (env.end_getOrientation (env.end_getReverse endPtr))
  let w := w.modifyContents (cap_getContents w cap) fun c => { c with endPtr := endPtr }
  let w := end_addInstance w endPtr cap
  let w := flower_addCap w (env.end_getFlower endPtr) cap
  (w, cap)

/-- The C function `cap_construct3`: the three opening assertions, the stores,
the closing assertions. -/
def cap_construct3 (env : Collab) (w : World) (instanceName : Name) (event endPtr : Ptr) :
    Outcome (World × CapPtr) :=
  if endPtr = NULL then .assertFail w
  else if event = NULL then .assertFail w
  else if instanceName = env.NULL_NAME then .assertFail w
  else
    let r := cap_construct3_body env w instanceName event endPtr
    if cap_construct3_asserts env r.1 r.2 instanceName event endPtr then .ok r
    else .assertFail r.1

/-- The C function `cap_construct4`. -/
def cap_construct4 (env : Collab) (w : World) (instanceName : Name) (endPtr : Ptr)
    (coordinate : Int) (strand : Bool) (sequence : Ptr) : Outcome (World × CapPtr) :=
  match cap_construct3 env w instanceName (env.sequence_getEvent sequence) endPtr with
  | .assertFail w1 => .assertFail w1
  | .ok (w1, cap) => .ok (cap_setCoordinates w1 cap coordinate strand sequence, cap)

/-- The C function `cap_copyConstruct`.  The arguments of the constructor calls
are read from the memory in which the call is made. -/
def cap_copyConstruct (env : Collab) (w : World) (endPtr : Ptr) (cap : CapPtr) :
    Outcome (World × CapPtr) :=
  if env.end_getName (cap_getEnd env w cap) ≠ env.end_getName endPtr then .assertFail w
  else if env.end_getSide endPtr ≠ cap_getSide env w cap then .assertFail w
  else
    let flower := env.end_getFlower endPtr
    if cap_getSequence w cap ≠ NULL then
      let sequenceName := env.sequence_getName (cap_getSequence w cap)
      let sequence := env.flower_getSequence flower sequenceName
      if sequence = NULL then
        let sequence := env.sequence_construct
          (env.cactusDisk_getMetaSequence (env.flower_getCactusDisk flower) sequenceName) flower
        if sequence = NULL then .assertFail w
        else cap_construct4 env w (cap_getName w cap) endPtr (cap_getCoordinate w cap)
          (cap_getStrand w cap) sequence
      else cap_construct4 env w (cap_getName w cap) endPtr (cap_getCoordinate w cap)
        (cap_getStrand w cap) sequence
    else
      let event := env.eventTree_getEvent (env.flower_getEventTree flower)
        (env.event_getName (cap_getEvent env w cap))
      if event = NULL then .assertFail w
      else
        match cap_construct3 env w (cap_getName w cap) event endPtr with
        | .assertFail w1 => .assertFail w1
        | .ok (w1, cap2) =>
          .ok (cap_setCoordinates w1 cap2 (cap_getCoordinate w1 cap) (cap_getStrand w1 cap) NULL,
            cap2)

/-! ## Serialisation -/

/-- Modelled from the spec: one element of the binary stream that
`binaryRepresentation_write...` emits and `binaryRepresentation_get...` reads
(their code is not among these sources): an element-type tag, a name, an
integer or a boolean. -/
inductive Elem where
  | elementType : Int → Elem
  | name : Name → Elem
  | integer : Int → Elem
  | bool : Bool → Elem
deriving DecidableEq, Repr

/-- Modelled from the spec: `binaryRepresentation_writeElementType`, as the
elements it hands to the sink. -/
def binaryRepresentation_writeElementType (elementType : Int) : List Elem :=
  [Elem.elementType elementType]

/-- Modelled from the spec: `binaryRepresentation_writeName`. -/
def binaryRepresentation_writeName (name : Name) : List Elem :=
  [Elem.name name]

/-- Modelled from the spec: `binaryRepresentation_writeInteger`. -/
def binaryRepresentation_writeInteger (i : Int) : List Elem :=
  [Elem.integer i]

/-- Modelled from the spec: `binaryRepresentation_writeBool`. -/
def binaryRepresentation_writeBool (b : Bool) : List Elem :=
  [Elem.bool b]

/-- Modelled from the spec: `binaryRepresentation_peekNextElementType`; there is
no tag to see at the end of the stream or before an element of another kind. -/
def binaryRepresentation_peekNextElementType (binaryString : List Elem) : Option Int :=
  match binaryString with
  | Elem.elementType t :: _ => some t
  | _ => none

/-- Modelled from the spec: `binaryRepresentation_popNextElementType`, as the
stream left after the element. -/
def binaryRepresentation_popNextElementType (binaryString : List Elem) : List Elem :=
  binaryString.tail

/-- Modelled from the spec: `binaryRepresentation_getName`, as the value read
and the stream left.  An element of another kind, or the end of the stream,
reads as 0; the cap code does not do so on a stream that its writer produced. -/
def binaryRepresentation_getName (binaryString : List Elem) : Name × List Elem :=
  match binaryString with
  | Elem.name n :: rest => (n, rest)
  | _ => (0, binaryString.tail)

/-- Modelled from the spec: `binaryRepresentation_getInteger`. -/
def binaryRepresentation_getInteger (binaryString : List Elem) : Int × List Elem :=
  match binaryString with
  | Elem.integer i :: rest => (i, rest)
  | _ => (0, binaryString.tail)

/-- Modelled from the spec: `binaryRepresentation_getBool`. -/
def binaryRepresentation_getBool (binaryString : List Elem) : Bool × List Elem :=
  match binaryString with
  | Elem.bool b :: rest => (b, rest)
  | _ => (false, binaryString.tail)

/-- The C function `cap_writeBinaryRepresentationP`, as the elements written. -/
def cap_writeBinaryRepresentationP (w : World) (cap2 : CapPtr) (elementType : Int) :
    List Elem :=
  binaryRepresentation_writeElementType elementType
    ++ binaryRepresentation_writeName (cap_getName w cap2)

/-- The primary record of `cap_writeBinaryRepresentation` (lines 545 to 562). -/
def cap_writePrimaryRecord (env : Collab) (w : World) (cap : CapPtr) : List Elem :=
  if cap_getCoordinate w cap = INT64_MAX then
    binaryRepresentation_writeElementType env.CODE_CAP
      ++ binaryRepresentation_writeName (cap_getName w cap)
      ++ binaryRepresentation_writeBool (cap_getStrand w cap)
      ++ binaryRepresentation_writeName (env.event_getName (cap_getEvent env w cap))
  else if cap_getSequence w cap ≠ NULL then
    binaryRepresentation_writeElementType env.CODE_CAP_WITH_COORDINATES
      ++ binaryRepresentation_writeName (cap_getName w cap)
      ++ binaryRepresentation_writeInteger (cap_getCoordinate w cap)
      ++ binaryRepresentation_writeBool (cap_getStrand w cap)
      ++ binaryRepresentation_writeName (env.sequence_getName (cap_getSequence w cap))
  else
    binaryRepresentation_writeElementType env.CODE_CAP_WITH_COORDINATES_BUT_NO_SEQUENCE
      ++ binaryRepresentation_writeName (cap_getName w cap)
      ++ binaryRepresentation_writeInteger (cap_getCoordinate w cap)
      ++ binaryRepresentation_writeBool (cap_getStrand w cap)
      ++ binaryRepresentation_writeName (env.event_getName (cap_getEvent env w cap))

/-- The C function `cap_writeBinaryRepresentation`, as the elements written. -/
def cap_writeBinaryRepresentation (env : Collab) (w : World) (cap : CapPtr) : List Elem :=
  cap_writePrimaryRecord env w cap
    ++ (match cap_getAdjacency env w cap with
        | some cap2 => cap_writeBinaryRepresentationP w cap2 env.CODE_ADJACENCY
        | none => [])
    ++ (match cap_getParent w cap with
        | some cap2 => cap_writeBinaryRepresentationP w cap2 env.CODE_PARENT
        | none => [])

/-- The C function `cap_makeParentAndChild`: its body is commented out. -/
def cap_makeParentAndChild (w : World) (_capParent _capChild : CapPtr) : Outcome World :=
  .ok w

/-- The C function `cap_loadFromBinaryRepresentationP`: the memory and stream
left, and the returned flag. -/
def cap_loadFromBinaryRepresentationP (env : Collab) (w : World) (cap : CapPtr)
    (binaryString : List Elem) (linkFn : World → CapPtr → CapPtr → Outcome World) :
    Outcome (World × List Elem × Bool) :=
  let binaryString := binaryRepresentation_popNextElementType binaryString
  let r := binaryRepresentation_getName binaryString
  match flower_getCap env w (env.end_getFlower (cap_getEnd env w cap)) r.1 with
  | some cap2 =>
    match linkFn w cap2 cap with
    | .assertFail w1 => .assertFail w1
    | .ok w1 => .ok (w1, r.2, false)
  | none => .ok (w, r.2, true)

/-- The C function `cap_loadFromBinaryRepresentationP2`. -/
def cap_loadFromBinaryRepresentationP2 (env : Collab) (w : World) (binaryString : List Elem)
    (cap : CapPtr) : Outcome (World × List Elem) :=
  let first : Outcome (World × List Elem) :=
    if binaryRepresentation_peekNextElementType binaryString = some env.CODE_ADJACENCY then
      match cap_loadFromBinaryRepresentationP env w cap binaryString (cap_makeAdjacent env) with
      | .assertFail w1 => .assertFail w1
      | .ok r => .ok (r.1, r.2.1)
    else .ok (w, binaryString)
  match first with
  | .assertFail w1 => .assertFail w1
  | .ok (w1, binaryString1) =>
    if binaryRepresentation_peekNextElementType binaryString1 = some env.CODE_PARENT then
      match cap_loadFromBinaryRepresentationP env w1 cap binaryString1 cap_makeParentAndChild with
      | .assertFail w2 => .assertFail w2
      | .ok r => if r.2.2 = false then .ok (r.1, r.2.1) else .assertFail r.1
    else .ok (w1, binaryString1)

/-- The tail of the three branches of `cap_loadFromBinaryRepresentation`: the
relation records are read for the cap just constructed, which is returned. -/
def cap_loadRelations (env : Collab) (w : World) (binaryString : List Elem) (cap : CapPtr) :
    Outcome (World × List Elem × Option CapPtr) :=
  match cap_loadFromBinaryRepresentationP2 env w binaryString cap with
  | .assertFail w1 => .assertFail w1
  | .ok r => .ok (r.1, r.2, some cap)

/-- The C function `cap_loadFromBinaryRepresentation`: the memory and stream
left, and the cap returned (`none` for NULL). -/
def cap_loadFromBinaryRepresentation (env : Collab) (w : World) (binaryString : List Elem)
    (endPtr : Ptr) : Outcome (World × List Elem × Option CapPtr) :=
  if binaryRepresentation_peekNextElementType binaryString = some env.CODE_CAP then
    let s := binaryRepresentation_popNextElementType binaryString
    let name := binaryRepresentation_getName s
    let strand := binaryRepresentation_getBool name.2
    let eventName := binaryRepresentation_getName strand.2
    let event := env.eventTree_getEvent (env.flower_getEventTree (env.end_getFlower endPtr))
      eventName.1
    match cap_construct3 env w name.1 event endPtr with
    | .assertFail w1 => .assertFail w1
    | .ok (w1, cap) =>
      cap_loadRelations env (cap_setCoordinates w1 cap INT64_MAX strand.1 NULL) eventName.2 cap
  else if binaryRepresentation_peekNextElementType binaryString
      = some env.CODE_CAP_WITH_COORDINATES then
    let s := binaryRepresentation_popNextElementType binaryString
    let name := binaryRepresentation_getName s
    let coordinate := binaryRepresentation_getInteger name.2
    let strand := binaryRepresentation_getBool coordinate.2
    let sequenceName := binaryRepresentation_getName strand.2
    let sequence := env.flower_getSequence (env.end_getFlower endPtr) sequenceName.1
    match cap_construct4 env w name.1 endPtr coordinate.1 strand.1 sequence with
    | .assertFail w1 => .assertFail w1
    | .ok (w1, cap) => cap_loadRelations env w1 sequenceName.2 cap
  else if binaryRepresentation_peekNextElementType binaryString
      = some env.CODE_CAP_WITH_COORDINATES_BUT_NO_SEQUENCE then
    let s := binaryRepresentation_popNextElementType binaryString
    let name := binaryRepresentation_getName s
    let coordinate := binaryRepresentation_getInteger name.2
    let strand := binaryRepresentation_getBool coordinate.2
    let eventName := binaryRepresentation_getName strand.2
    let event := env.eventTree_getEvent (env.flower_getEventTree (env.end_getFlower endPtr))
      eventName.1
    match cap_construct3 env w name.1 event endPtr with
    | .assertFail w1 => .assertFail w1
    | .ok (w1, cap) =>
      cap_loadRelations env (cap_setCoordinates w1 cap coordinate.1 strand.1 NULL) eventName.2 cap
  else .ok (w, binaryString, none)

/-- The Sequence that `cap_loadFromBinaryRepresentation` looks up in the Flower
`flower` for the record written for `cap`: the one named like the sequence of
`cap` for a with-sequence record, none for the other two records. -/
def decodedSequence (env : Collab) (flower : Ptr) (w : World) (cap : CapPtr) : Ptr :=
  if cap_getCoordinate w cap ≠ INT64_MAX ∧ cap_getSequence w cap ≠ NULL then
    env.flower_getSequence flower (env.sequence_getName (cap_getSequence w cap))
  else NULL

/-- The Event that `cap_loadFromBinaryRepresentation` hands to the constructor
for the record written for `cap`: the event of the looked-up Sequence for a
with-sequence record, else the Event that the Flower's event tree holds under
the name of the event of `cap`. -/
def decodedEvent (env : Collab) (flower : Ptr) (w : World) (cap : CapPtr) : Ptr :=
  if cap_getCoordinate w cap ≠ INT64_MAX ∧ cap_getSequence w cap ≠ NULL then
    env.sequence_getEvent (decodedSequence env flower w cap)
  else
    env.eventTree_getEvent (env.flower_getEventTree flower)
      (env.event_getName (cap_getEvent env w cap))

/-- The Flower `flower` holds the Event or Sequence that the record written for
`cap` names. -/
def recordResolves (env : Collab) (flower : Ptr) (w : World) (cap : CapPtr) : Prop :=
  decodedEvent env flower w cap ≠ NULL ∧
    (cap_getCoordinate w cap ≠ INT64_MAX ∧ cap_getSequence w cap ≠ NULL →
      decodedSequence env flower w cap ≠ NULL)

instance (env : Collab) (flower : Ptr) (w : World) (cap : CapPtr) :
    Decidable (recordResolves env flower w cap) :=
  inferInstanceAs (Decidable (decodedEvent env flower w cap ≠ NULL ∧
    (cap_getCoordinate w cap ≠ INT64_MAX ∧ cap_getSequence w cap ≠ NULL →
      decodedSequence env flower w cap ≠ NULL)))

/-- The relation record of `cap_writeBinaryRepresentation` (lines 563 to 565). -/
def cap_writeRelationRecord (env : Collab) (w : World) (cap : CapPtr) : List Elem :=
  match cap_getAdjacency env w cap with
  | some cap2 => cap_writeBinaryRepresentationP w cap2 env.CODE_ADJACENCY
  | none => []

/-- What the cap code relies on from the name lookups of the Flower: an Event
or Sequence found or created under a name has that name. -/
def NamingContract (env : Collab) : Prop :=
  (∀ tree n, env.eventTree_getEvent tree n ≠ NULL →
      env.event_getName (env.eventTree_getEvent tree n) = n) ∧
    (∀ flower n, env.flower_getSequence flower n ≠ NULL →
      env.sequence_getName (env.flower_getSequence flower n) = n) ∧
    (∀ disk flower n,
      env.sequence_construct (env.cactusDisk_getMetaSequence disk n) flower ≠ NULL →
      env.sequence_getName
        (env.sequence_construct (env.cactusDisk_getMetaSequence disk n) flower) = n)

/-- The element codes are pairwise different. -/
def CodesDistinct (env : Collab) : Prop :=
  [env.CODE_CAP, env.CODE_CAP_WITH_COORDINATES, env.CODE_CAP_WITH_COORDINATES_BUT_NO_SEQUENCE,
    env.CODE_ADJACENCY, env.CODE_PARENT].Nodup

/-! ## Handles, reachable memories and their invariant -/

/-- A pointer to one of the two `Cap` structs of an allocated pair. -/
def World.isCap (w : World) (cap : CapPtr) : Prop :=
  cap.blk < w.next ∧ (cap.off = 0 ∨ cap.off = 1)

instance (w : World) (cap : CapPtr) : Decidable (w.isCap cap) :=
  inferInstanceAs (Decidable (cap.blk < w.next ∧ (cap.off = 0 ∨ cap.off = 1)))

/-- What the cap code relies on from the End collaborator: the reverse of an
End has the opposite orientation. -/
def EndContract (env : Collab) : Prop :=
  ∀ e : Ptr, e ≠ NULL →
    env.end_getOrientation (env.end_getReverse e) = !env.end_getOrientation e

/-- The reverse of an End lies on the opposite side. -/
def SideContract (env : Collab) : Prop :=
  ∀ e : Ptr, e ≠ NULL → env.end_getSide (env.end_getReverse e) = !env.end_getSide e

/-- A handle of a well-formed pair: one of the two `Cap` structs of a block
whose order bits are as `cap_construct3` sets and asserts them (lines 76, 112
and 113). -/
def World.isHandle (w : World) (cap : CapPtr) : Prop :=
  (cap.off = 0 ∨ cap.off = 1) ∧
    cap_getOrder w ⟨cap.blk, 0⟩ = true ∧ cap_getOrder w ⟨cap.blk, 1⟩ = false

instance (w : World) (cap : CapPtr) : Decidable (w.isHandle cap) :=
  inferInstanceAs (Decidable ((cap.off = 0 ∨ cap.off = 1) ∧
    cap_getOrder w ⟨cap.blk, 0⟩ = true ∧ cap_getOrder w ⟨cap.blk, 1⟩ = false))

/-- A run of `cap_setCoordinates` calls, each given by its four arguments. -/
def setCoordinatesCalls (w : World) (calls : List (CapPtr × Int × Bool × Ptr)) : World :=
  calls.foldl (fun w1 call => cap_setCoordinates w1 call.1 call.2.1 call.2.2.1 call.2.2.2) w

/-- The memories reached from the empty one by `cap_construct3`,
`cap_construct4`, `cap_setCoordinates`, `cap_makeAdjacent` (its assertions
holding), `cap_breakAdjacency` and `cap_setSegment` on handles of allocated
pairs. -/
inductive Reachable (env : Collab) : World → Prop where
  | empty : Reachable env World.empty
  | construct3 {w w1 : World} {cap : CapPtr} (instanceName : Name) (event endPtr : Ptr) :
      Reachable env w → cap_construct3 env w instanceName event endPtr = .ok (w1, cap) →
      Reachable env w1
  | construct4 {w w1 : World} {cap : CapPtr} (instanceName : Name) (endPtr : Ptr)
      (coordinate : Int) (strand : Bool) (sequence : Ptr) :
      Reachable env w → sequence ≠ NULL →
      cap_construct4 env w instanceName endPtr coordinate strand sequence = .ok (w1, cap) →
      Reachable env w1
  | setCoordinates {w : World} (cap : CapPtr) (coordinate : Int) (strand : Bool)
      (sequence : Ptr) :
      Reachable env w → w.isCap cap →
      Reachable env (cap_setCoordinates w cap coordinate strand sequence)
  | makeAdjacent {w w1 : World} (cap cap2 : CapPtr) :
      Reachable env w → w.isCap cap → w.isCap cap2 →
      cap_makeAdjacent env w cap cap2 = .ok w1 → Reachable env w1
  | breakAdjacency {w : World} (cap : CapPtr) :
      Reachable env w → w.isCap cap → Reachable env (cap_breakAdjacency env w cap)
  | setSegment {w : World} (cap : CapPtr) (segment : Ptr) :
      Reachable env w → w.isCap cap → Reachable env (cap_setSegment env w cap segment)

/-- The reachable memories in which `cap_setCoordinates` has only been applied
to caps whose adjacency was null at the time. -/
inductive ReachableUnmoved (env : Collab) : World → Prop where
  | empty : ReachableUnmoved env World.empty
  | construct3 {w w1 : World} {cap : CapPtr} (instanceName : Name) (event endPtr : Ptr) :
      ReachableUnmoved env w → cap_construct3 env w instanceName event endPtr = .ok (w1, cap) →
      ReachableUnmoved env w1
  | construct4 {w w1 : World} {cap : CapPtr} (instanceName : Name) (endPtr : Ptr)
      (coordinate : Int) (strand : Bool) (sequence : Ptr) :
      ReachableUnmoved env w → sequence ≠ NULL →
      cap_construct4 env w instanceName endPtr coordinate strand sequence = .ok (w1, cap) →
      ReachableUnmoved env w1
  | setCoordinates {w : World} (cap : CapPtr) (coordinate : Int) (strand : Bool)
      (sequence : Ptr) :
      ReachableUnmoved env w → w.isCap cap → cap_getAdjacency env w cap = none →
      ReachableUnmoved env (cap_setCoordinates w cap coordinate strand sequence)
  | makeAdjacent {w w1 : World} (cap cap2 : CapPtr) :
      ReachableUnmoved env w → w.isCap cap → w.isCap cap2 →
      cap_makeAdjacent env w cap cap2 = .ok w1 → ReachableUnmoved env w1
  | breakAdjacency {w : World} (cap : CapPtr) :
      ReachableUnmoved env w → w.isCap cap →
      ReachableUnmoved env (cap_breakAdjacency env w cap)

/-- The invariant of the reachable memories: in every allocated block the
order bits tell the two handles apart, the strand bits are complementary, the
event-or-sequence tags agree, the stored End is not null, and a stored
adjacency points into another allocated block whose stored adjacency points
back with the same orientation. -/
structure Inv (env : Collab) (w : World) : Prop where
  order0 : ∀ b, b < w.next → cap_getOrder w ⟨b, 0⟩ = true
  order1 : ∀ b, b < w.next → cap_getOrder w ⟨b, 1⟩ = false
  strand : ∀ b, b < w.next → cap_getStrand w ⟨b, 1⟩ = !cap_getStrand w ⟨b, 0⟩
  tag : ∀ b, b < w.next →
    cap_getHasEventNotSequence w ⟨b, 1⟩ = cap_getHasEventNotSequence w ⟨b, 0⟩
  endNotNull : ∀ b, b < w.next → (w.contents ⟨b, 2⟩).endPtr ≠ NULL
  adj : ∀ b, b < w.next → ∀ p, (w.contents ⟨b, 2⟩).adjacency = some p →
    w.isCap p ∧ p.blk ≠ b ∧
      ∃ q, (w.contents ⟨p.blk, 2⟩).adjacency = some q ∧ q.blk = b ∧ (q.off = 0 ∨ q.off = 1) ∧
        cap_getOrientation env w q = cap_getOrientation env w p

/-- The handle that `cap_makeAdjacent` works on in place of its argument
(lines 291 and 292): the argument if its strand is true, else its reverse. -/
def strandHandle (w : World) (cap : CapPtr) : CapPtr :=
  if cap_getStrand w cap then cap else cap_getReverse w cap

/-- The two stores that end `cap_makeAdjacent` (lines 298 and 299), on the
strand-true handles `a` and `b`. -/
def linkHandles (env : Collab) (w : World) (a b : CapPtr) : World :=
  let adj := if cap_getOrientation env w a then b else cap_getReverse w b
  let w3 := w.modifyContents (cap_getContents w a) fun c => { c with adjacency := some adj }
  let adj2 := if cap_getOrientation env w3 b then a else cap_getReverse w3 a
  w3.modifyContents (cap_getContents w3 b) fun c => { c with adjacency := some adj2 }

/-! ## Destruction, the top cap and the checker -/

/-- The C function `cap_getTopFace`: the faces are disabled, it returns NULL. -/
def cap_getTopFace (_w : World) (_cap : CapPtr) : Ptr :=
  NULL

/-- The C function `cap_getChildNumber`: the child lists are disabled, it
returns 0. -/
def cap_getChildNumber (_w : World) (_cap : CapPtr) : Nat :=
  0

/-- The C function `cap_getChild`: the child lists are disabled, it returns
NULL. -/
def cap_getChild (_w : World) (_cap : CapPtr) (_index : Nat) : Option CapPtr :=
  none

/-- The C function `cap_isInternal`. -/
def cap_isInternal (w : World) (cap : CapPtr) : Bool :=
  decide (cap_getChildNumber w cap > 0)

/-- Modelled from the spec: `end_removeInstance` of the End collaborator, whose
code is not among these sources.  The End forgets the cap handed to it, which
it may hold from the other direction. -/
def end_removeInstance (env : Collab) (w : World) (endPtr : Ptr) (cap : CapPtr) : World :=
  { w with endInstances := w.endInstances.filter fun x =>
      !(decide (x.1 = endPtr ∧ x.2 = cap)
        || decide (env.end_getReverse x.1 = endPtr ∧ cap_getReverse w x.2 = cap)) }

/-- The C library function `free` on the block of `block`.  C leaves undefined
what the freed block reads as afterwards; `bitsAfter` and `contentsAfter` stand
for whatever the allocator leaves in its `Cap` bytes and its contents, so that
what is proved of the memory after `free` is proved for every such leftover. -/
def st_free (w : World) (block : CapPtr) (bitsAfter : CapPtr → Nat)
    (contentsAfter : CapContents) : World :=
  { w with
    bits := fun p => if p.blk = block.blk then bitsAfter p else w.bits p
    contents := fun p => if p.blk = block.blk then contentsAfter else w.contents p }

/-- The C function `cap_destruct`: `end_removeInstance`, then `free` of the
first handle of the pair (line 227). -/
def cap_destruct (env : Collab) (w : World) (cap : CapPtr) (bitsAfter : CapPtr → Nat)
    (contentsAfter : CapContents) : World :=
  let w1 := end_removeInstance env w (cap_getEnd env w cap) cap
  st_free w1 (if cap_getOrder w1 cap then cap else cap_getReverse w1 cap) bitsAfter contentsAfter

/-- The `while (1)` loop of `cap_getTopCap` (lines 316 to 325), run for at most
`fuel` rounds; `none` when the rounds are used up. -/
def cap_getTopCap_loop (env : Collab) (w : World) :
    Nat → CapPtr → Option (Outcome (Option CapPtr))
  | 0, _ => none
  | fuel + 1, cap2 =>
    if cap_getAdjacency env w cap2 ≠ none then some (.ok (some cap2))
    else
      match cap_getParent w cap2 with
      | none =>
        if env.end_getRootInstance (cap_getEnd env w cap2) = some cap2 then
          some (.ok (some cap2))
        else some (.assertFail w)
      | some parent => cap_getTopCap_loop env w fuel parent

/-- The C function `cap_getTopCap`, its loop run for at most `fuel` rounds. -/
def cap_getTopCap (env : Collab) (w : World) (fuel : Nat) (cap : CapPtr) :
    Option (Outcome (Option CapPtr)) :=
  if cap_getAdjacency env w cap = none
      ∨ env.end_getRootInstance (cap_getEnd env w cap) = some cap then
    some (.ok none)
  else
    match cap_getParent w cap with
    | none => some (.assertFail w)
    | some cap2 => cap_getTopCap_loop env w fuel cap2

deriving instance DecidableEq for Except

/-- Modelled from the spec: the macro `cactusCheck`, whose definition is not
among these sources.  A violated check raises a check failure and the checker
stops there; the failure is named by the source line of the check. -/
def cactusCheck (line : Nat) (cond : Bool) : Except Nat Unit :=
  if cond then .ok () else .error line

/-- Lines 399 to 402 of `cap_check`: the cap is registered in its End, and its
orientation and side are those of the End. -/
def cap_check_identity (env : Collab) (w : World) (cap : CapPtr) : Except Nat Unit := do
  let endPtr := cap_getEnd env w cap
  cactusCheck 400 (decide (end_getInstance env w endPtr (cap_getName w cap) = some cap))
  cactusCheck 401 (cap_getOrientation env w cap == env.end_getOrientation endPtr)
  cactusCheck 402 (env.end_getSide endPtr == cap_getSide env w cap)

/-- Lines 406 to 426 of `cap_check`: the parent and child links, if the trees
are built.  The call of `event_isAncestor` on line 414 has no effect: its
result is dropped. -/
def cap_check_trees (env : Collab) (w : World) (cap : CapPtr) : Except Nat Unit :=
  let endPtr := cap_getEnd env w cap
  if env.flower_builtTrees (env.end_getFlower (cap_getEnd env w cap)) then do
    cactusCheck 408 (decide (env.end_getRootInstance endPtr ≠ none))
    (if env.end_getRootInstance endPtr = some cap then
      cactusCheck 410 (decide (cap_getParent w cap = none))
    else
      match cap_getParent w cap with
      | none => cactusCheck 413 false
      | some ancestorCap =>
        cactusCheck 415 (cap_getOrientation env w cap == cap_getOrientation env w ancestorCap))
    (List.range (cap_getChildNumber w cap)).forM fun i =>
      match cap_getChild w cap i with
      | none => cactusCheck 421 false
      | some childCap => cactusCheck 422 (decide (cap_getParent w childCap = some cap))
  else
    cactusCheck 425 (decide (cap_getParent w cap = none))

/-- Lines 429 to 436 of `cap_check`: no segment on a stub End, and otherwise a
segment of the cap's orientation. -/
def cap_check_segment (env : Collab) (w : World) (cap : CapPtr) : Except Nat Unit :=
  let endPtr := cap_getEnd env w cap
  if env.end_isStubEnd endPtr then
    cactusCheck 430 (decide (cap_getSegment env w cap = NULL))
  else
    let segment := cap_getSegment env w cap
    if segment ≠ NULL then
      cactusCheck 434 (cap_getOrientation env w cap == env.segment_getOrientation segment)
    else .ok ()

/-- Lines 441 to 445 of `cap_check`: the adjacent cap `cap2` lies in the same
group, points back, and has the same event, strand and sequence. -/
def cap_check_relation (env : Collab) (w : World) (cap cap2 : CapPtr) : Except Nat Unit := do
  let endPtr := cap_getEnd env w cap
  cactusCheck 441 (decide (env.end_getGroup (cap_getEnd env w cap2) = env.end_getGroup endPtr))
  cactusCheck 442 (decide (cap_getAdjacency env w cap2 = some cap))
  cactusCheck 443 (decide (cap_getEvent env w cap = cap_getEvent env w cap2))
  cactusCheck 444 (cap_getStrand w cap == cap_getStrand w cap2)
  cactusCheck 445 (decide (cap_getSequence w cap = cap_getSequence w cap2))

/-- Lines 447 to 464 of `cap_check`: the coordinates of the cap and of the
adjacent cap `cap2`. -/
def cap_check_coordinates (env : Collab) (w : World) (cap cap2 : CapPtr) :
    Except Nat Unit :=
  if cap_getCoordinate w cap ≠ INT64_MAX then do
    cactusCheck 448 (cap_getSide env w cap != cap_getSide env w cap2)
    if cap_getStrand w cap then
      if !cap_getSide env w cap then
        cactusCheck 451 (decide (cap_getCoordinate w cap < cap_getCoordinate w cap2))
      else
        cactusCheck 453 (decide (cap_getCoordinate w cap > cap_getCoordinate w cap2))
    else
      if cap_getSide env w cap then
        cactusCheck 457 (decide (cap_getCoordinate w cap < cap_getCoordinate w cap2))
      else
        cactusCheck 459 (decide (cap_getCoordinate w cap > cap_getCoordinate w cap2))
  else
    cactusCheck 463 (decide (cap_getCoordinate w cap2 = INT64_MAX))

/-- Lines 439 to 465 of `cap_check`: the checks on the adjacency, if there is
one. -/
def cap_check_adjacency (env : Collab) (w : World) (cap : CapPtr) : Except Nat Unit :=
  match cap_getAdjacency env w cap with
  | none => .ok ()
  | some cap2 => do
    cap_check_relation env w cap cap2
    cap_check_coordinates env w cap cap2

/-- Lines 468 to 501 of `cap_check`: the cap against its reverse.  A `Cap *`
computed by `cap_getReverse` is never NULL (line 469).  Where the source
applies `cap_getReverse` to a relation of the reverse (lines 488, 494 and 500),
a null relation there is a violation. -/
def cap_check_reverse (env : Collab) (w : World) (cap : CapPtr) : Except Nat Unit := do
  let rCap := cap_getReverse w cap
  cactusCheck 469 (some rCap).isSome
  cactusCheck 470 (decide (cap_getReverse w rCap = cap))
  cactusCheck 471 (cap_getOrientation env w cap == !cap_getOrientation env w rCap)
  cactusCheck 472 (decide (cap_getEnd env w cap = env.end_getReverse (cap_getEnd env w rCap)))
  cactusCheck 473 (decide (cap_getName w cap = cap_getName w rCap))
  cactusCheck 474 (decide (cap_getEvent env w cap = cap_getEvent env w rCap))
  cactusCheck 475 (decide (cap_getEnd env w cap = env.end_getReverse (cap_getEnd env w rCap)))
  (if cap_getSegment env w cap = NULL then
    cactusCheck 477 (decide (cap_getSegment env w rCap = NULL))
  else
    cactusCheck 479
      (decide (cap_getSegment env w cap = env.segment_getReverse (cap_getSegment env w rCap))))
  cactusCheck 481 (cap_getSide env w cap == !cap_getSide env w rCap)
  cactusCheck 482 (decide (cap_getCoordinate w cap = cap_getCoordinate w rCap))
  cactusCheck 483 (decide (cap_getSequence w cap = cap_getSequence w rCap))
  cactusCheck 484 (cap_getStrand w cap == !cap_getStrand w rCap)
  (if cap_getAdjacency env w cap = none then
    cactusCheck 486 (decide (cap_getAdjacency env w rCap = none))
  else
    cactusCheck 488
      (decide ((cap_getAdjacency env w rCap).map (cap_getReverse w)
        = cap_getAdjacency env w cap)))
  cactusCheck 490 (decide (cap_getTopFace w cap = cap_getTopFace w rCap))
  (if cap_getParent w cap = none then
    cactusCheck 492 (decide (cap_getParent w rCap = none))
  else
    cactusCheck 494
      (decide (cap_getParent w cap = (cap_getParent w rCap).map (cap_getReverse w))))
  cactusCheck 496 (cap_isInternal w cap == cap_isInternal w rCap)
  cactusCheck 497 (decide (cap_getChildNumber w cap = cap_getChildNumber w rCap))
  (List.range (cap_getChildNumber w cap)).forM fun i =>
    cactusCheck 500
      (decide (cap_getChild w cap i = (cap_getChild w rCap i).map (cap_getReverse w)))

/-- Lines 504 to 509 of `cap_check`: the End has a copy in the nested Flower of
its group, if there is one. -/
def cap_check_nested (env : Collab) (w : World) (cap : CapPtr) : Except Nat Unit :=
  let endPtr := cap_getEnd env w cap
  let nestedFlower := env.group_getNestedFlower (env.end_getGroup endPtr)
  if nestedFlower ≠ NULL then
    let childEnd := env.flower_getEnd nestedFlower (env.end_getName endPtr)
    cactusCheck 507 (decide (childEnd ≠ NULL))
  else .ok ()

/-- The C function `cap_check`: `.ok ()` when no check is violated, and
otherwise the line of the first violated `cactusCheck`. -/
def cap_check (env : Collab) (w : World) (cap : CapPtr) : Except Nat Unit := do
  cap_check_identity env w cap
  cap_check_trees env w cap
  cap_check_segment env w cap
  cap_check_adjacency env w cap
  cap_check_reverse env w cap
  cap_check_nested env w cap

/-- What `cap_check` relies on from the End collaborator: the reverse of the
reverse of an End is the End, and the reverse of an End lies in the same group
and Flower and on the opposite side. -/
structure CheckContract (env : Collab) : Prop where
  reverse_reverse : ∀ e : Ptr, e ≠ NULL → env.end_getReverse (env.end_getReverse e) = e
  group : ∀ e : Ptr, e ≠ NULL → env.end_getGroup (env.end_getReverse e) = env.end_getGroup e
  flower : ∀ e : Ptr, e ≠ NULL → env.end_getFlower (env.end_getReverse e) = env.end_getFlower e
  side : SideContract env

/-! ## A concrete collaborator and concrete memories -/

/-- A collaborator in which End `2k` and End `2k+1` are the two directions of
one End (the even one positively oriented, on side `true`) named `k mod 10`,
every End lies in Flower 1, Sequence `s` belongs to Event `s + 100`, Segment
`2k+1` and Segment `2k+2` are the two directions of one Segment (the odd one
positively oriented), an Event or Sequence is named by its address, and every
Flower resolves a name to the object of that address, except that no Flower
holds Sequence 60 before it is created there.  The Ends below 20 form group 1
and the others group 2, the Ends from 30 on are stub Ends, the cap of block 2
is the root instance of End 6, no trees are built and no group has a nested
Flower. -/
def sampleEnv : Collab where
  NULL_NAME := 0
  end_getReverse e := if e % 2 = 0 then e + 1 else e - 1
  end_getOrientation e := e % 2 == 0
  end_getSide e := e % 2 == 0
  end_getFlower _ := 1
  sequence_getEvent s := if s = 0 then 0 else s + 100
  segment_getReverse s := if s = 0 then 0 else if s % 2 = 1 then s + 1 else s - 1
  end_getName e := ((e / 2 % 10 : Nat) : Int)
  event_getName ev := (ev : Int)
  sequence_getName s := (s : Int)
  flower_getEventTree f := f + 1000
  eventTree_getEvent _ n := n.toNat
  flower_getSequence _ n := if n = 60 then 0 else n.toNat
  flower_getCactusDisk _ := 9
  cactusDisk_getMetaSequence _ n := n.toNat
  sequence_construct m _ := m
  CODE_CAP := 1
  CODE_CAP_WITH_COORDINATES := 2
  CODE_CAP_WITH_COORDINATES_BUT_NO_SEQUENCE := 3
  CODE_ADJACENCY := 4
  CODE_PARENT := 5
  end_getRootInstance e := if e = 6 then some ⟨2, 0⟩ else if e = 7 then some ⟨2, 1⟩ else none
  end_getGroup e := if e < 20 then 1 else 2
  end_isStubEnd e := decide (30 ≤ e)
  flower_builtTrees _ := false
  segment_getOrientation s := s % 2 == 1
  group_getNestedFlower _ := NULL
  flower_getEnd _ _ := NULL

/-- One cap pair, named 1, of Event 7 on End 2. -/
def oneCap : World := (cap_construct3_body sampleEnv World.empty 1 7 2).1

/-- Two cap pairs of Event 7: block 0 on End 2, block 1 on the negatively
oriented End 5; the handle `⟨1, 0⟩` has strand `false`. -/
def capsOpposite : World := (cap_construct3_body sampleEnv oneCap 2 7 5).1

/-- Two cap pairs of Event 7: block 0 on End 2, block 1 on End 4. -/
def capsAligned : World := (cap_construct3_body sampleEnv oneCap 2 7 4).1

/-- The memory `capsOpposite` after `cap_makeAdjacent` on `⟨0, 0⟩` and `⟨1, 0⟩`. -/
def capsOppositeLinked : World :=
  linkHandles sampleEnv
    (cap_breakAdjacency sampleEnv (cap_breakAdjacency sampleEnv capsOpposite ⟨0, 0⟩) ⟨1, 1⟩)
    ⟨0, 0⟩ ⟨1, 1⟩

/-- Two cap pairs of different Events: block 0 of Event 7 on End 2, block 1 of
Event 8 on End 4. -/
def capsTwoEvents : World := (cap_construct3_body sampleEnv oneCap 2 8 4).1

/-- Three cap pairs of Event 7: the linked pairs of `capsOppositeLinked` and
block 2 on End 6. -/
def threeCaps : World := (cap_construct3_body sampleEnv capsOppositeLinked 3 7 6).1

/-- The memory `threeCaps` after `cap_makeAdjacent` on `⟨0, 0⟩` and `⟨2, 0⟩`. -/
def threeCapsRelinked : World :=
  linkHandles sampleEnv
    (cap_breakAdjacency sampleEnv (cap_breakAdjacency sampleEnv threeCaps ⟨0, 0⟩) ⟨2, 0⟩)
    ⟨0, 0⟩ ⟨2, 0⟩

/-- The pair of `oneCap` after `cap_setCoordinates` to coordinate 5, strand
true, Sequence 50. -/
def capWithSequence : World := cap_setCoordinates oneCap ⟨0, 0⟩ 5 true 50

/-- The memory `capsAligned` after `cap_makeAdjacent` on `⟨0, 0⟩` and `⟨1, 0⟩`. -/
def capsAlignedLinked : World :=
  linkHandles sampleEnv
    (cap_breakAdjacency sampleEnv (cap_breakAdjacency sampleEnv capsAligned ⟨0, 0⟩) ⟨1, 0⟩)
    ⟨0, 0⟩ ⟨1, 0⟩

/-- The memory `capsAlignedLinked` after `cap_setCoordinates` on `⟨0, 0⟩` to
coordinate 5, strand false, Sequence 50. -/
def capsAlignedMoved : World := cap_setCoordinates capsAlignedLinked ⟨0, 0⟩ 5 false 50

/-- One cap pair, named 2, of Event 7 on End 4, as the decoder builds it: what
reading the record of the handle `⟨1, 0⟩` of `capsAlignedMoved` into End 4 of
the empty memory leaves. -/
def partnerDecoded : World :=
  cap_setCoordinates (cap_construct3_body sampleEnv World.empty 2 7 4).1 ⟨0, 0⟩ INT64_MAX true NULL

/-- One cap pair, named 1, on End 2, with coordinate 5, strand false and
Sequence 50 of Event 150: what reading the record of the handle `⟨0, 0⟩` of
`capsAlignedMoved` into End 2 of the empty memory leaves. -/
def movedDecoded : World :=
  cap_setCoordinates (cap_construct3_body sampleEnv World.empty 1 150 2).1 ⟨0, 0⟩ 5 false 50

/-- Two cap pairs of Event 150: block 0 built by `cap_construct4` on End 2 with
Sequence 50, block 1 built by `cap_construct3` on End 4. -/
def seqAndEventCaps : World :=
  (cap_construct3_body sampleEnv
    (cap_setCoordinates (cap_construct3_body sampleEnv World.empty 1 150 2).1 ⟨0, 0⟩ 5 true 50)
    2 150 4).1

/-- The memory `seqAndEventCaps` after `cap_makeAdjacent` on `⟨0, 0⟩` and `⟨1, 0⟩`. -/
def seqAndEventLinked : World :=
  linkHandles sampleEnv
    (cap_breakAdjacency sampleEnv (cap_breakAdjacency sampleEnv seqAndEventCaps ⟨0, 0⟩) ⟨1, 0⟩)
    ⟨0, 0⟩ ⟨1, 0⟩

/-- The Sequence that `cap_copyConstruct` attaches to the copy of a cap with a
sequence (lines 190 to 196): the one the Flower holds under the name of the
cap's sequence, or else the one created there. -/
def copiedSequence (env : Collab) (flower : Ptr) (w : World) (cap : CapPtr) : Ptr :=
  if env.flower_getSequence flower (env.sequence_getName (cap_getSequence w cap)) = NULL then
    env.sequence_construct
      (env.cactusDisk_getMetaSequence (env.flower_getCactusDisk flower)
        (env.sequence_getName (cap_getSequence w cap))) flower
  else env.flower_getSequence flower (env.sequence_getName (cap_getSequence w cap))

/-- The collaborators of `sampleEnv` with two Flowers: the Ends below 20 lie in
Flower 1, the others in Flower 2, whose Event tree 1002 holds no Event. -/
def nestedEnv : Collab :=
  { sampleEnv with
    end_getFlower := fun e => if e < 20 then 1 else 2
    eventTree_getEvent := fun t n => if t = 1002 then NULL else n.toNat }

/-- One cap pair, named 1, of Event 7 on the stub End 30. -/
def stubCap : World := (cap_construct3_body sampleEnv World.empty 1 7 30).1

/-- The pair of `oneCap` after `cap_setCoordinates` to the unset coordinate,
strand true, Sequence 50. -/
def capSequenceUnset : World := cap_setCoordinates oneCap ⟨0, 0⟩ INT64_MAX true 50

/-- Two cap pairs with coordinates on Sequence 50: block 0 on End 2
(side true) at coordinate 5, block 1 on End 5 (side false) at coordinate 3,
both first handles of strand true, before `cap_makeAdjacent`. -/
def intervalCapsUnlinked : World :=
  cap_setCoordinates
    (cap_construct3_body sampleEnv
      (cap_setCoordinates (cap_construct3_body sampleEnv World.empty 1 150 2).1 ⟨0, 0⟩ 5 true 50)
      2 150 5).1
    ⟨1, 0⟩ 3 true 50

/-- The memory `intervalCapsUnlinked` after `cap_makeAdjacent` on `⟨0, 0⟩` and
`⟨1, 0⟩`. -/
def intervalCaps : World :=
  linkHandles sampleEnv
    (cap_breakAdjacency sampleEnv (cap_breakAdjacency sampleEnv intervalCapsUnlinked ⟨0, 0⟩)
      ⟨1, 0⟩)
    ⟨0, 0⟩ ⟨1, 0⟩

/-- The cap pair of block `b` reads as `cap_construct3` leaves a pair built with
the name `n`, the Event `ev` and the End `e`: unset coordinate, no sequence,
no segment; its adjacency is left open. -/
def World.isPlainPair (env : Collab) (w : World) (b : Nat) (n : Name) (ev e : Ptr) : Prop :=
  (∀ p : CapPtr, p.blk = b → (p.off = 0 ∨ p.off = 1) →
    cap_getName w p = n ∧ cap_getCoordinate w p = INT64_MAX ∧ cap_getEvent env w p = ev ∧
      cap_getSequence w p = NULL) ∧
    (w.contents ⟨b, 2⟩).segment = NULL ∧ (w.contents ⟨b, 2⟩).endPtr = e

/-! ## Reading through the primitive stores -/

theorem cap_getBit_eq_testBit (w : World) (cap : CapPtr) (bit : Nat) :
    cap_getBit w cap bit = (w.bits cap).testBit bit := by
  simp [cap_getBit, Nat.testBit, Nat.land_comm]

theorem testBit_setBitValue (b i j : Nat) (v : Bool) (hi : i < 8) :
    (setBitValue b i v).testBit j
      = if j = i then v else (decide (j < 8) && b.testBit j) := by
  have hlt : 2 ^ i < 2 ^ 64 := Nat.pow_lt_pow_right (by norm_num) (by omega)
  have h1 : (1 <<< i) % 2 ^ 64 = 2 ^ i := by
    rw [Nat.one_shiftLeft]; exact Nat.mod_eq_of_lt hlt
  have h2 : 2 ^ 64 - 1 - 2 ^ i = 2 ^ 64 - (2 ^ i + 1) := by omega
  unfold setBitValue
  simp only [h1, h2]
  by_cases hji : j = i
  · subst hji
    cases v <;>
      simp only [Nat.testBit_mod_two_pow, Nat.testBit_land, Nat.testBit_lor, Nat.testBit_two_pow,
        Nat.testBit_two_pow_sub_succ hlt, if_true, Bool.false_eq_true, if_false] <;> simp [hi]
  · have hij : ¬ i = j := fun h => hji h.symm
    cases v <;>
      simp only [Nat.testBit_mod_two_pow, Nat.testBit_land, Nat.testBit_lor, Nat.testBit_two_pow,
        Nat.testBit_two_pow_sub_succ hlt, if_true, Bool.false_eq_true, if_false, hji, hij] <;>
      by_cases h8 : j < 8 <;> simp [h8, hij] <;> omega

theorem cap_getBit_setBit (w : World) (c p : CapPtr) (i j : Nat) (v : Bool) (hi : i < 8) :
    cap_getBit (cap_setBit w c i v) p j
      = if p = c then (if j = i then v else (decide (j < 8) && cap_getBit w c j))
        else cap_getBit w p j := by
  simp only [cap_getBit_eq_testBit, cap_setBit]
  by_cases h : p = c
  · simp only [h, if_true, testBit_setBitValue _ _ _ _ hi]
  · simp only [h, if_false]

@[simp] theorem cap_setBit_contents (w : World) (c : CapPtr) (i : Nat) (v : Bool) :
    (cap_setBit w c i v).contents = w.contents := rfl

@[simp] theorem cap_setBit_next (w : World) (c : CapPtr) (i : Nat) (v : Bool) :
    (cap_setBit w c i v).next = w.next := rfl

@[simp] theorem modifyContents_next (w : World) (c : CapPtr) (f : CapContents → CapContents) :
    (w.modifyContents c f).next = w.next := rfl

@[simp] theorem modifyContents_contents (w : World) (c p : CapPtr)
    (f : CapContents → CapContents) :
    (w.modifyContents c f).contents p = if p = c then f (w.contents c) else w.contents p := rfl

@[simp] theorem cap_getBit_modifyContents (w : World) (c p : CapPtr)
    (f : CapContents → CapContents) (j : Nat) :
    cap_getBit (w.modifyContents c f) p j = cap_getBit w p j := rfl

@[simp] theorem cap_getBit_end_addInstance (w : World) (e : Ptr) (c p : CapPtr) (j : Nat) :
    cap_getBit (end_addInstance w e c) p j = cap_getBit w p j := rfl

@[simp] theorem cap_getBit_flower_addCap (w : World) (e : Ptr) (c p : CapPtr) (j : Nat) :
    cap_getBit (flower_addCap w e c) p j = cap_getBit w p j := rfl

@[simp] theorem end_addInstance_contents (w : World) (e : Ptr) (c : CapPtr) :
    (end_addInstance w e c).contents = w.contents := rfl

@[simp] theorem flower_addCap_contents (w : World) (e : Ptr) (c : CapPtr) :
    (flower_addCap w e c).contents = w.contents := rfl

@[simp] theorem end_addInstance_next (w : World) (e : Ptr) (c : CapPtr) :
    (end_addInstance w e c).next = w.next := rfl

@[simp] theorem flower_addCap_next (w : World) (e : Ptr) (c : CapPtr) :
    (flower_addCap w e c).next = w.next := rfl

theorem cap_getOrder_setStrand (w : World) (c p : CapPtr) (v : Bool) :
    cap_getOrder (cap_setStrand w c v) p = cap_getOrder w p := by
  unfold cap_getOrder cap_setStrand
  rw [cap_getBit_setBit _ _ _ _ _ _ (by norm_num)]
  by_cases h : p = c <;> simp [h]

theorem cap_getOrder_setEventNotSequence (w : World) (c p : CapPtr) (v : Bool) :
    cap_getOrder (cap_setEventNotSequence w c v) p = cap_getOrder w p := by
  unfold cap_getOrder cap_setEventNotSequence
  rw [cap_getBit_setBit _ _ _ _ _ _ (by norm_num)]
  by_cases h : p = c <;> simp [h]

theorem cap_getOrder_setOrder (w : World) (c p : CapPtr) (v : Bool) :
    cap_getOrder (cap_setOrder w c v) p = if p = c then v else cap_getOrder w p := by
  unfold cap_getOrder cap_setOrder
  rw [cap_getBit_setBit _ _ _ _ _ _ (by norm_num)]
  simp

theorem cap_getStrand_setStrand (w : World) (c p : CapPtr) (v : Bool) :
    cap_getStrand (cap_setStrand w c v) p = if p = c then v else cap_getStrand w p := by
  unfold cap_getStrand cap_setStrand
  rw [cap_getBit_setBit _ _ _ _ _ _ (by norm_num)]
  simp

theorem cap_getStrand_setOrder (w : World) (c p : CapPtr) (v : Bool) :
    cap_getStrand (cap_setOrder w c v) p = cap_getStrand w p := by
  unfold cap_getStrand cap_setOrder
  rw [cap_getBit_setBit _ _ _ _ _ _ (by norm_num)]
  by_cases h : p = c <;> simp [h]

theorem cap_getStrand_setEventNotSequence (w : World) (c p : CapPtr) (v : Bool) :
    cap_getStrand (cap_setEventNotSequence w c v) p = cap_getStrand w p := by
  unfold cap_getStrand cap_setEventNotSequence
  rw [cap_getBit_setBit _ _ _ _ _ _ (by norm_num)]
  by_cases h : p = c <;> simp [h]

theorem cap_getHasEventNotSequence_setEventNotSequence (w : World) (c p : CapPtr) (v : Bool) :
    cap_getHasEventNotSequence (cap_setEventNotSequence w c v) p
      = if p = c then v else cap_getHasEventNotSequence w p := by
  unfold cap_getHasEventNotSequence cap_setEventNotSequence
  rw [cap_getBit_setBit _ _ _ _ _ _ (by norm_num)]
  simp

theorem cap_getHasEventNotSequence_setOrder (w : World) (c p : CapPtr) (v : Bool) :
    cap_getHasEventNotSequence (cap_setOrder w c v) p = cap_getHasEventNotSequence w p := by
  unfold cap_getHasEventNotSequence cap_setOrder
  rw [cap_getBit_setBit _ _ _ _ _ _ (by norm_num)]
  by_cases h : p = c <;> simp [h]

theorem cap_getHasEventNotSequence_setStrand (w : World) (c p : CapPtr) (v : Bool) :
    cap_getHasEventNotSequence (cap_setStrand w c v) p = cap_getHasEventNotSequence w p := by
  unfold cap_getHasEventNotSequence cap_setStrand
  rw [cap_getBit_setBit _ _ _ _ _ _ (by norm_num)]
  by_cases h : p = c <;> simp [h]

/-! ## Getters depend on the order bits and the contents only -/

theorem cap_getContents_congr {w w1 : World} {p : CapPtr}
    (h : cap_getOrder w1 p = cap_getOrder w p) : cap_getContents w1 p = cap_getContents w p := by
  simp only [cap_getContents, h]

theorem cap_getReverse_congr {w w1 : World} {p : CapPtr}
    (h : cap_getOrder w1 p = cap_getOrder w p) : cap_getReverse w1 p = cap_getReverse w p := by
  simp only [cap_getReverse, h]

theorem cap_getEnd_congr (env : Collab) {w w1 : World} {p : CapPtr}
    (h : cap_getOrder w1 p = cap_getOrder w p)
    (he : (w1.contents (cap_getContents w p)).endPtr = (w.contents (cap_getContents w p)).endPtr) :
    cap_getEnd env w1 p = cap_getEnd env w p := by
  simp only [cap_getEnd, cap_getContents_congr h, h, he]

theorem cap_getOrientation_congr (env : Collab) {w w1 : World} {p : CapPtr}
    (h : cap_getOrder w1 p = cap_getOrder w p)
    (he : (w1.contents (cap_getContents w p)).endPtr = (w.contents (cap_getContents w p)).endPtr) :
    cap_getOrientation env w1 p = cap_getOrientation env w p := by
  simp only [cap_getOrientation, cap_getEnd_congr env h he]

/-! ## Handles of an allocated pair -/

theorem cap_getContents_zero {w : World} {b : Nat} (h : cap_getOrder w ⟨b, 0⟩ = true) :
    cap_getContents w ⟨b, 0⟩ = ⟨b, 2⟩ := by
  simp [cap_getContents, h, CapPtr.add]

theorem cap_getContents_one {w : World} {b : Nat} (h : cap_getOrder w ⟨b, 1⟩ = false) :
    cap_getContents w ⟨b, 1⟩ = ⟨b, 2⟩ := by
  simp [cap_getContents, h, CapPtr.add]

theorem cap_getReverse_zero {w : World} {b : Nat} (h : cap_getOrder w ⟨b, 0⟩ = true) :
    cap_getReverse w ⟨b, 0⟩ = ⟨b, 1⟩ := by
  simp [cap_getReverse, h, CapPtr.add]

theorem cap_getReverse_one {w : World} {b : Nat} (h : cap_getOrder w ⟨b, 1⟩ = false) :
    cap_getReverse w ⟨b, 1⟩ = ⟨b, 0⟩ := by
  simp [cap_getReverse, h, CapPtr.add]

theorem Inv.contents_eq {env : Collab} {w : World} (hI : Inv env w) {p : CapPtr}
    (hp : w.isCap p) : cap_getContents w p = ⟨p.blk, 2⟩ := by
  obtain ⟨b, o⟩ := p
  obtain ⟨hb, rfl | rfl⟩ := hp
  · exact cap_getContents_zero (hI.order0 b hb)
  · exact cap_getContents_one (hI.order1 b hb)

theorem Inv.reverse_eq {env : Collab} {w : World} (hI : Inv env w) {p : CapPtr}
    (hp : w.isCap p) : cap_getReverse w p = ⟨p.blk, 1 - p.off⟩ := by
  obtain ⟨b, o⟩ := p
  obtain ⟨hb, rfl | rfl⟩ := hp
  · exact cap_getReverse_zero (hI.order0 b hb)
  · exact cap_getReverse_one (hI.order1 b hb)

theorem Inv.isCap_reverse {env : Collab} {w : World} (hI : Inv env w) {p : CapPtr}
    (hp : w.isCap p) : w.isCap (cap_getReverse w p) := by
  rw [hI.reverse_eq hp]
  obtain ⟨hb, h | h⟩ := hp
  · exact ⟨hb, Or.inr (by simp [h])⟩
  · exact ⟨hb, Or.inl (by simp [h])⟩

theorem Inv.reverse_reverse {env : Collab} {w : World} (hI : Inv env w) {p : CapPtr}
    (hp : w.isCap p) : cap_getReverse w (cap_getReverse w p) = p := by
  rw [hI.reverse_eq (hI.isCap_reverse hp), hI.reverse_eq hp]
  obtain ⟨b, o⟩ := p
  simp

theorem Inv.reverse_ne {env : Collab} {w : World} (hI : Inv env w) {p : CapPtr}
    (hp : w.isCap p) : cap_getReverse w p ≠ p := by
  rw [hI.reverse_eq hp]
  obtain ⟨b, o⟩ := p
  obtain ⟨_, rfl | rfl⟩ := hp <;> simp

theorem Inv.contents_reverse {env : Collab} {w : World} (hI : Inv env w) {p : CapPtr}
    (hp : w.isCap p) : cap_getContents w (cap_getReverse w p) = cap_getContents w p := by
  rw [hI.contents_eq (hI.isCap_reverse hp), hI.contents_eq hp, hI.reverse_eq hp]

theorem Inv.order_reverse {env : Collab} {w : World} (hI : Inv env w) {p : CapPtr}
    (hp : w.isCap p) : cap_getOrder w (cap_getReverse w p) = !cap_getOrder w p := by
  rw [hI.reverse_eq hp]
  obtain ⟨b, o⟩ := p
  obtain ⟨hb, rfl | rfl⟩ := hp
  · simp [hI.order0 b hb, hI.order1 b hb]
  · simp [hI.order0 b hb, hI.order1 b hb]

theorem Inv.strand_reverse {env : Collab} {w : World} (hI : Inv env w) {p : CapPtr}
    (hp : w.isCap p) : cap_getStrand w (cap_getReverse w p) = !cap_getStrand w p := by
  rw [hI.reverse_eq hp]
  obtain ⟨b, o⟩ := p
  obtain ⟨hb, rfl | rfl⟩ := hp
  · simp [hI.strand b hb]
  · simp [hI.strand b hb]

theorem Inv.tag_reverse {env : Collab} {w : World} (hI : Inv env w) {p : CapPtr}
    (hp : w.isCap p) :
    cap_getHasEventNotSequence w (cap_getReverse w p) = cap_getHasEventNotSequence w p := by
  rw [hI.reverse_eq hp]
  obtain ⟨b, o⟩ := p
  obtain ⟨hb, rfl | rfl⟩ := hp
  · simp [hI.tag b hb]
  · simp [hI.tag b hb]

theorem Inv.end_eq {env : Collab} {w : World} (hI : Inv env w) {p : CapPtr} (hp : w.isCap p) :
    cap_getEnd env w (cap_getReverse w p) = env.end_getReverse (cap_getEnd env w p) ∨
      cap_getEnd env w p = env.end_getReverse (cap_getEnd env w (cap_getReverse w p)) := by
  have hc := hI.contents_reverse hp
  have ho := hI.order_reverse hp
  unfold cap_getEnd
  rw [hc, ho]
  cases hord : cap_getOrder w p <;> simp

theorem Inv.orientation_reverse {env : Collab} {w : World} (hI : Inv env w)
    (hE : EndContract env) {p : CapPtr} (hp : w.isCap p) :
    cap_getOrientation env w (cap_getReverse w p) = !cap_getOrientation env w p := by
  have hc := hI.contents_reverse hp
  have ho := hI.order_reverse hp
  have hn := hI.endNotNull p.blk hp.1
  rw [← hI.contents_eq hp] at hn
  have h1 := hE _ hn
  unfold cap_getOrientation cap_getEnd
  rw [hc, ho]
  cases hord : cap_getOrder w p <;> simp [h1]

theorem Inv.side_reverse {env : Collab} {w : World} (hI : Inv env w)
    (hS : SideContract env) {p : CapPtr} (hp : w.isCap p) :
    cap_getSide env w (cap_getReverse w p) = !cap_getSide env w p := by
  have hc := hI.contents_reverse hp
  have ho := hI.order_reverse hp
  have hn := hI.endNotNull p.blk hp.1
  rw [← hI.contents_eq hp] at hn
  have h1 := hS _ hn
  unfold cap_getSide cap_getEnd
  rw [hc, ho]
  cases hord : cap_getOrder w p <;> simp [h1]

/-! ## Stores that leave the order bits alone -/

@[simp] theorem cap_getOrder_modifyContents (w : World) (c p : CapPtr)
    (f : CapContents → CapContents) :
    cap_getOrder (w.modifyContents c f) p = cap_getOrder w p := rfl

@[simp] theorem cap_getStrand_modifyContents (w : World) (c p : CapPtr)
    (f : CapContents → CapContents) :
    cap_getStrand (w.modifyContents c f) p = cap_getStrand w p := rfl

@[simp] theorem cap_getHasEventNotSequence_modifyContents (w : World) (c p : CapPtr)
    (f : CapContents → CapContents) :
    cap_getHasEventNotSequence (w.modifyContents c f) p = cap_getHasEventNotSequence w p := rfl

@[simp] theorem cap_getContents_modifyContents (w : World) (c p : CapPtr)
    (f : CapContents → CapContents) :
    cap_getContents (w.modifyContents c f) p = cap_getContents w p := rfl

@[simp] theorem cap_getReverse_modifyContents (w : World) (c p : CapPtr)
    (f : CapContents → CapContents) :
    cap_getReverse (w.modifyContents c f) p = cap_getReverse w p := rfl

@[simp] theorem cap_getContents_setStrand (w : World) (c p : CapPtr) (v : Bool) :
    cap_getContents (cap_setStrand w c v) p = cap_getContents w p :=
  cap_getContents_congr (cap_getOrder_setStrand w c p v)

@[simp] theorem cap_getReverse_setStrand (w : World) (c p : CapPtr) (v : Bool) :
    cap_getReverse (cap_setStrand w c v) p = cap_getReverse w p :=
  cap_getReverse_congr (cap_getOrder_setStrand w c p v)

@[simp] theorem cap_getContents_setEventNotSequence (w : World) (c p : CapPtr) (v : Bool) :
    cap_getContents (cap_setEventNotSequence w c v) p = cap_getContents w p :=
  cap_getContents_congr (cap_getOrder_setEventNotSequence w c p v)

@[simp] theorem cap_getReverse_setEventNotSequence (w : World) (c p : CapPtr) (v : Bool) :
    cap_getReverse (cap_setEventNotSequence w c v) p = cap_getReverse w p :=
  cap_getReverse_congr (cap_getOrder_setEventNotSequence w c p v)

@[simp] theorem cap_setStrand_contents (w : World) (c : CapPtr) (v : Bool) :
    (cap_setStrand w c v).contents = w.contents := rfl

@[simp] theorem cap_setEventNotSequence_contents (w : World) (c : CapPtr) (v : Bool) :
    (cap_setEventNotSequence w c v).contents = w.contents := rfl

@[simp] theorem cap_setOrder_contents (w : World) (c : CapPtr) (v : Bool) :
    (cap_setOrder w c v).contents = w.contents := rfl

@[simp] theorem cap_setStrand_next (w : World) (c : CapPtr) (v : Bool) :
    (cap_setStrand w c v).next = w.next := rfl

@[simp] theorem cap_setEventNotSequence_next (w : World) (c : CapPtr) (v : Bool) :
    (cap_setEventNotSequence w c v).next = w.next := rfl

@[simp] theorem cap_setOrder_next (w : World) (c : CapPtr) (v : Bool) :
    (cap_setOrder w c v).next = w.next := rfl

/-! ## The effect of `cap_setCoordinates` -/

@[simp] theorem cap_setCoordinates_next (w : World) (cap : CapPtr) (c : Int) (s : Bool)
    (seq : Ptr) : (cap_setCoordinates w cap c s seq).next = w.next := by
  unfold cap_setCoordinates
  by_cases h : seq = NULL <;> simp [h]

@[simp] theorem cap_getOrder_setCoordinates (w : World) (cap p : CapPtr) (c : Int) (s : Bool)
    (seq : Ptr) : cap_getOrder (cap_setCoordinates w cap c s seq) p = cap_getOrder w p := by
  unfold cap_setCoordinates
  by_cases h : seq = NULL <;>
    simp [h, cap_getOrder_setStrand, cap_getOrder_setEventNotSequence]

@[simp] theorem cap_getContents_setCoordinates (w : World) (cap p : CapPtr) (c : Int)
    (s : Bool) (seq : Ptr) :
    cap_getContents (cap_setCoordinates w cap c s seq) p = cap_getContents w p :=
  cap_getContents_congr (cap_getOrder_setCoordinates w cap p c s seq)

@[simp] theorem cap_getReverse_setCoordinates (w : World) (cap p : CapPtr) (c : Int)
    (s : Bool) (seq : Ptr) :
    cap_getReverse (cap_setCoordinates w cap c s seq) p = cap_getReverse w p :=
  cap_getReverse_congr (cap_getOrder_setCoordinates w cap p c s seq)

theorem cap_getStrand_setCoordinates (w : World) (cap p : CapPtr) (c : Int) (s : Bool)
    (seq : Ptr) :
    cap_getStrand (cap_setCoordinates w cap c s seq) p
      = if p = cap_getReverse w cap then !s else if p = cap then s else cap_getStrand w p := by
  unfold cap_setCoordinates
  by_cases h : seq = NULL <;>
    simp [h, cap_getStrand_setStrand, cap_getStrand_setEventNotSequence]

theorem cap_getHasEventNotSequence_setCoordinates (w : World) (cap p : CapPtr) (c : Int)
    (s : Bool) (seq : Ptr) :
    cap_getHasEventNotSequence (cap_setCoordinates w cap c s seq) p
      = if seq ≠ NULL ∧ (p = cap ∨ p = cap_getReverse w cap) then false
        else cap_getHasEventNotSequence w p := by
  unfold cap_setCoordinates
  by_cases h : seq = NULL
  · simp [h, cap_getHasEventNotSequence_setStrand]
  · simp only [h, ne_eq, not_false_eq_true, if_true, true_and,
      cap_getHasEventNotSequence_setEventNotSequence, cap_getReverse_setEventNotSequence,
      cap_getReverse_modifyContents, cap_getReverse_setStrand,
      cap_getHasEventNotSequence_modifyContents, cap_getHasEventNotSequence_setStrand]
    by_cases h1 : p = cap_getReverse w cap <;> by_cases h2 : p = cap <;> simp [h1, h2]

theorem cap_setCoordinates_contents (w : World) (cap q : CapPtr) (c : Int) (s : Bool)
    (seq : Ptr) :
    (cap_setCoordinates w cap c s seq).contents q
      = if q = cap_getContents w cap then
          { w.contents q with
              coordinate := c
              eventOrSequence := if seq ≠ NULL then seq else (w.contents q).eventOrSequence }
        else w.contents q := by
  unfold cap_setCoordinates
  by_cases h : seq = NULL <;> by_cases hq : q = cap_getContents w cap <;> simp [h, hq]

/-! ## Stores that touch the adjacency or segment fields only -/

theorem cap_getBit_of_bits {w w1 : World} (h : w1.bits = w.bits) (p : CapPtr) (j : Nat) :
    cap_getBit w1 p j = cap_getBit w p j := by
  simp only [cap_getBit, h]

theorem cap_getOrientation_of_frame (env : Collab) {w w1 : World} (hb : w1.bits = w.bits)
    (he : ∀ q, (w1.contents q).endPtr = (w.contents q).endPtr) (p : CapPtr) :
    cap_getOrientation env w1 p = cap_getOrientation env w p :=
  cap_getOrientation_congr env (cap_getBit_of_bits hb p 0) (he _)

theorem cap_getReverse_of_bits {w w1 : World} (hb : w1.bits = w.bits) (p : CapPtr) :
    cap_getReverse w1 p = cap_getReverse w p :=
  cap_getReverse_congr (cap_getBit_of_bits hb p 0)

theorem cap_getContents_of_bits {w w1 : World} (hb : w1.bits = w.bits) (p : CapPtr) :
    cap_getContents w1 p = cap_getContents w p :=
  cap_getContents_congr (cap_getBit_of_bits hb p 0)

/-- The invariant survives a store that keeps the allocation counter, the bits
and the stored Ends, provided the adjacency fields stay paired up. -/
theorem Inv.of_frame {env : Collab} {w w1 : World} (hI : Inv env w) (hn : w1.next = w.next)
    (hb : w1.bits = w.bits) (he : ∀ q, (w1.contents q).endPtr = (w.contents q).endPtr)
    (hadj : ∀ b, b < w.next → ∀ p, (w1.contents ⟨b, 2⟩).adjacency = some p →
      w.isCap p ∧ p.blk ≠ b ∧
        ∃ q, (w1.contents ⟨p.blk, 2⟩).adjacency = some q ∧ q.blk = b ∧ (q.off = 0 ∨ q.off = 1) ∧
          cap_getOrientation env w q = cap_getOrientation env w p) :
    Inv env w1 where
  order0 b hlt := by
    rw [hn] at hlt
    exact (cap_getBit_of_bits hb _ 0).trans (hI.order0 b hlt)
  order1 b hlt := by
    rw [hn] at hlt
    exact (cap_getBit_of_bits hb _ 0).trans (hI.order1 b hlt)
  strand b hlt := by
    rw [hn] at hlt
    have h := hI.strand b hlt
    unfold cap_getStrand at h ⊢
    rw [cap_getBit_of_bits hb, cap_getBit_of_bits hb, h]
  tag b hlt := by
    rw [hn] at hlt
    have h := hI.tag b hlt
    unfold cap_getHasEventNotSequence at h ⊢
    rw [cap_getBit_of_bits hb, cap_getBit_of_bits hb, h]
  endNotNull b hlt := by
    rw [hn] at hlt
    rw [he]
    exact hI.endNotNull b hlt
  adj b hlt p hp := by
    rw [hn] at hlt
    obtain ⟨h1, h2, q, h3, h4, h5, h6⟩ := hadj b hlt p hp
    refine ⟨?_, h2, q, h3, h4, h5, ?_⟩
    · exact ⟨by rw [hn]; exact h1.1, h1.2⟩
    · rw [cap_getOrientation_of_frame env hb he, cap_getOrientation_of_frame env hb he, h6]

/-- What a non-null `cap_getAdjacency` says about the stored field. -/
theorem Inv.adjacency_some {env : Collab} {w : World} (hI : Inv env w) {cap cap2 : CapPtr}
    (hc : w.isCap cap) (h : cap_getAdjacency env w cap = some cap2) :
    ∃ s, (w.contents ⟨cap.blk, 2⟩).adjacency = some s ∧ w.isCap s ∧ s.blk ≠ cap.blk ∧
      w.isCap cap2 ∧ cap2.blk = s.blk ∧
      cap2 = (if cap_getOrientation env w cap then s else cap_getReverse w s) := by
  unfold cap_getAdjacency cap_getP at h
  rw [hI.contents_eq hc] at h
  cases hs : (w.contents ⟨cap.blk, 2⟩).adjacency with
  | none => simp [hs] at h
  | some s =>
    obtain ⟨h1, h2, -⟩ := hI.adj cap.blk hc.1 s hs
    simp only [hs] at h
    refine ⟨s, rfl, h1, h2, ?_⟩
    by_cases ho : cap_getOrientation env w cap
    · simp only [ho, if_true, Option.some.injEq] at h
      subst h
      exact ⟨h1, rfl, by simp [ho]⟩
    · simp only [ho, Bool.false_eq_true, if_false, Option.some.injEq] at h
      subst h
      refine ⟨hI.isCap_reverse h1, ?_, by simp [ho]⟩
      rw [hI.reverse_eq h1]

theorem Inv.adjacency_none {env : Collab} {w : World} (hI : Inv env w) {cap : CapPtr}
    (hc : w.isCap cap) :
    cap_getAdjacency env w cap = none ↔ (w.contents ⟨cap.blk, 2⟩).adjacency = none := by
  unfold cap_getAdjacency cap_getP
  rw [hI.contents_eq hc]
  cases hs : (w.contents ⟨cap.blk, 2⟩).adjacency with
  | none => simp
  | some s => by_cases ho : cap_getOrientation env w cap <;> simp [ho]

/-! ## The effect of `cap_breakAdjacency` -/

theorem cap_breakAdjacency_of_none {env : Collab} {w : World} {cap : CapPtr}
    (h : cap_getAdjacency env w cap = none) : cap_breakAdjacency env w cap = w := by
  simp [cap_breakAdjacency, h]

theorem cap_breakAdjacency_of_some {env : Collab} {w : World} {cap cap2 : CapPtr}
    (h : cap_getAdjacency env w cap = some cap2) :
    cap_breakAdjacency env w cap
      = (w.modifyContents (cap_getContents w cap2) fun c => { c with adjacency := none }).modifyContents
          (cap_getContents w cap) fun c => { c with adjacency := none } := by
  simp [cap_breakAdjacency, h]

@[simp] theorem cap_breakAdjacency_bits (env : Collab) (w : World) (cap : CapPtr) :
    (cap_breakAdjacency env w cap).bits = w.bits := by
  cases h : cap_getAdjacency env w cap with
  | none => rw [cap_breakAdjacency_of_none h]
  | some c => rw [cap_breakAdjacency_of_some h]; rfl

@[simp] theorem cap_breakAdjacency_next (env : Collab) (w : World) (cap : CapPtr) :
    (cap_breakAdjacency env w cap).next = w.next := by
  cases h : cap_getAdjacency env w cap with
  | none => rw [cap_breakAdjacency_of_none h]
  | some c => rw [cap_breakAdjacency_of_some h]; rfl

/-- Only adjacency fields change, and they change to null. -/
theorem cap_breakAdjacency_contents (env : Collab) (w : World) (cap q : CapPtr) :
    (cap_breakAdjacency env w cap).contents q = w.contents q ∨
      (cap_breakAdjacency env w cap).contents q = { w.contents q with adjacency := none } := by
  cases h : cap_getAdjacency env w cap with
  | none => rw [cap_breakAdjacency_of_none h]; exact Or.inl rfl
  | some c =>
    rw [cap_breakAdjacency_of_some h]
    by_cases h1 : q = cap_getContents w cap
    · subst h1
      by_cases h2 : cap_getContents w cap = cap_getContents w c
      · right; simp [← h2]
      · right; simp [h2]
    · by_cases h2 : q = cap_getContents w c
      · subst h2; right; simp [h1]
      · left; simp [h1, h2]

theorem cap_breakAdjacency_endPtr (env : Collab) (w : World) (cap q : CapPtr) :
    ((cap_breakAdjacency env w cap).contents q).endPtr = (w.contents q).endPtr := by
  rcases cap_breakAdjacency_contents env w cap q with h | h <;> rw [h]

/-- In a memory satisfying the invariant, breaking the adjacency of a handle
with stored adjacency `s` clears the field of its block and of the block of `s`. -/
theorem Inv.breakAdjacency_contents {env : Collab} {w : World} (hI : Inv env w) {cap : CapPtr}
    (hc : w.isCap cap) (q : CapPtr) :
    (cap_breakAdjacency env w cap).contents q
      = match (w.contents ⟨cap.blk, 2⟩).adjacency with
        | none => w.contents q
        | some s =>
          if q = ⟨cap.blk, 2⟩ ∨ q = ⟨s.blk, 2⟩ then { w.contents q with adjacency := none }
          else w.contents q := by
  cases h : cap_getAdjacency env w cap with
  | none =>
    rw [cap_breakAdjacency_of_none h, (hI.adjacency_none hc).1 h]
  | some c =>
    obtain ⟨s, hs, h1, h2, h3, h4, -⟩ := hI.adjacency_some hc h
    rw [cap_breakAdjacency_of_some h, hs, hI.contents_eq hc, hI.contents_eq h3, h4]
    have hne : ¬ cap.blk = s.blk := fun h => h2 h.symm
    by_cases ha : q = ⟨cap.blk, 2⟩
    · subst ha
      simp [hne]
    · by_cases hb : q = ⟨s.blk, 2⟩
      · subst hb
        simp [h2]
      · simp [ha, hb]

theorem Inv.breakAdjacency {env : Collab} {w : World} (hI : Inv env w) {cap : CapPtr}
    (hc : w.isCap cap) : Inv env (cap_breakAdjacency env w cap) := by
  refine hI.of_frame (cap_breakAdjacency_next env w cap) (cap_breakAdjacency_bits env w cap)
    (cap_breakAdjacency_endPtr env w cap) ?_
  intro b hb p hp
  cases hs : (w.contents ⟨cap.blk, 2⟩).adjacency with
  | none =>
    rw [hI.breakAdjacency_contents hc, hs] at hp
    obtain ⟨h1, h2, q, h3, h4⟩ := hI.adj b hb p hp
    refine ⟨h1, h2, q, ?_, h4⟩
    rw [hI.breakAdjacency_contents hc, hs]
    exact h3
  | some s =>
    obtain ⟨hs1, hs2, t, ht, ht1, -⟩ := hI.adj cap.blk hc.1 s hs
    rw [hI.breakAdjacency_contents hc, hs] at hp
    simp only [CapPtr.mk.injEq, and_true] at hp
    by_cases hcl : b = cap.blk ∨ b = s.blk
    · simp [hcl] at hp
    · simp only [hcl, if_false] at hp
      obtain ⟨h1, h2, q, h3, h4, h5⟩ := hI.adj b hb p hp
      refine ⟨h1, h2, q, ?_, h4, h5⟩
      rw [hI.breakAdjacency_contents hc, hs]
      simp only [CapPtr.mk.injEq, and_true]
      have hne : ¬ (p.blk = cap.blk ∨ p.blk = s.blk) := by
        rintro (h | h)
        · rw [h, hs] at h3
          simp only [Option.some.injEq] at h3
          subst h3
          exact hcl (Or.inr h4.symm)
        · rw [h, ht] at h3
          simp only [Option.some.injEq] at h3
          subst h3
          exact hcl (Or.inl (h4.symm.trans ht1))
      simp only [hne, if_false]
      exact h3

/-- After `cap_breakAdjacency` the stored adjacency of the handle's block is null. -/
theorem Inv.breakAdjacency_self {env : Collab} {w : World} (hI : Inv env w) {cap : CapPtr}
    (hc : w.isCap cap) :
    ((cap_breakAdjacency env w cap).contents ⟨cap.blk, 2⟩).adjacency = none := by
  rw [hI.breakAdjacency_contents hc]
  cases hs : (w.contents ⟨cap.blk, 2⟩).adjacency with
  | none => simpa using hs
  | some s => simp

/-- The function `cap_breakAdjacency` only ever clears adjacency fields. -/
theorem cap_breakAdjacency_adjacency_none {env : Collab} {w : World} {cap q : CapPtr}
    (h : (w.contents q).adjacency = none) :
    ((cap_breakAdjacency env w cap).contents q).adjacency = none := by
  rcases cap_breakAdjacency_contents env w cap q with h1 | h1 <;> rw [h1]
  exact h

/-! ## The effect of `cap_makeAdjacent` -/

theorem cap_makeAdjacent_eq (env : Collab) (w : World) (cap cap2 : CapPtr) :
    cap_makeAdjacent env w cap cap2
      = if strandHandle w cap = strandHandle w cap2 then .assertFail w
        else if cap_getEvent env w (strandHandle w cap) ≠ cap_getEvent env w (strandHandle w cap2)
        then .assertFail w
        else .ok (linkHandles env
          (cap_breakAdjacency env (cap_breakAdjacency env w (strandHandle w cap))
            (strandHandle w cap2))
          (strandHandle w cap) (strandHandle w cap2)) := rfl

theorem cap_makeAdjacent_ok {env : Collab} {w w1 : World} {cap cap2 : CapPtr}
    (h : cap_makeAdjacent env w cap cap2 = .ok w1) :
    strandHandle w cap ≠ strandHandle w cap2 ∧
      cap_getEvent env w (strandHandle w cap) = cap_getEvent env w (strandHandle w cap2) ∧
      w1 = linkHandles env
          (cap_breakAdjacency env (cap_breakAdjacency env w (strandHandle w cap))
            (strandHandle w cap2))
          (strandHandle w cap) (strandHandle w cap2) := by
  rw [cap_makeAdjacent_eq] at h
  by_cases h1 : strandHandle w cap = strandHandle w cap2
  · simp [h1] at h
  · by_cases h2 : cap_getEvent env w (strandHandle w cap)
        = cap_getEvent env w (strandHandle w cap2)
    · simp only [h1, h2, if_false, ne_eq, not_true_eq_false, Outcome.ok.injEq] at h
      exact ⟨h1, h2, h.symm⟩
    · simp [h1, h2] at h

theorem Inv.strandHandle_spec {env : Collab} {w : World} (hI : Inv env w) {cap : CapPtr}
    (hc : w.isCap cap) :
    w.isCap (strandHandle w cap) ∧ (strandHandle w cap).blk = cap.blk ∧
      cap_getStrand w (strandHandle w cap) = true := by
  unfold strandHandle
  by_cases hs : cap_getStrand w cap
  · rw [if_pos hs]
    exact ⟨hc, rfl, hs⟩
  · rw [if_neg hs]
    refine ⟨hI.isCap_reverse hc, ?_, ?_⟩
    · rw [hI.reverse_eq hc]
    · rw [hI.strand_reverse hc]
      simpa using hs

/-- Two handles of one block with the same strand are the same handle. -/
theorem Inv.eq_of_strand {env : Collab} {w : World} (hI : Inv env w) {p q : CapPtr}
    (hp : w.isCap p) (hq : w.isCap q) (hb : p.blk = q.blk)
    (hs : cap_getStrand w p = cap_getStrand w q) : p = q := by
  obtain ⟨b, o⟩ := p
  obtain ⟨b2, o2⟩ := q
  simp only at hb
  subst hb
  have h := hI.strand b hp.1
  obtain ⟨-, rfl | rfl⟩ := hp <;> obtain ⟨-, rfl | rfl⟩ := hq
  · rfl
  · rw [h] at hs; simp at hs
  · rw [h] at hs; simp at hs
  · rfl

/-- Two handles of one block with the same orientation are the same handle. -/
theorem Inv.eq_of_orientation {env : Collab} {w : World} (hI : Inv env w)
    (hE : EndContract env) {p q : CapPtr}
    (hp : w.isCap p) (hq : w.isCap q) (hb : p.blk = q.blk)
    (hs : cap_getOrientation env w p = cap_getOrientation env w q) : p = q := by
  obtain ⟨b, o⟩ := p
  obtain ⟨b2, o2⟩ := q
  simp only at hb
  subst hb
  have h0 : w.isCap ⟨b, 0⟩ := ⟨hp.1, Or.inl rfl⟩
  have h := hI.orientation_reverse hE h0
  rw [cap_getReverse_zero (hI.order0 b hp.1)] at h
  obtain ⟨-, rfl | rfl⟩ := hp <;> obtain ⟨-, rfl | rfl⟩ := hq
  · rfl
  · rw [h] at hs; simp at hs
  · rw [h] at hs; simp at hs
  · rfl

theorem cap_getOrientation_modifyContents (env : Collab) (w : World) (c p : CapPtr)
    (f : CapContents → CapContents) (hf : ∀ x, (f x).endPtr = x.endPtr) :
    cap_getOrientation env (w.modifyContents c f) p = cap_getOrientation env w p := by
  refine cap_getOrientation_congr env rfl ?_
  rw [modifyContents_contents]
  by_cases h : cap_getContents w p = c
  · rw [if_pos h, hf, h]
  · rw [if_neg h]

theorem linkHandles_bits (env : Collab) (w : World) (a b : CapPtr) :
    (linkHandles env w a b).bits = w.bits := rfl

theorem linkHandles_next (env : Collab) (w : World) (a b : CapPtr) :
    (linkHandles env w a b).next = w.next := rfl

@[simp] theorem cap_getOrientation_setAdjacency (env : Collab) (w : World) (c p : CapPtr)
    (v : Option CapPtr) :
    cap_getOrientation env (w.modifyContents c fun x => { x with adjacency := v }) p
      = cap_getOrientation env w p :=
  cap_getOrientation_modifyContents env w c p _ (fun _ => rfl)

theorem linkHandles_endPtr (env : Collab) (w : World) (a b q : CapPtr) :
    ((linkHandles env w a b).contents q).endPtr = (w.contents q).endPtr := by
  unfold linkHandles
  simp only [modifyContents_contents, cap_getContents_modifyContents]
  by_cases h1 : q = cap_getContents w b
  · subst h1
    by_cases h2 : cap_getContents w b = cap_getContents w a
    · simp [h2]
    · simp [h2]
  · by_cases h2 : q = cap_getContents w a
    · subst h2; simp [h1]
    · simp [h1, h2]

/-- In a memory satisfying the invariant, linking handles of two different
blocks writes the adjacency field of each block. -/
theorem Inv.contents_linkHandles {env : Collab} {w : World} (hI : Inv env w) {a b : CapPtr}
    (ha : w.isCap a) (hb : w.isCap b) (hne : a.blk ≠ b.blk) (q : CapPtr) :
    (linkHandles env w a b).contents q
      = if q = ⟨b.blk, 2⟩ then
          { w.contents q with
              adjacency := some (if cap_getOrientation env w b then a else cap_getReverse w a) }
        else if q = ⟨a.blk, 2⟩ then
          { w.contents q with
              adjacency := some (if cap_getOrientation env w a then b else cap_getReverse w b) }
        else w.contents q := by
  unfold linkHandles
  simp only [modifyContents_contents, cap_getContents_modifyContents,
    cap_getReverse_modifyContents, cap_getOrientation_setAdjacency, hI.contents_eq ha,
    hI.contents_eq hb]
  have : ¬ b.blk = a.blk := fun h => hne h.symm
  by_cases h1 : q = ⟨b.blk, 2⟩
  · subst h1
    simp [this]
  · by_cases h2 : q = ⟨a.blk, 2⟩
    · subst h2
      simp [hne]
    · simp [h1, h2]

theorem Inv.linkHandles_inv {env : Collab} {w : World} (hI : Inv env w) (hE : EndContract env)
    {a b : CapPtr} (ha : w.isCap a) (hb : w.isCap b) (hne : a.blk ≠ b.blk)
    (hna : (w.contents ⟨a.blk, 2⟩).adjacency = none)
    (hnb : (w.contents ⟨b.blk, 2⟩).adjacency = none) :
    Inv env (linkHandles env w a b) := by
  have hori : ∀ x y : CapPtr, w.isCap x → w.isCap y →
      cap_getOrientation env w (if cap_getOrientation env w x then y else cap_getReverse w y)
        = (cap_getOrientation env w x == cap_getOrientation env w y) := by
    intro x y _ hy
    by_cases hx : cap_getOrientation env w x
    · simp [hx]
    · simp only [hx, Bool.false_eq_true, if_false, hI.orientation_reverse hE hy]
      cases cap_getOrientation env w y <;> rfl
  have hcap : ∀ x y : CapPtr, w.isCap y →
      w.isCap (if cap_getOrientation env w x then y else cap_getReverse w y) ∧
      (if cap_getOrientation env w x then y else cap_getReverse w y).blk = y.blk := by
    intro x y hy
    by_cases hx : cap_getOrientation env w x
    · rw [if_pos hx]; exact ⟨hy, rfl⟩
    · rw [if_neg hx]
      exact ⟨hI.isCap_reverse hy, by rw [hI.reverse_eq hy]⟩
  have hab : ¬ b.blk = a.blk := fun h => hne h.symm
  refine hI.of_frame (linkHandles_next env w a b) (linkHandles_bits env w a b)
    (linkHandles_endPtr env w a b) ?_
  intro blk hblk p hp
  rw [hI.contents_linkHandles ha hb hne] at hp
  simp only [CapPtr.mk.injEq, and_true] at hp
  by_cases h1 : blk = b.blk
  · subst h1
    simp only [if_true, Option.some.injEq] at hp
    subst hp
    refine ⟨(hcap b a ha).1, ?_, _, ?_, (hcap a b hb).2, ?_, ?_⟩
    · rw [(hcap b a ha).2]; exact hne
    · rw [hI.contents_linkHandles ha hb hne, (hcap b a ha).2]
      simp [hne]
    · exact (hcap a b hb).1.2
    · rw [hori a b ha hb, hori b a hb ha]
      cases cap_getOrientation env w a <;> cases cap_getOrientation env w b <;> rfl
  · by_cases h2 : blk = a.blk
    · subst h2
      simp only [h1, if_false, if_true, Option.some.injEq] at hp
      subst hp
      refine ⟨(hcap a b hb).1, ?_, _, ?_, (hcap b a ha).2, ?_, ?_⟩
      · rw [(hcap a b hb).2]; exact hab
      · rw [hI.contents_linkHandles ha hb hne, (hcap a b hb).2]
        simp
      · exact (hcap b a ha).1.2
      · rw [hori a b ha hb, hori b a hb ha]
        cases cap_getOrientation env w a <;> cases cap_getOrientation env w b <;> rfl
    · simp only [h1, h2, if_false] at hp
      obtain ⟨h3, h4, q, h5, h6, h7⟩ := hI.adj blk hblk p hp
      refine ⟨h3, h4, q, ?_, h6, h7⟩
      rw [hI.contents_linkHandles ha hb hne]
      have h8 : ¬ p.blk = b.blk := by
        intro h; rw [h, hnb] at h5; simp at h5
      have h9 : ¬ p.blk = a.blk := by
        intro h; rw [h, hna] at h5; simp at h5
      simp only [CapPtr.mk.injEq, and_true, h8, h9, if_false]
      exact h5

theorem isCap_of_next {w w1 : World} (h : w1.next = w.next) {p : CapPtr} (hp : w.isCap p) :
    w1.isCap p :=
  ⟨by rw [h]; exact hp.1, hp.2⟩

theorem isCap_breakAdjacency {env : Collab} {w : World} {cap p : CapPtr} (hp : w.isCap p) :
    (cap_breakAdjacency env w cap).isCap p :=
  isCap_of_next (cap_breakAdjacency_next env w cap) hp

/-- The strand-true handles of two handles differ exactly when the handles
lie in different blocks. -/
theorem Inv.strandHandle_ne {env : Collab} {w : World} (hI : Inv env w) {cap cap2 : CapPtr}
    (hc : w.isCap cap) (hc2 : w.isCap cap2) :
    strandHandle w cap ≠ strandHandle w cap2 ↔ cap.blk ≠ cap2.blk := by
  obtain ⟨h1, h2, h3⟩ := hI.strandHandle_spec hc
  obtain ⟨h4, h5, h6⟩ := hI.strandHandle_spec hc2
  constructor
  · intro hne hb
    exact hne (hI.eq_of_strand h1 h4 (by rw [h2, h5, hb]) (by rw [h3, h6]))
  · intro hne heq
    apply hne
    rw [← h2, ← h5, heq]

/-- The memory in which `cap_makeAdjacent` makes its two stores: both old
adjacencies are broken. -/
theorem Inv.makeAdjacent_broken {env : Collab} {w : World} (hI : Inv env w) {a b : CapPtr}
    (ha : w.isCap a) (hb : w.isCap b) :
    Inv env (cap_breakAdjacency env (cap_breakAdjacency env w a) b) ∧
      ((cap_breakAdjacency env (cap_breakAdjacency env w a) b).contents ⟨a.blk, 2⟩).adjacency
        = none ∧
      ((cap_breakAdjacency env (cap_breakAdjacency env w a) b).contents ⟨b.blk, 2⟩).adjacency
        = none := by
  have hI1 := hI.breakAdjacency ha
  have hb1 : (cap_breakAdjacency env w a).isCap b := isCap_breakAdjacency hb
  exact ⟨hI1.breakAdjacency hb1,
    cap_breakAdjacency_adjacency_none (hI.breakAdjacency_self ha),
    hI1.breakAdjacency_self hb1⟩

theorem Inv.makeAdjacent {env : Collab} {w w1 : World} (hI : Inv env w) (hE : EndContract env)
    {cap cap2 : CapPtr} (hc : w.isCap cap) (hc2 : w.isCap cap2)
    (h : cap_makeAdjacent env w cap cap2 = .ok w1) : Inv env w1 := by
  obtain ⟨hne, -, rfl⟩ := cap_makeAdjacent_ok h
  obtain ⟨ha, hab, -⟩ := hI.strandHandle_spec hc
  obtain ⟨hb, hbb, -⟩ := hI.strandHandle_spec hc2
  obtain ⟨hI2, hna, hnb⟩ := hI.makeAdjacent_broken ha hb
  have hblk : (strandHandle w cap).blk ≠ (strandHandle w cap2).blk := by
    rw [hab, hbb]; exact (hI.strandHandle_ne hc hc2).1 hne
  exact hI2.linkHandles_inv hE (isCap_breakAdjacency (isCap_breakAdjacency ha))
    (isCap_breakAdjacency (isCap_breakAdjacency hb)) hblk hna hnb

/-! ## The effect of `cap_setSegment` and `cap_setCoordinates` on the invariant -/

theorem Inv.setSegment {env : Collab} {w : World} (hI : Inv env w) (cap : CapPtr)
    (segment : Ptr) : Inv env (cap_setSegment env w cap segment) := by
  have hadj : ∀ q, ((cap_setSegment env w cap segment).contents q).adjacency
      = (w.contents q).adjacency := by
    intro q
    unfold cap_setSegment
    rw [modifyContents_contents]
    by_cases h : q = cap_getContents w cap
    · subst h; simp
    · simp [h]
  refine hI.of_frame rfl rfl ?_ ?_
  · intro q
    unfold cap_setSegment
    rw [modifyContents_contents]
    by_cases h : q = cap_getContents w cap
    · subst h; simp
    · simp [h]
  · intro b hb p hp
    rw [hadj] at hp
    obtain ⟨h1, h2, q, h3, h4⟩ := hI.adj b hb p hp
    exact ⟨h1, h2, q, by rw [hadj]; exact h3, h4⟩

theorem Inv.setCoordinates {env : Collab} {w : World} (hI : Inv env w) {cap : CapPtr}
    (hc : w.isCap cap) (c : Int) (s : Bool) (seq : Ptr) :
    Inv env (cap_setCoordinates w cap c s seq) where
  order0 b hlt := by
    rw [cap_setCoordinates_next] at hlt
    rw [cap_getOrder_setCoordinates]; exact hI.order0 b hlt
  order1 b hlt := by
    rw [cap_setCoordinates_next] at hlt
    rw [cap_getOrder_setCoordinates]; exact hI.order1 b hlt
  strand b hlt := by
    rw [cap_setCoordinates_next] at hlt
    rw [cap_getStrand_setCoordinates, cap_getStrand_setCoordinates, hI.reverse_eq hc]
    obtain ⟨blk, o⟩ := cap
    obtain ⟨-, rfl | rfl⟩ := hc <;> by_cases h : b = blk <;> simp [h, hI.strand b hlt]
  tag b hlt := by
    rw [cap_setCoordinates_next] at hlt
    rw [cap_getHasEventNotSequence_setCoordinates, cap_getHasEventNotSequence_setCoordinates,
      hI.reverse_eq hc]
    obtain ⟨blk, o⟩ := cap
    have ht := hI.tag b hlt
    obtain ⟨-, rfl | rfl⟩ := hc <;> rcases eq_or_ne b blk with rfl | h <;>
      by_cases hs : seq = NULL <;> simp [*]
  endNotNull b hlt := by
    rw [cap_setCoordinates_next] at hlt
    rw [cap_setCoordinates_contents]
    by_cases h : (⟨b, 2⟩ : CapPtr) = cap_getContents w cap
    · rw [if_pos h]; exact hI.endNotNull b hlt
    · rw [if_neg h]; exact hI.endNotNull b hlt
  adj b hlt p hp := by
    have hadj : ∀ q, ((cap_setCoordinates w cap c s seq).contents q).adjacency
        = (w.contents q).adjacency := by
      intro q
      rw [cap_setCoordinates_contents]
      by_cases h : q = cap_getContents w cap
      · rw [if_pos h]
      · rw [if_neg h]
    have hori : ∀ q, cap_getOrientation env (cap_setCoordinates w cap c s seq) q
        = cap_getOrientation env w q := by
      intro q
      refine cap_getOrientation_congr env (cap_getOrder_setCoordinates ..) ?_
      rw [cap_setCoordinates_contents]
      by_cases h : cap_getContents w q = cap_getContents w cap
      · rw [if_pos h]
      · rw [if_neg h]
    rw [cap_setCoordinates_next] at hlt
    rw [hadj] at hp
    obtain ⟨h1, h2, q, h3, h4, h5, h6⟩ := hI.adj b hlt p hp
    exact ⟨isCap_of_next (cap_setCoordinates_next ..) h1, h2, q, by rw [hadj]; exact h3, h4, h5,
      by rw [hori, hori, h6]⟩

/-! ## The effect of `cap_construct3` -/

@[simp] theorem cap_getBit_st_calloc (w : World) (p : CapPtr) (j : Nat) :
    cap_getBit (st_calloc w).1 p j = if p.blk = w.next then false else cap_getBit w p j := by
  unfold cap_getBit st_calloc
  by_cases h : p.blk = w.next <;> simp [h]

theorem cap_construct3_body_snd (env : Collab) (w : World) (n : Name) (ev e : Ptr) :
    (cap_construct3_body env w n ev e).2 = ⟨w.next, 0⟩ := rfl

theorem cap_construct3_body_next (env : Collab) (w : World) (n : Name) (ev e : Ptr) :
    (cap_construct3_body env w n ev e).1.next = w.next + 1 := rfl

@[simp] theorem st_calloc_snd (w : World) : (st_calloc w).2 = ⟨w.next, 0⟩ := rfl

@[simp] theorem st_calloc_next (w : World) : (st_calloc w).1.next = w.next + 1 := rfl

@[simp] theorem st_calloc_contents (w : World) (q : CapPtr) :
    (st_calloc w).1.contents q = if q.blk = w.next then CapContents.zero else w.contents q := rfl

@[simp] theorem cap_getOrder_st_calloc (w : World) (p : CapPtr) :
    cap_getOrder (st_calloc w).1 p = if p.blk = w.next then false else cap_getOrder w p :=
  cap_getBit_st_calloc w p 0

@[simp] theorem cap_getStrand_st_calloc (w : World) (p : CapPtr) :
    cap_getStrand (st_calloc w).1 p = if p.blk = w.next then false else cap_getStrand w p :=
  cap_getBit_st_calloc w p 1

@[simp] theorem cap_getHasEventNotSequence_st_calloc (w : World) (p : CapPtr) :
    cap_getHasEventNotSequence (st_calloc w).1 p
      = if p.blk = w.next then false else cap_getHasEventNotSequence w p :=
  cap_getBit_st_calloc w p 2

@[simp] theorem cap_getOrder_end_addInstance (w : World) (e : Ptr) (c p : CapPtr) :
    cap_getOrder (end_addInstance w e c) p = cap_getOrder w p := rfl

@[simp] theorem cap_getOrder_flower_addCap (w : World) (e : Ptr) (c p : CapPtr) :
    cap_getOrder (flower_addCap w e c) p = cap_getOrder w p := rfl

@[simp] theorem cap_getStrand_end_addInstance (w : World) (e : Ptr) (c p : CapPtr) :
    cap_getStrand (end_addInstance w e c) p = cap_getStrand w p := rfl

@[simp] theorem cap_getStrand_flower_addCap (w : World) (e : Ptr) (c p : CapPtr) :
    cap_getStrand (flower_addCap w e c) p = cap_getStrand w p := rfl

@[simp] theorem cap_getHasEventNotSequence_end_addInstance (w : World) (e : Ptr)
    (c p : CapPtr) :
    cap_getHasEventNotSequence (end_addInstance w e c) p = cap_getHasEventNotSequence w p := rfl

@[simp] theorem cap_getHasEventNotSequence_flower_addCap (w : World) (e : Ptr) (c p : CapPtr) :
    cap_getHasEventNotSequence (flower_addCap w e c) p = cap_getHasEventNotSequence w p := rfl

@[simp] theorem cap_getContents_setOrder_self (w : World) (c : CapPtr) :
    cap_getContents (cap_setOrder w c true) c = c.add 2 := by
  simp [cap_getContents, cap_getOrder_setOrder]

@[simp] theorem cap_getReverse_setOrder_self (w : World) (c : CapPtr) :
    cap_getReverse (cap_setOrder w c true) c = c.add 1 := by
  simp [cap_getReverse, cap_getOrder_setOrder]

theorem cap_getOrder_construct3_body (env : Collab) (w : World) (n : Name) (ev e : Ptr)
    (p : CapPtr) :
    cap_getOrder (cap_construct3_body env w n ev e).1 p
      = if p.blk = w.next then decide (p.off = 0) else cap_getOrder w p := by
  simp only [cap_construct3_body, cap_getOrder_end_addInstance, cap_getOrder_flower_addCap,
    cap_getOrder_modifyContents, cap_getOrder_setStrand, cap_getOrder_setEventNotSequence,
    cap_getOrder_setOrder, st_calloc_snd, cap_getOrder_st_calloc]
  obtain ⟨b, o⟩ := p
  by_cases hb : b = w.next <;> by_cases ho : o = 0 <;> simp [hb, ho]

theorem cap_getStrand_construct3_body (env : Collab) (w : World) (n : Name) (ev e : Ptr)
    (p : CapPtr) :
    cap_getStrand (cap_construct3_body env w n ev e).1 p
      = if p = ⟨w.next, 1⟩ then env.end_getOrientation (env.end_getReverse e)
        else if p = ⟨w.next, 0⟩ then env.end_getOrientation e
        else if p.blk = w.next then false else cap_getStrand w p := by
  simp only [cap_construct3_body, cap_getStrand_end_addInstance, cap_getStrand_flower_addCap,
    cap_getStrand_modifyContents, cap_getStrand_setStrand, cap_getStrand_setEventNotSequence,
    cap_getReverse_setStrand, cap_getReverse_setEventNotSequence, cap_getReverse_modifyContents,
    cap_getReverse_setOrder_self,
    cap_getStrand_setOrder, st_calloc_snd, cap_getStrand_st_calloc, CapPtr.add]
  simp

theorem cap_getHasEventNotSequence_construct3_body (env : Collab) (w : World) (n : Name)
    (ev e : Ptr) (p : CapPtr) :
    cap_getHasEventNotSequence (cap_construct3_body env w n ev e).1 p
      = if p = ⟨w.next, 1⟩ ∨ p = ⟨w.next, 0⟩ then true
        else if p.blk = w.next then false else cap_getHasEventNotSequence w p := by
  simp only [cap_construct3_body, cap_getHasEventNotSequence_end_addInstance,
    cap_getHasEventNotSequence_flower_addCap,
    cap_getHasEventNotSequence_modifyContents, cap_getHasEventNotSequence_setStrand,
    cap_getHasEventNotSequence_setEventNotSequence,
    cap_getReverse_setStrand, cap_getReverse_setEventNotSequence, cap_getReverse_modifyContents,
    cap_getReverse_setOrder_self,
    cap_getHasEventNotSequence_setOrder, st_calloc_snd, cap_getHasEventNotSequence_st_calloc,
    CapPtr.add]
  by_cases h1 : p = ⟨w.next, 1⟩ <;> by_cases h0 : p = ⟨w.next, 0⟩ <;> simp [h1, h0]

theorem cap_construct3_body_contents (env : Collab) (w : World) (n : Name) (ev e : Ptr)
    (q : CapPtr) :
    (cap_construct3_body env w n ev e).1.contents q
      = if q = ⟨w.next, 2⟩ then ⟨n, INT64_MAX, ev, none, NULL, e, none⟩
        else if q.blk = w.next then CapContents.zero else w.contents q := by
  simp only [cap_construct3_body, end_addInstance_contents, flower_addCap_contents,
    modifyContents_contents, cap_getContents_modifyContents, cap_getContents_setStrand,
    cap_getContents_setEventNotSequence, cap_setStrand_contents,
    cap_setEventNotSequence_contents, cap_setOrder_contents, cap_getContents_setOrder_self,
    st_calloc_snd, st_calloc_contents, CapPtr.add]
  by_cases h : q = ⟨w.next, 2⟩
  · subst h; simp [CapContents.zero]
  · simp [h]

/-- Handles of blocks allocated before `cap_construct3` read the same. -/
theorem cap_getOrientation_construct3_body (env : Collab) (w : World) (n : Name) (ev e : Ptr)
    {p : CapPtr} (hp : w.isCap p) (ho : cap_getContents w p = ⟨p.blk, 2⟩) :
    cap_getOrientation env (cap_construct3_body env w n ev e).1 p
      = cap_getOrientation env w p := by
  have hne : p.blk ≠ w.next := Nat.ne_of_lt hp.1
  refine cap_getOrientation_congr env ?_ ?_
  · rw [cap_getOrder_construct3_body, if_neg hne]
  · rw [cap_construct3_body_contents, ho]
    simp [hne]

theorem Inv.construct3_body {env : Collab} {w : World} (hI : Inv env w) (hE : EndContract env)
    (n : Name) (ev : Ptr) {e : Ptr} (he : e ≠ NULL) :
    Inv env (cap_construct3_body env w n ev e).1 where
  order0 b hlt := by
    rw [cap_construct3_body_next] at hlt
    rw [cap_getOrder_construct3_body]
    by_cases hb : b = w.next
    · simp [hb]
    · simp only [hb, if_false]
      exact hI.order0 b (by omega)
  order1 b hlt := by
    rw [cap_construct3_body_next] at hlt
    rw [cap_getOrder_construct3_body]
    by_cases hb : b = w.next
    · simp [hb]
    · simp only [hb, if_false]
      exact hI.order1 b (by omega)
  strand b hlt := by
    rw [cap_construct3_body_next] at hlt
    rw [cap_getStrand_construct3_body, cap_getStrand_construct3_body]
    by_cases hb : b = w.next
    · simp [hb, hE e he]
    · simp only [CapPtr.mk.injEq, hb, false_and, if_false]
      exact hI.strand b (by omega)
  tag b hlt := by
    rw [cap_construct3_body_next] at hlt
    rw [cap_getHasEventNotSequence_construct3_body, cap_getHasEventNotSequence_construct3_body]
    by_cases hb : b = w.next
    · simp [hb]
    · simp only [CapPtr.mk.injEq, hb, false_and, or_self, if_false]
      exact hI.tag b (by omega)
  endNotNull b hlt := by
    rw [cap_construct3_body_next] at hlt
    rw [cap_construct3_body_contents]
    by_cases hb : b = w.next
    · simp [hb, he]
    · simp only [CapPtr.mk.injEq, hb, false_and, if_false]
      exact hI.endNotNull b (by omega)
  adj b hlt p hp := by
    rw [cap_construct3_body_next] at hlt
    rw [cap_construct3_body_contents] at hp
    by_cases hb : b = w.next
    · simp [hb] at hp
    · simp only [CapPtr.mk.injEq, hb, false_and, if_false] at hp
      have hb1 : b < w.next := by omega
      obtain ⟨h1, h2, q, h3, h4, h5, h6⟩ := hI.adj b hb1 p hp
      have hq : w.isCap q := ⟨by rw [h4]; exact hb1, h5⟩
      refine ⟨⟨Nat.lt_succ_of_lt h1.1, h1.2⟩, h2, q, ?_, h4, h5, ?_⟩
      · rw [cap_construct3_body_contents]
        have : p.blk ≠ w.next := Nat.ne_of_lt h1.1
        simp only [CapPtr.mk.injEq, this, false_and, if_false]
        exact h3
      · rw [cap_getOrientation_construct3_body env w n ev e hq (hI.contents_eq hq),
          cap_getOrientation_construct3_body env w n ev e h1 (hI.contents_eq h1), h6]

theorem cap_construct3_ok {env : Collab} {w w1 : World} {n : Name} {ev e : Ptr} {cap : CapPtr}
    (h : cap_construct3 env w n ev e = .ok (w1, cap)) :
    e ≠ NULL ∧ ev ≠ NULL ∧ n ≠ env.NULL_NAME ∧
      w1 = (cap_construct3_body env w n ev e).1 ∧ cap = ⟨w.next, 0⟩ := by
  unfold cap_construct3 at h
  by_cases h1 : e = NULL
  · simp [h1] at h
  by_cases h2 : ev = NULL
  · simp [h1, h2] at h
  by_cases h3 : n = env.NULL_NAME
  · simp [h1, h2, h3] at h
  simp only [h1, h2, h3, if_false] at h
  by_cases h4 : cap_construct3_asserts env (cap_construct3_body env w n ev e).1
      (cap_construct3_body env w n ev e).2 n ev e = true
  · rw [if_pos h4] at h
    simp only [Outcome.ok.injEq] at h
    refine ⟨h1, h2, h3, ?_, ?_⟩
    · rw [h]
    · rw [← cap_construct3_body_snd env w n ev e, h]
  · rw [if_neg h4] at h
    simp at h

theorem cap_construct3_of_asserts {env : Collab} {w : World} {n : Name} {ev e : Ptr}
    (he : e ≠ NULL) (hev : ev ≠ NULL) (hn : n ≠ env.NULL_NAME)
    (ha : cap_construct3_asserts env (cap_construct3_body env w n ev e).1
      (cap_construct3_body env w n ev e).2 n ev e = true) :
    cap_construct3 env w n ev e = .ok (cap_construct3_body env w n ev e) := by
  unfold cap_construct3
  rw [if_neg he, if_neg hev, if_neg hn]
  simp only [ha, if_true]

theorem Inv.construct3 {env : Collab} {w w1 : World} (hI : Inv env w) (hE : EndContract env)
    {n : Name} {ev e : Ptr} {cap : CapPtr}
    (h : cap_construct3 env w n ev e = .ok (w1, cap)) : Inv env w1 ∧ w1.isCap cap := by
  obtain ⟨he, -, -, rfl, rfl⟩ := cap_construct3_ok h
  exact ⟨hI.construct3_body hE n ev he, by
    rw [World.isCap, cap_construct3_body_next]; exact ⟨Nat.lt_succ_self _, Or.inl rfl⟩⟩

theorem cap_construct4_ok {env : Collab} {w w1 : World} {n : Name} {e : Ptr} {c : Int}
    {s : Bool} {seq : Ptr} {cap : CapPtr}
    (h : cap_construct4 env w n e c s seq = .ok (w1, cap)) :
    ∃ w0, cap_construct3 env w n (env.sequence_getEvent seq) e = .ok (w0, cap) ∧
      w1 = cap_setCoordinates w0 cap c s seq := by
  unfold cap_construct4 at h
  cases h3 : cap_construct3 env w n (env.sequence_getEvent seq) e with
  | assertFail w0 => rw [h3] at h; simp at h
  | ok r =>
    obtain ⟨w0, c0⟩ := r
    rw [h3] at h
    simp only [Outcome.ok.injEq, Prod.mk.injEq] at h
    obtain ⟨h1, h2⟩ := h
    subst h2
    exact ⟨w0, rfl, h1.symm⟩

theorem Inv.empty (env : Collab) : Inv env World.empty where
  order0 b hlt := absurd hlt (Nat.not_lt_zero b)
  order1 b hlt := absurd hlt (Nat.not_lt_zero b)
  strand b hlt := absurd hlt (Nat.not_lt_zero b)
  tag b hlt := absurd hlt (Nat.not_lt_zero b)
  endNotNull b hlt := absurd hlt (Nat.not_lt_zero b)
  adj b hlt := absurd hlt (Nat.not_lt_zero b)

/-- Every reachable memory satisfies the invariant. -/
theorem Reachable.inv {env : Collab} (hE : EndContract env) {w : World}
    (h : Reachable env w) : Inv env w := by
  induction h with
  | empty => exact Inv.empty env
  | construct3 n ev e _ hok ih => exact (ih.construct3 hE hok).1
  | construct4 n e c s seq _ _ hok ih =>
    obtain ⟨w0, h3, rfl⟩ := cap_construct4_ok hok
    obtain ⟨hI0, hc⟩ := ih.construct3 hE h3
    exact hI0.setCoordinates hc c s seq
  | setCoordinates cap c s seq _ hc ih => exact ih.setCoordinates hc c s seq
  | makeAdjacent cap cap2 _ hc hc2 hok ih => exact ih.makeAdjacent hE hc hc2 hok
  | breakAdjacency cap _ hc ih => exact ih.breakAdjacency hc
  | setSegment cap seg _ _ ih => exact ih.setSegment cap seg

/-! ## Frame of `cap_makeAdjacent` and the adjacency it stores -/

theorem cap_makeAdjacent_bits {env : Collab} {w w1 : World} {cap cap2 : CapPtr}
    (h : cap_makeAdjacent env w cap cap2 = .ok w1) : w1.bits = w.bits := by
  obtain ⟨-, -, rfl⟩ := cap_makeAdjacent_ok h
  rw [linkHandles_bits, cap_breakAdjacency_bits, cap_breakAdjacency_bits]

theorem cap_makeAdjacent_next {env : Collab} {w w1 : World} {cap cap2 : CapPtr}
    (h : cap_makeAdjacent env w cap cap2 = .ok w1) : w1.next = w.next := by
  obtain ⟨-, -, rfl⟩ := cap_makeAdjacent_ok h
  rw [linkHandles_next, cap_breakAdjacency_next, cap_breakAdjacency_next]

theorem cap_makeAdjacent_endPtr {env : Collab} {w w1 : World} {cap cap2 : CapPtr}
    (h : cap_makeAdjacent env w cap cap2 = .ok w1) (q : CapPtr) :
    (w1.contents q).endPtr = (w.contents q).endPtr := by
  obtain ⟨-, -, rfl⟩ := cap_makeAdjacent_ok h
  rw [linkHandles_endPtr, cap_breakAdjacency_endPtr, cap_breakAdjacency_endPtr]

theorem cap_makeAdjacent_orientation {env : Collab} {w w1 : World} {cap cap2 : CapPtr}
    (h : cap_makeAdjacent env w cap cap2 = .ok w1) (p : CapPtr) :
    cap_getOrientation env w1 p = cap_getOrientation env w p :=
  cap_getOrientation_of_frame env (cap_makeAdjacent_bits h) (cap_makeAdjacent_endPtr h) p

theorem Inv.event_reverse {env : Collab} {w : World} (hI : Inv env w) {p : CapPtr}
    (hp : w.isCap p) : cap_getEvent env w (cap_getReverse w p) = cap_getEvent env w p := by
  unfold cap_getEvent
  rw [hI.contents_reverse hp, hI.tag_reverse hp]

theorem Inv.event_strandHandle {env : Collab} {w : World} (hI : Inv env w) {p : CapPtr}
    (hp : w.isCap p) : cap_getEvent env w (strandHandle w p) = cap_getEvent env w p := by
  unfold strandHandle
  by_cases hs : cap_getStrand w p
  · rw [if_pos hs]
  · rw [if_neg hs, hI.event_reverse hp]

/-- On handles of different blocks with a common event `cap_makeAdjacent`
passes both assertions. -/
theorem Inv.makeAdjacent_succeeds {env : Collab} {w : World} (hI : Inv env w)
    {cap cap2 : CapPtr} (hc : w.isCap cap) (hc2 : w.isCap cap2) (hne : cap.blk ≠ cap2.blk)
    (hev : cap_getEvent env w cap = cap_getEvent env w cap2) :
    cap_makeAdjacent env w cap cap2
      = .ok (linkHandles env
          (cap_breakAdjacency env (cap_breakAdjacency env w (strandHandle w cap))
            (strandHandle w cap2))
          (strandHandle w cap) (strandHandle w cap2)) := by
  rw [cap_makeAdjacent_eq, if_neg ((hI.strandHandle_ne hc hc2).2 hne), hI.event_strandHandle hc,
    hI.event_strandHandle hc2, if_neg (not_not.2 hev)]

/-- The adjacency fields after a successful `cap_makeAdjacent`: the blocks of
the two arguments hold the new link, every other block has what the two
calls of `cap_breakAdjacency` left. -/
theorem Inv.makeAdjacent_stored {env : Collab} {w w1 : World} (hI : Inv env w)
    {cap cap2 : CapPtr} (hc : w.isCap cap) (hc2 : w.isCap cap2)
    (h : cap_makeAdjacent env w cap cap2 = .ok w1) (q : CapPtr) :
    (w1.contents q).adjacency
      = if q = ⟨cap2.blk, 2⟩ then
          some (if cap_getOrientation env w (strandHandle w cap2) then strandHandle w cap
                else cap_getReverse w (strandHandle w cap))
        else if q = ⟨cap.blk, 2⟩ then
          some (if cap_getOrientation env w (strandHandle w cap) then strandHandle w cap2
                else cap_getReverse w (strandHandle w cap2))
        else ((cap_breakAdjacency env (cap_breakAdjacency env w (strandHandle w cap))
                (strandHandle w cap2)).contents q).adjacency := by
  obtain ⟨hne, -, rfl⟩ := cap_makeAdjacent_ok h
  obtain ⟨ha, hab, -⟩ := hI.strandHandle_spec hc
  obtain ⟨hb, hbb, -⟩ := hI.strandHandle_spec hc2
  obtain ⟨hI2, -, -⟩ := hI.makeAdjacent_broken ha hb
  have hblk : (strandHandle w cap).blk ≠ (strandHandle w cap2).blk := by
    rw [hab, hbb]; exact (hI.strandHandle_ne hc hc2).1 hne
  have hbits : (cap_breakAdjacency env (cap_breakAdjacency env w (strandHandle w cap))
      (strandHandle w cap2)).bits = w.bits := by
    rw [cap_breakAdjacency_bits, cap_breakAdjacency_bits]
  have hend : ∀ q, ((cap_breakAdjacency env (cap_breakAdjacency env w (strandHandle w cap))
      (strandHandle w cap2)).contents q).endPtr = (w.contents q).endPtr := by
    intro q
    rw [cap_breakAdjacency_endPtr, cap_breakAdjacency_endPtr]
  rw [hI2.contents_linkHandles (isCap_breakAdjacency (isCap_breakAdjacency ha))
    (isCap_breakAdjacency (isCap_breakAdjacency hb)) hblk, hab, hbb,
    cap_getOrientation_of_frame env hbits hend, cap_getOrientation_of_frame env hbits hend,
    cap_getReverse_of_bits hbits, cap_getReverse_of_bits hbits]
  by_cases h1 : q = ⟨cap2.blk, 2⟩
  · rw [if_pos h1, if_pos h1]
  · rw [if_neg h1, if_neg h1]
    by_cases h2 : q = ⟨cap.blk, 2⟩
    · rw [if_pos h2, if_pos h2]
    · rw [if_neg h2, if_neg h2]

/-- After a successful `cap_makeAdjacent(a, b)` the adjacency read from `a`
is the handle of the block of `b` that has the strand of `a`. -/
theorem Inv.makeAdjacent_getAdjacency {env : Collab} {w w1 : World} (hI : Inv env w)
    (hE : EndContract env) {cap cap2 : CapPtr} (hc : w.isCap cap) (hc2 : w.isCap cap2)
    (h : cap_makeAdjacent env w cap cap2 = .ok w1) :
    cap_getAdjacency env w1 cap
        = some (if cap_getStrand w cap = cap_getStrand w cap2 then cap2
                else cap_getReverse w cap2) ∧
      cap_getAdjacency env w1 cap2
        = some (if cap_getStrand w cap2 = cap_getStrand w cap then cap
                else cap_getReverse w cap) := by
  have hne : cap.blk ≠ cap2.blk :=
    (hI.strandHandle_ne hc hc2).1 (cap_makeAdjacent_ok h).1
  have hbits := cap_makeAdjacent_bits h
  have key : ∀ x y : CapPtr, w.isCap x → w.isCap y →
      (w1.contents ⟨x.blk, 2⟩).adjacency
        = some (if cap_getOrientation env w (strandHandle w x) then strandHandle w y
                else cap_getReverse w (strandHandle w y)) →
      cap_getAdjacency env w1 x
        = some (if cap_getStrand w x = cap_getStrand w y then y else cap_getReverse w y) := by
    intro x y hx hy hst
    unfold cap_getAdjacency cap_getP
    rw [cap_getContents_of_bits hbits, hI.contents_eq hx, hst]
    simp only [cap_makeAdjacent_orientation h, cap_getReverse_of_bits hbits]
    unfold strandHandle
    have hrx := hI.orientation_reverse hE hx
    have hrr := hI.reverse_reverse hy
    cases hsx : cap_getStrand w x <;> cases hsy : cap_getStrand w y <;>
      cases hox : cap_getOrientation env w x <;>
      simp [hsx, hsy, hox, hrx, hrr]
  constructor
  · apply key cap cap2 hc hc2
    rw [hI.makeAdjacent_stored hc hc2 h, if_neg (by simpa using hne), if_pos rfl]
  · apply key cap2 cap hc2 hc
    rw [hI.makeAdjacent_stored hc hc2 h, if_pos rfl]

/-! ## The concrete collaborator and memories -/

theorem sampleEnv_flip (n : Nat) :
    (((if n % 2 = 0 then n + 1 else n - 1) % 2 == 0) = !(n % 2 == 0)) := by
  by_cases h : n % 2 = 0
  · have h1 : (n + 1) % 2 = 1 := by omega
    simp [h, h1]
  · have h1 : (n - 1) % 2 = 0 := by omega
    have h2 : n % 2 = 1 := by omega
    simp [h1, h2]

theorem sampleEnv_contract : EndContract sampleEnv :=
  fun e _ => sampleEnv_flip e

theorem sampleEnv_side : SideContract sampleEnv :=
  fun e _ => sampleEnv_flip e

theorem reachable_oneCap : Reachable sampleEnv oneCap :=
  Reachable.construct3 1 7 2 Reachable.empty
    (rfl : cap_construct3 sampleEnv World.empty 1 7 2 = .ok (oneCap, ⟨0, 0⟩))

theorem reachable_capsOpposite : Reachable sampleEnv capsOpposite :=
  Reachable.construct3 2 7 5 reachable_oneCap
    (rfl : cap_construct3 sampleEnv oneCap 2 7 5 = .ok (capsOpposite, ⟨1, 0⟩))

theorem reachable_capsAligned : Reachable sampleEnv capsAligned :=
  Reachable.construct3 2 7 4 reachable_oneCap
    (rfl : cap_construct3 sampleEnv oneCap 2 7 4 = .ok (capsAligned, ⟨1, 0⟩))

theorem makeAdjacent_capsOpposite :
    cap_makeAdjacent sampleEnv capsOpposite ⟨0, 0⟩ ⟨1, 0⟩ = .ok capsOppositeLinked := rfl

theorem reachable_capsOppositeLinked : Reachable sampleEnv capsOppositeLinked :=
  Reachable.makeAdjacent ⟨0, 0⟩ ⟨1, 0⟩ reachable_capsOpposite (by decide) (by decide)
    makeAdjacent_capsOpposite

theorem reachable_capsTwoEvents : Reachable sampleEnv capsTwoEvents :=
  Reachable.construct3 2 8 4 reachable_oneCap
    (rfl : cap_construct3 sampleEnv oneCap 2 8 4 = .ok (capsTwoEvents, ⟨1, 0⟩))

theorem reachable_threeCaps : Reachable sampleEnv threeCaps :=
  Reachable.construct3 3 7 6 reachable_capsOppositeLinked
    (cap_construct3_of_asserts (by decide) (by decide) (by decide) (by decide!) :
      cap_construct3 sampleEnv capsOppositeLinked 3 7 6 = .ok (threeCaps, ⟨2, 0⟩))

theorem makeAdjacent_threeCaps :
    cap_makeAdjacent sampleEnv threeCaps ⟨0, 0⟩ ⟨2, 0⟩ = .ok threeCapsRelinked := rfl

/-! ## C1: what `cap_makeAdjacent` links -/

/-- C1, as stated, fails: in the reachable memory `capsOpposite` the handles
`⟨0, 0⟩` (strand true) and `⟨1, 0⟩` (strand false) lie in different pairs and
have the same event, `cap_makeAdjacent` on them succeeds, and afterwards the
adjacency of `⟨0, 0⟩` is `⟨1, 1⟩`, the reverse of the second argument, and the
adjacency of `⟨1, 0⟩` is `⟨0, 1⟩`, the reverse of the first. -/
theorem C1_counterexample :
    Reachable sampleEnv capsOpposite ∧ EndContract sampleEnv ∧
      capsOpposite.isCap ⟨0, 0⟩ ∧ capsOpposite.isCap ⟨1, 0⟩ ∧
      cap_getEvent sampleEnv capsOpposite ⟨0, 0⟩ = cap_getEvent sampleEnv capsOpposite ⟨1, 0⟩ ∧
      cap_makeAdjacent sampleEnv capsOpposite ⟨0, 0⟩ ⟨1, 0⟩ = .ok capsOppositeLinked ∧
      cap_getAdjacency sampleEnv capsOppositeLinked ⟨0, 0⟩ = some ⟨1, 1⟩ ∧
      cap_getAdjacency sampleEnv capsOppositeLinked ⟨0, 0⟩ ≠ some ⟨1, 0⟩ ∧
      cap_getAdjacency sampleEnv capsOppositeLinked ⟨1, 0⟩ = some ⟨0, 1⟩ ∧
      cap_getAdjacency sampleEnv capsOppositeLinked ⟨1, 0⟩ ≠ some ⟨0, 0⟩ :=
  ⟨reachable_capsOpposite, sampleEnv_contract, by decide, by decide, by decide,
    makeAdjacent_capsOpposite, by decide, by decide, by decide, by decide⟩

/-- C1 (amended): in a reachable memory, for handles `a` and `b` of two
distinct cap pairs with the same event and the same strand,
`cap_makeAdjacent(a, b)` succeeds and afterwards `cap_getAdjacency(a) == b`
and `cap_getAdjacency(b) == a`. -/
theorem C1_makeAdjacent_same_strand {env : Collab} {w : World} {a b : CapPtr}
    (hE : EndContract env) (hR : Reachable env w) (ha : w.isCap a) (hb : w.isCap b)
    (hne : a.blk ≠ b.blk) (hev : cap_getEvent env w a = cap_getEvent env w b)
    (hs : cap_getStrand w a = cap_getStrand w b) :
    ∃ w1, cap_makeAdjacent env w a b = .ok w1 ∧
      cap_getAdjacency env w1 a = some b ∧ cap_getAdjacency env w1 b = some a := by
  have hI := hR.inv hE
  refine ⟨_, hI.makeAdjacent_succeeds ha hb hne hev, ?_⟩
  have h := hI.makeAdjacent_getAdjacency hE ha hb (hI.makeAdjacent_succeeds ha hb hne hev)
  rw [if_pos hs, if_pos hs.symm] at h
  exact h

/-- C1 (amended), at the handles `⟨0, 0⟩` and `⟨1, 0⟩` of `capsAligned`. -/
theorem C1_makeAdjacent_same_strand_witness :
    cap_getStrand capsAligned ⟨0, 0⟩ = cap_getStrand capsAligned ⟨1, 0⟩ ∧
      ∃ w1, cap_makeAdjacent sampleEnv capsAligned ⟨0, 0⟩ ⟨1, 0⟩ = .ok w1 ∧
        cap_getAdjacency sampleEnv w1 ⟨0, 0⟩ = some ⟨1, 0⟩ ∧
        cap_getAdjacency sampleEnv w1 ⟨1, 0⟩ = some ⟨0, 0⟩ :=
  ⟨by decide, C1_makeAdjacent_same_strand sampleEnv_contract reachable_capsAligned
    (by decide) (by decide) (by decide) (by decide) (by decide)⟩

/-! ## C2: adjacency is symmetric -/

/-- Under the invariant, adjacency is symmetric and commutes with reversal. -/
theorem Inv.adjacency_symm {env : Collab} {w : World} (hI : Inv env w) (hE : EndContract env)
    {h c : CapPtr} (hh : w.isCap h) (hadj : cap_getAdjacency env w h = some c) :
    cap_getAdjacency env w c = some h ∧
      cap_getAdjacency env w (cap_getReverse w h) = some (cap_getReverse w c) := by
  obtain ⟨s, hs, hsc, hsne, hc, hcb, hceq⟩ := hI.adjacency_some hh hadj
  obtain ⟨-, -, q, hq, hqb, hqo, hqs⟩ := hI.adj h.blk hh.1 s hs
  have hqc : w.isCap q := ⟨by rw [hqb]; exact hh.1, hqo⟩
  constructor
  · unfold cap_getAdjacency cap_getP
    rw [hI.contents_eq hc, hcb, hq]
    have hrq := hI.orientation_reverse hE hqc
    have hrs := hI.orientation_reverse hE hsc
    have hbq : (cap_getReverse w q).blk = h.blk := by rw [hI.reverse_eq hqc]; exact hqb
    by_cases hoc : cap_getOrientation env w c
    · simp only [hoc, if_true, Option.some.injEq]
      refine hI.eq_of_orientation hE hqc hh hqb ?_
      by_cases hoh : cap_getOrientation env w h
      · rw [hoh, if_pos rfl] at hceq
        rw [hqs, ← hceq, hoc, hoh]
      · rw [if_neg hoh] at hceq
        rw [hceq, hrs] at hoc
        rw [hqs]
        simp only [Bool.not_eq_true] at hoh
        simp only [Bool.not_eq_true', hoh] at hoc ⊢
        exact hoc
    · simp only [hoc, Bool.false_eq_true, if_false, Option.some.injEq]
      refine hI.eq_of_orientation hE (hI.isCap_reverse hqc) hh hbq ?_
      rw [hrq, hqs]
      by_cases hoh : cap_getOrientation env w h
      · rw [hoh, if_pos rfl] at hceq
        rw [← hceq, hoh]
        simpa using hoc
      · rw [if_neg hoh] at hceq
        rw [hceq, hrs] at hoc
        simp only [Bool.not_eq_true] at hoh
        rw [hoh]
        simpa using hoc
  · unfold cap_getAdjacency cap_getP
    rw [hI.contents_reverse hh, hI.contents_eq hh, hs]
    simp only [hI.orientation_reverse hE hh]
    by_cases hoh : cap_getOrientation env w h
    · rw [if_pos hoh] at hceq
      simp [hoh, hceq]
    · rw [if_neg hoh] at hceq
      simp [hoh, hceq, hI.reverse_reverse hsc]

/-- C2: in every reachable memory, if `cap_getAdjacency(h) == c` is not null
then `cap_getAdjacency(c) == h` and
`cap_getAdjacency(cap_getReverse(h)) == cap_getReverse(c)`. -/
theorem C2_adjacency_symmetric {env : Collab} {w : World} {h c : CapPtr}
    (hE : EndContract env) (hR : Reachable env w) (hh : w.isCap h)
    (hadj : cap_getAdjacency env w h = some c) :
    cap_getAdjacency env w c = some h ∧
      cap_getAdjacency env w (cap_getReverse w h) = some (cap_getReverse w c) := by
  have hI := hR.inv hE
  obtain ⟨hback, hrev⟩ := hI.adjacency_symm hE hh hadj
  exact ⟨hback, hrev⟩

/-- C2 at the handle `⟨0, 0⟩` of `capsOppositeLinked`, whose adjacency is `⟨1, 1⟩`. -/
theorem C2_adjacency_symmetric_witness :
    cap_getAdjacency sampleEnv capsOppositeLinked ⟨0, 0⟩ = some ⟨1, 1⟩ ∧
      cap_getAdjacency sampleEnv capsOppositeLinked ⟨1, 1⟩ = some ⟨0, 0⟩ ∧
      cap_getAdjacency sampleEnv capsOppositeLinked (cap_getReverse capsOppositeLinked ⟨0, 0⟩)
        = some (cap_getReverse capsOppositeLinked ⟨1, 1⟩) :=
  ⟨by decide, C2_adjacency_symmetric sampleEnv_contract reachable_capsOppositeLinked
    (by decide) (by decide)⟩

/-! ## C3 and C4: the two handles of a pair -/

theorem Inv.sequence_reverse {env : Collab} {w : World} (hI : Inv env w) {p : CapPtr}
    (hp : w.isCap p) : cap_getSequence w (cap_getReverse w p) = cap_getSequence w p := by
  unfold cap_getSequence
  rw [hI.contents_reverse hp, hI.tag_reverse hp]

/-- C3: in every reachable memory, a handle and its reverse have the same
name, event, coordinate and sequence, and complementary strand and side,
given that the reverse of an End has the opposite orientation and side. -/
theorem C3_reverse_shares_payload {env : Collab} {w : World} {h : CapPtr}
    (hE : EndContract env) (hS : SideContract env) (hR : Reachable env w) (hh : w.isCap h) :
    cap_getName w (cap_getReverse w h) = cap_getName w h ∧
      cap_getEvent env w (cap_getReverse w h) = cap_getEvent env w h ∧
      cap_getCoordinate w (cap_getReverse w h) = cap_getCoordinate w h ∧
      cap_getSequence w (cap_getReverse w h) = cap_getSequence w h ∧
      cap_getStrand w h = !cap_getStrand w (cap_getReverse w h) ∧
      cap_getSide env w h = !cap_getSide env w (cap_getReverse w h) := by
  have hI := hR.inv hE
  refine ⟨?_, hI.event_reverse hh, ?_, hI.sequence_reverse hh, ?_, ?_⟩
  · unfold cap_getName; rw [hI.contents_reverse hh]
  · unfold cap_getCoordinate; rw [hI.contents_reverse hh]
  · rw [hI.strand_reverse hh]; simp
  · rw [hI.side_reverse hS hh]; simp

/-- C3 at the handle `⟨1, 0⟩` of `capsOppositeLinked`. -/
theorem C3_reverse_shares_payload_witness :
    cap_getName capsOppositeLinked (cap_getReverse capsOppositeLinked ⟨1, 0⟩)
        = cap_getName capsOppositeLinked ⟨1, 0⟩ ∧
      cap_getEvent sampleEnv capsOppositeLinked (cap_getReverse capsOppositeLinked ⟨1, 0⟩)
        = cap_getEvent sampleEnv capsOppositeLinked ⟨1, 0⟩ ∧
      cap_getCoordinate capsOppositeLinked (cap_getReverse capsOppositeLinked ⟨1, 0⟩)
        = cap_getCoordinate capsOppositeLinked ⟨1, 0⟩ ∧
      cap_getSequence capsOppositeLinked (cap_getReverse capsOppositeLinked ⟨1, 0⟩)
        = cap_getSequence capsOppositeLinked ⟨1, 0⟩ ∧
      cap_getStrand capsOppositeLinked ⟨1, 0⟩
        = !cap_getStrand capsOppositeLinked (cap_getReverse capsOppositeLinked ⟨1, 0⟩) ∧
      cap_getSide sampleEnv capsOppositeLinked ⟨1, 0⟩
        = !cap_getSide sampleEnv capsOppositeLinked (cap_getReverse capsOppositeLinked ⟨1, 0⟩) :=
  C3_reverse_shares_payload sampleEnv_contract sampleEnv_side reachable_capsOppositeLinked
    (by decide)

/-- C4: for every handle `h` of a reachable memory (each is a member of a pair
built by `cap_construct3`), `cap_getReverse(cap_getReverse(h)) == h` and the
orientations of `h` and `cap_getReverse(h)` differ, given that the reverse of
an End has the opposite orientation. -/
theorem C4_reverse_involution {env : Collab} {w : World} {h : CapPtr}
    (hE : EndContract env) (hR : Reachable env w) (hh : w.isCap h) :
    cap_getReverse w (cap_getReverse w h) = h ∧
      cap_getOrientation env w h ≠ cap_getOrientation env w (cap_getReverse w h) := by
  have hI := hR.inv hE
  refine ⟨hI.reverse_reverse hh, ?_⟩
  rw [hI.orientation_reverse hE hh]
  cases cap_getOrientation env w h <;> simp

/-- C4 at the handle `⟨0, 1⟩` of `oneCap`, the reverse of the handle that
`cap_construct3` returned. -/
theorem C4_reverse_involution_witness :
    cap_getReverse oneCap (cap_getReverse oneCap ⟨0, 1⟩) = ⟨0, 1⟩ ∧
      cap_getOrientation sampleEnv oneCap ⟨0, 1⟩
        ≠ cap_getOrientation sampleEnv oneCap (cap_getReverse oneCap ⟨0, 1⟩) :=
  C4_reverse_involution sampleEnv_contract reachable_oneCap (by decide)

/-! ## C5 and C7: the assertions of `cap_makeAdjacent` -/

/-- C5: in a reachable memory, for handles `a` and `b` with different events
`cap_makeAdjacent(a, b)` fails an assertion, and the memory at the failure is
the memory before the call, so that every adjacency is what it was. -/
theorem C5_makeAdjacent_event_mismatch {env : Collab} {w : World} {a b : CapPtr}
    (hE : EndContract env) (hR : Reachable env w) (ha : w.isCap a) (hb : w.isCap b)
    (hev : cap_getEvent env w a ≠ cap_getEvent env w b) :
    cap_makeAdjacent env w a b = .assertFail w := by
  have hI := hR.inv hE
  rw [cap_makeAdjacent_eq, hI.event_strandHandle ha, hI.event_strandHandle hb]
  by_cases h : strandHandle w a = strandHandle w b
  · rw [if_pos h]
  · rw [if_neg h, if_pos hev]

/-- C5 at the handles `⟨0, 0⟩` (Event 7) and `⟨1, 0⟩` (Event 8) of `capsTwoEvents`. -/
theorem C5_makeAdjacent_event_mismatch_witness :
    cap_getEvent sampleEnv capsTwoEvents ⟨0, 0⟩ ≠ cap_getEvent sampleEnv capsTwoEvents ⟨1, 0⟩ ∧
      cap_makeAdjacent sampleEnv capsTwoEvents ⟨0, 0⟩ ⟨1, 0⟩ = .assertFail capsTwoEvents :=
  ⟨by decide, C5_makeAdjacent_event_mismatch sampleEnv_contract reachable_capsTwoEvents
    (by decide) (by decide) (by decide)⟩

/-- C7: in a reachable memory, `cap_makeAdjacent(h, h)` and
`cap_makeAdjacent(h, cap_getReverse(h))` both fail the assertion
`cap != cap2`, the two arguments being replaced by one and the same
strand-true handle, and the memory at the failure is the memory before the
call. -/
theorem C7_self_adjacency_rejected {env : Collab} {w : World} {h : CapPtr}
    (hE : EndContract env) (hR : Reachable env w) (hh : w.isCap h) :
    strandHandle w h = strandHandle w (cap_getReverse w h) ∧
      cap_getStrand w (strandHandle w h) = true ∧
      cap_makeAdjacent env w h h = .assertFail w ∧
      cap_makeAdjacent env w h (cap_getReverse w h) = .assertFail w := by
  have hI := hR.inv hE
  have hr := hI.isCap_reverse hh
  obtain ⟨h1, h2, h3⟩ := hI.strandHandle_spec hh
  obtain ⟨h4, h5, h6⟩ := hI.strandHandle_spec hr
  have heq : strandHandle w h = strandHandle w (cap_getReverse w h) := by
    refine hI.eq_of_strand h1 h4 ?_ (by rw [h3, h6])
    rw [h2, h5, hI.reverse_eq hh]
  refine ⟨heq, h3, ?_, ?_⟩
  · rw [cap_makeAdjacent_eq, if_pos rfl]
  · rw [cap_makeAdjacent_eq, if_pos heq]

/-- C7 at the handle `⟨1, 0⟩` of `capsOppositeLinked`, whose strand is false. -/
theorem C7_self_adjacency_rejected_witness :
    strandHandle capsOppositeLinked ⟨1, 0⟩
        = strandHandle capsOppositeLinked (cap_getReverse capsOppositeLinked ⟨1, 0⟩) ∧
      cap_getStrand capsOppositeLinked (strandHandle capsOppositeLinked ⟨1, 0⟩) = true ∧
      cap_makeAdjacent sampleEnv capsOppositeLinked ⟨1, 0⟩ ⟨1, 0⟩
        = .assertFail capsOppositeLinked ∧
      cap_makeAdjacent sampleEnv capsOppositeLinked ⟨1, 0⟩
          (cap_getReverse capsOppositeLinked ⟨1, 0⟩)
        = .assertFail capsOppositeLinked :=
  C7_self_adjacency_rejected sampleEnv_contract reachable_capsOppositeLinked (by decide)

/-! ## C6: `cap_breakAdjacency` -/

theorem Inv.breakAdjacency_stored {env : Collab} {w : World} (hI : Inv env w) {cap : CapPtr}
    (hc : w.isCap cap) (x : Nat) :
    ((cap_breakAdjacency env w cap).contents ⟨x, 2⟩).adjacency
      = match (w.contents ⟨cap.blk, 2⟩).adjacency with
        | none => (w.contents ⟨x, 2⟩).adjacency
        | some s => if x = cap.blk ∨ x = s.blk then none else (w.contents ⟨x, 2⟩).adjacency := by
  rw [hI.breakAdjacency_contents hc]
  cases hs : (w.contents ⟨cap.blk, 2⟩).adjacency with
  | none => rfl
  | some s =>
    simp only [CapPtr.mk.injEq, and_true]
    by_cases h : x = cap.blk ∨ x = s.blk
    · rw [if_pos h, if_pos h]
    · rw [if_neg h, if_neg h]

theorem Inv.adjacency_of_stored {env : Collab} {w : World} (hI : Inv env w) {p s : CapPtr}
    (hp : w.isCap p) (hs : (w.contents ⟨p.blk, 2⟩).adjacency = some s) :
    ∃ c, cap_getAdjacency env w p = some c ∧ c.blk = s.blk := by
  obtain ⟨h1, -, -⟩ := hI.adj p.blk hp.1 s hs
  unfold cap_getAdjacency cap_getP
  rw [hI.contents_eq hp, hs]
  by_cases ho : cap_getOrientation env w p
  · exact ⟨s, by simp [ho], rfl⟩
  · exact ⟨cap_getReverse w s, by simp [ho], by rw [hI.reverse_eq h1]⟩

/-- A handle whose block stores no adjacency reads a null adjacency, and so
does its reverse. -/
theorem Inv.adjacency_none_pair {env : Collab} {w : World} (hI : Inv env w) {p : CapPtr}
    (hp : w.isCap p) (hs : (w.contents ⟨p.blk, 2⟩).adjacency = none) :
    cap_getAdjacency env w p = none ∧ cap_getAdjacency env w (cap_getReverse w p) = none := by
  refine ⟨(hI.adjacency_none hp).2 hs, (hI.adjacency_none (hI.isCap_reverse hp)).2 ?_⟩
  rw [hI.reverse_eq hp]
  exact hs

/-- C6: in a reachable memory, after `cap_breakAdjacency(a)` the adjacency is
null on `a`, on its reverse, and on both handles of the former partner of `a`;
on a cap with no adjacency, and in particular when called a second time,
`cap_breakAdjacency(a)` changes nothing. -/
theorem C6_breakAdjacency_clears {env : Collab} {w : World} {a : CapPtr}
    (hE : EndContract env) (hR : Reachable env w) (ha : w.isCap a) :
    cap_getAdjacency env (cap_breakAdjacency env w a) a = none ∧
      cap_getAdjacency env (cap_breakAdjacency env w a)
        (cap_getReverse (cap_breakAdjacency env w a) a) = none ∧
      (∀ c, cap_getAdjacency env w a = some c →
        cap_getAdjacency env (cap_breakAdjacency env w a) c = none ∧
        cap_getAdjacency env (cap_breakAdjacency env w a)
          (cap_getReverse (cap_breakAdjacency env w a) c) = none) ∧
      (cap_getAdjacency env w a = none → cap_breakAdjacency env w a = w) ∧
      cap_breakAdjacency env (cap_breakAdjacency env w a) a = cap_breakAdjacency env w a := by
  have hI := hR.inv hE
  have hI1 := hI.breakAdjacency ha
  have ha1 : (cap_breakAdjacency env w a).isCap a := isCap_breakAdjacency ha
  have hself := hI1.adjacency_none_pair ha1 (hI.breakAdjacency_self ha)
  refine ⟨hself.1, hself.2, ?_, cap_breakAdjacency_of_none, cap_breakAdjacency_of_none hself.1⟩
  intro c hc
  obtain ⟨s, hs, -, -, hcc, hcb, -⟩ := hI.adjacency_some ha hc
  refine hI1.adjacency_none_pair (isCap_breakAdjacency hcc) ?_
  rw [hI.breakAdjacency_stored ha, hs]
  simp [hcb]

/-- C6 at the handle `⟨0, 0⟩` of `capsOppositeLinked`, whose partner is `⟨1, 1⟩`. -/
theorem C6_breakAdjacency_clears_witness :
    cap_getAdjacency sampleEnv capsOppositeLinked ⟨0, 0⟩ = some ⟨1, 1⟩ ∧
      cap_getAdjacency sampleEnv (cap_breakAdjacency sampleEnv capsOppositeLinked ⟨0, 0⟩)
        ⟨1, 1⟩ = none ∧
      cap_getAdjacency sampleEnv (cap_breakAdjacency sampleEnv capsOppositeLinked ⟨0, 0⟩)
        ⟨0, 0⟩ = none :=
  ⟨by decide,
    ((C6_breakAdjacency_clears sampleEnv_contract reachable_capsOppositeLinked
      (by decide)).2.2.1 ⟨1, 1⟩ (by decide)).1,
    (C6_breakAdjacency_clears sampleEnv_contract reachable_capsOppositeLinked (by decide)).1⟩

/-! ## C8: `cap_makeAdjacent` breaks the old adjacencies -/

/-- C8: in a reachable memory, after a successful `cap_makeAdjacent(a, b)`:
if `a` was adjacent to `c` in a pair other than that of `b`, the adjacency is
null on both handles of `c`; likewise for `d`, the former adjacency of `b`;
and every handle outside the pairs of `a`, `b`, `c` and `d` reads the
adjacency it read before. -/
theorem C8_makeAdjacent_breaks_old {env : Collab} {w w1 : World} {a b : CapPtr}
    (hE : EndContract env) (hR : Reachable env w) (ha : w.isCap a) (hb : w.isCap b)
    (hok : cap_makeAdjacent env w a b = .ok w1) :
    (∀ c, cap_getAdjacency env w a = some c → c.blk ≠ b.blk →
        cap_getAdjacency env w1 c = none ∧
        cap_getAdjacency env w1 (cap_getReverse w1 c) = none) ∧
      (∀ d, cap_getAdjacency env w b = some d → d.blk ≠ a.blk →
        cap_getAdjacency env w1 d = none ∧
        cap_getAdjacency env w1 (cap_getReverse w1 d) = none) ∧
      (∀ h, w.isCap h → h.blk ≠ a.blk → h.blk ≠ b.blk →
        (∀ c, cap_getAdjacency env w a = some c → h.blk ≠ c.blk) →
        (∀ d, cap_getAdjacency env w b = some d → h.blk ≠ d.blk) →
        cap_getAdjacency env w1 h = cap_getAdjacency env w h) := by
  have hI := hR.inv hE
  have hI1 : Inv env w1 := hI.makeAdjacent hE ha hb hok
  have hbits := cap_makeAdjacent_bits hok
  have hnext := cap_makeAdjacent_next hok
  obtain ⟨ha', hab, -⟩ := hI.strandHandle_spec ha
  obtain ⟨hb', hbb, -⟩ := hI.strandHandle_spec hb
  have hne : a.blk ≠ b.blk := (hI.strandHandle_ne ha hb).1 (cap_makeAdjacent_ok hok).1
  have hI' := hI.breakAdjacency ha'
  have hb'' : (cap_breakAdjacency env w (strandHandle w a)).isCap (strandHandle w b) :=
    isCap_breakAdjacency hb'
  have hF1 := hI.breakAdjacency_stored ha'
  have hF2 := hI'.breakAdjacency_stored hb''
  rw [hab] at hF1
  rw [hbb] at hF2
  -- outside the blocks of `a` and `b` the two final stores change nothing
  have hout : ∀ x, x ≠ a.blk → x ≠ b.blk →
      (w1.contents ⟨x, 2⟩).adjacency
        = ((cap_breakAdjacency env (cap_breakAdjacency env w (strandHandle w a))
            (strandHandle w b)).contents ⟨x, 2⟩).adjacency := by
    intro x hxa hxb
    rw [hI.makeAdjacent_stored ha hb hok, if_neg (by simpa using hxb),
      if_neg (by simpa using hxa)]
  refine ⟨?_, ?_, ?_⟩
  · intro c hc hcb'
    obtain ⟨s, hs, -, hsne, hcc, hcb, -⟩ := hI.adjacency_some ha hc
    refine hI1.adjacency_none_pair (isCap_of_next hnext hcc) ?_
    rw [hout c.blk (by rw [hcb]; exact hsne) hcb']
    apply cap_breakAdjacency_adjacency_none
    rw [hF1, hs]
    simp [hcb]
  · intro d hd hda
    obtain ⟨t, ht, -, htne, hdc, hdb, -⟩ := hI.adjacency_some hb hd
    refine hI1.adjacency_none_pair (isCap_of_next hnext hdc) ?_
    rw [hout d.blk hda (by rw [hdb]; exact htne)]
    have hbt : ((cap_breakAdjacency env w (strandHandle w a)).contents ⟨b.blk, 2⟩).adjacency
        = some t := by
      rw [hF1]
      cases hs : (w.contents ⟨a.blk, 2⟩).adjacency with
      | none => exact ht
      | some s =>
        obtain ⟨-, -, q, hq, hqb, -⟩ := hI.adj a.blk ha.1 s hs
        have h1 : ¬ (b.blk = a.blk ∨ b.blk = s.blk) := by
          rintro (h | h)
          · exact hne h.symm
          · rw [← h, ht] at hq
            simp only [Option.some.injEq] at hq
            subst hq
            exact hda (hdb.trans hqb)
        simp only [h1, if_false]
        exact ht
    rw [hF2, hbt]
    simp [hdb]
  · intro h hh hha hhb hc hd
    have hst : (w1.contents ⟨h.blk, 2⟩).adjacency = (w.contents ⟨h.blk, 2⟩).adjacency := by
      rw [hout h.blk hha hhb, hF2]
      have h1 : ((cap_breakAdjacency env w (strandHandle w a)).contents ⟨h.blk, 2⟩).adjacency
          = (w.contents ⟨h.blk, 2⟩).adjacency := by
        rw [hF1]
        cases hs : (w.contents ⟨a.blk, 2⟩).adjacency with
        | none => rfl
        | some s =>
          obtain ⟨c, hc1, hc2⟩ := hI.adjacency_of_stored ha hs
          have h2 : ¬ (h.blk = a.blk ∨ h.blk = s.blk) := by
            rintro (h3 | h3)
            · exact hha h3
            · exact hc c hc1 (h3.trans hc2.symm)
          simp only [h2, if_false]
      cases ht' : ((cap_breakAdjacency env w (strandHandle w a)).contents
          ⟨b.blk, 2⟩).adjacency with
      | none => exact h1
      | some t =>
        have ht : (w.contents ⟨b.blk, 2⟩).adjacency = some t := by
          rcases cap_breakAdjacency_contents env w (strandHandle w a) ⟨b.blk, 2⟩ with h3 | h3
          · rw [h3] at ht'; exact ht'
          · rw [h3] at ht'; simp at ht'
        obtain ⟨d, hd1, hd2⟩ := hI.adjacency_of_stored hb ht
        have h2 : ¬ (h.blk = b.blk ∨ h.blk = t.blk) := by
          rintro (h3 | h3)
          · exact hhb h3
          · exact hd d hd1 (h3.trans hd2.symm)
        simp only [h2, if_false]
        exact h1
    unfold cap_getAdjacency cap_getP
    rw [cap_getContents_of_bits hbits, hI.contents_eq hh, hst]
    simp only [cap_makeAdjacent_orientation hok, cap_getReverse_of_bits hbits]

/-- C8 on `threeCaps`, where `⟨0, 0⟩` is adjacent to `⟨1, 1⟩`: after
`cap_makeAdjacent` on `⟨0, 0⟩` and `⟨2, 0⟩` both handles of block 1 read null. -/
theorem C8_makeAdjacent_breaks_old_witness :
    cap_getAdjacency sampleEnv threeCaps ⟨0, 0⟩ = some ⟨1, 1⟩ ∧
      cap_makeAdjacent sampleEnv threeCaps ⟨0, 0⟩ ⟨2, 0⟩ = .ok threeCapsRelinked ∧
      cap_getAdjacency sampleEnv threeCapsRelinked ⟨1, 1⟩ = none ∧
      cap_getAdjacency sampleEnv threeCapsRelinked (cap_getReverse threeCapsRelinked ⟨1, 1⟩)
        = none :=
  ⟨by decide, makeAdjacent_threeCaps,
    (C8_makeAdjacent_breaks_old sampleEnv_contract reachable_threeCaps (by decide) (by decide)
      makeAdjacent_threeCaps).1 ⟨1, 1⟩ (by decide) (by decide)⟩

/-! ## C9 and C10: `cap_setCoordinates` and the event-or-sequence tag -/

/-- In a reachable memory the order bits of every allocated block are as
`cap_construct3` set them; no contract of the End is needed for this. -/
theorem Reachable.order {env : Collab} {w : World} (h : Reachable env w) :
    ∀ b, b < w.next → cap_getOrder w ⟨b, 0⟩ = true ∧ cap_getOrder w ⟨b, 1⟩ = false := by
  induction h with
  | empty => intro b hb; exact absurd hb (Nat.not_lt_zero b)
  | @construct3 w0 _ _ n ev e _ hok ih =>
    obtain ⟨-, -, -, rfl, -⟩ := cap_construct3_ok hok
    intro b hb
    rw [cap_construct3_body_next] at hb
    rw [cap_getOrder_construct3_body, cap_getOrder_construct3_body]
    by_cases hbn : b = w0.next
    · simp [hbn]
    · simp only [hbn, if_false]
      exact ih b (by omega)
  | @construct4 w0 _ _ n e c s seq _ _ hok ih =>
    obtain ⟨w2, h3, rfl⟩ := cap_construct4_ok hok
    obtain ⟨-, -, -, rfl, -⟩ := cap_construct3_ok h3
    intro b hb
    rw [cap_setCoordinates_next, cap_construct3_body_next] at hb
    rw [cap_getOrder_setCoordinates, cap_getOrder_setCoordinates, cap_getOrder_construct3_body,
      cap_getOrder_construct3_body]
    by_cases hbn : b = w0.next
    · simp [hbn]
    · simp only [hbn, if_false]
      exact ih b (by omega)
  | setCoordinates cap c s seq _ _ ih =>
    intro b hb
    rw [cap_setCoordinates_next] at hb
    rw [cap_getOrder_setCoordinates, cap_getOrder_setCoordinates]
    exact ih b hb
  | makeAdjacent cap cap2 _ _ _ hok ih =>
    intro b hb
    rw [cap_makeAdjacent_next hok] at hb
    unfold cap_getOrder
    rw [cap_getBit_of_bits (cap_makeAdjacent_bits hok),
      cap_getBit_of_bits (cap_makeAdjacent_bits hok)]
    exact ih b hb
  | breakAdjacency cap _ _ ih =>
    intro b hb
    rw [cap_breakAdjacency_next] at hb
    unfold cap_getOrder
    rw [cap_getBit_of_bits (cap_breakAdjacency_bits ..),
      cap_getBit_of_bits (cap_breakAdjacency_bits ..)]
    exact ih b hb
  | setSegment cap seg _ _ ih => exact ih

/-- Every handle of an allocated pair of a reachable memory is a handle of a
well-formed pair. -/
theorem Reachable.isHandle {env : Collab} {w : World} (hR : Reachable env w) {h : CapPtr}
    (hh : w.isCap h) : w.isHandle h :=
  ⟨hh.2, hR.order h.blk hh.1⟩

theorem isHandle_contents_reverse {w : World} {h : CapPtr} (hh : w.isHandle h) :
    cap_getContents w (cap_getReverse w h) = cap_getContents w h := by
  obtain ⟨b, o⟩ := h
  obtain ⟨rfl | rfl, h0, h1⟩ := hh
  · rw [cap_getReverse_zero h0, cap_getContents_zero h0, cap_getContents_one h1]
  · rw [cap_getReverse_one h1, cap_getContents_zero h0, cap_getContents_one h1]

/-- C9: for every handle `h` of a well-formed pair and every non-null `seq`,
after `cap_setCoordinates(h, c, s, seq)` both `h` and its reverse read
`cap_getSequence == seq` and `cap_getEvent == sequence_getEvent(seq)`,
whatever `h` held before, in particular when it held no sequence. -/
theorem C9_setCoordinates_sequence {w : World} {h : CapPtr} (env : Collab) (c : Int) (s : Bool)
    {seq : Ptr} (hh : w.isHandle h) (hseq : seq ≠ NULL) :
    cap_getSequence (cap_setCoordinates w h c s seq) h = seq ∧
      cap_getEvent env (cap_setCoordinates w h c s seq) h = env.sequence_getEvent seq ∧
      cap_getSequence (cap_setCoordinates w h c s seq)
        (cap_getReverse (cap_setCoordinates w h c s seq) h) = seq ∧
      cap_getEvent env (cap_setCoordinates w h c s seq)
        (cap_getReverse (cap_setCoordinates w h c s seq) h) = env.sequence_getEvent seq := by
  have hc := isHandle_contents_reverse hh
  unfold cap_getSequence cap_getEvent
  simp only [cap_getHasEventNotSequence_setCoordinates, cap_getContents_setCoordinates,
    cap_getReverse_setCoordinates, cap_setCoordinates_contents, hc]
  simp [hseq]

/-- C9 at the handle `⟨0, 0⟩` of `oneCap`, which has no sequence, with
Sequence 50 of Event 150. -/
theorem C9_setCoordinates_sequence_witness :
    cap_getSequence oneCap ⟨0, 0⟩ = NULL ∧
      cap_getSequence (cap_setCoordinates oneCap ⟨0, 0⟩ 5 true 50) ⟨0, 0⟩ = 50 ∧
      cap_getEvent sampleEnv (cap_setCoordinates oneCap ⟨0, 0⟩ 5 true 50) ⟨0, 0⟩
        = sampleEnv.sequence_getEvent 50 ∧
      cap_getSequence (cap_setCoordinates oneCap ⟨0, 0⟩ 5 true 50)
        (cap_getReverse (cap_setCoordinates oneCap ⟨0, 0⟩ 5 true 50) ⟨0, 0⟩) = 50 ∧
      cap_getEvent sampleEnv (cap_setCoordinates oneCap ⟨0, 0⟩ 5 true 50)
        (cap_getReverse (cap_setCoordinates oneCap ⟨0, 0⟩ 5 true 50) ⟨0, 0⟩)
        = sampleEnv.sequence_getEvent 50 :=
  ⟨by decide, C9_setCoordinates_sequence sampleEnv 5 true (by decide) (by decide)⟩

theorem cap_getSequence_setCoordinates_ne_null {w : World} {h : CapPtr} (cap : CapPtr)
    (c : Int) (s : Bool) (seq : Ptr) (hne : cap_getSequence w h ≠ NULL) :
    cap_getSequence (cap_setCoordinates w cap c s seq) h ≠ NULL := by
  unfold cap_getSequence at hne ⊢
  rw [cap_getHasEventNotSequence_setCoordinates, cap_getContents_setCoordinates,
    cap_setCoordinates_contents]
  cases ht : cap_getHasEventNotSequence w h
  · simp only [ht, Bool.false_eq_true, if_false] at hne
    by_cases hq : cap_getContents w h = cap_getContents w cap
    · rw [hq] at hne
      by_cases hs : seq = NULL <;> simp [hs, hq, hne]
    · by_cases hs : seq = NULL <;> simp [hs, hq, hne]
  · simp [ht] at hne

theorem cap_getSequence_setCoordinatesCalls_ne_null (calls : List (CapPtr × Int × Bool × Ptr)) :
    ∀ (w : World) (h : CapPtr), cap_getSequence w h ≠ NULL →
      cap_getSequence (setCoordinatesCalls w calls) h ≠ NULL := by
  induction calls with
  | nil => intro w h hne; exact hne
  | cons call rest ih =>
    intro w h hne
    exact ih _ h (cap_getSequence_setCoordinates_ne_null call.1 call.2.1 call.2.2.1 call.2.2.2 hne)

/-- C10: in any memory, `cap_setCoordinates(h, c, s, NULL)` leaves
`cap_getSequence(h)` and `cap_getEvent(h)` unchanged, and once
`cap_getSequence(h)` is not null no run of `cap_setCoordinates` calls, on
whatever handles and with whatever arguments, makes it null again. -/
theorem C10_setCoordinates_null_keeps (env : Collab) (w : World) (h : CapPtr) :
    (∀ (c : Int) (s : Bool),
        cap_getSequence (cap_setCoordinates w h c s NULL) h = cap_getSequence w h ∧
        cap_getEvent env (cap_setCoordinates w h c s NULL) h = cap_getEvent env w h) ∧
      (∀ calls : List (CapPtr × Int × Bool × Ptr), cap_getSequence w h ≠ NULL →
        cap_getSequence (setCoordinatesCalls w calls) h ≠ NULL) := by
  refine ⟨?_, fun calls hne => cap_getSequence_setCoordinatesCalls_ne_null calls w h hne⟩
  intro c s
  unfold cap_getSequence cap_getEvent
  simp only [cap_getHasEventNotSequence_setCoordinates, cap_getContents_setCoordinates,
    cap_setCoordinates_contents]
  by_cases hq : cap_getContents w h = cap_getContents w h <;> simp

/-- C10 on `capWithSequence`, whose handle `⟨0, 0⟩` has Sequence 50: a call
with a null sequence on the handle, one on its reverse with the unset
coordinate, and one with Sequence 60 leave a sequence attached. -/
theorem C10_setCoordinates_null_keeps_witness :
    cap_getSequence capWithSequence ⟨0, 0⟩ = 50 ∧
      cap_getSequence (cap_setCoordinates capWithSequence ⟨0, 0⟩ 9 false NULL) ⟨0, 0⟩ = 50 ∧
      cap_getSequence
        (setCoordinatesCalls capWithSequence
          [(⟨0, 0⟩, 9, false, NULL), (⟨0, 1⟩, INT64_MAX, true, NULL), (⟨0, 0⟩, 3, true, 60)])
        ⟨0, 0⟩ ≠ NULL :=
  ⟨by decide,
    ((C10_setCoordinates_null_keeps sampleEnv capWithSequence ⟨0, 0⟩).1 9 false).1.trans
      (by decide),
    (C10_setCoordinates_null_keeps sampleEnv capWithSequence ⟨0, 0⟩).2 _ (by decide)⟩

/-! ## C11: the frame of `cap_setCoordinates` -/

theorem cap_getReverse_ne_self (w : World) (h : CapPtr) : cap_getReverse w h ≠ h := by
  obtain ⟨b, o⟩ := h
  unfold cap_getReverse CapPtr.add
  by_cases ho : cap_getOrder w ⟨b, o⟩ <;> simp [ho]

theorem cap_setCoordinates_fields (w : World) (cap q : CapPtr) (c : Int) (s : Bool)
    (seq : Ptr) :
    ((cap_setCoordinates w cap c s seq).contents q).instanceName = (w.contents q).instanceName ∧
      ((cap_setCoordinates w cap c s seq).contents q).adjacency = (w.contents q).adjacency ∧
      ((cap_setCoordinates w cap c s seq).contents q).segment = (w.contents q).segment ∧
      ((cap_setCoordinates w cap c s seq).contents q).endPtr = (w.contents q).endPtr := by
  rw [cap_setCoordinates_contents]
  by_cases h : q = cap_getContents w cap
  · rw [if_pos h]; exact ⟨rfl, rfl, rfl, rfl⟩
  · rw [if_neg h]; exact ⟨rfl, rfl, rfl, rfl⟩

theorem cap_getOrientation_setCoordinates (env : Collab) (w : World) (cap p : CapPtr) (c : Int)
    (s : Bool) (seq : Ptr) :
    cap_getOrientation env (cap_setCoordinates w cap c s seq) p = cap_getOrientation env w p :=
  cap_getOrientation_congr env (cap_getOrder_setCoordinates ..)
    (cap_setCoordinates_fields w cap _ c s seq).2.2.2

/-- C11: for every handle `h` of a well-formed pair, after
`cap_setCoordinates(h, c, s, seq)` the coordinate read from `h` and from its
reverse is `c`, the strand of `h` is `s` and that of its reverse is `!s`,
and the name, End, adjacency, segment, reverse and orientation of `h` are what
they were. -/
theorem C11_setCoordinates_frame (env : Collab) {w : World} {h : CapPtr} (c : Int) (s : Bool)
    (seq : Ptr) (hh : w.isHandle h) :
    cap_getCoordinate (cap_setCoordinates w h c s seq) h = c ∧
      cap_getStrand (cap_setCoordinates w h c s seq) h = s ∧
      cap_getCoordinate (cap_setCoordinates w h c s seq)
        (cap_getReverse (cap_setCoordinates w h c s seq) h) = c ∧
      cap_getStrand (cap_setCoordinates w h c s seq)
        (cap_getReverse (cap_setCoordinates w h c s seq) h) = (!s) ∧
      cap_getName (cap_setCoordinates w h c s seq) h = cap_getName w h ∧
      cap_getEnd env (cap_setCoordinates w h c s seq) h = cap_getEnd env w h ∧
      cap_getAdjacency env (cap_setCoordinates w h c s seq) h = cap_getAdjacency env w h ∧
      cap_getSegment env (cap_setCoordinates w h c s seq) h = cap_getSegment env w h ∧
      cap_getReverse (cap_setCoordinates w h c s seq) h = cap_getReverse w h ∧
      cap_getOrientation env (cap_setCoordinates w h c s seq) h
        = cap_getOrientation env w h := by
  have hc := isHandle_contents_reverse hh
  have hne : h ≠ cap_getReverse w h := fun e => cap_getReverse_ne_self w h e.symm
  have hf := cap_setCoordinates_fields w h (cap_getContents w h) c s seq
  have ho := cap_getOrientation_setCoordinates env w h h c s seq
  refine ⟨?_, ?_, ?_, ?_, ?_, ?_, ?_, ?_, cap_getReverse_setCoordinates .., ho⟩
  · unfold cap_getCoordinate
    rw [cap_getContents_setCoordinates, cap_setCoordinates_contents, if_pos rfl]
  · rw [cap_getStrand_setCoordinates, if_neg hne, if_pos rfl]
  · unfold cap_getCoordinate
    rw [cap_getReverse_setCoordinates, cap_getContents_setCoordinates, hc,
      cap_setCoordinates_contents, if_pos rfl]
  · rw [cap_getReverse_setCoordinates, cap_getStrand_setCoordinates, if_pos rfl]
  · unfold cap_getName
    rw [cap_getContents_setCoordinates, hf.1]
  · exact cap_getEnd_congr env (cap_getOrder_setCoordinates ..) hf.2.2.2
  · unfold cap_getAdjacency cap_getP
    rw [cap_getContents_setCoordinates, hf.2.1, ho]
    simp only [cap_getReverse_setCoordinates]
  · unfold cap_getSegment
    rw [cap_getContents_setCoordinates, hf.2.2.1, ho]

/-- C11 at the handle `⟨0, 0⟩` of `oneCap`, set to coordinate 5, strand false
and Sequence 50. -/
theorem C11_setCoordinates_frame_witness :
    oneCap.isHandle ⟨0, 0⟩ ∧
      cap_getCoordinate (cap_setCoordinates oneCap ⟨0, 0⟩ 5 false 50) ⟨0, 0⟩ = 5 ∧
      cap_getStrand (cap_setCoordinates oneCap ⟨0, 0⟩ 5 false 50) ⟨0, 0⟩ = false ∧
      cap_getCoordinate (cap_setCoordinates oneCap ⟨0, 0⟩ 5 false 50)
        (cap_getReverse (cap_setCoordinates oneCap ⟨0, 0⟩ 5 false 50) ⟨0, 0⟩) = 5 ∧
      cap_getStrand (cap_setCoordinates oneCap ⟨0, 0⟩ 5 false 50)
        (cap_getReverse (cap_setCoordinates oneCap ⟨0, 0⟩ 5 false 50) ⟨0, 0⟩) = (!false) :=
  ⟨by decide, (C11_setCoordinates_frame sampleEnv 5 false 50 (by decide)).1,
    (C11_setCoordinates_frame sampleEnv 5 false 50 (by decide)).2.1,
    (C11_setCoordinates_frame sampleEnv 5 false 50 (by decide)).2.2.1,
    (C11_setCoordinates_frame sampleEnv 5 false 50 (by decide)).2.2.2.1⟩

/-! ## C17: the closing assertions of `cap_construct3` -/

/-- What the handles of the block that `cap_construct3` fills read. -/
theorem cap_construct3_body_new (env : Collab) (w : World) (n : Name) (ev e : Ptr) :
    cap_getOrder (cap_construct3_body env w n ev e).1 ⟨w.next, 0⟩ = true ∧
      cap_getOrder (cap_construct3_body env w n ev e).1 ⟨w.next, 1⟩ = false ∧
      cap_getContents (cap_construct3_body env w n ev e).1 ⟨w.next, 0⟩ = ⟨w.next, 2⟩ ∧
      cap_getContents (cap_construct3_body env w n ev e).1 ⟨w.next, 1⟩ = ⟨w.next, 2⟩ ∧
      cap_getReverse (cap_construct3_body env w n ev e).1 ⟨w.next, 0⟩ = ⟨w.next, 1⟩ ∧
      cap_getReverse (cap_construct3_body env w n ev e).1 ⟨w.next, 1⟩ = ⟨w.next, 0⟩ ∧
      (cap_construct3_body env w n ev e).1.contents ⟨w.next, 2⟩
        = ⟨n, INT64_MAX, ev, none, NULL, e, none⟩ := by
  have h0 : cap_getOrder (cap_construct3_body env w n ev e).1 ⟨w.next, 0⟩ = true := by
    rw [cap_getOrder_construct3_body]; simp
  have h1 : cap_getOrder (cap_construct3_body env w n ev e).1 ⟨w.next, 1⟩ = false := by
    rw [cap_getOrder_construct3_body]; simp
  refine ⟨h0, h1, cap_getContents_zero h0, cap_getContents_one h1, cap_getReverse_zero h0,
    cap_getReverse_one h1, ?_⟩
  rw [cap_construct3_body_contents, if_pos rfl]

theorem cap_construct3_body_endInstances (env : Collab) (w : World) (n : Name) (ev e : Ptr) :
    (cap_construct3_body env w n ev e).1.endInstances = (e, ⟨w.next, 0⟩) :: w.endInstances :=
  rfl

theorem cap_construct3_body_flowerCaps (env : Collab) (w : World) (n : Name) (ev e : Ptr) :
    (cap_construct3_body env w n ev e).1.flowerCaps
      = (env.end_getFlower e, ⟨w.next, 0⟩) :: w.flowerCaps :=
  rfl

theorem EndContract.end_getReverse_ne {env : Collab} (hE : EndContract env) {e : Ptr} (he : e ≠ NULL) :
    env.end_getReverse e ≠ e := by
  intro h
  have := hE e he
  rw [h] at this
  cases hh : env.end_getOrientation e <;> simp [hh] at this

/-- The closing assertions of `cap_construct3` hold. -/
theorem cap_construct3_asserts_hold {env : Collab} (hE : EndContract env) (w : World) (n : Name)
    (ev : Ptr) {e : Ptr} (he : e ≠ NULL) :
    cap_construct3_asserts env (cap_construct3_body env w n ev e).1
      (cap_construct3_body env w n ev e).2 n ev e = true := by
  obtain ⟨h0, h1, hc0, hc1, hr0, hr1, hct⟩ := cap_construct3_body_new env w n ev e
  have hne := hE.end_getReverse_ne he
  have ht0 : cap_getHasEventNotSequence (cap_construct3_body env w n ev e).1 ⟨w.next, 0⟩
      = true := by
    rw [cap_getHasEventNotSequence_construct3_body]; simp
  have ht1 : cap_getHasEventNotSequence (cap_construct3_body env w n ev e).1 ⟨w.next, 1⟩
      = true := by
    rw [cap_getHasEventNotSequence_construct3_body]; simp
  have hs0 : cap_getStrand (cap_construct3_body env w n ev e).1 ⟨w.next, 0⟩
      = env.end_getOrientation e := by
    rw [cap_getStrand_construct3_body]; simp
  have hs1 : cap_getStrand (cap_construct3_body env w n ev e).1 ⟨w.next, 1⟩
      = env.end_getOrientation (env.end_getReverse e) := by
    rw [cap_getStrand_construct3_body]; simp
  have h1' : cap_getOrder (cap_construct3_body env w n ev e).1 ⟨w.next, 0 + 1⟩ = false := h1
  rw [cap_construct3_body_snd]
  unfold cap_construct3_asserts
  simp [cap_getName, cap_getCoordinate, cap_getSequence, cap_getAdjacency, cap_getP,
    cap_getSegment, cap_getEvent, cap_getEnd, cap_getOrientation, cap_getPositiveOrientation,
    end_getInstance, flower_getCap, cap_construct3_body_endInstances,
    cap_construct3_body_flowerCaps, CapPtr.add, List.find?,
    h0, h1, h1', hc0, hc1, hr0, hr1, hct, ht0, ht1, hs0, hs1, hne, hne.symm]

/-- C17: under the preconditions of `cap_construct3` (non-null End, non-null
Event, a name other than `NULL_NAME`) and with an End whose reverse has the
opposite orientation, `cap_construct3` passes every closing assertion and
returns a handle `h` with the given name, the unset coordinate, no sequence,
no adjacency, no segment, the given event, `cap_getEnd(h) == end` and
`cap_getStrand(h) == end_getOrientation(end)`; its reverse has the same name,
coordinate and event and the End `end_getReverse(end)`; both handles are found
by name in their Ends, and `flower_getCap(name)` is
`cap_getPositiveOrientation(h)`. -/
theorem C17_construct3_postconditions {env : Collab} (hE : EndContract env) (w : World)
    {n : Name} {ev e : Ptr} (he : e ≠ NULL) (hev : ev ≠ NULL) (hn : n ≠ env.NULL_NAME) :
    ∃ w1 h, cap_construct3 env w n ev e = .ok (w1, h) ∧
      cap_construct3_asserts env w1 h n ev e = true ∧
      cap_getName w1 h = n ∧ cap_getCoordinate w1 h = INT64_MAX ∧
      cap_getSequence w1 h = NULL ∧ cap_getAdjacency env w1 h = none ∧
      cap_getSegment env w1 h = NULL ∧ cap_getEvent env w1 h = ev ∧
      cap_getEnd env w1 h = e ∧ cap_getStrand w1 h = env.end_getOrientation e ∧
      cap_getName w1 (cap_getReverse w1 h) = n ∧
      cap_getCoordinate w1 (cap_getReverse w1 h) = INT64_MAX ∧
      cap_getEvent env w1 (cap_getReverse w1 h) = ev ∧
      cap_getEnd env w1 (cap_getReverse w1 h) = env.end_getReverse e ∧
      end_getInstance env w1 e n = some h ∧
      end_getInstance env w1 (env.end_getReverse e) n = some (cap_getReverse w1 h) ∧
      flower_getCap env w1 (env.end_getFlower e) n
        = some (cap_getPositiveOrientation env w1 h) := by
  have ha := cap_construct3_asserts_hold hE w n ev he
  refine ⟨_, _, cap_construct3_of_asserts he hev hn ha, ha, ?_⟩
  unfold cap_construct3_asserts at ha
  simp only [Bool.and_eq_true, decide_eq_true_eq, beq_iff_eq] at ha
  tauto

/-- C17 for the first cap of the empty memory: name 1, Event 7, End 2. -/
theorem C17_construct3_postconditions_witness :
    ∃ w1 h, cap_construct3 sampleEnv World.empty 1 7 2 = .ok (w1, h) ∧
      cap_construct3_asserts sampleEnv w1 h 1 7 2 = true ∧
      cap_getName w1 h = 1 ∧ cap_getCoordinate w1 h = INT64_MAX ∧
      cap_getSequence w1 h = NULL ∧ cap_getAdjacency sampleEnv w1 h = none ∧
      cap_getSegment sampleEnv w1 h = NULL ∧ cap_getEvent sampleEnv w1 h = 7 ∧
      cap_getEnd sampleEnv w1 h = 2 ∧ cap_getStrand w1 h = sampleEnv.end_getOrientation 2 ∧
      cap_getName w1 (cap_getReverse w1 h) = 1 ∧
      cap_getCoordinate w1 (cap_getReverse w1 h) = INT64_MAX ∧
      cap_getEvent sampleEnv w1 (cap_getReverse w1 h) = 7 ∧
      cap_getEnd sampleEnv w1 (cap_getReverse w1 h) = sampleEnv.end_getReverse 2 ∧
      end_getInstance sampleEnv w1 2 1 = some h ∧
      end_getInstance sampleEnv w1 (sampleEnv.end_getReverse 2) 1
        = some (cap_getReverse w1 h) ∧
      flower_getCap sampleEnv w1 (sampleEnv.end_getFlower 2) 1
        = some (cap_getPositiveOrientation sampleEnv w1 h) :=
  C17_construct3_postconditions sampleEnv_contract World.empty (by decide) (by decide)
    (by decide)

/-! ## C18: `cap_getEnd` -/

/-- C18, as stated, fails: block 1 of `capsOpposite` was constructed on the
negatively oriented End 5, which is the End stored in its payload.  The handle
`⟨1, 0⟩` is not positively oriented and yet `cap_getEnd` gives the stored End 5,
not its reverse 4; the handle `⟨1, 1⟩` is positively oriented and `cap_getEnd`
gives End 4, the reverse of the stored End. -/
theorem C18_counterexample :
    Reachable sampleEnv capsOpposite ∧ EndContract sampleEnv ∧
      (capsOpposite.contents (cap_getContents capsOpposite ⟨1, 0⟩)).endPtr = 5 ∧
      cap_getOrientation sampleEnv capsOpposite ⟨1, 0⟩ = false ∧
      cap_getEnd sampleEnv capsOpposite ⟨1, 0⟩ = 5 ∧
      cap_getEnd sampleEnv capsOpposite ⟨1, 0⟩ ≠ sampleEnv.end_getReverse 5 ∧
      (capsOpposite.contents (cap_getContents capsOpposite ⟨1, 1⟩)).endPtr = 5 ∧
      cap_getOrientation sampleEnv capsOpposite ⟨1, 1⟩ = true ∧
      cap_getEnd sampleEnv capsOpposite ⟨1, 1⟩ = 4 ∧
      cap_getEnd sampleEnv capsOpposite ⟨1, 1⟩ ≠ 5 :=
  ⟨reachable_capsOpposite, sampleEnv_contract, by decide, by decide, by decide, by decide,
    by decide, by decide, by decide, by decide⟩

/-- C18 (amended): in a reachable memory, `cap_getEnd(h)` goes by the order bit
of `h`: it is the End stored in the payload for the first handle of a pair
(offset 0, order bit set), which is the handle that `cap_construct3` returns,
and the reverse of the stored End for the second handle (offset 1, order bit
clear).  The stored End is the End handed to `cap_construct3`, whatever its
orientation.  So `cap_getEnd(h)` is the stored End if `h` has the orientation
of the stored End, and otherwise its reverse. -/
theorem C18_getEnd_by_order_bit {env : Collab} {w : World} {h : CapPtr}
    (hE : EndContract env) (hR : Reachable env w) (hh : w.isCap h) :
    (h.off = 0 → cap_getOrder w h = true ∧
        cap_getEnd env w h = (w.contents (cap_getContents w h)).endPtr) ∧
      (h.off = 1 → cap_getOrder w h = false ∧
        cap_getEnd env w h = env.end_getReverse (w.contents (cap_getContents w h)).endPtr) ∧
      (∀ n ev e w1 c, cap_construct3 env w n ev e = .ok (w1, c) →
        c.off = 0 ∧ (w1.contents (cap_getContents w1 c)).endPtr = e ∧
          cap_getEnd env w1 c = e ∧
          cap_getEnd env w1 (cap_getReverse w1 c) = env.end_getReverse e) ∧
      (cap_getOrientation env w h
          = env.end_getOrientation (w.contents (cap_getContents w h)).endPtr →
        cap_getEnd env w h = (w.contents (cap_getContents w h)).endPtr) ∧
      (cap_getOrientation env w h
          ≠ env.end_getOrientation (w.contents (cap_getContents w h)).endPtr →
        cap_getEnd env w h = env.end_getReverse (w.contents (cap_getContents w h)).endPtr) := by
  have hI := hR.inv hE
  have hn := hI.endNotNull h.blk hh.1
  rw [← hI.contents_eq hh] at hn
  have hflip := hE _ hn
  refine ⟨?_, ?_, ?_, ?_⟩
  · intro h0
    obtain ⟨b, o⟩ := h
    simp only at h0
    subst h0
    have ho := hI.order0 b hh.1
    exact ⟨ho, by unfold cap_getEnd; rw [ho]; rfl⟩
  · intro h1
    obtain ⟨b, o⟩ := h
    simp only at h1
    subst h1
    have ho := hI.order1 b hh.1
    exact ⟨ho, by unfold cap_getEnd; rw [ho]; rfl⟩
  · intro n ev e w1 c hok
    obtain ⟨-, -, -, rfl, rfl⟩ := cap_construct3_ok hok
    obtain ⟨h0, h1, hc0, hc1, hr0, -, hct⟩ := cap_construct3_body_new env w n ev e
    refine ⟨rfl, by rw [hc0, hct], ?_, ?_⟩
    · unfold cap_getEnd
      rw [h0, hc0, hct]; rfl
    · rw [hr0]
      unfold cap_getEnd
      rw [h1, hc1, hct]; rfl
  · unfold cap_getOrientation cap_getEnd
    cases ho : cap_getOrder w h
    · simp only [Bool.false_eq_true, if_false, hflip]
      constructor
      · intro h1
        cases hx : env.end_getOrientation (w.contents (cap_getContents w h)).endPtr <;>
          simp [hx] at h1
      · intro _; trivial
    · simp

/-- C18 (amended) at the handles of block 1 of `capsOpposite`, built on the
negatively oriented End 5, and for `cap_construct3` on End 5 in `oneCap`. -/
theorem C18_getEnd_by_order_bit_witness :
    cap_getOrientation sampleEnv capsOpposite ⟨1, 0⟩ = false ∧
      cap_getEnd sampleEnv capsOpposite ⟨1, 0⟩
        = (capsOpposite.contents (cap_getContents capsOpposite ⟨1, 0⟩)).endPtr ∧
      cap_getOrientation sampleEnv capsOpposite ⟨1, 1⟩ = true ∧
      cap_getEnd sampleEnv capsOpposite ⟨1, 1⟩
        = sampleEnv.end_getReverse
            (capsOpposite.contents (cap_getContents capsOpposite ⟨1, 1⟩)).endPtr ∧
      cap_getEnd sampleEnv capsOpposite ⟨1, 0⟩ = 5 :=
  ⟨by decide,
    ((C18_getEnd_by_order_bit sampleEnv_contract reachable_capsOpposite
      (by decide : capsOpposite.isCap ⟨1, 0⟩)).1 rfl).2,
    by decide,
    ((C18_getEnd_by_order_bit sampleEnv_contract reachable_capsOpposite
      (by decide : capsOpposite.isCap ⟨1, 1⟩)).2.1 rfl).2,
    ((C18_getEnd_by_order_bit sampleEnv_contract reachable_oneCap
      (by decide : oneCap.isCap ⟨0, 0⟩)).2.2.1 2 7 5 capsOpposite ⟨1, 0⟩ rfl).2.2.1⟩

/-! ## C14: the records that `cap_writeBinaryRepresentation` writes -/

theorem codes_ne {env : Collab} (hC : CodesDistinct env) :
    env.CODE_CAP ≠ env.CODE_CAP_WITH_COORDINATES ∧
      env.CODE_CAP ≠ env.CODE_CAP_WITH_COORDINATES_BUT_NO_SEQUENCE ∧
      env.CODE_CAP_WITH_COORDINATES ≠ env.CODE_CAP_WITH_COORDINATES_BUT_NO_SEQUENCE ∧
      env.CODE_ADJACENCY ≠ env.CODE_PARENT := by
  unfold CodesDistinct at hC
  simp only [List.nodup_cons, List.mem_cons, List.mem_singleton, not_or, List.not_mem_nil,
    not_false_eq_true, List.nodup_nil, and_true] at hC
  tauto

theorem sampleEnv_codes : CodesDistinct sampleEnv := by
  unfold CodesDistinct
  decide

/-- C14: `cap_writeBinaryRepresentation` writes a primary record followed by a
relation record.  The primary record is the bare one (`CODE_CAP`, name, strand,
event name) when the coordinate is `INT64_MAX`; otherwise the with-sequence
one when a sequence is attached, and otherwise the no-sequence one; with
pairwise different codes its tag says which case holds.  The relation record is
`CODE_ADJACENCY` with the partner's name when `cap_getAdjacency` is not null,
and nothing otherwise; `cap_getParent` is always null and no parent record is
written. -/
theorem C14_write_record_shapes {env : Collab} (hC : CodesDistinct env) (w : World)
    (h : CapPtr) :
    ∃ primary relation, cap_writeBinaryRepresentation env w h = primary ++ relation ∧
      (cap_getCoordinate w h = INT64_MAX →
        primary = [Elem.elementType env.CODE_CAP, Elem.name (cap_getName w h),
          Elem.bool (cap_getStrand w h), Elem.name (env.event_getName (cap_getEvent env w h))]) ∧
      (cap_getCoordinate w h ≠ INT64_MAX → cap_getSequence w h ≠ NULL →
        primary = [Elem.elementType env.CODE_CAP_WITH_COORDINATES, Elem.name (cap_getName w h),
          Elem.integer (cap_getCoordinate w h), Elem.bool (cap_getStrand w h),
          Elem.name (env.sequence_getName (cap_getSequence w h))]) ∧
      (cap_getCoordinate w h ≠ INT64_MAX → cap_getSequence w h = NULL →
        primary = [Elem.elementType env.CODE_CAP_WITH_COORDINATES_BUT_NO_SEQUENCE,
          Elem.name (cap_getName w h), Elem.integer (cap_getCoordinate w h),
          Elem.bool (cap_getStrand w h), Elem.name (env.event_getName (cap_getEvent env w h))]) ∧
      (binaryRepresentation_peekNextElementType primary = some env.CODE_CAP ↔
        cap_getCoordinate w h = INT64_MAX) ∧
      (binaryRepresentation_peekNextElementType primary = some env.CODE_CAP_WITH_COORDINATES ↔
        cap_getCoordinate w h ≠ INT64_MAX ∧ cap_getSequence w h ≠ NULL) ∧
      (binaryRepresentation_peekNextElementType primary
          = some env.CODE_CAP_WITH_COORDINATES_BUT_NO_SEQUENCE ↔
        cap_getCoordinate w h ≠ INT64_MAX ∧ cap_getSequence w h = NULL) ∧
      (∀ c, cap_getAdjacency env w h = some c →
        relation = [Elem.elementType env.CODE_ADJACENCY, Elem.name (cap_getName w c)]) ∧
      (cap_getAdjacency env w h = none → relation = []) ∧
      cap_getParent w h = none := by
  obtain ⟨h12, h13, h23, -⟩ := codes_ne hC
  refine ⟨cap_writePrimaryRecord env w h,
    (match cap_getAdjacency env w h with
      | some cap2 => cap_writeBinaryRepresentationP w cap2 env.CODE_ADJACENCY
      | none => []), ?_, ?_, ?_, ?_, ?_, ?_, ?_, ?_, ?_, rfl⟩
  · unfold cap_writeBinaryRepresentation cap_getParent
    cases cap_getAdjacency env w h <;> simp
  · intro hc
    simp [cap_writePrimaryRecord, hc, binaryRepresentation_writeElementType,
      binaryRepresentation_writeName, binaryRepresentation_writeBool]
  · intro hc hs
    simp [cap_writePrimaryRecord, hc, hs, binaryRepresentation_writeElementType,
      binaryRepresentation_writeName, binaryRepresentation_writeBool,
      binaryRepresentation_writeInteger]
  · intro hc hs
    simp [cap_writePrimaryRecord, hc, hs, binaryRepresentation_writeElementType,
      binaryRepresentation_writeName, binaryRepresentation_writeBool,
      binaryRepresentation_writeInteger]
  · by_cases hc : cap_getCoordinate w h = INT64_MAX <;>
      by_cases hs : cap_getSequence w h = NULL <;>
      simp [cap_writePrimaryRecord, hc, hs, binaryRepresentation_writeElementType,
        binaryRepresentation_peekNextElementType, h12.symm, h13.symm]
  · by_cases hc : cap_getCoordinate w h = INT64_MAX <;>
      by_cases hs : cap_getSequence w h = NULL <;>
      simp [cap_writePrimaryRecord, hc, hs, binaryRepresentation_writeElementType,
        binaryRepresentation_peekNextElementType, h12, h23.symm]
  · by_cases hc : cap_getCoordinate w h = INT64_MAX <;>
      by_cases hs : cap_getSequence w h = NULL <;>
      simp [cap_writePrimaryRecord, hc, hs, binaryRepresentation_writeElementType,
        binaryRepresentation_peekNextElementType, h13, h23]
  · intro c hc
    simp [hc, cap_writeBinaryRepresentationP, binaryRepresentation_writeElementType,
      binaryRepresentation_writeName]
  · intro hc
    simp [hc]

/-- C14 at the handle `⟨0, 0⟩` of `capsOppositeLinked`: the bare record and the
adjacency record naming cap 2. -/
theorem C14_write_record_shapes_witness :
    cap_writeBinaryRepresentation sampleEnv capsOppositeLinked ⟨0, 0⟩
      = [Elem.elementType 1, Elem.name 1, Elem.bool true, Elem.name 7,
          Elem.elementType 4, Elem.name 2] ∧
      ∃ primary relation,
        cap_writeBinaryRepresentation sampleEnv capsOppositeLinked ⟨0, 0⟩ = primary ++ relation ∧
        (binaryRepresentation_peekNextElementType primary = some sampleEnv.CODE_CAP ↔
          cap_getCoordinate capsOppositeLinked ⟨0, 0⟩ = INT64_MAX) :=
  ⟨by decide,
    (C14_write_record_shapes sampleEnv_codes capsOppositeLinked ⟨0, 0⟩).imp fun _ hp =>
      hp.imp fun _ hr => ⟨hr.1, hr.2.2.2.2.1⟩⟩

/-! ## Decoding what the writer wrote -/

theorem cap_writeBinaryRepresentation_eq (env : Collab) (w : World) (h : CapPtr) :
    cap_writeBinaryRepresentation env w h
      = cap_writePrimaryRecord env w h ++ cap_writeRelationRecord env w h := by
  unfold cap_writeBinaryRepresentation cap_writeRelationRecord cap_getParent
  cases cap_getAdjacency env w h <;> simp

theorem cap_writeRelationRecord_of_some {env : Collab} {w : World} {h c : CapPtr}
    (hadj : cap_getAdjacency env w h = some c) :
    cap_writeRelationRecord env w h
      = [Elem.elementType env.CODE_ADJACENCY, Elem.name (cap_getName w c)] := by
  simp [cap_writeRelationRecord, hadj, cap_writeBinaryRepresentationP,
    binaryRepresentation_writeElementType, binaryRepresentation_writeName]

theorem cap_writeRelationRecord_of_none {env : Collab} {w : World} {h : CapPtr}
    (hadj : cap_getAdjacency env w h = none) : cap_writeRelationRecord env w h = [] := by
  simp [cap_writeRelationRecord, hadj]

/-- Reading the primary record written for `h`: the constructor is called with
the name of `h` and the looked-up Event. -/
theorem cap_load_primary_fail {env : Collab} (hC : CodesDistinct env) (w : World) (h : CapPtr)
    (wt : World) (e : Ptr) (tail : List Elem) {x : World}
    (h3 : cap_construct3 env wt (cap_getName w h) (decodedEvent env (env.end_getFlower e) w h) e
      = .assertFail x) :
    cap_loadFromBinaryRepresentation env wt (cap_writePrimaryRecord env w h ++ tail) e
      = .assertFail x := by
  obtain ⟨h12, h13, h23, -⟩ := codes_ne hC
  unfold decodedEvent decodedSequence at h3
  by_cases hc : cap_getCoordinate w h = INT64_MAX
  · simp only [hc, ne_eq, not_true_eq_false, false_and, if_false] at h3
    simp [cap_loadFromBinaryRepresentation, cap_writePrimaryRecord, hc,
      binaryRepresentation_writeElementType, binaryRepresentation_writeName,
      binaryRepresentation_writeBool, binaryRepresentation_peekNextElementType,
      binaryRepresentation_popNextElementType, binaryRepresentation_getName,
      binaryRepresentation_getBool, h3]
  · by_cases hs : cap_getSequence w h = NULL
    · simp only [hs, ne_eq, not_true_eq_false, and_false, if_false] at h3
      simp [cap_loadFromBinaryRepresentation, cap_writePrimaryRecord, hc, hs,
        binaryRepresentation_writeElementType, binaryRepresentation_writeName,
        binaryRepresentation_writeBool, binaryRepresentation_writeInteger,
        binaryRepresentation_peekNextElementType, binaryRepresentation_getInteger,
        binaryRepresentation_popNextElementType, binaryRepresentation_getName,
        binaryRepresentation_getBool, h3, h13.symm, h23.symm]
    · simp only [hc, hs, ne_eq, not_false_eq_true, and_self, if_true] at h3
      simp [cap_loadFromBinaryRepresentation, cap_writePrimaryRecord, hc, hs,
        binaryRepresentation_writeElementType, binaryRepresentation_writeName,
        binaryRepresentation_writeBool, binaryRepresentation_writeInteger,
        binaryRepresentation_peekNextElementType, binaryRepresentation_getInteger,
        binaryRepresentation_popNextElementType, binaryRepresentation_getName,
        binaryRepresentation_getBool, cap_construct4, h3, h12.symm]

theorem cap_load_primary_ok {env : Collab} (hC : CodesDistinct env) (w : World) (h : CapPtr)
    (wt : World) (e : Ptr) (tail : List Elem) {w1 : World} {cap : CapPtr}
    (h3 : cap_construct3 env wt (cap_getName w h) (decodedEvent env (env.end_getFlower e) w h) e
      = .ok (w1, cap)) :
    cap_loadFromBinaryRepresentation env wt (cap_writePrimaryRecord env w h ++ tail) e
      = cap_loadRelations env
          (cap_setCoordinates w1 cap (cap_getCoordinate w h) (cap_getStrand w h)
            (decodedSequence env (env.end_getFlower e) w h)) tail cap := by
  obtain ⟨h12, h13, h23, -⟩ := codes_ne hC
  unfold decodedEvent at h3
  unfold decodedSequence at h3 ⊢
  by_cases hc : cap_getCoordinate w h = INT64_MAX
  · simp only [hc, ne_eq, not_true_eq_false, false_and, if_false] at h3 ⊢
    simp [cap_loadFromBinaryRepresentation, cap_writePrimaryRecord, hc,
      binaryRepresentation_writeElementType, binaryRepresentation_writeName,
      binaryRepresentation_writeBool, binaryRepresentation_peekNextElementType,
      binaryRepresentation_popNextElementType, binaryRepresentation_getName,
      binaryRepresentation_getBool, h3]
  · by_cases hs : cap_getSequence w h = NULL
    · simp only [hs, ne_eq, not_true_eq_false, and_false, if_false] at h3 ⊢
      simp [cap_loadFromBinaryRepresentation, cap_writePrimaryRecord, hc, hs,
        binaryRepresentation_writeElementType, binaryRepresentation_writeName,
        binaryRepresentation_writeBool, binaryRepresentation_writeInteger,
        binaryRepresentation_peekNextElementType, binaryRepresentation_getInteger,
        binaryRepresentation_popNextElementType, binaryRepresentation_getName,
        binaryRepresentation_getBool, h3, h13.symm, h23.symm]
    · simp only [hc, hs, ne_eq, not_false_eq_true, and_self, if_true] at h3 ⊢
      simp [cap_loadFromBinaryRepresentation, cap_writePrimaryRecord, hc, hs,
        binaryRepresentation_writeElementType, binaryRepresentation_writeName,
        binaryRepresentation_writeBool, binaryRepresentation_writeInteger,
        binaryRepresentation_peekNextElementType, binaryRepresentation_getInteger,
        binaryRepresentation_popNextElementType, binaryRepresentation_getName,
        binaryRepresentation_getBool, cap_construct4, h3, h12.symm]

theorem peek_elementType (t : Int) (r : List Elem) :
    binaryRepresentation_peekNextElementType (Elem.elementType t :: r) = some t := rfl

theorem pop_cons (x : Elem) (r : List Elem) :
    binaryRepresentation_popNextElementType (x :: r) = r := rfl

theorem getName_name (n : Name) (r : List Elem) :
    binaryRepresentation_getName (Elem.name n :: r) = (n, r) := rfl

/-- With no relation record at the head of the stream nothing is read. -/
theorem cap_loadP2_none {env : Collab} (w : World) (cap : CapPtr) {rest : List Elem}
    (h1 : binaryRepresentation_peekNextElementType rest ≠ some env.CODE_ADJACENCY)
    (h2 : binaryRepresentation_peekNextElementType rest ≠ some env.CODE_PARENT) :
    cap_loadFromBinaryRepresentationP2 env w rest cap = .ok (w, rest) := by
  simp [cap_loadFromBinaryRepresentationP2, h1, h2]

/-- An adjacency record whose partner is not in the Flower's index is read and
dropped. -/
theorem cap_loadP2_unresolved {env : Collab} (w : World) (cap : CapPtr) (p : Name)
    {rest : List Elem}
    (hg : flower_getCap env w (env.end_getFlower (cap_getEnd env w cap)) p = none)
    (h2 : binaryRepresentation_peekNextElementType rest ≠ some env.CODE_PARENT) :
    cap_loadFromBinaryRepresentationP2 env w
        (Elem.elementType env.CODE_ADJACENCY :: Elem.name p :: rest) cap
      = .ok (w, rest) := by
  simp [cap_loadFromBinaryRepresentationP2, cap_loadFromBinaryRepresentationP,
    peek_elementType, pop_cons, getName_name, hg, h2]

/-- An adjacency record whose partner is in the Flower's index calls
`cap_makeAdjacent` on the partner and the new cap. -/
theorem cap_loadP2_resolved {env : Collab} (w : World) (cap : CapPtr) (p : Name)
    {rest : List Elem} {cap2 : CapPtr}
    (hg : flower_getCap env w (env.end_getFlower (cap_getEnd env w cap)) p = some cap2)
    (h2 : binaryRepresentation_peekNextElementType rest ≠ some env.CODE_PARENT) :
    cap_loadFromBinaryRepresentationP2 env w
        (Elem.elementType env.CODE_ADJACENCY :: Elem.name p :: rest) cap
      = match cap_makeAdjacent env w cap2 cap with
        | .assertFail w1 => .assertFail w1
        | .ok w1 => .ok (w1, rest) := by
  simp only [cap_loadFromBinaryRepresentationP2, cap_loadFromBinaryRepresentationP,
    peek_elementType, pop_cons, getName_name, hg, if_true]
  cases cap_makeAdjacent env w cap2 cap <;> simp [h2]

/-- A parent record whose partner is not in the Flower's index fails the
assertion `i == 0`. -/
theorem cap_loadP2_parent_unresolved {env : Collab} (hC : CodesDistinct env) (w : World)
    (cap : CapPtr) (p : Name) (rest : List Elem)
    (hg : flower_getCap env w (env.end_getFlower (cap_getEnd env w cap)) p = none) :
    cap_loadFromBinaryRepresentationP2 env w
        (Elem.elementType env.CODE_PARENT :: Elem.name p :: rest) cap
      = .assertFail w := by
  obtain ⟨-, -, -, h45⟩ := codes_ne hC
  simp [cap_loadFromBinaryRepresentationP2, cap_loadFromBinaryRepresentationP,
    peek_elementType, pop_cons, getName_name, hg, h45.symm]

theorem cap_loadRelations_ok {env : Collab} {w w1 : World} {s s1 : List Elem} {cap : CapPtr}
    {r : Option CapPtr} (h : cap_loadRelations env w s cap = .ok (w1, s1, r)) :
    r = some cap ∧ cap_loadFromBinaryRepresentationP2 env w s cap = .ok (w1, s1) := by
  unfold cap_loadRelations at h
  cases hp : cap_loadFromBinaryRepresentationP2 env w s cap with
  | assertFail x => rw [hp] at h; simp at h
  | ok x =>
    rw [hp] at h
    simp only [Outcome.ok.injEq, Prod.mk.injEq] at h
    obtain ⟨h1, h2, h3⟩ := h
    exact ⟨h3.symm, by rw [← h1, ← h2]⟩

theorem cap_loadRelations_of_ok {env : Collab} {w w1 : World} {s s1 : List Elem} {cap : CapPtr}
    (h : cap_loadFromBinaryRepresentationP2 env w s cap = .ok (w1, s1)) :
    cap_loadRelations env w s cap = .ok (w1, s1, some cap) := by
  simp [cap_loadRelations, h]

/-! ## C16: an unrecognised tag -/

/-- C16: when the next element of the stream is none of the three cap tags,
`cap_loadFromBinaryRepresentation` returns a null cap, leaves the memory as
it is (no cap is constructed or registered) and does not advance the stream;
and a null cap is returned in no other case: a decode that starts with one of
the three tags and returns, returns a cap. -/
theorem C16_unrecognised_tag (env : Collab) (w : World) (s : List Elem) (e : Ptr) :
    (binaryRepresentation_peekNextElementType s ≠ some env.CODE_CAP →
      binaryRepresentation_peekNextElementType s ≠ some env.CODE_CAP_WITH_COORDINATES →
      binaryRepresentation_peekNextElementType s
        ≠ some env.CODE_CAP_WITH_COORDINATES_BUT_NO_SEQUENCE →
      cap_loadFromBinaryRepresentation env w s e = .ok (w, s, none)) ∧
    (∀ w1 s1 r, cap_loadFromBinaryRepresentation env w s e = .ok (w1, s1, r) →
      (r = none ↔
        binaryRepresentation_peekNextElementType s ≠ some env.CODE_CAP ∧
        binaryRepresentation_peekNextElementType s ≠ some env.CODE_CAP_WITH_COORDINATES ∧
        binaryRepresentation_peekNextElementType s
          ≠ some env.CODE_CAP_WITH_COORDINATES_BUT_NO_SEQUENCE)) := by
  constructor
  · intro h1 h2 h3
    simp [cap_loadFromBinaryRepresentation, h1, h2, h3]
  · intro w1 s1 r hok
    unfold cap_loadFromBinaryRepresentation at hok
    by_cases h1 : binaryRepresentation_peekNextElementType s = some env.CODE_CAP
    · rw [if_pos h1] at hok
      dsimp only at hok
      split at hok
      · simp at hok
      · have := (cap_loadRelations_ok hok).1
        simp [this, h1]
    · by_cases h2 : binaryRepresentation_peekNextElementType s
          = some env.CODE_CAP_WITH_COORDINATES
      · rw [if_neg h1, if_pos h2] at hok
        dsimp only at hok
        split at hok
        · simp at hok
        · have := (cap_loadRelations_ok hok).1
          simp [this, h2]
      · by_cases h3 : binaryRepresentation_peekNextElementType s
            = some env.CODE_CAP_WITH_COORDINATES_BUT_NO_SEQUENCE
        · rw [if_neg h1, if_neg h2, if_pos h3] at hok
          dsimp only at hok
          split at hok
          · simp at hok
          · have := (cap_loadRelations_ok hok).1
            simp [this, h3]
        · rw [if_neg h1, if_neg h2, if_neg h3] at hok
          simp only [Outcome.ok.injEq, Prod.mk.injEq] at hok
          simp [← hok.2.2, h1, h2, h3]

/-- C16 on a stream that starts with the element code 9, read into End 2 of
`oneCap`. -/
theorem C16_unrecognised_tag_witness :
    cap_loadFromBinaryRepresentation sampleEnv oneCap [Elem.elementType 9, Elem.name 3] 2
      = .ok (oneCap, [Elem.elementType 9, Elem.name 3], none) :=
  (C16_unrecognised_tag sampleEnv oneCap [Elem.elementType 9, Elem.name 3] 2).1
    (by decide) (by decide) (by decide)

/-! ## Handles of older blocks and the registries under construction -/

theorem cap_getContents_blk (w : World) (p : CapPtr) : (cap_getContents w p).blk = p.blk := by
  unfold cap_getContents CapPtr.add
  by_cases h : cap_getOrder w p <;> simp [h]

theorem cap_getReverse_blk (w : World) (p : CapPtr) : (cap_getReverse w p).blk = p.blk := by
  unfold cap_getReverse CapPtr.add
  by_cases h : cap_getOrder w p <;> simp [h]

/-- A handle of a block other than the new one reads after `cap_construct3`
what it read before. -/
theorem cap_construct3_body_old (env : Collab) (w : World) (n : Name) (ev e : Ptr) {p : CapPtr}
    (hp : p.blk ≠ w.next) :
    cap_getOrder (cap_construct3_body env w n ev e).1 p = cap_getOrder w p ∧
      cap_getStrand (cap_construct3_body env w n ev e).1 p = cap_getStrand w p ∧
      cap_getHasEventNotSequence (cap_construct3_body env w n ev e).1 p
        = cap_getHasEventNotSequence w p ∧
      cap_getContents (cap_construct3_body env w n ev e).1 p = cap_getContents w p ∧
      cap_getReverse (cap_construct3_body env w n ev e).1 p = cap_getReverse w p ∧
      (cap_construct3_body env w n ev e).1.contents (cap_getContents w p)
        = w.contents (cap_getContents w p) := by
  have ho : cap_getOrder (cap_construct3_body env w n ev e).1 p = cap_getOrder w p := by
    rw [cap_getOrder_construct3_body, if_neg hp]
  refine ⟨ho, ?_, ?_, cap_getContents_congr ho, cap_getReverse_congr ho, ?_⟩
  · rw [cap_getStrand_construct3_body]
    have h1 : p ≠ ⟨w.next, 1⟩ := fun h => hp (by rw [h])
    have h0 : p ≠ ⟨w.next, 0⟩ := fun h => hp (by rw [h])
    simp [h1, h0, hp]
  · rw [cap_getHasEventNotSequence_construct3_body]
    have h1 : p ≠ ⟨w.next, 1⟩ := fun h => hp (by rw [h])
    have h0 : p ≠ ⟨w.next, 0⟩ := fun h => hp (by rw [h])
    simp [h1, h0, hp]
  · rw [cap_construct3_body_contents]
    have hb : (cap_getContents w p).blk ≠ w.next := by rw [cap_getContents_blk]; exact hp
    have h2 : cap_getContents w p ≠ ⟨w.next, 2⟩ := fun h => hb (by rw [h])
    simp [h2, hb]

/-- The memory in which a decoded or copied cap ends up: `cap_construct3` with
name `n`, Event `ev`, End `e`, then `cap_setCoordinates` on the new handle.
A handle of an older block reads in it what it read before. -/
theorem constructed_old (env : Collab) (w : World) (n : Name) (ev e : Ptr) (c : Int) (s : Bool)
    (sq : Ptr) {p : CapPtr} (hp : p.blk ≠ w.next) :
    cap_getName (cap_setCoordinates (cap_construct3_body env w n ev e).1 ⟨w.next, 0⟩ c s sq) p
        = cap_getName w p ∧
      cap_getCoordinate
          (cap_setCoordinates (cap_construct3_body env w n ev e).1 ⟨w.next, 0⟩ c s sq) p
        = cap_getCoordinate w p ∧
      cap_getStrand (cap_setCoordinates (cap_construct3_body env w n ev e).1 ⟨w.next, 0⟩ c s sq) p
        = cap_getStrand w p ∧
      cap_getEvent env
          (cap_setCoordinates (cap_construct3_body env w n ev e).1 ⟨w.next, 0⟩ c s sq) p
        = cap_getEvent env w p ∧
      cap_getSequence
          (cap_setCoordinates (cap_construct3_body env w n ev e).1 ⟨w.next, 0⟩ c s sq) p
        = cap_getSequence w p ∧
      cap_getEnd env
          (cap_setCoordinates (cap_construct3_body env w n ev e).1 ⟨w.next, 0⟩ c s sq) p
        = cap_getEnd env w p ∧
      cap_getReverse
          (cap_setCoordinates (cap_construct3_body env w n ev e).1 ⟨w.next, 0⟩ c s sq) p
        = cap_getReverse w p ∧
      (cap_setCoordinates (cap_construct3_body env w n ev e).1 ⟨w.next, 0⟩ c s sq).contents
            (cap_getContents w p)
        = w.contents (cap_getContents w p) := by
  obtain ⟨ho, hs, ht, hc, hr, hct⟩ := cap_construct3_body_old env w n ev e hp
  obtain ⟨-, -, hc0, -, hr0, -, -⟩ := cap_construct3_body_new env w n ev e
  have hb : (cap_getContents w p).blk ≠ w.next := by rw [cap_getContents_blk]; exact hp
  have h2 : cap_getContents w p ≠ ⟨w.next, 2⟩ := fun h => hb (by rw [h])
  have h1 : p ≠ ⟨w.next, 1⟩ := fun h => hp (by rw [h])
  have h0 : p ≠ ⟨w.next, 0⟩ := fun h => hp (by rw [h])
  have hcont : (cap_setCoordinates (cap_construct3_body env w n ev e).1 ⟨w.next, 0⟩ c s
      sq).contents (cap_getContents w p) = w.contents (cap_getContents w p) := by
    rw [cap_setCoordinates_contents, hc0, if_neg h2, hct]
  have hstr : cap_getStrand (cap_setCoordinates (cap_construct3_body env w n ev e).1
      ⟨w.next, 0⟩ c s sq) p = cap_getStrand w p := by
    rw [cap_getStrand_setCoordinates, hr0, if_neg h1, if_neg h0, hs]
  have htag : cap_getHasEventNotSequence (cap_setCoordinates
      (cap_construct3_body env w n ev e).1 ⟨w.next, 0⟩ c s sq) p
      = cap_getHasEventNotSequence w p := by
    rw [cap_getHasEventNotSequence_setCoordinates, hr0, ht]
    simp [h0, h1]
  have hord : cap_getOrder (cap_setCoordinates (cap_construct3_body env w n ev e).1
      ⟨w.next, 0⟩ c s sq) p = cap_getOrder w p := by
    rw [cap_getOrder_setCoordinates, ho]
  refine ⟨?_, ?_, hstr, ?_, ?_, ?_, ?_, hcont⟩
  · unfold cap_getName
    rw [cap_getContents_setCoordinates, hc, hcont]
  · unfold cap_getCoordinate
    rw [cap_getContents_setCoordinates, hc, hcont]
  · unfold cap_getEvent
    rw [cap_getContents_setCoordinates, hc, hcont, htag]
  · unfold cap_getSequence
    rw [cap_getContents_setCoordinates, hc, hcont, htag]
  · unfold cap_getEnd
    rw [cap_getContents_setCoordinates, hc, hcont, hord]
  · rw [cap_getReverse_setCoordinates, hr]

/-- What the new handle reads in that memory. -/
theorem constructed_new (env : Collab) (w : World) (n : Name) (ev e : Ptr) (c : Int) (s : Bool)
    (sq : Ptr) :
    cap_getName (cap_setCoordinates (cap_construct3_body env w n ev e).1 ⟨w.next, 0⟩ c s sq)
        ⟨w.next, 0⟩ = n ∧
      cap_getCoordinate
          (cap_setCoordinates (cap_construct3_body env w n ev e).1 ⟨w.next, 0⟩ c s sq)
          ⟨w.next, 0⟩ = c ∧
      cap_getStrand (cap_setCoordinates (cap_construct3_body env w n ev e).1 ⟨w.next, 0⟩ c s sq)
        ⟨w.next, 0⟩ = s ∧
      cap_getEvent env
          (cap_setCoordinates (cap_construct3_body env w n ev e).1 ⟨w.next, 0⟩ c s sq)
          ⟨w.next, 0⟩ = (if sq ≠ NULL then env.sequence_getEvent sq else ev) ∧
      cap_getSequence
          (cap_setCoordinates (cap_construct3_body env w n ev e).1 ⟨w.next, 0⟩ c s sq)
          ⟨w.next, 0⟩ = sq ∧
      cap_getEnd env
          (cap_setCoordinates (cap_construct3_body env w n ev e).1 ⟨w.next, 0⟩ c s sq)
          ⟨w.next, 0⟩ = e := by
  obtain ⟨h0, -, hc0, -, hr0, -, hct⟩ := cap_construct3_body_new env w n ev e
  have ht0 : cap_getHasEventNotSequence (cap_construct3_body env w n ev e).1 ⟨w.next, 0⟩
      = true := by
    rw [cap_getHasEventNotSequence_construct3_body]; simp
  refine ⟨?_, ?_, ?_, ?_, ?_, ?_⟩
  · unfold cap_getName
    rw [cap_getContents_setCoordinates, hc0, cap_setCoordinates_contents, hc0, if_pos rfl, hct]
  · unfold cap_getCoordinate
    rw [cap_getContents_setCoordinates, hc0, cap_setCoordinates_contents, hc0, if_pos rfl]
  · rw [cap_getStrand_setCoordinates, hr0]
    simp
  · unfold cap_getEvent
    rw [cap_getContents_setCoordinates, hc0, cap_setCoordinates_contents, hc0, if_pos rfl, hct,
      cap_getHasEventNotSequence_setCoordinates, ht0]
    by_cases hs : sq = NULL <;> simp [hs]
  · unfold cap_getSequence
    rw [cap_getContents_setCoordinates, hc0, cap_setCoordinates_contents, hc0, if_pos rfl, hct,
      cap_getHasEventNotSequence_setCoordinates, ht0]
    by_cases hs : sq = NULL <;> simp [hs]
  · unfold cap_getEnd
    rw [cap_getContents_setCoordinates, hc0, cap_setCoordinates_contents, hc0, if_pos rfl, hct,
      cap_getOrder_setCoordinates, h0]
    simp

theorem cap_setCoordinates_flowerCaps (w : World) (cap : CapPtr) (c : Int) (s : Bool)
    (seq : Ptr) : (cap_setCoordinates w cap c s seq).flowerCaps = w.flowerCaps := by
  unfold cap_setCoordinates
  by_cases h : seq = NULL <;> simp [h] <;> rfl

theorem cap_breakAdjacency_flowerCaps (env : Collab) (w : World) (cap : CapPtr) :
    (cap_breakAdjacency env w cap).flowerCaps = w.flowerCaps := by
  cases h : cap_getAdjacency env w cap with
  | none => rw [cap_breakAdjacency_of_none h]
  | some c => rw [cap_breakAdjacency_of_some h]; rfl

theorem cap_makeAdjacent_flowerCaps {env : Collab} {w w1 : World} {cap cap2 : CapPtr}
    (h : cap_makeAdjacent env w cap cap2 = .ok w1) : w1.flowerCaps = w.flowerCaps := by
  obtain ⟨-, -, rfl⟩ := cap_makeAdjacent_ok h
  show (cap_breakAdjacency env (cap_breakAdjacency env w (strandHandle w cap))
    (strandHandle w cap2)).flowerCaps = w.flowerCaps
  rw [cap_breakAdjacency_flowerCaps, cap_breakAdjacency_flowerCaps]

/-- In a reachable memory every cap in the Flower index is the first handle of
an allocated block. -/
theorem Reachable.flowerCaps_isCap {env : Collab} {w : World} (h : Reachable env w) :
    ∀ x, x ∈ w.flowerCaps → w.isCap x.2 := by
  induction h with
  | empty => intro x hx; simp [World.empty] at hx
  | @construct3 w0 _ _ n ev e _ hok ih =>
    obtain ⟨-, -, -, rfl, -⟩ := cap_construct3_ok hok
    intro x hx
    rw [cap_construct3_body_flowerCaps] at hx
    rcases List.mem_cons.1 hx with rfl | hx
    · exact ⟨by rw [cap_construct3_body_next]; exact Nat.lt_succ_self _, Or.inl rfl⟩
    · exact ⟨by rw [cap_construct3_body_next]; exact Nat.lt_succ_of_lt (ih x hx).1, (ih x hx).2⟩
  | @construct4 w0 _ _ n e c s seq _ _ hok ih =>
    obtain ⟨w2, h3, rfl⟩ := cap_construct4_ok hok
    obtain ⟨-, -, -, rfl, -⟩ := cap_construct3_ok h3
    intro x hx
    rw [cap_setCoordinates_flowerCaps, cap_construct3_body_flowerCaps] at hx
    refine isCap_of_next (cap_setCoordinates_next ..) ?_
    rcases List.mem_cons.1 hx with rfl | hx
    · exact ⟨by rw [cap_construct3_body_next]; exact Nat.lt_succ_self _, Or.inl rfl⟩
    · exact ⟨by rw [cap_construct3_body_next]; exact Nat.lt_succ_of_lt (ih x hx).1, (ih x hx).2⟩
  | setCoordinates cap c s seq _ _ ih =>
    intro x hx
    rw [cap_setCoordinates_flowerCaps] at hx
    exact isCap_of_next (cap_setCoordinates_next ..) (ih x hx)
  | makeAdjacent cap cap2 _ _ _ hok ih =>
    intro x hx
    rw [cap_makeAdjacent_flowerCaps hok] at hx
    exact isCap_of_next (cap_makeAdjacent_next hok) (ih x hx)
  | breakAdjacency cap _ _ ih =>
    intro x hx
    rw [cap_breakAdjacency_flowerCaps] at hx
    exact isCap_breakAdjacency (ih x hx)
  | setSegment cap seg _ _ ih => exact ih

theorem find?_congr_mem {α : Type} {p q : α → Bool} :
    ∀ {l : List α}, (∀ x, x ∈ l → p x = q x) → l.find? p = l.find? q := by
  intro l
  induction l with
  | nil => intro _; rfl
  | cons a l ih =>
    intro h
    rw [List.find?_cons, List.find?_cons, h a (List.mem_cons_self a l),
      ih (fun x hx => h x (List.mem_cons_of_mem a hx))]

/-- Looking up another name in the Flower index gives after the construction
what it gave before. -/
theorem flower_getCap_constructed_other {env : Collab} {w : World} (hR : Reachable env w)
    (n : Name) (ev e : Ptr) (c : Int) (s : Bool) (sq : Ptr) (flower : Ptr) {p : Name}
    (hp : p ≠ n) :
    flower_getCap env
        (cap_setCoordinates (cap_construct3_body env w n ev e).1 ⟨w.next, 0⟩ c s sq) flower p
      = flower_getCap env w flower p := by
  have hreg := hR.flowerCaps_isCap
  have hnew := (constructed_new env w n ev e c s sq).1
  unfold flower_getCap
  rw [cap_setCoordinates_flowerCaps, cap_construct3_body_flowerCaps, List.find?_cons]
  have hhead : decide (env.end_getFlower e = flower ∧
      cap_getName (cap_setCoordinates (cap_construct3_body env w n ev e).1 ⟨w.next, 0⟩ c s sq)
        ⟨w.next, 0⟩ = p) = false := by
    rw [hnew]
    simp [Ne.symm hp]
  simp only [hhead]
  have hcongr : w.flowerCaps.find? (fun x => decide (x.1 = flower ∧
        cap_getName (cap_setCoordinates (cap_construct3_body env w n ev e).1 ⟨w.next, 0⟩ c s sq)
          x.2 = p))
      = w.flowerCaps.find? (fun x => decide (x.1 = flower ∧ cap_getName w x.2 = p)) := by
    apply find?_congr_mem
    intro x hx
    rw [(constructed_old env w n ev e c s sq (Nat.ne_of_lt (hreg x hx).1)).1]
  rw [hcongr]
  cases hf : w.flowerCaps.find? (fun x => decide (x.1 = flower ∧ cap_getName w x.2 = p)) with
  | none => rfl
  | some x =>
    have hx := hreg x (List.mem_of_find?_eq_some hf)
    have hold := constructed_old env w n ev e c s sq (Nat.ne_of_lt hx.1)
    simp only [cap_getPositiveOrientation, cap_getOrientation, hold.2.2.2.2.2.1,
      hold.2.2.2.2.2.2.1]

/-- Looking up the name of the new cap in the Flower of its End finds it. -/
theorem flower_getCap_constructed_self (env : Collab) (w : World) (n : Name) (ev e : Ptr)
    (c : Int) (s : Bool) (sq : Ptr) :
    flower_getCap env
        (cap_setCoordinates (cap_construct3_body env w n ev e).1 ⟨w.next, 0⟩ c s sq)
        (env.end_getFlower e) n
      = some (cap_getPositiveOrientation env
          (cap_setCoordinates (cap_construct3_body env w n ev e).1 ⟨w.next, 0⟩ c s sq)
          ⟨w.next, 0⟩) := by
  have hnew := (constructed_new env w n ev e c s sq).1
  unfold flower_getCap
  rw [cap_setCoordinates_flowerCaps, cap_construct3_body_flowerCaps, List.find?_cons]
  simp [hnew]

/-! ## `cap_makeAdjacent` writes adjacency fields only -/

theorem linkHandles_contents_frame (env : Collab) (w : World) (a b q : CapPtr) :
    ∃ x, (linkHandles env w a b).contents q = { w.contents q with adjacency := x } := by
  unfold linkHandles
  simp only [modifyContents_contents, cap_getContents_modifyContents,
    cap_getReverse_modifyContents, cap_getOrientation_setAdjacency]
  by_cases h1 : q = cap_getContents w b
  · subst h1
    refine ⟨some (if cap_getOrientation env w b then a else cap_getReverse w a), ?_⟩
    by_cases h2 : cap_getContents w b = cap_getContents w a
    · simp [h2]
    · simp [h2]
  · by_cases h2 : q = cap_getContents w a
    · subst h2
      exact ⟨some (if cap_getOrientation env w a then b else cap_getReverse w b), by simp [h1]⟩
    · exact ⟨(w.contents q).adjacency, by simp [h1, h2]⟩

theorem cap_breakAdjacency_contents_frame (env : Collab) (w : World) (cap q : CapPtr) :
    ∃ x, (cap_breakAdjacency env w cap).contents q = { w.contents q with adjacency := x } := by
  rcases cap_breakAdjacency_contents env w cap q with h | h
  · exact ⟨(w.contents q).adjacency, by rw [h]⟩
  · exact ⟨none, h⟩

theorem cap_makeAdjacent_contents_frame {env : Collab} {w w1 : World} {cap cap2 : CapPtr}
    (h : cap_makeAdjacent env w cap cap2 = .ok w1) (q : CapPtr) :
    ∃ x, w1.contents q = { w.contents q with adjacency := x } := by
  obtain ⟨-, -, rfl⟩ := cap_makeAdjacent_ok h
  obtain ⟨x1, h1⟩ := cap_breakAdjacency_contents_frame env w (strandHandle w cap) q
  obtain ⟨x2, h2⟩ := cap_breakAdjacency_contents_frame env
    (cap_breakAdjacency env w (strandHandle w cap)) (strandHandle w cap2) q
  obtain ⟨x3, h3⟩ := linkHandles_contents_frame env
    (cap_breakAdjacency env (cap_breakAdjacency env w (strandHandle w cap))
      (strandHandle w cap2)) (strandHandle w cap) (strandHandle w cap2) q
  exact ⟨x3, by rw [h3, h2, h1]⟩

/-- Name, coordinate, strand, event and sequence of every handle are what they
were before a successful `cap_makeAdjacent`. -/
theorem cap_makeAdjacent_payload {env : Collab} {w w1 : World} {cap cap2 : CapPtr}
    (h : cap_makeAdjacent env w cap cap2 = .ok w1) (p : CapPtr) :
    cap_getName w1 p = cap_getName w p ∧ cap_getCoordinate w1 p = cap_getCoordinate w p ∧
      cap_getStrand w1 p = cap_getStrand w p ∧ cap_getEvent env w1 p = cap_getEvent env w p ∧
      cap_getSequence w1 p = cap_getSequence w p := by
  have hb := cap_makeAdjacent_bits h
  obtain ⟨x, hx⟩ := cap_makeAdjacent_contents_frame h (cap_getContents w p)
  have hc := cap_getContents_of_bits hb p
  unfold cap_getName cap_getCoordinate cap_getStrand cap_getEvent cap_getSequence
    cap_getHasEventNotSequence
  simp [hc, hx, cap_getBit_of_bits hb]

/-! ## The decoder on a record whose partner is indexed -/

theorem reachable_capsAlignedMoved : Reachable sampleEnv capsAlignedMoved :=
  Reachable.setCoordinates ⟨0, 0⟩ 5 false 50
    (Reachable.makeAdjacent ⟨0, 0⟩ ⟨1, 0⟩ reachable_capsAligned (by decide) (by decide)
      (rfl : cap_makeAdjacent sampleEnv capsAligned ⟨0, 0⟩ ⟨1, 0⟩ = .ok capsAlignedLinked))
    (by decide)

theorem reachable_partnerDecoded : Reachable sampleEnv partnerDecoded :=
  Reachable.setCoordinates ⟨0, 0⟩ INT64_MAX true NULL
    (Reachable.construct3 2 7 4 Reachable.empty
      (rfl : cap_construct3 sampleEnv World.empty 2 7 4
        = .ok ((cap_construct3_body sampleEnv World.empty 2 7 4).1, ⟨0, 0⟩)))
    (by decide)

/-- The event of a decoded cap is the looked-up Event. -/
theorem decoded_event (env : Collab) (flower : Ptr) (w : World) (h : CapPtr) :
    (if decodedSequence env flower w h ≠ NULL then
        env.sequence_getEvent (decodedSequence env flower w h)
      else decodedEvent env flower w h) = decodedEvent env flower w h := by
  by_cases hs : decodedSequence env flower w h = NULL
  · simp [hs]
  · rw [if_pos hs]
    unfold decodedEvent
    by_cases hc : cap_getCoordinate w h ≠ INT64_MAX ∧ cap_getSequence w h ≠ NULL
    · rw [if_pos hc]
    · exfalso; apply hs; unfold decodedSequence; rw [if_neg hc]

/-- A cap found in the Flower index of a reachable memory is a handle of an
allocated pair. -/
theorem Reachable.flower_getCap_isCap {env : Collab} (hE : EndContract env) {w : World}
    (hR : Reachable env w) {flower : Ptr} {p : Name} {cap2 : CapPtr}
    (hg : flower_getCap env w flower p = some cap2) : w.isCap cap2 := by
  unfold flower_getCap at hg
  cases hf : w.flowerCaps.find? (fun x => decide (x.1 = flower ∧ cap_getName w x.2 = p)) with
  | none => rw [hf] at hg; cases hg
  | some x =>
    rw [hf] at hg
    simp only [Option.some.injEq] at hg
    subst hg
    have hx := hR.flowerCaps_isCap x (List.mem_of_find?_eq_some hf)
    unfold cap_getPositiveOrientation
    by_cases ho : cap_getOrientation env w x.2
    · rw [if_pos ho]; exact hx
    · rw [if_neg ho]; exact (hR.inv hE).isCap_reverse hx

/-- The read of the record written for `h` returns a cap when the target memory
is reachable, the End is not null, the name is not `NULL_NAME`, the Flower holds
the Event or Sequence that the record names, and the partner named by the
adjacency record has another name and, if it is in the Flower's index, the
event that the record resolves to. -/
theorem decode_total {env : Collab} (hE : EndContract env) (hC : CodesDistinct env)
    (w : World) (h : CapPtr) {wt : World} {e : Ptr} (rest : List Elem)
    (hr1 : binaryRepresentation_peekNextElementType rest ≠ some env.CODE_ADJACENCY)
    (hr2 : binaryRepresentation_peekNextElementType rest ≠ some env.CODE_PARENT)
    (hR : Reachable env wt) (he : e ≠ NULL) (hn : cap_getName w h ≠ env.NULL_NAME)
    (hres : recordResolves env (env.end_getFlower e) w h)
    (hpart : ∀ c, cap_getAdjacency env w h = some c →
      cap_getName w c ≠ cap_getName w h ∧
      ∀ cap2, flower_getCap env wt (env.end_getFlower e) (cap_getName w c) = some cap2 →
        cap_getEvent env wt cap2 = decodedEvent env (env.end_getFlower e) w h) :
    ∃ wt1 h1, cap_loadFromBinaryRepresentation env wt
      (cap_writeBinaryRepresentation env w h ++ rest) e = .ok (wt1, rest, some h1) := by
  rw [cap_writeBinaryRepresentation_eq, List.append_assoc]
  have h3 : cap_construct3 env wt (cap_getName w h)
      (decodedEvent env (env.end_getFlower e) w h) e
      = .ok ((cap_construct3_body env wt (cap_getName w h)
          (decodedEvent env (env.end_getFlower e) w h) e).1, ⟨wt.next, 0⟩) :=
    cap_construct3_of_asserts he hres.1 hn
      (cap_construct3_asserts_hold hE wt (cap_getName w h)
        (decodedEvent env (env.end_getFlower e) w h) he)
  rw [cap_load_primary_ok hC w h wt e _ h3]
  have hnew := constructed_new env wt (cap_getName w h)
    (decodedEvent env (env.end_getFlower e) w h) e (cap_getCoordinate w h) (cap_getStrand w h)
    (decodedSequence env (env.end_getFlower e) w h)
  have hold : ∀ p : CapPtr, p.blk ≠ wt.next → _ := fun p hp =>
    constructed_old env wt (cap_getName w h)
      (decodedEvent env (env.end_getFlower e) w h) e (cap_getCoordinate w h) (cap_getStrand w h)
      (decodedSequence env (env.end_getFlower e) w h) hp
  have hother := fun (p : Name) (hp : p ≠ cap_getName w h) =>
    flower_getCap_constructed_other hR (cap_getName w h)
      (decodedEvent env (env.end_getFlower e) w h) e (cap_getCoordinate w h) (cap_getStrand w h)
      (decodedSequence env (env.end_getFlower e) w h) (env.end_getFlower e) hp
  have hRd : Reachable env (cap_setCoordinates (cap_construct3_body env wt (cap_getName w h)
      (decodedEvent env (env.end_getFlower e) w h) e).1 ⟨wt.next, 0⟩ (cap_getCoordinate w h)
      (cap_getStrand w h) (decodedSequence env (env.end_getFlower e) w h)) :=
    Reachable.setCoordinates _ _ _ _ (Reachable.construct3 _ _ _ hR h3)
      ⟨by rw [cap_construct3_body_next]; exact Nat.lt_succ_self _, Or.inl rfl⟩
  generalize hwd : cap_setCoordinates (cap_construct3_body env wt (cap_getName w h)
    (decodedEvent env (env.end_getFlower e) w h) e).1 ⟨wt.next, 0⟩ (cap_getCoordinate w h)
    (cap_getStrand w h) (decodedSequence env (env.end_getFlower e) w h) = wd
    at hnew hold hother hRd
  have hnext : wd.next = wt.next + 1 := by
    rw [← hwd, cap_setCoordinates_next, cap_construct3_body_next]
  cases hadj : cap_getAdjacency env w h with
  | none =>
    rw [cap_writeRelationRecord_of_none hadj, List.nil_append]
    exact ⟨_, _, cap_loadRelations_of_ok (cap_loadP2_none _ _ hr1 hr2)⟩
  | some c =>
    rw [cap_writeRelationRecord_of_some hadj]
    simp only [List.cons_append, List.nil_append]
    obtain ⟨hne, hevc⟩ := hpart c hadj
    cases hg : flower_getCap env wt (env.end_getFlower e) (cap_getName w c) with
    | none =>
      refine ⟨_, _, cap_loadRelations_of_ok (cap_loadP2_unresolved _ _ _ ?_ hr2)⟩
      rw [hnew.2.2.2.2.2, hother _ hne]
      exact hg
    | some cap2 =>
      have hg2 : flower_getCap env wd (env.end_getFlower (cap_getEnd env wd ⟨wt.next, 0⟩))
          (cap_getName w c) = some cap2 := by
        rw [hnew.2.2.2.2.2, hother _ hne]
        exact hg
      have hc2 := hR.flower_getCap_isCap hE hg
      have hc2d : wd.isCap cap2 := ⟨by rw [hnext]; exact Nat.lt_succ_of_lt hc2.1, hc2.2⟩
      have hnd : wd.isCap ⟨wt.next, 0⟩ := ⟨by rw [hnext]; exact Nat.lt_succ_self _, Or.inl rfl⟩
      have hblk : cap2.blk ≠ (⟨wt.next, 0⟩ : CapPtr).blk := Nat.ne_of_lt hc2.1
      have hev : cap_getEvent env wd cap2 = cap_getEvent env wd ⟨wt.next, 0⟩ := by
        rw [(hold cap2 hblk).2.2.2.1, hevc cap2 hg, hnew.2.2.2.1, decoded_event]
      have hmk := (hRd.inv hE).makeAdjacent_succeeds hc2d hnd hblk hev
      have hp2 := cap_loadP2_resolved wd ⟨wt.next, 0⟩ (cap_getName w c) hg2 hr2
      rw [hmk] at hp2
      exact ⟨_, _, cap_loadRelations_of_ok hp2⟩


/-- The read of the record written for `h` fails the assertion of
`cap_makeAdjacent` (line 294) when the partner named by the adjacency record is
in the Flower's index with an event other than the one the record resolves
to. -/
theorem decode_aborts {env : Collab} (hE : EndContract env) (hC : CodesDistinct env)
    (w : World) (h : CapPtr) {wt : World} {e : Ptr} (rest : List Elem)
    (hr2 : binaryRepresentation_peekNextElementType rest ≠ some env.CODE_PARENT)
    (hR : Reachable env wt) (he : e ≠ NULL) (hn : cap_getName w h ≠ env.NULL_NAME)
    (hres : recordResolves env (env.end_getFlower e) w h)
    {c cap2 : CapPtr} (hadj : cap_getAdjacency env w h = some c)
    (hne : cap_getName w c ≠ cap_getName w h)
    (hg : flower_getCap env wt (env.end_getFlower e) (cap_getName w c) = some cap2)
    (hevc : cap_getEvent env wt cap2 ≠ decodedEvent env (env.end_getFlower e) w h) :
    ∃ x, cap_loadFromBinaryRepresentation env wt
      (cap_writeBinaryRepresentation env w h ++ rest) e = .assertFail x := by
  rw [cap_writeBinaryRepresentation_eq, List.append_assoc]
  have h3 : cap_construct3 env wt (cap_getName w h)
      (decodedEvent env (env.end_getFlower e) w h) e
      = .ok ((cap_construct3_body env wt (cap_getName w h)
          (decodedEvent env (env.end_getFlower e) w h) e).1, ⟨wt.next, 0⟩) :=
    cap_construct3_of_asserts he hres.1 hn
      (cap_construct3_asserts_hold hE wt (cap_getName w h)
        (decodedEvent env (env.end_getFlower e) w h) he)
  rw [cap_load_primary_ok hC w h wt e _ h3]
  have hnew := constructed_new env wt (cap_getName w h)
    (decodedEvent env (env.end_getFlower e) w h) e (cap_getCoordinate w h) (cap_getStrand w h)
    (decodedSequence env (env.end_getFlower e) w h)
  have hold : ∀ p : CapPtr, p.blk ≠ wt.next → _ := fun p hp =>
    constructed_old env wt (cap_getName w h)
      (decodedEvent env (env.end_getFlower e) w h) e (cap_getCoordinate w h) (cap_getStrand w h)
      (decodedSequence env (env.end_getFlower e) w h) hp
  have hother := fun (p : Name) (hp : p ≠ cap_getName w h) =>
    flower_getCap_constructed_other hR (cap_getName w h)
      (decodedEvent env (env.end_getFlower e) w h) e (cap_getCoordinate w h) (cap_getStrand w h)
      (decodedSequence env (env.end_getFlower e) w h) (env.end_getFlower e) hp
  have hRd : Reachable env (cap_setCoordinates (cap_construct3_body env wt (cap_getName w h)
      (decodedEvent env (env.end_getFlower e) w h) e).1 ⟨wt.next, 0⟩ (cap_getCoordinate w h)
      (cap_getStrand w h) (decodedSequence env (env.end_getFlower e) w h)) :=
    Reachable.setCoordinates _ _ _ _ (Reachable.construct3 _ _ _ hR h3)
      ⟨by rw [cap_construct3_body_next]; exact Nat.lt_succ_self _, Or.inl rfl⟩
  generalize hwd : cap_setCoordinates (cap_construct3_body env wt (cap_getName w h)
    (decodedEvent env (env.end_getFlower e) w h) e).1 ⟨wt.next, 0⟩ (cap_getCoordinate w h)
    (cap_getStrand w h) (decodedSequence env (env.end_getFlower e) w h) = wd
    at hnew hold hother hRd
  have hnext : wd.next = wt.next + 1 := by
    rw [← hwd, cap_setCoordinates_next, cap_construct3_body_next]
  rw [cap_writeRelationRecord_of_some hadj]
  simp only [List.cons_append, List.nil_append]
  have hg2 : flower_getCap env wd (env.end_getFlower (cap_getEnd env wd ⟨wt.next, 0⟩))
      (cap_getName w c) = some cap2 := by
    rw [hnew.2.2.2.2.2, hother _ hne]
    exact hg
  have hc2 := hR.flower_getCap_isCap hE hg
  have hc2d : wd.isCap cap2 := ⟨by rw [hnext]; exact Nat.lt_succ_of_lt hc2.1, hc2.2⟩
  have hnd : wd.isCap ⟨wt.next, 0⟩ := ⟨by rw [hnext]; exact Nat.lt_succ_self _, Or.inl rfl⟩
  have hblk : cap2.blk ≠ (⟨wt.next, 0⟩ : CapPtr).blk := Nat.ne_of_lt hc2.1
  have hev : cap_getEvent env wd cap2 ≠ cap_getEvent env wd ⟨wt.next, 0⟩ := by
    rw [(hold cap2 hblk).2.2.2.1, hnew.2.2.2.1, decoded_event]
    exact hevc
  have hI := hRd.inv hE
  have hmk : cap_makeAdjacent env wd cap2 ⟨wt.next, 0⟩ = .assertFail wd := by
    rw [cap_makeAdjacent_eq, if_neg ((hI.strandHandle_ne hc2d hnd).2 hblk),
      hI.event_strandHandle hc2d, hI.event_strandHandle hnd, if_pos hev]
  have hp2 := cap_loadP2_resolved wd ⟨wt.next, 0⟩ (cap_getName w c) hg2 hr2
  rw [hmk] at hp2
  refine ⟨wd, ?_⟩
  unfold cap_loadRelations
  rw [hp2]

/-! ## C12: the round trip of name, coordinate and strand -/

/-- C12, as stated, fails.  In the reachable memory `capsAlignedMoved` the
handle `⟨0, 0⟩` (name 1, coordinate 5, Sequence 50 of Event 150) is adjacent to
`⟨1, 0⟩` (name 2, Event 7).  The record of `⟨1, 0⟩`, read into End 4 of the
empty memory, gives the memory `partnerDecoded`, in which End 2 holds no cap
and whose Flower holds Sequence 50.  The record of `⟨0, 0⟩`, read into End 2
of that memory, finds the partner in the Flower's index with Event 7 while
the record resolves to Event 150, and fails the assertion of line 294: no
handle is returned. -/
theorem C12_counterexample :
    Reachable sampleEnv capsAlignedMoved ∧ capsAlignedMoved.isCap ⟨0, 0⟩ ∧
      cap_getAdjacency sampleEnv capsAlignedMoved ⟨0, 0⟩ = some ⟨1, 0⟩ ∧
      cap_loadFromBinaryRepresentation sampleEnv World.empty
          (cap_writeBinaryRepresentation sampleEnv capsAlignedMoved ⟨1, 0⟩ ++ []) 4
        = .ok (partnerDecoded, [], some ⟨0, 0⟩) ∧
      (∀ x ∈ partnerDecoded.endInstances, x.1 ≠ 2 ∧ sampleEnv.end_getReverse x.1 ≠ 2) ∧
      recordResolves sampleEnv (sampleEnv.end_getFlower 2) capsAlignedMoved ⟨0, 0⟩ ∧
      flower_getCap sampleEnv partnerDecoded (sampleEnv.end_getFlower 2)
        (cap_getName capsAlignedMoved ⟨1, 0⟩) = some ⟨0, 0⟩ ∧
      cap_getEvent sampleEnv partnerDecoded ⟨0, 0⟩ = 7 ∧
      decodedEvent sampleEnv (sampleEnv.end_getFlower 2) capsAlignedMoved ⟨0, 0⟩ = 150 ∧
      ∃ x, cap_loadFromBinaryRepresentation sampleEnv partnerDecoded
          (cap_writeBinaryRepresentation sampleEnv capsAlignedMoved ⟨0, 0⟩ ++ []) 2
        = .assertFail x :=
  ⟨reachable_capsAlignedMoved, by decide, by decide, rfl, by decide, by decide, by decide,
    by decide, by decide, _, rfl⟩

/-- Whenever the read of the record written for `h` returns, it returns a cap
with the name, the coordinate and the strand of `h`, and leaves the stream
after the record. -/
theorem decode_fields {env : Collab} (hC : CodesDistinct env) (w : World) (h : CapPtr)
    (wt : World) (e : Ptr) (rest : List Elem)
    (hr1 : binaryRepresentation_peekNextElementType rest ≠ some env.CODE_ADJACENCY)
    (hr2 : binaryRepresentation_peekNextElementType rest ≠ some env.CODE_PARENT)
    {wt1 : World} {s1 : List Elem} {r : Option CapPtr}
    (hok : cap_loadFromBinaryRepresentation env wt
      (cap_writeBinaryRepresentation env w h ++ rest) e = .ok (wt1, s1, r)) :
    ∃ h1, r = some h1 ∧ s1 = rest ∧ cap_getName wt1 h1 = cap_getName w h ∧
      cap_getCoordinate wt1 h1 = cap_getCoordinate w h ∧
      cap_getStrand wt1 h1 = cap_getStrand w h := by
  rw [cap_writeBinaryRepresentation_eq, List.append_assoc] at hok
  cases h3 : cap_construct3 env wt (cap_getName w h)
      (decodedEvent env (env.end_getFlower e) w h) e with
  | assertFail x =>
    rw [cap_load_primary_fail hC w h wt e _ h3] at hok
    simp at hok
  | ok x =>
    obtain ⟨w1, cap⟩ := x
    obtain ⟨-, -, -, rfl, rfl⟩ := cap_construct3_ok h3
    rw [cap_load_primary_ok hC w h wt e _ h3] at hok
    obtain ⟨rfl, hp2⟩ := cap_loadRelations_ok hok
    obtain ⟨hn, hc, hs, -⟩ := constructed_new env wt (cap_getName w h)
      (decodedEvent env (env.end_getFlower e) w h) e (cap_getCoordinate w h)
      (cap_getStrand w h) (decodedSequence env (env.end_getFlower e) w h)
    cases hadj : cap_getAdjacency env w h with
    | none =>
      rw [cap_writeRelationRecord_of_none hadj, List.nil_append,
        cap_loadP2_none _ _ hr1 hr2] at hp2
      simp only [Outcome.ok.injEq, Prod.mk.injEq] at hp2
      obtain ⟨rfl, rfl⟩ := hp2
      exact ⟨_, rfl, rfl, hn, hc, hs⟩
    | some c =>
      rw [cap_writeRelationRecord_of_some hadj] at hp2
      simp only [List.cons_append, List.nil_append] at hp2
      cases hg : flower_getCap env
          (cap_setCoordinates (cap_construct3_body env wt (cap_getName w h)
            (decodedEvent env (env.end_getFlower e) w h) e).1 ⟨wt.next, 0⟩
            (cap_getCoordinate w h) (cap_getStrand w h)
            (decodedSequence env (env.end_getFlower e) w h))
          (env.end_getFlower (cap_getEnd env
            (cap_setCoordinates (cap_construct3_body env wt (cap_getName w h)
              (decodedEvent env (env.end_getFlower e) w h) e).1 ⟨wt.next, 0⟩
              (cap_getCoordinate w h) (cap_getStrand w h)
              (decodedSequence env (env.end_getFlower e) w h)) ⟨wt.next, 0⟩))
          (cap_getName w c) with
      | none =>
        rw [cap_loadP2_unresolved _ _ _ hg hr2] at hp2
        simp only [Outcome.ok.injEq, Prod.mk.injEq] at hp2
        obtain ⟨rfl, rfl⟩ := hp2
        exact ⟨_, rfl, rfl, hn, hc, hs⟩
      | some cap2 =>
        rw [cap_loadP2_resolved _ _ _ hg hr2] at hp2
        cases hm : cap_makeAdjacent env
            (cap_setCoordinates (cap_construct3_body env wt (cap_getName w h)
              (decodedEvent env (env.end_getFlower e) w h) e).1 ⟨wt.next, 0⟩
              (cap_getCoordinate w h) (cap_getStrand w h)
              (decodedSequence env (env.end_getFlower e) w h)) cap2 ⟨wt.next, 0⟩ with
        | assertFail x => rw [hm] at hp2; simp at hp2
        | ok w3 =>
          rw [hm] at hp2
          simp only [Outcome.ok.injEq, Prod.mk.injEq] at hp2
          obtain ⟨rfl, rfl⟩ := hp2
          obtain ⟨h1, h2, h3, -⟩ := cap_makeAdjacent_payload hm ⟨wt.next, 0⟩
          exact ⟨_, rfl, rfl, h1.trans hn, h2.trans hc, h3.trans hs⟩

/-- C12 (amended): let the elements written for a handle `h` be read back into
an End `e` of a memory.  When the target memory is reachable, `e` is not null,
the name of `h` is not `NULL_NAME`, the Flower of `e` holds the Event or
Sequence that the record names, and the partner named by the adjacency record
(if any) has another name and either is not in the Flower's index or is there
with the event that the record resolves to, the read returns a handle with the
name, the coordinate (the unset one included) and the strand of `h`, and
leaves the stream after the record.  When the partner is in the index with
another event, the read fails an assertion and returns no handle.  In any
memory, a read that returns, returns a handle with the name, coordinate and
strand of `h`. -/
theorem C12_roundtrip {env : Collab} (hE : EndContract env) (hC : CodesDistinct env)
    (w : World) (h : CapPtr) (wt : World) (e : Ptr) (rest : List Elem)
    (hr1 : binaryRepresentation_peekNextElementType rest ≠ some env.CODE_ADJACENCY)
    (hr2 : binaryRepresentation_peekNextElementType rest ≠ some env.CODE_PARENT) :
    (Reachable env wt → e ≠ NULL → cap_getName w h ≠ env.NULL_NAME →
        recordResolves env (env.end_getFlower e) w h →
        (∀ c, cap_getAdjacency env w h = some c →
          cap_getName w c ≠ cap_getName w h ∧
          ∀ cap2, flower_getCap env wt (env.end_getFlower e) (cap_getName w c) = some cap2 →
            cap_getEvent env wt cap2 = decodedEvent env (env.end_getFlower e) w h) →
        ∃ wt1 h1,
          cap_loadFromBinaryRepresentation env wt
            (cap_writeBinaryRepresentation env w h ++ rest) e = .ok (wt1, rest, some h1) ∧
          cap_getName wt1 h1 = cap_getName w h ∧
          cap_getCoordinate wt1 h1 = cap_getCoordinate w h ∧
          cap_getStrand wt1 h1 = cap_getStrand w h) ∧
      (Reachable env wt → e ≠ NULL → cap_getName w h ≠ env.NULL_NAME →
        recordResolves env (env.end_getFlower e) w h →
        ∀ c cap2, cap_getAdjacency env w h = some c → cap_getName w c ≠ cap_getName w h →
          flower_getCap env wt (env.end_getFlower e) (cap_getName w c) = some cap2 →
          cap_getEvent env wt cap2 ≠ decodedEvent env (env.end_getFlower e) w h →
          ∃ x, cap_loadFromBinaryRepresentation env wt
            (cap_writeBinaryRepresentation env w h ++ rest) e = .assertFail x) ∧
      (∀ wt1 s1 r,
        cap_loadFromBinaryRepresentation env wt (cap_writeBinaryRepresentation env w h ++ rest) e
          = .ok (wt1, s1, r) →
        ∃ h1, r = some h1 ∧ s1 = rest ∧ cap_getName wt1 h1 = cap_getName w h ∧
          cap_getCoordinate wt1 h1 = cap_getCoordinate w h ∧
          cap_getStrand wt1 h1 = cap_getStrand w h) := by
  refine ⟨fun hR he hn hres hpart => ?_,
    fun hR he hn hres c cap2 hadj hne hg hev =>
      decode_aborts hE hC w h rest hr2 hR he hn hres hadj hne hg hev,
    fun wt1 s1 r hok => decode_fields hC w h wt e rest hr1 hr2 hok⟩
  obtain ⟨wt1, h1, hok⟩ := decode_total hE hC w h rest hr1 hr2 hR he hn hres hpart
  obtain ⟨h2, hr, -, h3, h4, h5⟩ := decode_fields hC w h wt e rest hr1 hr2 hok
  simp only [Option.some.injEq] at hr
  subst hr
  exact ⟨wt1, _, hok, h3, h4, h5⟩

/-- C12 (amended) for the handle `⟨0, 0⟩` of `capsOppositeLinked` (name 1, unset
coordinate, strand true, Event 7, adjacent to cap 2), read into End 2 of the
memory `partnerDecoded`, whose Flower has cap 2 of Event 7 in its index. -/
theorem C12_roundtrip_witness :
    flower_getCap sampleEnv partnerDecoded (sampleEnv.end_getFlower 2) 2 = some ⟨0, 0⟩ ∧
    ∃ wt1 h1,
      cap_loadFromBinaryRepresentation sampleEnv partnerDecoded
          (cap_writeBinaryRepresentation sampleEnv capsOppositeLinked ⟨0, 0⟩ ++ []) 2
        = .ok (wt1, [], some h1) ∧
      cap_getName wt1 h1 = 1 ∧ cap_getCoordinate wt1 h1 = INT64_MAX ∧
      cap_getStrand wt1 h1 = true := by
  obtain ⟨wt1, h1, hok, hn, hc, hs⟩ :=
    (C12_roundtrip sampleEnv_contract sampleEnv_codes capsOppositeLinked ⟨0, 0⟩
      partnerDecoded 2 [] (by decide) (by decide)).1 reachable_partnerDecoded (by decide)
      (by decide) (by decide) (by decide)
  exact ⟨by decide, wt1, h1, hok, hn.trans (by decide), hc.trans (by decide),
    hs.trans (by decide)⟩

/-! ## C15: relation records whose partner is not yet decoded -/

/-- The new block stores no adjacency after the construction. -/
theorem constructed_new_adjacency (env : Collab) (w : World) (n : Name) (ev e : Ptr) (c : Int)
    (s : Bool) (sq : Ptr) :
    cap_getAdjacency env
        (cap_setCoordinates (cap_construct3_body env w n ev e).1 ⟨w.next, 0⟩ c s sq)
        ⟨w.next, 0⟩ = none ∧
      cap_getAdjacency env
        (cap_setCoordinates (cap_construct3_body env w n ev e).1 ⟨w.next, 0⟩ c s sq)
        (cap_getReverse
          (cap_setCoordinates (cap_construct3_body env w n ev e).1 ⟨w.next, 0⟩ c s sq)
          ⟨w.next, 0⟩) = none := by
  obtain ⟨-, -, hc0, hc1, hr0, -, hct⟩ := cap_construct3_body_new env w n ev e
  unfold cap_getAdjacency cap_getP
  simp only [cap_getReverse_setCoordinates, cap_getContents_setCoordinates, hr0, hc0, hc1,
    (cap_setCoordinates_fields _ _ _ c s sq).2.1, hct]
  exact ⟨trivial, trivial⟩

/-- C15, as stated, fails for a parent record: the bare record of a cap named 1
of Event 7 followed by a parent record naming cap 9, read into End 4 of the
empty memory, in whose Flower no cap is indexed, fails the assertion
`i == 0` of line 589. -/
theorem C15_counterexample :
    flower_getCap sampleEnv World.empty (sampleEnv.end_getFlower 4) 9 = none ∧
      ∃ x, cap_loadFromBinaryRepresentation sampleEnv World.empty
          [Elem.elementType sampleEnv.CODE_CAP, Elem.name 1, Elem.bool true, Elem.name 7,
            Elem.elementType sampleEnv.CODE_PARENT, Elem.name 9] 4
        = .assertFail x :=
  ⟨by decide, _, rfl⟩

/-- C15 (amended): an adjacency record that follows a cap's primary record and
names a partner that is not in the Flower's index is read without error: the
decode returns the cap, the stream is left after the record, and the cap and
its reverse have no adjacency.  A parent record naming such a partner fails
the assertion `i == 0` of `cap_loadFromBinaryRepresentationP2`. -/
theorem C15_unresolved_adjacency {env : Collab} (hE : EndContract env) (hC : CodesDistinct env)
    (w : World) (h : CapPtr) {wt : World} (hR : Reachable env wt) {e : Ptr} (he : e ≠ NULL)
    (hn : cap_getName w h ≠ env.NULL_NAME)
    (hres : recordResolves env (env.end_getFlower e) w h) {p : Name}
    (hp : p ≠ cap_getName w h) (hg : flower_getCap env wt (env.end_getFlower e) p = none)
    (rest : List Elem)
    (hr2 : binaryRepresentation_peekNextElementType rest ≠ some env.CODE_PARENT) :
    (∃ wt1 h1,
        cap_loadFromBinaryRepresentation env wt
            (cap_writePrimaryRecord env w h
              ++ Elem.elementType env.CODE_ADJACENCY :: Elem.name p :: rest) e
          = .ok (wt1, rest, some h1) ∧
        cap_getAdjacency env wt1 h1 = none ∧
        cap_getAdjacency env wt1 (cap_getReverse wt1 h1) = none ∧
        cap_getName wt1 h1 = cap_getName w h) ∧
      ∃ x,
        cap_loadFromBinaryRepresentation env wt
            (cap_writePrimaryRecord env w h
              ++ Elem.elementType env.CODE_PARENT :: Elem.name p :: rest) e
          = .assertFail x := by
  have h3 : cap_construct3 env wt (cap_getName w h)
      (decodedEvent env (env.end_getFlower e) w h) e
      = .ok ((cap_construct3_body env wt (cap_getName w h)
          (decodedEvent env (env.end_getFlower e) w h) e).1, ⟨wt.next, 0⟩) :=
    cap_construct3_of_asserts he hres.1 hn
      (cap_construct3_asserts_hold hE wt (cap_getName w h)
        (decodedEvent env (env.end_getFlower e) w h) he)
  have hnew := constructed_new env wt (cap_getName w h)
    (decodedEvent env (env.end_getFlower e) w h) e (cap_getCoordinate w h) (cap_getStrand w h)
    (decodedSequence env (env.end_getFlower e) w h)
  have hadj := constructed_new_adjacency env wt (cap_getName w h)
    (decodedEvent env (env.end_getFlower e) w h) e (cap_getCoordinate w h) (cap_getStrand w h)
    (decodedSequence env (env.end_getFlower e) w h)
  have hg2 : flower_getCap env
      (cap_setCoordinates (cap_construct3_body env wt (cap_getName w h)
        (decodedEvent env (env.end_getFlower e) w h) e).1 ⟨wt.next, 0⟩
        (cap_getCoordinate w h) (cap_getStrand w h)
        (decodedSequence env (env.end_getFlower e) w h))
      (env.end_getFlower (cap_getEnd env
        (cap_setCoordinates (cap_construct3_body env wt (cap_getName w h)
          (decodedEvent env (env.end_getFlower e) w h) e).1 ⟨wt.next, 0⟩
          (cap_getCoordinate w h) (cap_getStrand w h)
          (decodedSequence env (env.end_getFlower e) w h)) ⟨wt.next, 0⟩)) p = none := by
    rw [hnew.2.2.2.2.2, flower_getCap_constructed_other hR _ _ _ _ _ _ _ hp]
    exact hg
  constructor
  · refine ⟨_, _, ?_, hadj.1, hadj.2, hnew.1⟩
    rw [cap_load_primary_ok hC w h wt e _ h3]
    exact cap_loadRelations_of_ok (cap_loadP2_unresolved _ _ _ hg2 hr2)
  · rw [cap_load_primary_ok hC w h wt e _ h3]
    unfold cap_loadRelations
    rw [cap_loadP2_parent_unresolved hC _ _ _ _ hg2]
    exact ⟨_, rfl⟩

/-- C15 (amended) for the record of the handle `⟨0, 0⟩` of `oneCap` followed by
an adjacency record naming cap 9, read into End 4 of the empty memory. -/
theorem C15_unresolved_adjacency_witness :
    flower_getCap sampleEnv World.empty (sampleEnv.end_getFlower 4) 9 = none ∧
      ∃ wt1 h1,
        cap_loadFromBinaryRepresentation sampleEnv World.empty
            (cap_writePrimaryRecord sampleEnv oneCap ⟨0, 0⟩
              ++ Elem.elementType sampleEnv.CODE_ADJACENCY :: Elem.name 9 :: []) 4
          = .ok (wt1, [], some h1) ∧
        cap_getAdjacency sampleEnv wt1 h1 = none ∧
        cap_getAdjacency sampleEnv wt1 (cap_getReverse wt1 h1) = none ∧
        cap_getName wt1 h1 = cap_getName oneCap ⟨0, 0⟩ :=
  ⟨by decide,
    (C15_unresolved_adjacency sampleEnv_contract sampleEnv_codes oneCap ⟨0, 0⟩ Reachable.empty
      (by decide) (by decide) (by decide) (by decide) (by decide) [] (by decide)).1⟩

/-! ## C13: decoding both sides of an adjacency -/

/-- The two handles of a block have the same name. -/
theorem Inv.name_eq_of_blk {env : Collab} {w : World} (hI : Inv env w) {p q : CapPtr}
    (hp : w.isCap p) (hq : w.isCap q) (hb : p.blk = q.blk) : cap_getName w p = cap_getName w q := by
  unfold cap_getName
  rw [hI.contents_eq hp, hI.contents_eq hq, hb]

theorem Inv.strandHandle_eq_of_blk {env : Collab} {w : World} (hI : Inv env w) {p q : CapPtr}
    (hp : w.isCap p) (hq : w.isCap q) (hb : p.blk = q.blk) :
    strandHandle w p = strandHandle w q := by
  obtain ⟨h1, h2, h3⟩ := hI.strandHandle_spec hp
  obtain ⟨h4, h5, h6⟩ := hI.strandHandle_spec hq
  exact hI.eq_of_strand h1 h4 (by rw [h2, h5, hb]) (by rw [h3, h6])

/-- The function `cap_makeAdjacent` does the same on every handle of a block. -/
theorem Inv.makeAdjacent_congr {env : Collab} {w : World} (hI : Inv env w) {p q r : CapPtr}
    (hp : w.isCap p) (hq : w.isCap q) (hb : p.blk = q.blk) :
    cap_makeAdjacent env w p r = cap_makeAdjacent env w q r := by
  rw [cap_makeAdjacent_eq, cap_makeAdjacent_eq, hI.strandHandle_eq_of_blk hp hq hb]

/-- Decoding the record of `x` and then the record of `y`, where `x` and `y`
are adjacent to each other: the first decode leaves the adjacency unset, the
second one links the two decoded caps. -/
theorem decode_adjacent_pair {env : Collab} (hE : EndContract env) (hC : CodesDistinct env)
    {w : World} {x y : CapPtr} (hxy : cap_getAdjacency env w x = some y)
    (hyx : cap_getAdjacency env w y = some x)
    {wt : World} (hRt : Reachable env wt) {ex ey : Ptr} (hex : ex ≠ NULL) (hey : ey ≠ NULL)
    (hfl : env.end_getFlower ex = env.end_getFlower ey)
    (hnx : cap_getName w x ≠ env.NULL_NAME) (hny : cap_getName w y ≠ env.NULL_NAME)
    (hnxy : cap_getName w x ≠ cap_getName w y)
    (hresx : recordResolves env (env.end_getFlower ex) w x)
    (hresy : recordResolves env (env.end_getFlower ey) w y)
    (hev : decodedEvent env (env.end_getFlower ex) w x
      = decodedEvent env (env.end_getFlower ey) w y)
    (hfy : flower_getCap env wt (env.end_getFlower ex) (cap_getName w y) = none)
    (rest1 rest2 : List Elem)
    (hr1 : binaryRepresentation_peekNextElementType rest1 ≠ some env.CODE_PARENT)
    (hr2 : binaryRepresentation_peekNextElementType rest2 ≠ some env.CODE_PARENT) :
    ∃ wt1 x1 wt2 y1,
      cap_loadFromBinaryRepresentation env wt (cap_writeBinaryRepresentation env w x ++ rest1) ex
        = .ok (wt1, rest1, some x1) ∧
      cap_loadFromBinaryRepresentation env wt1 (cap_writeBinaryRepresentation env w y ++ rest2)
        ey = .ok (wt2, rest2, some y1) ∧
      cap_getAdjacency env wt1 x1 = none ∧
      cap_getName wt2 x1 = cap_getName w x ∧ cap_getName wt2 y1 = cap_getName w y ∧
      (∃ c, cap_getAdjacency env wt2 x1 = some c ∧ cap_getName wt2 c = cap_getName w y) ∧
      (∃ c, cap_getAdjacency env wt2 y1 = some c ∧ cap_getName wt2 c = cap_getName w x) := by
  -- the first decode
  have h3x : cap_construct3 env wt (cap_getName w x)
      (decodedEvent env (env.end_getFlower ex) w x) ex
      = .ok ((cap_construct3_body env wt (cap_getName w x)
          (decodedEvent env (env.end_getFlower ex) w x) ex).1, ⟨wt.next, 0⟩) :=
    cap_construct3_of_asserts hex hresx.1 hnx (cap_construct3_asserts_hold hE wt _ _ hex)
  have hnewx := constructed_new env wt (cap_getName w x)
    (decodedEvent env (env.end_getFlower ex) w x) ex (cap_getCoordinate w x) (cap_getStrand w x)
    (decodedSequence env (env.end_getFlower ex) w x)
  have hadjx := constructed_new_adjacency env wt (cap_getName w x)
    (decodedEvent env (env.end_getFlower ex) w x) ex (cap_getCoordinate w x) (cap_getStrand w x)
    (decodedSequence env (env.end_getFlower ex) w x)
  generalize hw1 : cap_setCoordinates (cap_construct3_body env wt (cap_getName w x)
    (decodedEvent env (env.end_getFlower ex) w x) ex).1 ⟨wt.next, 0⟩ (cap_getCoordinate w x)
    (cap_getStrand w x) (decodedSequence env (env.end_getFlower ex) w x) = wt1 at hnewx hadjx
  have hR1 : Reachable env wt1 := by
    rw [← hw1]
    exact Reachable.setCoordinates _ _ _ _ (Reachable.construct3 _ _ _ hRt h3x)
      ⟨by rw [cap_construct3_body_next]; exact Nat.lt_succ_self _, Or.inl rfl⟩
  have hnext1 : wt1.next = wt.next + 1 := by
    rw [← hw1, cap_setCoordinates_next, cap_construct3_body_next]
  have hload1 : cap_loadFromBinaryRepresentation env wt
      (cap_writeBinaryRepresentation env w x ++ rest1) ex = .ok (wt1, rest1, some ⟨wt.next, 0⟩) := by
    rw [cap_writeBinaryRepresentation_eq, List.append_assoc, cap_load_primary_ok hC w x wt ex _ h3x,
      hw1, cap_writeRelationRecord_of_some hxy]
    simp only [List.cons_append, List.nil_append]
    refine cap_loadRelations_of_ok (cap_loadP2_unresolved _ _ _ ?_ hr1)
    rw [hnewx.2.2.2.2.2, ← hw1,
      flower_getCap_constructed_other hRt _ _ _ _ _ _ _ (Ne.symm hnxy)]
    exact hfy
  have hself : flower_getCap env wt1 (env.end_getFlower ex) (cap_getName w x)
      = some (cap_getPositiveOrientation env wt1 ⟨wt.next, 0⟩) := by
    rw [← hw1]
    exact flower_getCap_constructed_self env wt _ _ ex _ _ _
  -- the second decode
  have hI1 := hR1.inv hE
  have hx1 : wt1.isCap ⟨wt.next, 0⟩ := ⟨by rw [hnext1]; exact Nat.lt_succ_self _, Or.inl rfl⟩
  have hcap2 : wt1.isCap (cap_getPositiveOrientation env wt1 ⟨wt.next, 0⟩) ∧
      (cap_getPositiveOrientation env wt1 ⟨wt.next, 0⟩).blk = wt.next := by
    unfold cap_getPositiveOrientation
    by_cases ho : cap_getOrientation env wt1 ⟨wt.next, 0⟩
    · rw [if_pos ho]; exact ⟨hx1, rfl⟩
    · rw [if_neg ho]; exact ⟨hI1.isCap_reverse hx1, cap_getReverse_blk _ _⟩
  have h3y : cap_construct3 env wt1 (cap_getName w y)
      (decodedEvent env (env.end_getFlower ey) w y) ey
      = .ok ((cap_construct3_body env wt1 (cap_getName w y)
          (decodedEvent env (env.end_getFlower ey) w y) ey).1, ⟨wt1.next, 0⟩) :=
    cap_construct3_of_asserts hey hresy.1 hny (cap_construct3_asserts_hold hE wt1 _ _ hey)
  have hnewy := constructed_new env wt1 (cap_getName w y)
    (decodedEvent env (env.end_getFlower ey) w y) ey (cap_getCoordinate w y) (cap_getStrand w y)
    (decodedSequence env (env.end_getFlower ey) w y)
  have hold : ∀ p : CapPtr, p.blk = wt.next → _ := fun p hp =>
    constructed_old env wt1 (cap_getName w y)
      (decodedEvent env (env.end_getFlower ey) w y) ey (cap_getCoordinate w y) (cap_getStrand w y)
      (decodedSequence env (env.end_getFlower ey) w y)
      (show p.blk ≠ wt1.next by rw [hp, hnext1]; exact Nat.ne_of_lt (Nat.lt_succ_self _))
  have hother := flower_getCap_constructed_other hR1 (cap_getName w y)
    (decodedEvent env (env.end_getFlower ey) w y) ey (cap_getCoordinate w y) (cap_getStrand w y)
    (decodedSequence env (env.end_getFlower ey) w y) (env.end_getFlower ex) hnxy
  have hR2 : Reachable env (cap_setCoordinates (cap_construct3_body env wt1 (cap_getName w y)
      (decodedEvent env (env.end_getFlower ey) w y) ey).1 ⟨wt1.next, 0⟩ (cap_getCoordinate w y)
      (cap_getStrand w y) (decodedSequence env (env.end_getFlower ey) w y)) :=
    Reachable.setCoordinates _ _ _ _ (Reachable.construct3 _ _ _ hR1 h3y)
      ⟨by rw [cap_construct3_body_next]; exact Nat.lt_succ_self _, Or.inl rfl⟩
  generalize hw2 : cap_setCoordinates (cap_construct3_body env wt1 (cap_getName w y)
    (decodedEvent env (env.end_getFlower ey) w y) ey).1 ⟨wt1.next, 0⟩ (cap_getCoordinate w y)
    (cap_getStrand w y) (decodedSequence env (env.end_getFlower ey) w y) = wd
    at hnewy hold hother hR2
  have hnext2 : wd.next = wt1.next + 1 := by
    rw [← hw2, cap_setCoordinates_next, cap_construct3_body_next]
  have hI2 := hR2.inv hE
  have hy2 : wd.isCap ⟨wt1.next, 0⟩ := ⟨by rw [hnext2]; exact Nat.lt_succ_self _, Or.inl rfl⟩
  have hx2 : wd.isCap ⟨wt.next, 0⟩ := ⟨by rw [hnext2]; exact Nat.lt_succ_of_lt hx1.1, Or.inl rfl⟩
  have hc2 : wd.isCap (cap_getPositiveOrientation env wt1 ⟨wt.next, 0⟩) :=
    ⟨by rw [hnext2]; exact Nat.lt_succ_of_lt hcap2.1.1, hcap2.1.2⟩
  have hevx : cap_getEvent env wd (cap_getPositiveOrientation env wt1 ⟨wt.next, 0⟩)
      = decodedEvent env (env.end_getFlower ex) w x := by
    rw [(hold _ hcap2.2).2.2.2.1]
    have : cap_getEvent env wt1 (cap_getPositiveOrientation env wt1 ⟨wt.next, 0⟩)
        = cap_getEvent env wt1 ⟨wt.next, 0⟩ := by
      unfold cap_getPositiveOrientation
      by_cases ho : cap_getOrientation env wt1 ⟨wt.next, 0⟩
      · rw [if_pos ho]
      · rw [if_neg ho, hI1.event_reverse hx1]
    rw [this, hnewx.2.2.2.1, decoded_event]
  have hevy : cap_getEvent env wd ⟨wt1.next, 0⟩
      = decodedEvent env (env.end_getFlower ey) w y := by
    rw [hnewy.2.2.2.1, decoded_event]
  have hblk : (cap_getPositiveOrientation env wt1 ⟨wt.next, 0⟩).blk
      ≠ (⟨wt1.next, 0⟩ : CapPtr).blk := by
    rw [hcap2.2, hnext1]; exact Nat.ne_of_lt (Nat.lt_succ_self _)
  have hmk := hI2.makeAdjacent_succeeds hc2 hy2 hblk (by rw [hevx, hevy, hev])
  generalize hw3 : linkHandles env
    (cap_breakAdjacency env
      (cap_breakAdjacency env wd (strandHandle wd (cap_getPositiveOrientation env wt1 ⟨wt.next, 0⟩)))
      (strandHandle wd ⟨wt1.next, 0⟩))
    (strandHandle wd (cap_getPositiveOrientation env wt1 ⟨wt.next, 0⟩))
    (strandHandle wd ⟨wt1.next, 0⟩) = wt2 at hmk
  have hload2 : cap_loadFromBinaryRepresentation env wt1
      (cap_writeBinaryRepresentation env w y ++ rest2) ey
      = .ok (wt2, rest2, some ⟨wt1.next, 0⟩) := by
    rw [cap_writeBinaryRepresentation_eq, List.append_assoc, cap_load_primary_ok hC w y wt1 ey _ h3y,
      hw2, cap_writeRelationRecord_of_some hyx]
    simp only [List.cons_append, List.nil_append]
    have hg : flower_getCap env wd (env.end_getFlower (cap_getEnd env wd ⟨wt1.next, 0⟩))
        (cap_getName w x) = some (cap_getPositiveOrientation env wt1 ⟨wt.next, 0⟩) := by
      rw [hnewy.2.2.2.2.2, ← hfl, hother, hself]
    unfold cap_loadRelations
    rw [cap_loadP2_resolved _ _ _ hg hr2, hmk]
  -- the adjacency after the second decode
  have hmk' : cap_makeAdjacent env wd ⟨wt.next, 0⟩ ⟨wt1.next, 0⟩ = .ok wt2 := by
    rw [hI2.makeAdjacent_congr hx2 hc2 hcap2.2.symm]; exact hmk
  have hga := hI2.makeAdjacent_getAdjacency hE hx2 hy2 hmk'
  have hnames := fun p => cap_makeAdjacent_payload hmk' p
  have hI3 : Inv env wt2 := hI2.makeAdjacent hE hx2 hy2 hmk'
  have hnx2 : cap_getName wt2 ⟨wt.next, 0⟩ = cap_getName w x := by
    rw [(hnames _).1, (hold _ rfl).1, hnewx.1]
  have hny2 : cap_getName wt2 ⟨wt1.next, 0⟩ = cap_getName w y := by
    rw [(hnames _).1, hnewy.1]
  have hcap3 : ∀ p, wd.isCap p → wt2.isCap p := fun p hp =>
    isCap_of_next (cap_makeAdjacent_next hmk') hp
  refine ⟨wt1, ⟨wt.next, 0⟩, wt2, ⟨wt1.next, 0⟩, hload1, hload2, hadjx.1, hnx2, hny2,
    ⟨_, hga.1, ?_⟩, ⟨_, hga.2, ?_⟩⟩
  · rw [← hny2]
    by_cases hs : cap_getStrand wd ⟨wt.next, 0⟩ = cap_getStrand wd ⟨wt1.next, 0⟩
    · rw [if_pos hs]
    · rw [if_neg hs]
      exact hI3.name_eq_of_blk (hcap3 _ (hI2.isCap_reverse hy2)) (hcap3 _ hy2)
        (cap_getReverse_blk _ _)
  · rw [← hnx2]
    by_cases hs : cap_getStrand wd ⟨wt1.next, 0⟩ = cap_getStrand wd ⟨wt.next, 0⟩
    · rw [if_pos hs]
    · rw [if_neg hs]
      exact hI3.name_eq_of_blk (hcap3 _ (hI2.isCap_reverse hx2)) (hcap3 _ hx2)
        (cap_getReverse_blk _ _)

/-- C13, as stated, fails.  In the reachable memory `capsAlignedMoved` the
handles `⟨0, 0⟩` (name 1, coordinate 5, Sequence 50 of Event 150) and `⟨1, 0⟩`
(name 2, Event 7) were linked by `cap_makeAdjacent` and are adjacent to each
other.  Their records, read into the Ends 2 and 4 of the empty memory, whose
Flower holds the Sequence 50 and the Event 7, resolve to the Events 150 and 7:
in either order the first read returns a cap and the second one fails the
assertion of line 294, so the decoded caps are not made adjacent. -/
theorem C13_counterexample :
    Reachable sampleEnv capsAlignedMoved ∧
      cap_getAdjacency sampleEnv capsAlignedMoved ⟨0, 0⟩ = some ⟨1, 0⟩ ∧
      cap_getAdjacency sampleEnv capsAlignedMoved ⟨1, 0⟩ = some ⟨0, 0⟩ ∧
      recordResolves sampleEnv (sampleEnv.end_getFlower 2) capsAlignedMoved ⟨0, 0⟩ ∧
      recordResolves sampleEnv (sampleEnv.end_getFlower 4) capsAlignedMoved ⟨1, 0⟩ ∧
      decodedEvent sampleEnv (sampleEnv.end_getFlower 2) capsAlignedMoved ⟨0, 0⟩ = 150 ∧
      decodedEvent sampleEnv (sampleEnv.end_getFlower 4) capsAlignedMoved ⟨1, 0⟩ = 7 ∧
      (cap_loadFromBinaryRepresentation sampleEnv World.empty
            (cap_writeBinaryRepresentation sampleEnv capsAlignedMoved ⟨0, 0⟩ ++ []) 2
          = .ok (movedDecoded, [], some ⟨0, 0⟩) ∧
        ∃ x, cap_loadFromBinaryRepresentation sampleEnv movedDecoded
            (cap_writeBinaryRepresentation sampleEnv capsAlignedMoved ⟨1, 0⟩ ++ []) 4
          = .assertFail x) ∧
      (cap_loadFromBinaryRepresentation sampleEnv World.empty
            (cap_writeBinaryRepresentation sampleEnv capsAlignedMoved ⟨1, 0⟩ ++ []) 4
          = .ok (partnerDecoded, [], some ⟨0, 0⟩) ∧
        ∃ x, cap_loadFromBinaryRepresentation sampleEnv partnerDecoded
            (cap_writeBinaryRepresentation sampleEnv capsAlignedMoved ⟨0, 0⟩ ++ []) 2
          = .assertFail x) :=
  ⟨reachable_capsAlignedMoved, by decide, by decide, by decide, by decide, by decide, by decide,
    ⟨rfl, _, rfl⟩, ⟨rfl, _, rfl⟩⟩

/-- C13 (amended): let `a` and `b` be adjacent to each other in a reachable
memory, with different names other than `NULL_NAME`, and let both be written.
Let the two records be read, in either order, into non-null Ends of one Flower
of a reachable memory that holds the named Events or Sequences, resolves the
two records to one Event and has neither cap in its index.  Then the first read
returns a cap with no adjacency, the second read links the two, and afterwards
`cap_getAdjacency` of the decoded cap of the name of `a` is a handle of the
name of `b`, and the other way round. -/
theorem C13_adjacent_pair_roundtrip {env : Collab} (hE : EndContract env)
    (hC : CodesDistinct env) {w : World} {a b : CapPtr} (hRw : Reachable env w)
    (ha : w.isCap a) (hab : cap_getAdjacency env w a = some b)
    {wt : World} (hRt : Reachable env wt) {ea eb : Ptr} (hea : ea ≠ NULL) (heb : eb ≠ NULL)
    (hfl : env.end_getFlower ea = env.end_getFlower eb)
    (hna : cap_getName w a ≠ env.NULL_NAME) (hnb : cap_getName w b ≠ env.NULL_NAME)
    (hnab : cap_getName w a ≠ cap_getName w b)
    (hresa : recordResolves env (env.end_getFlower ea) w a)
    (hresb : recordResolves env (env.end_getFlower eb) w b)
    (hev : decodedEvent env (env.end_getFlower ea) w a
      = decodedEvent env (env.end_getFlower eb) w b)
    (hfa : flower_getCap env wt (env.end_getFlower ea) (cap_getName w a) = none)
    (hfb : flower_getCap env wt (env.end_getFlower ea) (cap_getName w b) = none)
    (rest1 rest2 : List Elem)
    (hr1 : binaryRepresentation_peekNextElementType rest1 ≠ some env.CODE_PARENT)
    (hr2 : binaryRepresentation_peekNextElementType rest2 ≠ some env.CODE_PARENT) :
    (∃ wt1 a1 wt2 b1,
      cap_loadFromBinaryRepresentation env wt (cap_writeBinaryRepresentation env w a ++ rest1) ea
        = .ok (wt1, rest1, some a1) ∧
      cap_loadFromBinaryRepresentation env wt1 (cap_writeBinaryRepresentation env w b ++ rest2)
        eb = .ok (wt2, rest2, some b1) ∧
      cap_getAdjacency env wt1 a1 = none ∧
      cap_getName wt2 a1 = cap_getName w a ∧ cap_getName wt2 b1 = cap_getName w b ∧
      (∃ c, cap_getAdjacency env wt2 a1 = some c ∧ cap_getName wt2 c = cap_getName w b) ∧
      (∃ c, cap_getAdjacency env wt2 b1 = some c ∧ cap_getName wt2 c = cap_getName w a)) ∧
    (∃ wt1 b1 wt2 a1,
      cap_loadFromBinaryRepresentation env wt (cap_writeBinaryRepresentation env w b ++ rest1) eb
        = .ok (wt1, rest1, some b1) ∧
      cap_loadFromBinaryRepresentation env wt1 (cap_writeBinaryRepresentation env w a ++ rest2)
        ea = .ok (wt2, rest2, some a1) ∧
      cap_getAdjacency env wt1 b1 = none ∧
      cap_getName wt2 b1 = cap_getName w b ∧ cap_getName wt2 a1 = cap_getName w a ∧
      (∃ c, cap_getAdjacency env wt2 b1 = some c ∧ cap_getName wt2 c = cap_getName w a) ∧
      (∃ c, cap_getAdjacency env wt2 a1 = some c ∧ cap_getName wt2 c = cap_getName w b)) := by
  have hba := ((hRw.inv hE).adjacency_symm hE ha hab).1
  constructor
  · exact decode_adjacent_pair hE hC hab hba hRt hea heb hfl hna hnb hnab hresa hresb hev hfb
      rest1 rest2 hr1 hr2
  · refine decode_adjacent_pair hE hC hba hab hRt heb hea hfl.symm hnb hna (Ne.symm hnab) hresb
      hresa hev.symm ?_ rest1 rest2 hr1 hr2
    rw [← hfl]; exact hfa

/-- C13 for the adjacent handles `⟨0, 0⟩` (cap 1) and `⟨1, 1⟩` (cap 2) of
`capsOppositeLinked`, read into the Ends 2 and 4 of the empty memory. -/
theorem C13_adjacent_pair_roundtrip_witness :
    cap_getAdjacency sampleEnv capsOppositeLinked ⟨0, 0⟩ = some ⟨1, 1⟩ ∧
    ∃ wt1 a1 wt2 b1,
      cap_loadFromBinaryRepresentation sampleEnv World.empty
          (cap_writeBinaryRepresentation sampleEnv capsOppositeLinked ⟨0, 0⟩ ++ []) 2
        = .ok (wt1, [], some a1) ∧
      cap_loadFromBinaryRepresentation sampleEnv wt1
          (cap_writeBinaryRepresentation sampleEnv capsOppositeLinked ⟨1, 1⟩ ++ []) 4
        = .ok (wt2, [], some b1) ∧
      cap_getAdjacency sampleEnv wt1 a1 = none ∧
      cap_getName wt2 a1 = cap_getName capsOppositeLinked ⟨0, 0⟩ ∧
      cap_getName wt2 b1 = cap_getName capsOppositeLinked ⟨1, 1⟩ ∧
      (∃ c, cap_getAdjacency sampleEnv wt2 a1 = some c ∧
        cap_getName wt2 c = cap_getName capsOppositeLinked ⟨1, 1⟩) ∧
      (∃ c, cap_getAdjacency sampleEnv wt2 b1 = some c ∧
        cap_getName wt2 c = cap_getName capsOppositeLinked ⟨0, 0⟩) :=
  ⟨by decide,
    (C13_adjacent_pair_roundtrip sampleEnv_contract sampleEnv_codes reachable_capsOppositeLinked
      (by decide) (by decide) Reachable.empty (by decide) (by decide) (by decide) (by decide)
      (by decide) (by decide) (by decide) (by decide) (by decide) (by decide) (by decide)
      [] [] (by decide) (by decide)).1⟩

/-! ## C19: `cap_copyConstruct` -/

theorem copiedSequence_name {env : Collab} (hN : NamingContract env) (flower : Ptr) (w : World)
    (cap : CapPtr) (h : copiedSequence env flower w cap ≠ NULL) :
    env.sequence_getName (copiedSequence env flower w cap)
      = env.sequence_getName (cap_getSequence w cap) := by
  unfold copiedSequence at h ⊢
  by_cases hf : env.flower_getSequence flower (env.sequence_getName (cap_getSequence w cap))
      = NULL
  · rw [if_pos hf] at h ⊢
    exact hN.2.2 _ _ _ h
  · rw [if_neg hf]
    exact hN.2.1 _ _ hf

/-- What `cap_copyConstruct` returns when its assertions hold. -/
theorem cap_copyConstruct_eq {env : Collab} (hE : EndContract env) {w : World} {c : CapPtr}
    {e : Ptr} (he : e ≠ NULL)
    (hname : env.end_getName (cap_getEnd env w c) = env.end_getName e)
    (hside : env.end_getSide e = cap_getSide env w c)
    (hn : cap_getName w c ≠ env.NULL_NAME) (hb : c.blk ≠ w.next)
    (hseq : cap_getSequence w c ≠ NULL →
      copiedSequence env (env.end_getFlower e) w c ≠ NULL ∧
      env.sequence_getEvent (copiedSequence env (env.end_getFlower e) w c) ≠ NULL)
    (hevt : cap_getSequence w c = NULL →
      env.eventTree_getEvent (env.flower_getEventTree (env.end_getFlower e))
        (env.event_getName (cap_getEvent env w c)) ≠ NULL) :
    cap_copyConstruct env w e c
      = .ok (cap_setCoordinates
          (cap_construct3_body env w (cap_getName w c)
            (if cap_getSequence w c ≠ NULL then
              env.sequence_getEvent (copiedSequence env (env.end_getFlower e) w c)
             else env.eventTree_getEvent (env.flower_getEventTree (env.end_getFlower e))
              (env.event_getName (cap_getEvent env w c))) e).1
          ⟨w.next, 0⟩ (cap_getCoordinate w c) (cap_getStrand w c)
          (if cap_getSequence w c ≠ NULL then copiedSequence env (env.end_getFlower e) w c
           else NULL), ⟨w.next, 0⟩) := by
  unfold cap_copyConstruct
  rw [if_neg (not_not.2 hname), if_neg (not_not.2 hside)]
  by_cases hs : cap_getSequence w c = NULL
  · have hev := hevt hs
    have h3 := cap_construct3_of_asserts he hev hn
      (cap_construct3_asserts_hold hE w (cap_getName w c) _ he)
    have hold := cap_construct3_body_old env w (cap_getName w c)
      (env.eventTree_getEvent (env.flower_getEventTree (env.end_getFlower e))
        (env.event_getName (cap_getEvent env w c))) e hb
    have hcoord : cap_getCoordinate (cap_construct3_body env w (cap_getName w c)
        (env.eventTree_getEvent (env.flower_getEventTree (env.end_getFlower e))
          (env.event_getName (cap_getEvent env w c))) e).1 c = cap_getCoordinate w c := by
      unfold cap_getCoordinate
      rw [hold.2.2.2.1, hold.2.2.2.2.2]
    simp only [hs, ne_eq, not_true_eq_false, if_false, hev, h3, hcoord, hold.2.1]
    rfl
  · obtain ⟨hsq, hev⟩ := hseq hs
    have h3 := cap_construct3_of_asserts he hev hn
      (cap_construct3_asserts_hold hE w (cap_getName w c) _ he)
    unfold copiedSequence at hsq hev h3 ⊢
    by_cases hf : env.flower_getSequence (env.end_getFlower e)
        (env.sequence_getName (cap_getSequence w c)) = NULL
    · rw [if_pos hf] at hsq hev h3
      simp only [hs, ne_eq, not_false_eq_true, if_true, hf, hsq, if_false, cap_construct4, h3]
      rfl
    · rw [if_neg hf] at hsq hev h3
      simp only [hs, ne_eq, not_false_eq_true, if_true, hf, if_false, cap_construct4, h3]
      rfl

/-- The names stored in a reachable memory are the ones `cap_construct3`
accepted: none is `NULL_NAME`. -/
theorem Reachable.name_stored {env : Collab} {w : World} (h : Reachable env w) :
    ∀ b, b < w.next → (w.contents ⟨b, 2⟩).instanceName ≠ env.NULL_NAME := by
  induction h with
  | empty => intro b hb; exact absurd hb (Nat.not_lt_zero b)
  | @construct3 w0 _ _ n ev e _ hok ih =>
    obtain ⟨-, -, hn, rfl, -⟩ := cap_construct3_ok hok
    intro b hb
    rw [cap_construct3_body_next] at hb
    rw [cap_construct3_body_contents]
    by_cases hbn : b = w0.next
    · subst hbn; simpa using hn
    · have h1 : (⟨b, 2⟩ : CapPtr) ≠ ⟨w0.next, 2⟩ := by
        intro hc; exact hbn (congrArg CapPtr.blk hc)
      rw [if_neg h1, if_neg hbn]
      exact ih b (by omega)
  | @construct4 w0 _ _ n e c s seq _ _ hok ih =>
    obtain ⟨w2, h3, rfl⟩ := cap_construct4_ok hok
    obtain ⟨-, -, hn, rfl, -⟩ := cap_construct3_ok h3
    intro b hb
    rw [cap_setCoordinates_next, cap_construct3_body_next] at hb
    rw [(cap_setCoordinates_fields _ _ _ _ _ _).1, cap_construct3_body_contents]
    by_cases hbn : b = w0.next
    · subst hbn; simpa using hn
    · have h1 : (⟨b, 2⟩ : CapPtr) ≠ ⟨w0.next, 2⟩ := by
        intro hc; exact hbn (congrArg CapPtr.blk hc)
      rw [if_neg h1, if_neg hbn]
      exact ih b (by omega)
  | setCoordinates cap c s seq _ _ ih =>
    intro b hb
    rw [cap_setCoordinates_next] at hb
    rw [(cap_setCoordinates_fields _ _ _ _ _ _).1]
    exact ih b hb
  | makeAdjacent cap cap2 _ _ _ hok ih =>
    intro b hb
    rw [cap_makeAdjacent_next hok] at hb
    obtain ⟨x, hx⟩ := cap_makeAdjacent_contents_frame hok ⟨b, 2⟩
    rw [hx]
    exact ih b hb
  | breakAdjacency cap _ _ ih =>
    intro b hb
    rw [cap_breakAdjacency_next] at hb
    obtain ⟨x, hx⟩ := cap_breakAdjacency_contents_frame env _ cap ⟨b, 2⟩
    rw [hx]
    exact ih b hb
  | setSegment cap seg _ _ ih =>
    intro b hb
    have hb' : b < _ := hb
    unfold cap_setSegment
    rw [modifyContents_contents]
    split
    · rename_i hq
      rw [← hq]
      exact ih b hb'
    · exact ih b hb'

theorem reachable_nested_oneCap : Reachable nestedEnv oneCap :=
  Reachable.construct3 1 7 2 Reachable.empty
    (rfl : cap_construct3 nestedEnv World.empty 1 7 2 = .ok (oneCap, ⟨0, 0⟩))

/-- C19, as stated, fails when the Flower of `e` holds no Event of the name of
the event of `c`.  With the collaborators `nestedEnv`, the cap `⟨0, 0⟩` of the
reachable memory `oneCap` has no sequence and Event 7, and lies in End 2 of
Flower 1; End 22 has the name of End 2 and the side of the cap, and lies in
Flower 2, whose Event tree holds no Event.  `cap_copyConstruct(22, ⟨0, 0⟩)`
fails `assert(event != NULL)` (line 200) and returns no handle. -/
theorem C19_counterexample :
    Reachable nestedEnv oneCap ∧ oneCap.isCap ⟨0, 0⟩ ∧
      nestedEnv.end_getName 22 = nestedEnv.end_getName (cap_getEnd nestedEnv oneCap ⟨0, 0⟩) ∧
      nestedEnv.end_getSide 22 = cap_getSide nestedEnv oneCap ⟨0, 0⟩ ∧
      cap_getSequence oneCap ⟨0, 0⟩ = NULL ∧
      nestedEnv.eventTree_getEvent (nestedEnv.flower_getEventTree (nestedEnv.end_getFlower 22))
        (nestedEnv.event_getName (cap_getEvent nestedEnv oneCap ⟨0, 0⟩)) = NULL ∧
      cap_copyConstruct nestedEnv oneCap 22 ⟨0, 0⟩ = .assertFail oneCap :=
  ⟨reachable_nested_oneCap, by decide, by decide, by decide, by decide, by decide, rfl⟩

/-- C19 (amended): let `c` be a handle of a reachable memory and `e` a non-null
End with the name of the End of `c` and the side of `c`, such that, if `c` has
a sequence, the Sequence of that name found in the Flower of `e`, or else
created there, has an Event, and, if `c` has none, the Event tree of the Flower
of `e` holds an Event of the name of the event of `c`.  Then
`cap_copyConstruct(e, c)` returns a handle in `e` with the name, coordinate and
strand of `c`.  If `c` has a sequence, the copy has a sequence of the same
name: the one that the Flower of `e` holds under that name if it holds one,
else the one that `sequence_construct` makes in the Flower of `e`; and the
event of the copy is the event of that sequence.  Otherwise the copy has no
sequence and its event is the Event that the Event tree of the Flower of `e`
holds under the name of the event of `c`.  And `c` reads what it read
before. -/
theorem C19_copyConstruct {env : Collab} (hE : EndContract env) (hN : NamingContract env)
    {w : World} (hR : Reachable env w) {c : CapPtr} (hc : w.isCap c) {e : Ptr} (he : e ≠ NULL)
    (hname : env.end_getName e = env.end_getName (cap_getEnd env w c))
    (hside : env.end_getSide e = cap_getSide env w c)
    (hseq : cap_getSequence w c ≠ NULL →
      copiedSequence env (env.end_getFlower e) w c ≠ NULL ∧
      env.sequence_getEvent (copiedSequence env (env.end_getFlower e) w c) ≠ NULL)
    (hevt : cap_getSequence w c = NULL →
      env.eventTree_getEvent (env.flower_getEventTree (env.end_getFlower e))
        (env.event_getName (cap_getEvent env w c)) ≠ NULL) :
    ∃ w1 c1, cap_copyConstruct env w e c = .ok (w1, c1) ∧
      cap_getEnd env w1 c1 = e ∧ cap_getName w1 c1 = cap_getName w c ∧
      cap_getCoordinate w1 c1 = cap_getCoordinate w c ∧
      cap_getStrand w1 c1 = cap_getStrand w c ∧
      (cap_getSequence w c ≠ NULL →
        cap_getSequence w1 c1 ≠ NULL ∧
        env.sequence_getName (cap_getSequence w1 c1)
          = env.sequence_getName (cap_getSequence w c) ∧
        (env.flower_getSequence (env.end_getFlower e)
            (env.sequence_getName (cap_getSequence w c)) ≠ NULL →
          cap_getSequence w1 c1 = env.flower_getSequence (env.end_getFlower e)
            (env.sequence_getName (cap_getSequence w c))) ∧
        (env.flower_getSequence (env.end_getFlower e)
            (env.sequence_getName (cap_getSequence w c)) = NULL →
          cap_getSequence w1 c1 = env.sequence_construct
            (env.cactusDisk_getMetaSequence (env.flower_getCactusDisk (env.end_getFlower e))
              (env.sequence_getName (cap_getSequence w c))) (env.end_getFlower e)) ∧
        cap_getEvent env w1 c1 = env.sequence_getEvent (cap_getSequence w1 c1)) ∧
      (cap_getSequence w c = NULL →
        cap_getSequence w1 c1 = NULL ∧
        env.event_getName (cap_getEvent env w1 c1)
          = env.event_getName (cap_getEvent env w c) ∧
        cap_getEvent env w1 c1
          = env.eventTree_getEvent (env.flower_getEventTree (env.end_getFlower e))
              (env.event_getName (cap_getEvent env w c))) ∧
      cap_getName w1 c = cap_getName w c ∧ cap_getCoordinate w1 c = cap_getCoordinate w c ∧
      cap_getStrand w1 c = cap_getStrand w c ∧ cap_getEvent env w1 c = cap_getEvent env w c ∧
      cap_getSequence w1 c = cap_getSequence w c ∧ cap_getEnd env w1 c = cap_getEnd env w c ∧
      cap_getAdjacency env w1 c = cap_getAdjacency env w c := by
  have hI := hR.inv hE
  have hb : c.blk ≠ w.next := Nat.ne_of_lt hc.1
  have hn : cap_getName w c ≠ env.NULL_NAME := by
    unfold cap_getName
    rw [hI.contents_eq hc]
    exact hR.name_stored c.blk hc.1
  refine ⟨_, _, cap_copyConstruct_eq hE he hname.symm hside hn hb hseq hevt, ?_⟩
  obtain ⟨n1, n2, n3, n4, n5, n6⟩ := constructed_new env w (cap_getName w c)
    (if cap_getSequence w c ≠ NULL then
      env.sequence_getEvent (copiedSequence env (env.end_getFlower e) w c)
     else env.eventTree_getEvent (env.flower_getEventTree (env.end_getFlower e))
      (env.event_getName (cap_getEvent env w c))) e (cap_getCoordinate w c) (cap_getStrand w c)
    (if cap_getSequence w c ≠ NULL then copiedSequence env (env.end_getFlower e) w c else NULL)
  have hold := fun (p : CapPtr) (hp : p.blk ≠ w.next) =>
    constructed_old env w (cap_getName w c)
      (if cap_getSequence w c ≠ NULL then
        env.sequence_getEvent (copiedSequence env (env.end_getFlower e) w c)
       else env.eventTree_getEvent (env.flower_getEventTree (env.end_getFlower e))
        (env.event_getName (cap_getEvent env w c))) e (cap_getCoordinate w c)
      (cap_getStrand w c)
      (if cap_getSequence w c ≠ NULL then copiedSequence env (env.end_getFlower e) w c
       else NULL) hp
  obtain ⟨o1, o2, o3, o4, o5, o6, o7, o8⟩ := hold c hb
  refine ⟨n6, n1, n2, n3, ?_, ?_, o1, o2, o3, o4, o5, o6, ?_⟩
  · intro hs
    rw [n4, n5, if_pos hs, if_pos (hseq hs).1]
    refine ⟨(hseq hs).1, copiedSequence_name hN _ _ _ (hseq hs).1, ?_, ?_, rfl⟩
    · intro hf
      unfold copiedSequence
      rw [if_neg hf]
    · intro hf
      unfold copiedSequence
      rw [if_pos hf]
  · intro hs
    rw [n5, n4]
    simp only [hs, ne_eq, not_true_eq_false, if_false, true_and, and_true]
    exact hN.1 _ _ (hevt hs)
  · unfold cap_getAdjacency cap_getP
    have hcc : cap_getContents (cap_setCoordinates
        (cap_construct3_body env w (cap_getName w c)
          (if cap_getSequence w c ≠ NULL then
            env.sequence_getEvent (copiedSequence env (env.end_getFlower e) w c)
           else env.eventTree_getEvent (env.flower_getEventTree (env.end_getFlower e))
            (env.event_getName (cap_getEvent env w c))) e).1
        ⟨w.next, 0⟩ (cap_getCoordinate w c) (cap_getStrand w c)
        (if cap_getSequence w c ≠ NULL then copiedSequence env (env.end_getFlower e) w c
         else NULL)) c = cap_getContents w c := by
      rw [cap_getContents_setCoordinates, (cap_construct3_body_old env w _ _ e hb).2.2.2.1]
    rw [hcc, o8]
    cases hs : (w.contents (cap_getContents w c)).adjacency with
    | none => rfl
    | some s =>
      have hs' := hs
      rw [hI.contents_eq hc] at hs'
      obtain ⟨hsc, -, -⟩ := hI.adj c.blk hc.1 s hs'
      simp only [cap_getOrientation, o6, (hold s (Nat.ne_of_lt hsc.1)).2.2.2.2.2.2.1]

theorem sampleEnv_naming : NamingContract sampleEnv := by
  refine ⟨?_, ?_, ?_⟩
  · intro _ n hn
    have h0 : n.toNat ≠ 0 := hn
    show ((n.toNat : Nat) : Int) = n
    omega
  · intro _ n hn
    by_cases h60 : n = 60
    · exact absurd (if_pos h60) hn
    · have h0 : n.toNat ≠ 0 := by
        intro h
        apply hn
        show (if n = 60 then 0 else n.toNat) = 0
        rw [if_neg h60]; exact h
      show (((if n = 60 then 0 else n.toNat : Nat)) : Int) = n
      rw [if_neg h60]
      omega
  · intro _ _ n hn
    have h0 : n.toNat ≠ 0 := hn
    show ((n.toNat : Nat) : Int) = n
    omega

theorem reachable_capWithSequence : Reachable sampleEnv capWithSequence :=
  Reachable.setCoordinates ⟨0, 0⟩ 5 true 50 reachable_oneCap (by decide)

/-- C19 (amended) under `sampleEnv`, whose one Flower holds every Event and
every Sequence but 60, for copies into End 22, an End of the name and side of
End 2: the cap `⟨0, 0⟩` of `capWithSequence` (name 1, coordinate 5, strand true,
Sequence 50), and the cap `⟨0, 0⟩` of `oneCap` (name 1, no sequence, Event 7). -/
theorem C19_copyConstruct_witness :
    (∃ w1 c1, cap_copyConstruct sampleEnv capWithSequence 22 ⟨0, 0⟩ = .ok (w1, c1) ∧
      cap_getEnd sampleEnv w1 c1 = 22 ∧ cap_getName w1 c1 = 1 ∧
      cap_getCoordinate w1 c1 = 5 ∧ cap_getStrand w1 c1 = true ∧
      cap_getSequence w1 c1 ≠ NULL ∧
      sampleEnv.sequence_getName (cap_getSequence w1 c1) = 50 ∧
      cap_getSequence w1 c1 = sampleEnv.flower_getSequence (sampleEnv.end_getFlower 22) 50 ∧
      cap_getAdjacency sampleEnv w1 ⟨0, 0⟩ = none) ∧
    (∃ w1 c1, cap_copyConstruct sampleEnv oneCap 22 ⟨0, 0⟩ = .ok (w1, c1) ∧
      cap_getEnd sampleEnv w1 c1 = 22 ∧ cap_getName w1 c1 = 1 ∧
      cap_getCoordinate w1 c1 = INT64_MAX ∧ cap_getStrand w1 c1 = true ∧
      cap_getSequence w1 c1 = NULL ∧
      sampleEnv.event_getName (cap_getEvent sampleEnv w1 c1) = 7 ∧
      cap_getEvent sampleEnv w1 c1
        = sampleEnv.eventTree_getEvent (sampleEnv.flower_getEventTree
            (sampleEnv.end_getFlower 22)) 7) := by
  obtain ⟨w1, c1, h1, h2, h3, h4, h5, h6, -, -, -, -, -, -, -, h7⟩ :=
    C19_copyConstruct sampleEnv_contract sampleEnv_naming reachable_capWithSequence
      (by decide : capWithSequence.isCap ⟨0, 0⟩) (by decide : (22 : Ptr) ≠ NULL)
      (by decide) (by decide) (by decide) (by decide)
  obtain ⟨w2, c2, k1, k2, k3, k4, k5, -, k6, -⟩ :=
    C19_copyConstruct sampleEnv_contract sampleEnv_naming reachable_oneCap
      (by decide : oneCap.isCap ⟨0, 0⟩) (by decide : (22 : Ptr) ≠ NULL)
      (by decide) (by decide) (by decide) (by decide)
  exact ⟨⟨w1, c1, h1, h2, h3, h4, h5, (h6 (by decide)).1, (h6 (by decide)).2.1,
      (h6 (by decide)).2.2.1 (by decide), h7⟩,
    ⟨w2, c2, k1, k2, k3, k4, k5, (k6 (by decide)).1, (k6 (by decide)).2.1,
      (k6 (by decide)).2.2⟩⟩

/-! ## C20: what adjacent caps share -/

theorem ReachableUnmoved.reachable {env : Collab} {w : World} (h : ReachableUnmoved env w) :
    Reachable env w := by
  induction h with
  | empty => exact Reachable.empty
  | construct3 n ev e _ hok ih => exact Reachable.construct3 n ev e ih hok
  | construct4 n e c s seq _ hs hok ih => exact Reachable.construct4 n e c s seq ih hs hok
  | setCoordinates cap c s seq _ hc _ ih => exact Reachable.setCoordinates cap c s seq ih hc
  | makeAdjacent cap cap2 _ hc hc2 hok ih => exact Reachable.makeAdjacent cap cap2 ih hc hc2 hok
  | breakAdjacency cap _ hc ih => exact Reachable.breakAdjacency cap ih hc

/-- The two handles of a block have the same event. -/
theorem Inv.event_eq_of_blk {env : Collab} {w : World} (hI : Inv env w) {p q : CapPtr}
    (hp : w.isCap p) (hq : w.isCap q) (hb : p.blk = q.blk) :
    cap_getEvent env w p = cap_getEvent env w q := by
  rw [← hI.event_strandHandle hp, ← hI.event_strandHandle hq,
    hI.strandHandle_eq_of_blk hp hq hb]

/-- An adjacency read after a store that keeps the bits and the stored Ends and
writes no new adjacency into the record of `h` was read before the store. -/
theorem cap_getAdjacency_of_frame {env : Collab} {w w1 : World} (hb : w1.bits = w.bits)
    (he : ∀ q, (w1.contents q).endPtr = (w.contents q).endPtr) {h c : CapPtr}
    (hs : ∀ s, (w1.contents (cap_getContents w h)).adjacency = some s →
      (w.contents (cap_getContents w h)).adjacency = some s)
    (hadj : cap_getAdjacency env w1 h = some c) : cap_getAdjacency env w h = some c := by
  unfold cap_getAdjacency cap_getP at hadj ⊢
  rw [cap_getContents_of_bits hb] at hadj
  cases h1 : (w1.contents (cap_getContents w h)).adjacency with
  | none => rw [h1] at hadj; simp at hadj
  | some s =>
    rw [h1] at hadj
    rw [hs s h1]
    simp only [cap_getOrientation_of_frame env hb he, cap_getReverse_of_bits hb] at hadj
    exact hadj

theorem cap_breakAdjacency_adjacency_sub (env : Collab) (w : World) (cap q : CapPtr)
    (s : CapPtr) (h : ((cap_breakAdjacency env w cap).contents q).adjacency = some s) :
    (w.contents q).adjacency = some s := by
  rcases cap_breakAdjacency_contents env w cap q with h1 | h1
  · rw [h1] at h; exact h
  · rw [h1] at h; simp at h

theorem cap_breakAdjacency_payload (env : Collab) (w : World) (cap p : CapPtr) :
    cap_getEvent env (cap_breakAdjacency env w cap) p = cap_getEvent env w p ∧
      cap_getStrand (cap_breakAdjacency env w cap) p = cap_getStrand w p := by
  have hb := cap_breakAdjacency_bits env w cap
  obtain ⟨x, hx⟩ := cap_breakAdjacency_contents_frame env w cap (cap_getContents w p)
  have hc := cap_getContents_of_bits hb p
  unfold cap_getStrand cap_getEvent cap_getHasEventNotSequence
  simp [hc, hx, cap_getBit_of_bits hb]

/-- A `cap_setCoordinates` on one pair leaves the event and the strand of the
handles of the other pairs as they were. -/
theorem Inv.setCoordinates_other {env : Collab} {w : World} (hI : Inv env w) {cap p : CapPtr}
    (hc : w.isCap cap) (hp : w.isCap p) (hne : p.blk ≠ cap.blk) (c : Int) (s : Bool)
    (seq : Ptr) :
    cap_getEvent env (cap_setCoordinates w cap c s seq) p = cap_getEvent env w p ∧
      cap_getStrand (cap_setCoordinates w cap c s seq) p = cap_getStrand w p := by
  have h1 : p ≠ cap := fun h => hne (congrArg CapPtr.blk h)
  have h2 : p ≠ cap_getReverse w cap := by
    intro h
    apply hne
    rw [h, hI.reverse_eq hc]
  have h3 : cap_getContents w p ≠ cap_getContents w cap := by
    rw [hI.contents_eq hp, hI.contents_eq hc]
    intro h
    have hblk := congrArg CapPtr.blk h
    exact hne hblk
  have h4 : ¬(seq ≠ NULL ∧ (p = cap ∨ p = cap_getReverse w cap)) := by
    rintro ⟨-, h | h⟩
    · exact h1 h
    · exact h2 h
  refine ⟨?_, ?_⟩
  · unfold cap_getEvent
    rw [cap_getHasEventNotSequence_setCoordinates, cap_getContents_setCoordinates,
      cap_setCoordinates_contents, if_neg h3, if_neg h4]
  · rw [cap_getStrand_setCoordinates, if_neg h2, if_neg h1]

theorem cap_getAdjacency_setCoordinates (env : Collab) (w : World) (cap p : CapPtr) (c : Int)
    (s : Bool) (seq : Ptr) :
    cap_getAdjacency env (cap_setCoordinates w cap c s seq) p = cap_getAdjacency env w p := by
  unfold cap_getAdjacency cap_getP
  rw [cap_getContents_setCoordinates, (cap_setCoordinates_fields w cap _ c s seq).2.1]
  simp only [cap_getOrientation_setCoordinates, cap_getReverse_setCoordinates]

/-- Handles of blocks allocated before `cap_construct3` read the same event,
strand and adjacency afterwards. -/
theorem Inv.construct3_body_old {env : Collab} {w : World} (hI : Inv env w) (n : Name)
    (ev e : Ptr) {p : CapPtr} (hp : w.isCap p) :
    cap_getEvent env (cap_construct3_body env w n ev e).1 p = cap_getEvent env w p ∧
      cap_getStrand (cap_construct3_body env w n ev e).1 p = cap_getStrand w p ∧
      cap_getAdjacency env (cap_construct3_body env w n ev e).1 p
        = cap_getAdjacency env w p := by
  have hb : p.blk ≠ w.next := Nat.ne_of_lt hp.1
  obtain ⟨-, o2, o3, o4, -, o6⟩ := cap_construct3_body_old env w n ev e hb
  refine ⟨?_, o2, ?_⟩
  · unfold cap_getEvent
    rw [o3, o4, o6]
  · unfold cap_getAdjacency cap_getP
    rw [o4, o6]
    cases hs : (w.contents (cap_getContents w p)).adjacency with
    | none => rfl
    | some s =>
      have hs' := hs
      rw [hI.contents_eq hp] at hs'
      obtain ⟨hsc, -, -⟩ := hI.adj p.blk hp.1 s hs'
      simp only [cap_getOrientation_construct3_body env w n ev e hp (hI.contents_eq hp),
        (cap_construct3_body_old env w n ev e (Nat.ne_of_lt hsc.1)).2.2.2.2.1]

/-- The two handles of the block that `cap_construct3` allocates have no
adjacency. -/
theorem cap_construct3_body_new_adjacency (env : Collab) (w : World) (n : Name) (ev e : Ptr)
    {p : CapPtr} (hb : p.blk = w.next) (ho : p.off = 0 ∨ p.off = 1) :
    cap_getAdjacency env (cap_construct3_body env w n ev e).1 p = none := by
  obtain ⟨-, -, n3, n4, -, -, n7⟩ := cap_construct3_body_new env w n ev e
  obtain ⟨b, o⟩ := p
  simp only at hb ho
  subst hb
  unfold cap_getAdjacency cap_getP
  rcases ho with rfl | rfl
  · rw [n3, n7]
  · rw [n4, n7]

theorem reachableUnmoved_seqAndEventLinked : ReachableUnmoved sampleEnv seqAndEventLinked :=
  ReachableUnmoved.makeAdjacent ⟨0, 0⟩ ⟨1, 0⟩
    (ReachableUnmoved.construct3 2 150 4
      (ReachableUnmoved.construct4 1 2 5 true 50 ReachableUnmoved.empty (by decide)
        (rfl : cap_construct4 sampleEnv World.empty 1 2 5 true 50
          = .ok (cap_setCoordinates (cap_construct3_body sampleEnv World.empty 1 150 2).1
              ⟨0, 0⟩ 5 true 50, ⟨0, 0⟩)))
      (cap_construct3_of_asserts (by decide) (by decide) (by decide) (by decide!) :
        cap_construct3 sampleEnv
            (cap_setCoordinates (cap_construct3_body sampleEnv World.empty 1 150 2).1
              ⟨0, 0⟩ 5 true 50) 2 150 4
          = .ok (seqAndEventCaps, ⟨1, 0⟩)))
    (by decide) (by decide)
    (rfl : cap_makeAdjacent sampleEnv seqAndEventCaps ⟨0, 0⟩ ⟨1, 0⟩ = .ok seqAndEventLinked)

/-- C20, as stated, fails.  In `capsAlignedMoved`, reached by two
`cap_construct3`, a `cap_makeAdjacent` and a `cap_setCoordinates` on the linked
handle `⟨0, 0⟩`, the adjacency of `⟨0, 0⟩` is still `⟨1, 0⟩`, but the two differ
in event (150 and 7), in strand (false and true) and in sequence (50 and
NULL).  In `seqAndEventLinked`, reached by `cap_construct4`, `cap_construct3`
and `cap_makeAdjacent` alone, the adjacent handles `⟨0, 0⟩` and `⟨1, 0⟩` have one
event and one strand, but the sequences 50 and NULL. -/
theorem C20_counterexample :
    Reachable sampleEnv capsAlignedMoved ∧
      cap_getAdjacency sampleEnv capsAlignedMoved ⟨0, 0⟩ = some ⟨1, 0⟩ ∧
      cap_getEvent sampleEnv capsAlignedMoved ⟨0, 0⟩ = 150 ∧
      cap_getEvent sampleEnv capsAlignedMoved ⟨1, 0⟩ = 7 ∧
      cap_getStrand capsAlignedMoved ⟨0, 0⟩ = false ∧
      cap_getStrand capsAlignedMoved ⟨1, 0⟩ = true ∧
      cap_getSequence capsAlignedMoved ⟨0, 0⟩ = 50 ∧
      cap_getSequence capsAlignedMoved ⟨1, 0⟩ = NULL ∧
      ReachableUnmoved sampleEnv seqAndEventLinked ∧
      cap_getAdjacency sampleEnv seqAndEventLinked ⟨0, 0⟩ = some ⟨1, 0⟩ ∧
      cap_getSequence seqAndEventLinked ⟨0, 0⟩ = 50 ∧
      cap_getSequence seqAndEventLinked ⟨1, 0⟩ = NULL :=
  ⟨reachable_capsAlignedMoved, by decide, by decide, by decide, by decide, by decide, by decide,
    by decide, reachableUnmoved_seqAndEventLinked, by decide, by decide, by decide⟩

/-- C20 (amended): in every memory reached by `cap_construct3`,
`cap_construct4`, `cap_makeAdjacent`, `cap_breakAdjacency`, and
`cap_setCoordinates` applied only to caps whose adjacency is null, every
handle `h` with `cap_getAdjacency(h) == c`, not null, has the event and the
strand of `c`. -/
theorem C20_adjacent_share_event_strand {env : Collab} (hE : EndContract env) {w : World}
    (hR : ReachableUnmoved env w) {h c : CapPtr} (hh : w.isCap h)
    (hadj : cap_getAdjacency env w h = some c) :
    cap_getEvent env w h = cap_getEvent env w c ∧ cap_getStrand w h = cap_getStrand w c := by
  induction hR generalizing h c with
  | empty => exact absurd hh.1 (Nat.not_lt_zero _)
  | @construct3 w0 _ _ n ev e hR0 hok ih =>
    obtain ⟨-, -, -, rfl, -⟩ := cap_construct3_ok hok
    have hI := hR0.reachable.inv hE
    by_cases hb : h.blk = w0.next
    · rw [cap_construct3_body_new_adjacency env w0 n ev e hb hh.2] at hadj
      exact absurd hadj (by simp)
    · have hh0 : w0.isCap h := by
        refine ⟨?_, hh.2⟩
        have := hh.1
        rw [cap_construct3_body_next] at this
        omega
      obtain ⟨e1, s1, a1⟩ := hI.construct3_body_old n ev e hh0
      rw [a1] at hadj
      obtain ⟨-, -, -, -, hc0, -, -⟩ := hI.adjacency_some hh0 hadj
      obtain ⟨e2, s2, -⟩ := hI.construct3_body_old n ev e hc0
      rw [e1, s1, e2, s2]
      exact ih hh0 hadj
  | @construct4 w0 _ _ n e co s seq hR0 _ hok ih =>
    obtain ⟨w2, h3, rfl⟩ := cap_construct4_ok hok
    obtain ⟨-, -, -, rfl, rfl⟩ := cap_construct3_ok h3
    have hI := hR0.reachable.inv hE
    rw [cap_getAdjacency_setCoordinates] at hadj
    by_cases hb : h.blk = w0.next
    · rw [cap_construct3_body_new_adjacency env w0 n _ e hb hh.2] at hadj
      exact absurd hadj (by simp)
    · have hh0 : w0.isCap h := by
        refine ⟨?_, hh.2⟩
        have := hh.1
        rw [cap_setCoordinates_next, cap_construct3_body_next] at this
        omega
      obtain ⟨-, -, a1⟩ := hI.construct3_body_old n (env.sequence_getEvent seq) e hh0
      rw [a1] at hadj
      obtain ⟨-, -, -, -, hc0, -, -⟩ := hI.adjacency_some hh0 hadj
      obtain ⟨-, -, s1, e1, -⟩ := constructed_old env w0 n (env.sequence_getEvent seq) e co s seq
        (Nat.ne_of_lt hh0.1)
      obtain ⟨-, -, s2, e2, -⟩ := constructed_old env w0 n (env.sequence_getEvent seq) e co s seq
        (Nat.ne_of_lt hc0.1)
      rw [e1, s1, e2, s2]
      exact ih hh0 hadj
  | @setCoordinates w0 cap co s seq hR0 hcap hnone ih =>
    have hI := hR0.reachable.inv hE
    rw [cap_getAdjacency_setCoordinates] at hadj
    have hh0 : w0.isCap h := ⟨by have := hh.1; rwa [cap_setCoordinates_next] at this, hh.2⟩
    obtain ⟨-, -, -, -, hc0, -, -⟩ := hI.adjacency_some hh0 hadj
    have hstored := (hI.adjacency_none hcap).1 hnone
    have hfree : ∀ p x, w0.isCap p → cap_getAdjacency env w0 p = some x → p.blk ≠ cap.blk := by
      intro p x hp hx hb
      rw [← hb] at hstored
      rw [(hI.adjacency_none hp).2 hstored] at hx
      exact absurd hx (by simp)
    obtain ⟨e1, s1⟩ := hI.setCoordinates_other hcap hh0 (hfree h c hh0 hadj) co s seq
    obtain ⟨e2, s2⟩ := hI.setCoordinates_other hcap hc0
      (hfree c h hc0 (hI.adjacency_symm hE hh0 hadj).1) co s seq
    rw [e1, s1, e2, s2]
    exact ih hh0 hadj
  | @makeAdjacent w0 w1 a b hR0 ha hb hok ih =>
    have hI := hR0.reachable.inv hE
    have hI1 := hI.makeAdjacent hE ha hb hok
    have hh0 : w0.isCap h := ⟨by have := hh.1; rwa [cap_makeAdjacent_next hok] at this, hh.2⟩
    obtain ⟨-, -, s1, e1, -⟩ := cap_makeAdjacent_payload hok h
    obtain ⟨-, -, s2, e2, -⟩ := cap_makeAdjacent_payload hok c
    rw [e1, s1, e2, s2]
    obtain ⟨-, hev, -⟩ := cap_makeAdjacent_ok hok
    rw [hI.event_strandHandle ha, hI.event_strandHandle hb] at hev
    by_cases hha : h.blk = a.blk
    · have hok1 : cap_makeAdjacent env w0 h b = .ok w1 := by
        rw [hI.makeAdjacent_congr hh0 ha hha]; exact hok
      rw [(hI.makeAdjacent_getAdjacency hE hh0 hb hok1).1] at hadj
      have hhe : cap_getEvent env w0 h = cap_getEvent env w0 b := by
        rw [hI.event_eq_of_blk hh0 ha hha]; exact hev
      by_cases hs : cap_getStrand w0 h = cap_getStrand w0 b
      · rw [if_pos hs] at hadj
        cases hadj
        exact ⟨hhe, hs⟩
      · rw [if_neg hs] at hadj
        cases hadj
        rw [hI.event_reverse hb, hI.strand_reverse hb]
        refine ⟨hhe, ?_⟩
        cases h1 : cap_getStrand w0 h <;> cases h2 : cap_getStrand w0 b <;> simp_all
    · by_cases hhb : h.blk = b.blk
      · have hok1 : cap_makeAdjacent env w0 a h = .ok w1 := by
          rw [cap_makeAdjacent_eq, hI.strandHandle_eq_of_blk hh0 hb hhb, ← cap_makeAdjacent_eq]
          exact hok
        rw [(hI.makeAdjacent_getAdjacency hE ha hh0 hok1).2] at hadj
        have hhe : cap_getEvent env w0 h = cap_getEvent env w0 a := by
          rw [hI.event_eq_of_blk hh0 hb hhb]; exact hev.symm
        by_cases hs : cap_getStrand w0 h = cap_getStrand w0 a
        · rw [if_pos hs] at hadj
          cases hadj
          exact ⟨hhe, hs⟩
        · rw [if_neg hs] at hadj
          cases hadj
          rw [hI.event_reverse ha, hI.strand_reverse ha]
          refine ⟨hhe, ?_⟩
          cases h1 : cap_getStrand w0 h <;> cases h2 : cap_getStrand w0 a <;> simp_all
      · refine ih hh0 (cap_getAdjacency_of_frame (cap_makeAdjacent_bits hok)
          (cap_makeAdjacent_endPtr hok) ?_ hadj)
        intro s hs
        rw [hI.contents_eq hh0] at hs ⊢
        rw [hI.makeAdjacent_stored ha hb hok, if_neg, if_neg] at hs
        · exact cap_breakAdjacency_adjacency_sub env _ _ _ s
            (cap_breakAdjacency_adjacency_sub env _ _ _ s hs)
        · intro hq
          have hq1 := congrArg CapPtr.blk hq
          exact hha hq1
        · intro hq
          have hq1 := congrArg CapPtr.blk hq
          exact hhb hq1
  | @breakAdjacency w0 cap hR0 hcap ih =>
    have hh0 : w0.isCap h := ⟨by have := hh.1; rwa [cap_breakAdjacency_next] at this, hh.2⟩
    obtain ⟨e1, s1⟩ := cap_breakAdjacency_payload env w0 cap h
    obtain ⟨e2, s2⟩ := cap_breakAdjacency_payload env w0 cap c
    rw [e1, s1, e2, s2]
    exact ih hh0 (cap_getAdjacency_of_frame (cap_breakAdjacency_bits env w0 cap)
      (cap_breakAdjacency_endPtr env w0 cap)
      (fun s hs => cap_breakAdjacency_adjacency_sub env w0 cap _ s hs) hadj)

/-- C20 (amended) at the adjacent handles `⟨0, 0⟩`, a cap with Sequence 50 built
by `cap_construct4`, and `⟨1, 0⟩` of `seqAndEventLinked`. -/
theorem C20_adjacent_share_event_strand_witness :
    cap_getAdjacency sampleEnv seqAndEventLinked ⟨0, 0⟩ = some ⟨1, 0⟩ ∧
      cap_getEvent sampleEnv seqAndEventLinked ⟨0, 0⟩
        = cap_getEvent sampleEnv seqAndEventLinked ⟨1, 0⟩ ∧
      cap_getStrand seqAndEventLinked ⟨0, 0⟩ = cap_getStrand seqAndEventLinked ⟨1, 0⟩ :=
  ⟨by decide,
    C20_adjacent_share_event_strand sampleEnv_contract reachableUnmoved_seqAndEventLinked
      (by decide) (by decide)⟩

/-! ## The checker -/

theorem cactusCheck_ok {line : Nat} {cond : Bool} :
    cactusCheck line cond = .ok () ↔ cond = true := by
  unfold cactusCheck
  cases cond <;> simp

/-- A sequence of two checks passes when both do. -/
theorem check_seq_ok {a b : Except Nat Unit} :
    (a >>= fun _ => b) = .ok () ↔ a = .ok () ∧ b = .ok () := by
  cases a with
  | error l => simp [bind, Except.bind]
  | ok u => cases u; simp [bind, Except.bind]

/-- The first failure of a sequence of two checks is a failure of the first, or
the first passes and it is a failure of the second. -/
theorem check_seq_error {a b : Except Nat Unit} {l : Nat} :
    (a >>= fun _ => b) = .error l ↔ a = .error l ∨ (a = .ok () ∧ b = .error l) := by
  cases a with
  | error l1 => simp [bind, Except.bind]
  | ok u => cases u; simp [bind, Except.bind]

theorem cap_check_ok {env : Collab} {w : World} {cap : CapPtr} :
    cap_check env w cap = .ok () ↔
      cap_check_identity env w cap = .ok () ∧ cap_check_trees env w cap = .ok () ∧
      cap_check_segment env w cap = .ok () ∧ cap_check_adjacency env w cap = .ok () ∧
      cap_check_reverse env w cap = .ok () ∧ cap_check_nested env w cap = .ok () := by
  unfold cap_check
  simp only [check_seq_ok]

theorem cap_check_identity_line {env : Collab} {w : World} {cap : CapPtr} {l : Nat}
    (h : cap_check_identity env w cap = .error l) : l ≤ 402 := by
  unfold cap_check_identity at h
  simp only [check_seq_error, cactusCheck] at h
  rcases h with h | ⟨-, h | ⟨-, h⟩⟩ <;> split at h <;> simp at h <;> omega

theorem cap_check_trees_line {env : Collab} {w : World} {cap : CapPtr} {l : Nat}
    (h : cap_check_trees env w cap = .error l) : l ≤ 425 := by
  unfold cap_check_trees at h
  simp only [cap_getParent, cap_getChildNumber, List.range_zero, List.forM_nil] at h
  split at h
  · simp only [check_seq_error, cactusCheck] at h
    rcases h with h | ⟨-, h | ⟨-, h⟩⟩
    · split at h <;> simp at h; omega
    · split at h
      · simp at h
      · simp at h; omega
    · simp [pure, Except.pure] at h
  · simp [cactusCheck] at h

theorem cap_getEnd_setSegment (env : Collab) (w : World) (cap p : CapPtr) (segment : Ptr) :
    cap_getEnd env (cap_setSegment env w cap segment) p = cap_getEnd env w p := by
  unfold cap_setSegment
  refine cap_getEnd_congr env rfl ?_
  rw [modifyContents_contents]
  by_cases h : cap_getContents w p = cap_getContents w cap
  · rw [if_pos h, h]
  · rw [if_neg h]

/-- After `cap_setSegment(h, s)` with a non-null `s`, `cap_getSegment(h)` is
not null, provided the reverse of a Segment is a Segment. -/
theorem cap_getSegment_setSegment_ne_null {env : Collab}
    (hrev : ∀ x : Ptr, x ≠ NULL → env.segment_getReverse x ≠ NULL) (w : World) (h : CapPtr)
    {s : Ptr} (hs : s ≠ NULL) :
    cap_getSegment env (cap_setSegment env w h s) h ≠ NULL := by
  have ho : cap_getOrientation env (cap_setSegment env w h s) h = cap_getOrientation env w h := by
    unfold cap_getOrientation
    rw [cap_getEnd_setSegment]
  unfold cap_getSegment
  rw [ho]
  unfold cap_setSegment
  rw [cap_getContents_modifyContents, modifyContents_contents, if_pos rfl]
  by_cases hor : cap_getOrientation env w h = true
  · simp only [hor, if_true]
    exact hs
  · simp only [hor, if_false, Bool.false_eq_true]
    rw [if_pos (hrev s hs)]
    exact hrev _ (hrev s hs)

/-- C21: `cap_setSegment` has no failure of its own.  For every pointer `h`
whose End is a stub End and every non-null segment `s` (the reverse of a
Segment being a Segment), `cap_check(h)` run after `cap_setSegment(h, s)`
raises a check failure, at the stub check of line 430 or at an earlier
check. -/
theorem C21_segment_on_stub_flagged {env : Collab}
    (hrev : ∀ x : Ptr, x ≠ NULL → env.segment_getReverse x ≠ NULL) (w : World) (h : CapPtr)
    {s : Ptr} (hs : s ≠ NULL) (hstub : env.end_isStubEnd (cap_getEnd env w h) = true) :
    ∃ l, cap_check env (cap_setSegment env w h s) h = .error l ∧ l ≤ 430 := by
  have hseg : cap_check_segment env (cap_setSegment env w h s) h = .error 430 := by
    unfold cap_check_segment
    simp only [cap_getEnd_setSegment, hstub, if_true]
    unfold cactusCheck
    rw [if_neg]
    simpa using cap_getSegment_setSegment_ne_null hrev w h hs
  unfold cap_check
  cases h1 : cap_check_identity env (cap_setSegment env w h s) h with
  | error l =>
    exact ⟨l, rfl, le_trans (cap_check_identity_line h1) (by decide)⟩
  | ok u =>
    cases h2 : cap_check_trees env (cap_setSegment env w h s) h with
    | error l =>
      exact ⟨l, rfl, le_trans (cap_check_trees_line h2) (by decide)⟩
    | ok u2 =>
      refine ⟨430, ?_, le_refl _⟩
      simp only [hseg, bind, Except.bind]

theorem sampleEnv_segment : ∀ x : Ptr, x ≠ NULL → sampleEnv.segment_getReverse x ≠ NULL := by
  have key : ∀ n : Nat, n ≠ 0 → (if n = 0 then 0 else if n % 2 = 1 then n + 1 else n - 1) ≠ 0 := by
    intro n hn
    rw [if_neg hn]
    split <;> omega
  exact key

/-- C21 for the cap of `stubCap`, on the stub End 30, and Segment 9: the check
of line 430 is the one that fails. -/
theorem C21_segment_on_stub_flagged_witness :
    cap_check sampleEnv (cap_setSegment sampleEnv stubCap ⟨0, 0⟩ 9) ⟨0, 0⟩ = .error 430 ∧
      ∃ l, cap_check sampleEnv (cap_setSegment sampleEnv stubCap ⟨0, 0⟩ 9) ⟨0, 0⟩ = .error l ∧
        l ≤ 430 :=
  ⟨by decide,
    C21_segment_on_stub_flagged sampleEnv_segment stubCap ⟨0, 0⟩ (by decide) (by decide)⟩

/-! ## C24 and C25: `cap_getTopCap` -/

/-- C24: for every handle `h` with a null adjacency, and for every handle that
is the root instance of its End, `cap_getTopCap(h)` returns NULL, whatever the
number of rounds allowed to its loop. -/
theorem C24_topCap_null (env : Collab) (w : World) (fuel : Nat) (h : CapPtr)
    (hc : cap_getAdjacency env w h = none
      ∨ env.end_getRootInstance (cap_getEnd env w h) = some h) :
    cap_getTopCap env w fuel h = some (.ok none) := by
  unfold cap_getTopCap
  rw [if_pos hc]

/-- C24 at the handle `⟨0, 0⟩` of `oneCap`, which has no adjacency, and at the
handle `⟨2, 0⟩` of `threeCapsRelinked`, which has an adjacency and is the
root instance of End 6. -/
theorem C24_topCap_null_witness :
    cap_getAdjacency sampleEnv oneCap ⟨0, 0⟩ = none ∧
      cap_getTopCap sampleEnv oneCap 5 ⟨0, 0⟩ = some (.ok none) ∧
      cap_getAdjacency sampleEnv threeCapsRelinked ⟨2, 0⟩ = some ⟨0, 0⟩ ∧
      sampleEnv.end_getRootInstance (cap_getEnd sampleEnv threeCapsRelinked ⟨2, 0⟩)
        = some ⟨2, 0⟩ ∧
      cap_getTopCap sampleEnv threeCapsRelinked 5 ⟨2, 0⟩ = some (.ok none) :=
  ⟨by decide, C24_topCap_null sampleEnv oneCap 5 ⟨0, 0⟩ (Or.inl (by decide)), by decide,
    by decide, C24_topCap_null sampleEnv threeCapsRelinked 5 ⟨2, 0⟩ (Or.inr (by decide))⟩

/-- C25, as stated, fails: the handle `⟨0, 0⟩` of `capsOppositeLinked` has the
adjacency `⟨1, 1⟩` and is not the root instance of its End, and
`cap_getTopCap` returns no cap for it: `cap_getParent` gives NULL and the
assertion `cap2 != NULL` of line 315 fails, whatever the number of rounds
allowed to the loop. -/
theorem C25_counterexample :
    cap_getAdjacency sampleEnv capsOppositeLinked ⟨0, 0⟩ = some ⟨1, 1⟩ ∧
      sampleEnv.end_getRootInstance (cap_getEnd sampleEnv capsOppositeLinked ⟨0, 0⟩)
        ≠ some ⟨0, 0⟩ ∧
      cap_getParent capsOppositeLinked ⟨0, 0⟩ = none ∧
      ∀ fuel, cap_getTopCap sampleEnv capsOppositeLinked fuel ⟨0, 0⟩
        = some (.assertFail capsOppositeLinked) :=
  ⟨by decide, by decide, rfl, fun _ => rfl⟩

/-- C25 (amended): for every handle `h` that is not the root instance of its
End and has a non-null adjacency, `cap_getTopCap(h)` terminates without
returning a cap: the parent links are not stored, `cap_getParent(h)` is NULL,
and the assertion `cap2 != NULL` of line 315 fails before the loop is
entered. -/
theorem C25_topCap_no_parent (env : Collab) (w : World) (fuel : Nat) (h : CapPtr)
    (hadj : cap_getAdjacency env w h ≠ none)
    (hroot : env.end_getRootInstance (cap_getEnd env w h) ≠ some h) :
    cap_getParent w h = none ∧ cap_getTopCap env w fuel h = some (.assertFail w) := by
  refine ⟨rfl, ?_⟩
  unfold cap_getTopCap
  rw [if_neg]
  · rfl
  · rintro (h1 | h1)
    · exact hadj h1
    · exact hroot h1

/-- C25 (amended) at the handle `⟨0, 0⟩` of `capsOppositeLinked`. -/
theorem C25_topCap_no_parent_witness :
    cap_getParent capsOppositeLinked ⟨0, 0⟩ = none ∧
      cap_getTopCap sampleEnv capsOppositeLinked 5 ⟨0, 0⟩
        = some (.assertFail capsOppositeLinked) :=
  C25_topCap_no_parent sampleEnv capsOppositeLinked 5 ⟨0, 0⟩ (by decide) (by decide)

/-! ## C26: the coordinate checks -/

theorem cactusCheck_error {line l : Nat} {cond : Bool} :
    cactusCheck line cond = .error l ↔ cond = false ∧ l = line := by
  unfold cactusCheck
  cases cond <;> simp [eq_comm]

/-- With a coordinate set, the coordinate checks pass exactly for caps on
opposite sides whose coordinates are ordered as strand and side ask. -/
theorem cap_check_coordinates_ok {env : Collab} {w : World} {h c : CapPtr}
    (hh : cap_getCoordinate w h ≠ INT64_MAX) :
    cap_check_coordinates env w h c = .ok () ↔
      cap_getSide env w h ≠ cap_getSide env w c ∧
      (if cap_getStrand w h ≠ cap_getSide env w h then
        cap_getCoordinate w h < cap_getCoordinate w c
       else cap_getCoordinate w c < cap_getCoordinate w h) := by
  unfold cap_check_coordinates
  rw [if_pos hh, check_seq_ok, cactusCheck_ok]
  cases hs : cap_getStrand w h <;> cases hd : cap_getSide env w h <;>
    cases hd2 : cap_getSide env w c <;> simp [cactusCheck_ok]

theorem cap_check_coordinates_line {env : Collab} {w : World} {h c : CapPtr} {l : Nat}
    (hl : cap_check_coordinates env w h c = .error l) : 448 ≤ l ∧ l ≤ 463 := by
  unfold cap_check_coordinates at hl
  split at hl
  · rw [check_seq_error] at hl
    rcases hl with hl | ⟨-, hl⟩
    · rw [cactusCheck_error] at hl; omega
    · split at hl <;> split at hl <;> rw [cactusCheck_error] at hl <;> omega
  · rw [cactusCheck_error] at hl; omega

theorem cap_check_reverse_line {env : Collab} {w : World} {cap : CapPtr} {l : Nat}
    (hl : cap_check_reverse env w cap = .error l) : 469 ≤ l := by
  unfold cap_check_reverse at hl
  simp only [cap_getParent, cap_getChildNumber, List.range_zero, List.forM_nil,
    check_seq_error] at hl
  rcases hl with hl | ⟨-, hl | ⟨-, hl | ⟨-, hl | ⟨-, hl | ⟨-, hl | ⟨-, hl | ⟨-, hl | ⟨-, hl |
    ⟨-, hl | ⟨-, hl | ⟨-, hl | ⟨-, hl | ⟨-, hl | ⟨-, hl | ⟨-, hl | ⟨-, hl | ⟨-, hl⟩⟩⟩⟩⟩⟩⟩⟩⟩⟩⟩⟩⟩⟩⟩⟩⟩
  all_goals first
    | (rw [cactusCheck_error] at hl; omega)
    | (split at hl <;> rw [cactusCheck_error] at hl <;> omega)
    | (simp [pure, Except.pure] at hl)

theorem cap_check_nested_line {env : Collab} {w : World} {cap : CapPtr} {l : Nat}
    (hl : cap_check_nested env w cap = .error l) : 469 ≤ l := by
  unfold cap_check_nested at hl
  dsimp only at hl
  split at hl
  · rw [cactusCheck_error] at hl; omega
  · simp at hl

/-- When the checks before the coordinate checks pass, `cap_check` goes on with
the coordinate checks and then with the checks against the reverse. -/
theorem cap_check_of_earlier {env : Collab} {w : World} {h c : CapPtr}
    (hadj : cap_getAdjacency env w h = some c)
    (h1 : cap_check_identity env w h = .ok ()) (h2 : cap_check_trees env w h = .ok ())
    (h3 : cap_check_segment env w h = .ok ()) (h4 : cap_check_relation env w h c = .ok ()) :
    cap_check env w h
      = (cap_check_coordinates env w h c >>= fun _ =>
          cap_check_reverse env w h >>= fun _ => cap_check_nested env w h) := by
  unfold cap_check cap_check_adjacency
  rw [h1, h2, h3]
  simp only [hadj, h4, bind, Except.bind]

/-- C26: let `h` have the adjacency `c`, both with a coordinate other than
`INT64_MAX`, and let the checks of `cap_check(h)` before the coordinate checks
pass.  Then `cap_check(h)` gets past its coordinate checks (it passes, or it
fails at a later check) if and only if `h` and `c` lie on different sides and
the coordinates are strictly ordered, `h` before `c` when the strand of `h`
differs from its side and `c` before `h` otherwise; equal coordinates make
`cap_check(h)` fail at one of the coordinate checks; and for caps of one
strand on opposite sides the coordinate checks pass for `h` and `c` exactly
when they pass for `c` and `h`. -/
theorem C26_oriented_interval {env : Collab} {w : World} {h c : CapPtr}
    (hadj : cap_getAdjacency env w h = some c)
    (hh : cap_getCoordinate w h ≠ INT64_MAX) (hc : cap_getCoordinate w c ≠ INT64_MAX)
    (h1 : cap_check_identity env w h = .ok ()) (h2 : cap_check_trees env w h = .ok ())
    (h3 : cap_check_segment env w h = .ok ()) (h4 : cap_check_relation env w h c = .ok ()) :
    ((∀ l, cap_check env w h = .error l → 469 ≤ l) ↔
      cap_getSide env w h ≠ cap_getSide env w c ∧
      (if cap_getStrand w h ≠ cap_getSide env w h then
        cap_getCoordinate w h < cap_getCoordinate w c
       else cap_getCoordinate w c < cap_getCoordinate w h)) ∧
    (cap_getCoordinate w h = cap_getCoordinate w c →
      ∃ l, cap_check env w h = .error l ∧ 448 ≤ l ∧ l ≤ 459) ∧
    (cap_getStrand w h = cap_getStrand w c → cap_getSide env w h ≠ cap_getSide env w c →
      (cap_check_coordinates env w h c = .ok () ↔ cap_check_coordinates env w c h = .ok ())) := by
  have hck := cap_check_of_earlier hadj h1 h2 h3 h4
  refine ⟨?_, ?_, ?_⟩
  · rw [← cap_check_coordinates_ok hh, hck]
    constructor
    · intro hall
      cases hco : cap_check_coordinates env w h c with
      | ok u => rfl
      | error l =>
        have := hall l (by rw [hco]; rfl)
        have := (cap_check_coordinates_line hco).2
        omega
    · intro hco l hl
      rw [hco] at hl
      have hl' : (cap_check_reverse env w h >>= fun _ => cap_check_nested env w h)
          = .error l := hl
      rw [check_seq_error] at hl'
      rcases hl' with hl' | ⟨-, hl'⟩
      · exact cap_check_reverse_line hl'
      · exact cap_check_nested_line hl'
  · intro heq
    have hno : cap_check_coordinates env w h c ≠ .ok () := by
      rw [Ne, cap_check_coordinates_ok hh]
      rintro ⟨-, hord⟩
      split at hord <;> omega
    cases hco : cap_check_coordinates env w h c with
    | ok u => exact absurd hco hno
    | error l =>
      refine ⟨l, by rw [hck, hco]; rfl, (cap_check_coordinates_line hco).1, ?_⟩
      unfold cap_check_coordinates at hco
      rw [if_pos hh, check_seq_error] at hco
      rcases hco with hco | ⟨-, hco⟩
      · rw [cactusCheck_error] at hco; omega
      · split at hco <;> split at hco <;> rw [cactusCheck_error] at hco <;> omega
  · intro hs hd
    rw [cap_check_coordinates_ok hh, cap_check_coordinates_ok hc, ← hs]
    cases hs1 : cap_getStrand w h <;> cases hd1 : cap_getSide env w h <;>
      cases hd2 : cap_getSide env w c <;> simp_all

/-- C26 at the handle `⟨0, 0⟩` of `intervalCaps`, of strand true on side true at
coordinate 5, whose adjacency `⟨1, 0⟩` lies on side false at coordinate 3:
`cap_check` passes. -/
theorem C26_oriented_interval_witness :
    cap_check sampleEnv intervalCaps ⟨0, 0⟩ = .ok () ∧
      cap_getSide sampleEnv intervalCaps ⟨0, 0⟩ ≠ cap_getSide sampleEnv intervalCaps ⟨1, 0⟩ ∧
      (if cap_getStrand intervalCaps ⟨0, 0⟩ ≠ cap_getSide sampleEnv intervalCaps ⟨0, 0⟩ then
        cap_getCoordinate intervalCaps ⟨0, 0⟩ < cap_getCoordinate intervalCaps ⟨1, 0⟩
       else cap_getCoordinate intervalCaps ⟨1, 0⟩ < cap_getCoordinate intervalCaps ⟨0, 0⟩) := by
  have hok : cap_check sampleEnv intervalCaps ⟨0, 0⟩ = .ok () := by decide
  refine ⟨hok, ?_⟩
  refine (C26_oriented_interval
    (by decide : cap_getAdjacency sampleEnv intervalCaps ⟨0, 0⟩ = some ⟨1, 0⟩)
    (by decide) (by decide) (by decide) (by decide) (by decide) (by decide)).1.1 ?_
  intro l hl
  rw [hok] at hl
  cases hl

/-! ## C27: the handles that `cap_makeAdjacent` links -/

/-- After a successful `cap_makeAdjacent(a, b)`, every handle of the pair of
`a` and of the pair of `b` has an adjacency, a handle of the other pair with
its own strand. -/
theorem Inv.makeAdjacent_strand {env : Collab} {w w1 : World} (hI : Inv env w)
    (hE : EndContract env) {a b : CapPtr} (ha : w.isCap a) (hb : w.isCap b)
    (hok : cap_makeAdjacent env w a b = .ok w1) {h : CapPtr} (hh : w.isCap h) :
    (h.blk = a.blk → ∃ c, cap_getAdjacency env w1 h = some c ∧ c.blk = b.blk ∧
      cap_getStrand w c = cap_getStrand w h) ∧
    (h.blk = b.blk → ∃ c, cap_getAdjacency env w1 h = some c ∧ c.blk = a.blk ∧
      cap_getStrand w c = cap_getStrand w h) := by
  constructor
  · intro hha
    have hok1 : cap_makeAdjacent env w h b = .ok w1 := by
      rw [hI.makeAdjacent_congr hh ha hha]; exact hok
    refine ⟨_, (hI.makeAdjacent_getAdjacency hE hh hb hok1).1, ?_⟩
    by_cases hs : cap_getStrand w h = cap_getStrand w b
    · rw [if_pos hs]
      exact ⟨rfl, hs.symm⟩
    · rw [if_neg hs, hI.strand_reverse hb, hI.reverse_eq hb]
      refine ⟨rfl, ?_⟩
      cases h1 : cap_getStrand w h <;> cases h2 : cap_getStrand w b <;> simp_all
  · intro hhb
    have hok1 : cap_makeAdjacent env w a h = .ok w1 := by
      rw [cap_makeAdjacent_eq, hI.strandHandle_eq_of_blk hh hb hhb, ← cap_makeAdjacent_eq]
      exact hok
    refine ⟨_, (hI.makeAdjacent_getAdjacency hE ha hh hok1).2, ?_⟩
    by_cases hs : cap_getStrand w h = cap_getStrand w a
    · rw [if_pos hs]
      exact ⟨rfl, hs.symm⟩
    · rw [if_neg hs, hI.strand_reverse ha, hI.reverse_eq ha]
      refine ⟨rfl, ?_⟩
      cases h1 : cap_getStrand w h <;> cases h2 : cap_getStrand w a <;> simp_all

/-- C27: after a successful `cap_makeAdjacent(a, b)` on handles of a reachable
memory, `cap_getAdjacency(a)` is `b` if `a` and `b` have the same strand and
`cap_getReverse(b)` otherwise, and each of the four handles `a`,
`cap_getReverse(a)`, `b`, `cap_getReverse(b)` has an adjacency of its own
strand, whatever the orientations. -/
theorem C27_links_strand_matched {env : Collab} (hE : EndContract env) {w w1 : World}
    (hR : Reachable env w) {a b : CapPtr} (ha : w.isCap a) (hb : w.isCap b)
    (hok : cap_makeAdjacent env w a b = .ok w1) :
    cap_getAdjacency env w1 a
        = some (if cap_getStrand w1 a = cap_getStrand w1 b then b else cap_getReverse w1 b) ∧
      ∀ h, h = a ∨ h = cap_getReverse w1 a ∨ h = b ∨ h = cap_getReverse w1 b →
        ∃ c, cap_getAdjacency env w1 h = some c ∧ cap_getStrand w1 c = cap_getStrand w1 h := by
  have hI := hR.inv hE
  have hrev : ∀ p, cap_getReverse w1 p = cap_getReverse w p :=
    cap_getReverse_of_bits (cap_makeAdjacent_bits hok)
  have hstr : ∀ p, cap_getStrand w1 p = cap_getStrand w p :=
    fun p => (cap_makeAdjacent_payload hok p).2.2.1
  simp only [hrev, hstr]
  refine ⟨(hI.makeAdjacent_getAdjacency hE ha hb hok).1, ?_⟩
  intro h hh
  have key : w.isCap h ∧ (h.blk = a.blk ∨ h.blk = b.blk) := by
    rcases hh with rfl | rfl | rfl | rfl
    · exact ⟨ha, Or.inl rfl⟩
    · exact ⟨hI.isCap_reverse ha, Or.inl (by rw [hI.reverse_eq ha])⟩
    · exact ⟨hb, Or.inr rfl⟩
    · exact ⟨hI.isCap_reverse hb, Or.inr (by rw [hI.reverse_eq hb])⟩
  obtain ⟨hcap, hblk⟩ := key
  rcases hblk with hblk | hblk
  · obtain ⟨c, h1, -, h2⟩ := (hI.makeAdjacent_strand hE ha hb hok hcap).1 hblk
    exact ⟨c, h1, h2⟩
  · obtain ⟨c, h1, -, h2⟩ := (hI.makeAdjacent_strand hE ha hb hok hcap).2 hblk
    exact ⟨c, h1, h2⟩

/-- C27 for `cap_makeAdjacent` on the handles `⟨0, 0⟩` (strand true, positively
oriented) and `⟨1, 0⟩` (strand false, negatively oriented) of `capsOpposite`:
the adjacency of `⟨0, 0⟩` is `⟨1, 1⟩`, the reverse of the second argument. -/
theorem C27_links_strand_matched_witness :
    cap_getAdjacency sampleEnv capsOppositeLinked ⟨0, 0⟩ = some ⟨1, 1⟩ ∧
      ∀ h, h = ⟨0, 0⟩ ∨ h = cap_getReverse capsOppositeLinked ⟨0, 0⟩ ∨ h = ⟨1, 0⟩
          ∨ h = cap_getReverse capsOppositeLinked ⟨1, 0⟩ →
        ∃ c, cap_getAdjacency sampleEnv capsOppositeLinked h = some c ∧
          cap_getStrand capsOppositeLinked c = cap_getStrand capsOppositeLinked h :=
  ⟨by decide,
    (C27_links_strand_matched sampleEnv_contract reachable_capsOpposite (by decide) (by decide)
      makeAdjacent_capsOpposite).2⟩

/-! ## C28: the sequence across the round trip -/

/-- Whenever the read of the record written for `h` returns, it returns a cap
whose sequence is the Sequence looked up for the record. -/
theorem decode_sequence {env : Collab} (hC : CodesDistinct env) (w : World) (h : CapPtr)
    (wt : World) (e : Ptr) (rest : List Elem)
    (hr1 : binaryRepresentation_peekNextElementType rest ≠ some env.CODE_ADJACENCY)
    (hr2 : binaryRepresentation_peekNextElementType rest ≠ some env.CODE_PARENT)
    {wt1 : World} {s1 : List Elem} {r : Option CapPtr}
    (hok : cap_loadFromBinaryRepresentation env wt
      (cap_writeBinaryRepresentation env w h ++ rest) e = .ok (wt1, s1, r)) :
    ∃ h1, r = some h1 ∧
      cap_getSequence wt1 h1 = decodedSequence env (env.end_getFlower e) w h := by
  rw [cap_writeBinaryRepresentation_eq, List.append_assoc] at hok
  cases h3 : cap_construct3 env wt (cap_getName w h)
      (decodedEvent env (env.end_getFlower e) w h) e with
  | assertFail x =>
    rw [cap_load_primary_fail hC w h wt e _ h3] at hok
    simp at hok
  | ok x =>
    obtain ⟨w1, cap⟩ := x
    obtain ⟨-, -, -, rfl, rfl⟩ := cap_construct3_ok h3
    rw [cap_load_primary_ok hC w h wt e _ h3] at hok
    obtain ⟨rfl, hp2⟩ := cap_loadRelations_ok hok
    obtain ⟨-, -, -, -, hsq, -⟩ := constructed_new env wt (cap_getName w h)
      (decodedEvent env (env.end_getFlower e) w h) e (cap_getCoordinate w h)
      (cap_getStrand w h) (decodedSequence env (env.end_getFlower e) w h)
    cases hadj : cap_getAdjacency env w h with
    | none =>
      rw [cap_writeRelationRecord_of_none hadj, List.nil_append,
        cap_loadP2_none _ _ hr1 hr2] at hp2
      simp only [Outcome.ok.injEq, Prod.mk.injEq] at hp2
      obtain ⟨rfl, rfl⟩ := hp2
      exact ⟨_, rfl, hsq⟩
    | some c =>
      rw [cap_writeRelationRecord_of_some hadj] at hp2
      simp only [List.cons_append, List.nil_append] at hp2
      cases hg : flower_getCap env
          (cap_setCoordinates (cap_construct3_body env wt (cap_getName w h)
            (decodedEvent env (env.end_getFlower e) w h) e).1 ⟨wt.next, 0⟩
            (cap_getCoordinate w h) (cap_getStrand w h)
            (decodedSequence env (env.end_getFlower e) w h))
          (env.end_getFlower (cap_getEnd env
            (cap_setCoordinates (cap_construct3_body env wt (cap_getName w h)
              (decodedEvent env (env.end_getFlower e) w h) e).1 ⟨wt.next, 0⟩
              (cap_getCoordinate w h) (cap_getStrand w h)
              (decodedSequence env (env.end_getFlower e) w h)) ⟨wt.next, 0⟩))
          (cap_getName w c) with
      | none =>
        rw [cap_loadP2_unresolved _ _ _ hg hr2] at hp2
        simp only [Outcome.ok.injEq, Prod.mk.injEq] at hp2
        obtain ⟨rfl, rfl⟩ := hp2
        exact ⟨_, rfl, hsq⟩
      | some cap2 =>
        rw [cap_loadP2_resolved _ _ _ hg hr2] at hp2
        cases hm : cap_makeAdjacent env
            (cap_setCoordinates (cap_construct3_body env wt (cap_getName w h)
              (decodedEvent env (env.end_getFlower e) w h) e).1 ⟨wt.next, 0⟩
              (cap_getCoordinate w h) (cap_getStrand w h)
              (decodedSequence env (env.end_getFlower e) w h)) cap2 ⟨wt.next, 0⟩ with
        | assertFail x => rw [hm] at hp2; simp at hp2
        | ok w3 =>
          rw [hm] at hp2
          simp only [Outcome.ok.injEq, Prod.mk.injEq] at hp2
          obtain ⟨rfl, rfl⟩ := hp2
          obtain ⟨-, -, -, -, h5⟩ := cap_makeAdjacent_payload hm ⟨wt.next, 0⟩
          exact ⟨_, rfl, h5.trans hsq⟩

/-- C28, as stated, fails.  The handle `⟨0, 0⟩` of the reachable memory
`capsAlignedMoved` has the Sequence 50 and the coordinate 5, and is adjacent to
the cap named 2, of Event 7.  Its record, read into End 8 of the memory
`partnerDecoded`, whose Flower holds Sequence 50 and has the cap named 2 in its
index, fails the assertion of line 294 and yields no cap. -/
theorem C28_counterexample :
    Reachable sampleEnv capsAlignedMoved ∧ Reachable sampleEnv partnerDecoded ∧
      cap_getSequence capsAlignedMoved ⟨0, 0⟩ = 50 ∧
      cap_getCoordinate capsAlignedMoved ⟨0, 0⟩ = 5 ∧
      sampleEnv.flower_getSequence (sampleEnv.end_getFlower 8)
        (sampleEnv.sequence_getName (cap_getSequence capsAlignedMoved ⟨0, 0⟩)) = 50 ∧
      cap_getName capsAlignedMoved ⟨1, 0⟩ = 2 ∧
      flower_getCap sampleEnv partnerDecoded (sampleEnv.end_getFlower 8) 2 = some ⟨0, 0⟩ ∧
      ∃ x, cap_loadFromBinaryRepresentation sampleEnv partnerDecoded
          (cap_writeBinaryRepresentation sampleEnv capsAlignedMoved ⟨0, 0⟩ ++ []) 8
        = .assertFail x :=
  ⟨reachable_capsAlignedMoved, reachable_partnerDecoded, by decide, by decide, by decide,
    by decide, by decide, _, rfl⟩

/-- C28 (amended): let `h` have a non-null sequence.  If its coordinate is set,
then whenever the elements written for `h` are read back into an End whose
Flower holds a Sequence of the name of the sequence of `h`, the cap returned
has a sequence of that name.  If its coordinate is `INT64_MAX`, then
`cap_writeBinaryRepresentation` writes the bare `CODE_CAP` record with the
name of the event of `h`, and whenever it is read back the cap returned has
no sequence.  In both cases the read does return such a cap when the target
memory is reachable, the End is not null, the name of `h` is not `NULL_NAME`,
the Flower holds the Event or Sequence named by the record, and the adjacency
partner has another name and either is not in the Flower's index or is there
with the event that the record resolves to; with the coordinate set the
sequence of the cap returned is the Sequence that the Flower holds under the
name. -/
theorem C28_sequence_roundtrip {env : Collab} (hE : EndContract env) (hC : CodesDistinct env)
    (hN : NamingContract env) (w : World) (h : CapPtr) (wt : World) (e : Ptr)
    (rest : List Elem)
    (hr1 : binaryRepresentation_peekNextElementType rest ≠ some env.CODE_ADJACENCY)
    (hr2 : binaryRepresentation_peekNextElementType rest ≠ some env.CODE_PARENT)
    (hseq : cap_getSequence w h ≠ NULL) :
    (cap_getCoordinate w h ≠ INT64_MAX →
      env.flower_getSequence (env.end_getFlower e)
        (env.sequence_getName (cap_getSequence w h)) ≠ NULL →
      ∀ wt1 s1 r,
        cap_loadFromBinaryRepresentation env wt (cap_writeBinaryRepresentation env w h ++ rest) e
          = .ok (wt1, s1, r) →
        ∃ h1, r = some h1 ∧ cap_getSequence wt1 h1 ≠ NULL ∧
          env.sequence_getName (cap_getSequence wt1 h1)
            = env.sequence_getName (cap_getSequence w h)) ∧
    (cap_getCoordinate w h = INT64_MAX →
      cap_writeBinaryRepresentation env w h
        = [Elem.elementType env.CODE_CAP, Elem.name (cap_getName w h),
            Elem.bool (cap_getStrand w h),
            Elem.name (env.event_getName (cap_getEvent env w h))]
          ++ cap_writeRelationRecord env w h ∧
      ∀ wt1 s1 r,
        cap_loadFromBinaryRepresentation env wt (cap_writeBinaryRepresentation env w h ++ rest) e
          = .ok (wt1, s1, r) →
        ∃ h1, r = some h1 ∧ cap_getSequence wt1 h1 = NULL) ∧
    (Reachable env wt → e ≠ NULL → cap_getName w h ≠ env.NULL_NAME →
      recordResolves env (env.end_getFlower e) w h →
      (∀ c, cap_getAdjacency env w h = some c →
        cap_getName w c ≠ cap_getName w h ∧
        ∀ cap2, flower_getCap env wt (env.end_getFlower e) (cap_getName w c) = some cap2 →
          cap_getEvent env wt cap2 = decodedEvent env (env.end_getFlower e) w h) →
      ∃ wt1 h1,
        cap_loadFromBinaryRepresentation env wt
          (cap_writeBinaryRepresentation env w h ++ rest) e = .ok (wt1, rest, some h1) ∧
        (cap_getCoordinate w h ≠ INT64_MAX →
          cap_getSequence wt1 h1 ≠ NULL ∧
          cap_getSequence wt1 h1 = env.flower_getSequence (env.end_getFlower e)
            (env.sequence_getName (cap_getSequence w h)) ∧
          env.sequence_getName (cap_getSequence wt1 h1)
            = env.sequence_getName (cap_getSequence w h)) ∧
        (cap_getCoordinate w h = INT64_MAX → cap_getSequence wt1 h1 = NULL)) := by
  refine ⟨?_, ?_, ?_⟩
  · intro hc hfl wt1 s1 r hok
    obtain ⟨h1, hr, hs⟩ := decode_sequence hC w h wt e rest hr1 hr2 hok
    unfold decodedSequence at hs
    rw [if_pos ⟨hc, hseq⟩] at hs
    refine ⟨h1, hr, ?_, ?_⟩
    · rw [hs]; exact hfl
    · rw [hs]; exact hN.2.1 _ _ hfl
  · intro hc
    constructor
    · rw [cap_writeBinaryRepresentation_eq]
      unfold cap_writePrimaryRecord
      rw [if_pos hc]
      rfl
    · intro wt1 s1 r hok
      obtain ⟨h1, hr, hs⟩ := decode_sequence hC w h wt e rest hr1 hr2 hok
      unfold decodedSequence at hs
      rw [if_neg (fun hh => hh.1 hc)] at hs
      exact ⟨h1, hr, hs⟩
  · intro hR he hn hres hpart
    obtain ⟨wt1, h1, hok⟩ := decode_total hE hC w h rest hr1 hr2 hR he hn hres hpart
    obtain ⟨h2, hr, hs⟩ := decode_sequence hC w h wt e rest hr1 hr2 hok
    simp only [Option.some.injEq] at hr
    subst hr
    refine ⟨wt1, _, hok, ?_, ?_⟩
    · intro hc
      have hd := hres.2 ⟨hc, hseq⟩
      unfold decodedSequence at hs hd
      rw [if_pos ⟨hc, hseq⟩] at hs hd
      exact ⟨by rw [hs]; exact hd, hs, by rw [hs]; exact hN.2.1 _ _ hd⟩
    · intro hc
      unfold decodedSequence at hs
      rw [if_neg (fun hh => hh.1 hc)] at hs
      exact hs

/-- C28 for the cap `⟨0, 0⟩` of `capWithSequence` (coordinate 5, Sequence 50)
and of `capSequenceUnset` (unset coordinate, Sequence 50), each read into End
4 of the empty memory. -/
theorem C28_sequence_roundtrip_witness :
    (∃ wt1 h1,
      cap_loadFromBinaryRepresentation sampleEnv World.empty
          (cap_writeBinaryRepresentation sampleEnv capWithSequence ⟨0, 0⟩ ++ []) 4
        = .ok (wt1, [], some h1) ∧
      cap_getSequence wt1 h1 ≠ NULL ∧
      sampleEnv.sequence_getName (cap_getSequence wt1 h1) = 50) ∧
    (cap_getSequence capSequenceUnset ⟨0, 0⟩ = 50 ∧
      cap_writeBinaryRepresentation sampleEnv capSequenceUnset ⟨0, 0⟩
        = [Elem.elementType 1, Elem.name 1, Elem.bool true, Elem.name 150] ∧
      ∃ wt1 h1,
        cap_loadFromBinaryRepresentation sampleEnv World.empty
            (cap_writeBinaryRepresentation sampleEnv capSequenceUnset ⟨0, 0⟩ ++ []) 4
          = .ok (wt1, [], some h1) ∧
        cap_getSequence wt1 h1 = NULL) := by
  have ha := C28_sequence_roundtrip sampleEnv_contract sampleEnv_codes sampleEnv_naming
    capWithSequence ⟨0, 0⟩ World.empty 4 [] (by decide) (by decide) (by decide)
  have hb := C28_sequence_roundtrip sampleEnv_contract sampleEnv_codes sampleEnv_naming
    capSequenceUnset ⟨0, 0⟩ World.empty 4 [] (by decide) (by decide) (by decide)
  obtain ⟨wa, ca, hoka, h1, -⟩ := ha.2.2 Reachable.empty (by decide) (by decide) (by decide)
    (by decide)
  obtain ⟨wb, cb, hokb, -, h3⟩ := hb.2.2 Reachable.empty (by decide) (by decide) (by decide)
    (by decide)
  exact ⟨⟨wa, _, hoka, (h1 (by decide)).1, (h1 (by decide)).2.2.trans (by decide)⟩, by decide,
    (hb.2.1 (by decide)).1.trans (by decide), wb, _, hokb, h3 (by decide)⟩

/-! ## C22: the checker on a freshly linked couple -/

theorem cap_getSegment_of_null {env : Collab} {w : World} {p : CapPtr}
    (h : (w.contents (cap_getContents w p)).segment = NULL) : cap_getSegment env w p = NULL := by
  unfold cap_getSegment
  rw [h]
  simp

/-- In a memory satisfying the invariant, `cap_check` passes on a handle that
is registered in its End, lies in a Flower without built trees and in a group
without nested Flower, has no segment, and whose adjacency, if any, lies in
the same group and has the same event, strand and sequence, with coordinates
that pass the coordinate checks. -/
theorem Inv.cap_check_passes {env : Collab} {w : World} (hI : Inv env w) (hE : EndContract env)
    (hK : CheckContract env) {h : CapPtr} (hh : w.isCap h)
    (hreg : end_getInstance env w (cap_getEnd env w h) (cap_getName w h) = some h)
    (htrees : env.flower_builtTrees (env.end_getFlower (cap_getEnd env w h)) = false)
    (hseg : (w.contents ⟨h.blk, 2⟩).segment = NULL)
    (hnest : env.group_getNestedFlower (env.end_getGroup (cap_getEnd env w h)) = NULL)
    (hadj : ∀ c, cap_getAdjacency env w h = some c →
      env.end_getGroup (cap_getEnd env w c) = env.end_getGroup (cap_getEnd env w h) ∧
      cap_getEvent env w h = cap_getEvent env w c ∧ cap_getStrand w h = cap_getStrand w c ∧
      cap_getSequence w h = cap_getSequence w c ∧
      cap_check_coordinates env w h c = .ok ()) :
    cap_check env w h = .ok () := by
  have hr := hI.isCap_reverse hh
  have hsegh : cap_getSegment env w h = NULL :=
    cap_getSegment_of_null (by rw [hI.contents_eq hh]; exact hseg)
  have hsegr : cap_getSegment env w (cap_getReverse w h) = NULL :=
    cap_getSegment_of_null (by rw [hI.contents_reverse hh, hI.contents_eq hh]; exact hseg)
  rw [cap_check_ok]
  refine ⟨?_, ?_, ?_, ?_, ?_, ?_⟩
  · unfold cap_check_identity
    simp only [check_seq_ok, cactusCheck_ok]
    refine ⟨by simpa using hreg, ?_, ?_⟩
    · simp [cap_getOrientation]
    · simp [cap_getSide]
  · unfold cap_check_trees
    simp only [htrees]
    simp [cactusCheck_ok, cap_getParent]
  · unfold cap_check_segment
    simp only [hsegh]
    split <;> simp [cactusCheck_ok]
  · unfold cap_check_adjacency
    cases hc : cap_getAdjacency env w h with
    | none => rfl
    | some c =>
      obtain ⟨h1, h2, h3, h4, h5⟩ := hadj c hc
      simp only [check_seq_ok]
      refine ⟨?_, h5⟩
      unfold cap_check_relation
      simp only [check_seq_ok, cactusCheck_ok]
      refine ⟨by simpa using h1, by simpa using (hI.adjacency_symm hE hh hc).1,
        by simpa using h2, by simpa using h3, by simpa using h4⟩
  · have hend : env.end_getReverse (cap_getEnd env w (cap_getReverse w h))
        = cap_getEnd env w h := by
      have hnn := hI.endNotNull h.blk hh.1
      have hcr := hI.contents_reverse hh
      have hor := hI.order_reverse hh
      unfold cap_getEnd
      rw [hcr, hor, hI.contents_eq hh]
      cases ho : cap_getOrder w h
      · simp
      · simp [hK.reverse_reverse _ hnn]
    have hname : cap_getName w (cap_getReverse w h) = cap_getName w h := by
      unfold cap_getName
      rw [hI.contents_reverse hh]
    have hcoord : cap_getCoordinate w (cap_getReverse w h) = cap_getCoordinate w h := by
      unfold cap_getCoordinate
      rw [hI.contents_reverse hh]
    have hadjr : (if cap_getAdjacency env w h = none then
          cactusCheck 486 (decide (cap_getAdjacency env w (cap_getReverse w h) = none))
        else cactusCheck 488
          (decide ((cap_getAdjacency env w (cap_getReverse w h)).map (cap_getReverse w)
            = cap_getAdjacency env w h))) = .ok () := by
      cases hc : cap_getAdjacency env w h with
      | none =>
        rw [if_pos rfl, cactusCheck_ok]
        have := (hI.adjacency_none_pair hh ((hI.adjacency_none hh).1 hc)).2
        simpa using this
      | some c =>
        rw [if_neg (by simp), cactusCheck_ok]
        have hc2 := (hI.adjacency_symm hE hh hc).2
        obtain ⟨-, -, -, -, hcc, -, -⟩ := hI.adjacency_some hh hc
        rw [hc2]
        simp [hI.reverse_reverse hcc]
    unfold cap_check_reverse
    simp only [check_seq_ok, hadjr, hsegh, hsegr, hend, hname, hcoord, hI.reverse_reverse hh,
      hI.orientation_reverse hE hh, hI.event_reverse hh, hI.side_reverse hK.side hh,
      hI.sequence_reverse hh, hI.strand_reverse hh, cap_getParent, cap_getChildNumber,
      cap_getTopFace, cap_isInternal, List.range_zero, List.forM_nil]
    simp [cactusCheck, pure, Except.pure]
  · unfold cap_check_nested
    simp only [hnest]
    simp

theorem cap_construct3_body_plain (env : Collab) (w : World) (n : Name) (ev e : Ptr) :
    (cap_construct3_body env w n ev e).1.isPlainPair env w.next n ev e := by
  obtain ⟨-, -, n3, n4, -, -, n7⟩ := cap_construct3_body_new env w n ev e
  refine ⟨?_, by rw [n7], by rw [n7]⟩
  intro p hb ho
  obtain ⟨b, o⟩ := p
  simp only at hb ho
  subst hb
  have htag : cap_getHasEventNotSequence (cap_construct3_body env w n ev e).1 ⟨w.next, o⟩
      = true := by
    rw [cap_getHasEventNotSequence_construct3_body]
    rcases ho with rfl | rfl <;> simp
  have hcon : cap_getContents (cap_construct3_body env w n ev e).1 ⟨w.next, o⟩
      = ⟨w.next, 2⟩ := by
    rcases ho with rfl | rfl
    · exact n3
    · exact n4
  unfold cap_getName cap_getCoordinate cap_getEvent cap_getSequence
  rw [hcon, n7, htag]
  simp

theorem cap_construct3_body_plain_old (env : Collab) {w : World} (n : Name) (ev e : Ptr)
    {b : Nat} {n0 : Name} {ev0 e0 : Ptr} (hb : b ≠ w.next)
    (hp : w.isPlainPair env b n0 ev0 e0) :
    (cap_construct3_body env w n ev e).1.isPlainPair env b n0 ev0 e0 := by
  have hc : (cap_construct3_body env w n ev e).1.contents ⟨b, 2⟩ = w.contents ⟨b, 2⟩ := by
    rw [cap_construct3_body_contents]
    have h1 : (⟨b, 2⟩ : CapPtr) ≠ ⟨w.next, 2⟩ := by
      intro h
      have := congrArg CapPtr.blk h
      exact hb this
    rw [if_neg h1, if_neg hb]
  refine ⟨?_, by rw [hc]; exact hp.2.1, by rw [hc]; exact hp.2.2⟩
  intro p hpb ho
  have hne : p.blk ≠ w.next := by rw [hpb]; exact hb
  obtain ⟨-, -, o3, o4, -, o6⟩ := cap_construct3_body_old env w n ev e hne
  obtain ⟨h1, h2, h3, h4⟩ := hp.1 p hpb ho
  unfold cap_getName at h1
  unfold cap_getCoordinate at h2
  unfold cap_getEvent at h3
  unfold cap_getSequence at h4
  unfold cap_getName cap_getCoordinate cap_getEvent cap_getSequence
  rw [o3, o4, o6]
  exact ⟨h1, h2, h3, h4⟩

theorem cap_makeAdjacent_plain {env : Collab} {w w1 : World} {x y : CapPtr}
    (hok : cap_makeAdjacent env w x y = .ok w1) {b : Nat} {n : Name} {ev e : Ptr}
    (hp : w.isPlainPair env b n ev e) : w1.isPlainPair env b n ev e := by
  obtain ⟨z, hz⟩ := cap_makeAdjacent_contents_frame hok ⟨b, 2⟩
  refine ⟨?_, by rw [hz]; exact hp.2.1, by rw [hz]; exact hp.2.2⟩
  intro p hpb ho
  obtain ⟨h1, h2, -, h4, h5⟩ := cap_makeAdjacent_payload hok p
  rw [h1, h2, h4, h5]
  exact hp.1 p hpb ho

theorem cap_makeAdjacent_endInstances {env : Collab} {w w1 : World} {cap cap2 : CapPtr}
    (h : cap_makeAdjacent env w cap cap2 = .ok w1) : w1.endInstances = w.endInstances := by
  obtain ⟨-, -, rfl⟩ := cap_makeAdjacent_ok h
  have hb : ∀ (w0 : World) (c : CapPtr),
      (cap_breakAdjacency env w0 c).endInstances = w0.endInstances := by
    intro w0 c
    cases h : cap_getAdjacency env w0 c with
    | none => rw [cap_breakAdjacency_of_none h]
    | some c => rw [cap_breakAdjacency_of_some h]; rfl
  show (cap_breakAdjacency env (cap_breakAdjacency env w (strandHandle w cap))
    (strandHandle w cap2)).endInstances = w.endInstances
  rw [hb, hb]

/-- The End of a handle is the stored End or its reverse. -/
theorem cap_getEnd_cases (env : Collab) (w : World) (p : CapPtr) :
    cap_getEnd env w p = (w.contents (cap_getContents w p)).endPtr ∨
      cap_getEnd env w p = env.end_getReverse (w.contents (cap_getContents w p)).endPtr := by
  unfold cap_getEnd
  dsimp only
  split
  · exact Or.inl rfl
  · exact Or.inr rfl

/-- What `cap_check` reads of a handle of a plain pair on the End `e`. -/
theorem Inv.plain_handle {env : Collab} {w : World} (hI : Inv env w)
    (hK : CheckContract env) {p : CapPtr} (hp : w.isCap p) {n : Name} {ev e : Ptr}
    (he : e ≠ NULL) (hpl : w.isPlainPair env p.blk n ev e) :
    cap_getName w p = n ∧ cap_getCoordinate w p = INT64_MAX ∧ cap_getEvent env w p = ev ∧
      cap_getSequence w p = NULL ∧
      env.end_getGroup (cap_getEnd env w p) = env.end_getGroup e ∧
      env.end_getFlower (cap_getEnd env w p) = env.end_getFlower e ∧
      (cap_getEnd env w p = e ∧ p.off = 0 ∨
        cap_getEnd env w p = env.end_getReverse e ∧ p.off = 1) := by
  obtain ⟨h1, h2, h3, h4⟩ := hpl.1 p rfl hp.2
  have hend : cap_getEnd env w p = e ∧ p.off = 0 ∨
      cap_getEnd env w p = env.end_getReverse e ∧ p.off = 1 := by
    unfold cap_getEnd
    rw [hI.contents_eq hp, hpl.2.2]
    obtain ⟨b, o⟩ := p
    obtain ⟨hb, rfl | rfl⟩ := hp
    · left; rw [hI.order0 b hb]; exact ⟨rfl, rfl⟩
    · right; rw [hI.order1 b hb]; exact ⟨rfl, rfl⟩
  refine ⟨h1, h2, h3, h4, ?_, ?_, hend⟩
  · rcases hend with ⟨h, -⟩ | ⟨h, -⟩
    · rw [h]
    · rw [h, hK.group e he]
  · rcases hend with ⟨h, -⟩ | ⟨h, -⟩
    · rw [h]
    · rw [h, hK.flower e he]

/-- `cap_check` passes on every handle of a memory that holds two plain pairs of
one Event, of different names, on Ends of one group and Flower without built
trees and nested Flower, registered in their Ends, when adjacent handles have
the same strand. -/
theorem Inv.check_couple {env : Collab} {w : World} (hI : Inv env w) (hE : EndContract env)
    (hK : CheckContract env) {e1 e2 ev : Ptr} {n1 n2 : Name} (hnext : w.next = 2)
    (hp0 : w.isPlainPair env 0 n1 ev e1) (hp1 : w.isPlainPair env 1 n2 ev e2)
    (hreg : w.endInstances = [(e2, ⟨1, 0⟩), (e1, ⟨0, 0⟩)]) (hne : n1 ≠ n2)
    (he1 : e1 ≠ NULL) (he2 : e2 ≠ NULL) (hg : env.end_getGroup e1 = env.end_getGroup e2)
    (hf : env.end_getFlower e1 = env.end_getFlower e2)
    (ht : env.flower_builtTrees (env.end_getFlower e1) = false)
    (hnest : env.group_getNestedFlower (env.end_getGroup e1) = NULL)
    (hstr : ∀ p c, w.isCap p → cap_getAdjacency env w p = some c →
      cap_getStrand w p = cap_getStrand w c)
    {p : CapPtr} (hp : w.isCap p) : cap_check env w p = .ok () := by
  have hall : ∀ q, w.isCap q → ∃ n e, e ≠ NULL ∧ w.isPlainPair env q.blk n ev e ∧
      env.end_getGroup e = env.end_getGroup e1 ∧ env.end_getFlower e = env.end_getFlower e1 ∧
      (q.blk = 0 ∧ n = n1 ∧ e = e1 ∨ q.blk = 1 ∧ n = n2 ∧ e = e2) := by
    intro q hq
    have hlt := hq.1
    rw [hnext] at hlt
    have hcases : q.blk = 0 ∨ q.blk = 1 := by omega
    rcases hcases with h0 | h1
    · exact ⟨n1, e1, he1, by rw [h0]; exact hp0, rfl, rfl, Or.inl ⟨h0, rfl, rfl⟩⟩
    · exact ⟨n2, e2, he2, by rw [h1]; exact hp1, hg.symm, hf.symm, Or.inr ⟨h1, rfl, rfl⟩⟩
  obtain ⟨n, e, he, hpl, hge, hfe, hblk⟩ := hall p hp
  obtain ⟨f1, f2, f3, f4, f5, f6, f7⟩ := hI.plain_handle hK hp he hpl
  have hn0 : cap_getName w ⟨0, 0⟩ = n1 := (hp0.1 ⟨0, 0⟩ rfl (Or.inl rfl)).1
  have hn1 : cap_getName w ⟨1, 0⟩ = n2 := (hp1.1 ⟨1, 0⟩ rfl (Or.inl rfl)).1
  have h20 : (0 : Nat) < w.next := by rw [hnext]; decide
  have h21 : (1 : Nat) < w.next := by rw [hnext]; decide
  have hr0 : cap_getReverse w ⟨0, 0⟩ = ⟨0, 1⟩ := cap_getReverse_zero (hI.order0 0 h20)
  have hr1 : cap_getReverse w ⟨1, 0⟩ = ⟨1, 1⟩ := cap_getReverse_zero (hI.order0 1 h21)
  have hrev1 : env.end_getReverse e1 ≠ e1 := hE.end_getReverse_ne he1
  have hrev2 : env.end_getReverse e2 ≠ e2 := hE.end_getReverse_ne he2
  refine hI.cap_check_passes hE hK hp ?_ ?_ hpl.2.1 ?_ ?_
  · unfold end_getInstance
    rw [hreg, f1]
    obtain ⟨b, o⟩ := p
    simp only at hblk f7
    rcases hblk with ⟨rfl, rfl, rfl⟩ | ⟨rfl, rfl, rfl⟩
    · rcases f7 with ⟨f7, rfl⟩ | ⟨f7, rfl⟩
      · rw [f7]
        simp [List.find?_cons, hn0, hn1, Ne.symm hne]
      · rw [f7]
        simp [List.find?_cons, hn0, hn1, Ne.symm hne, hr0, hrev1.symm]
    · rcases f7 with ⟨f7, rfl⟩ | ⟨f7, rfl⟩
      · rw [f7]
        simp [List.find?_cons, hn0, hn1]
      · rw [f7]
        simp [List.find?_cons, hn0, hn1, hr1, hrev2.symm]
  · rw [f6, hfe]; exact ht
  · rw [f5, hge]; exact hnest
  · intro c hc
    obtain ⟨-, -, -, -, hcc, -, -⟩ := hI.adjacency_some hp hc
    obtain ⟨n', e', he', hpl', hge', -, -⟩ := hall c hcc
    obtain ⟨-, g2, g3, g4, g5, -, -⟩ := hI.plain_handle hK hcc he' hpl'
    refine ⟨by rw [g5, f5, hge', hge], by rw [f3, g3], hstr p c hp hc, by rw [f4, g4], ?_⟩
    unfold cap_check_coordinates
    rw [if_neg (by simpa using f2), cactusCheck_ok]
    simpa using g2

/-- In a reachable memory that holds two plain pairs as in `Inv.check_couple`,
`cap_makeAdjacent` on the strand-normalised first handles succeeds and links
them, and `cap_check` passes on every handle afterwards. -/
theorem Reachable.link_and_check {env : Collab} {w : World} (hR : Reachable env w)
    (hE : EndContract env) (hK : CheckContract env) {e1 e2 ev : Ptr} {n1 n2 : Name}
    (hnext : w.next = 2)
    (hp0 : w.isPlainPair env 0 n1 ev e1) (hp1 : w.isPlainPair env 1 n2 ev e2)
    (hreg : w.endInstances = [(e2, ⟨1, 0⟩), (e1, ⟨0, 0⟩)]) (hne : n1 ≠ n2)
    (he1 : e1 ≠ NULL) (he2 : e2 ≠ NULL) (hg : env.end_getGroup e1 = env.end_getGroup e2)
    (hf : env.end_getFlower e1 = env.end_getFlower e2)
    (ht : env.flower_builtTrees (env.end_getFlower e1) = false)
    (hnest : env.group_getNestedFlower (env.end_getGroup e1) = NULL) :
    ∃ w3, cap_makeAdjacent env w (strandHandle w ⟨0, 0⟩) (strandHandle w ⟨1, 0⟩) = .ok w3 ∧
      cap_getAdjacency env w3 (strandHandle w ⟨0, 0⟩) = some (strandHandle w ⟨1, 0⟩) ∧
      Reachable env w3 ∧ w3.next = 2 ∧
      ∀ p, w3.isCap p → cap_check env w3 p = .ok () := by
  have hI := hR.inv hE
  have ha : w.isCap ⟨0, 0⟩ := ⟨by rw [hnext]; decide, Or.inl rfl⟩
  have hb : w.isCap ⟨1, 0⟩ := ⟨by rw [hnext]; decide, Or.inl rfl⟩
  obtain ⟨hsa, hsab, hsas⟩ := hI.strandHandle_spec ha
  obtain ⟨hsb, hsbb, hsbs⟩ := hI.strandHandle_spec hb
  have hevs : cap_getEvent env w (strandHandle w ⟨0, 0⟩)
      = cap_getEvent env w (strandHandle w ⟨1, 0⟩) := by
    rw [hI.event_strandHandle ha, hI.event_strandHandle hb,
      (hp0.1 ⟨0, 0⟩ rfl (Or.inl rfl)).2.2.1, (hp1.1 ⟨1, 0⟩ rfl (Or.inl rfl)).2.2.1]
  have hok := hI.makeAdjacent_succeeds hsa hsb (by rw [hsab, hsbb]; decide) hevs
  have hR3 := Reachable.makeAdjacent _ _ hR hsa hsb hok
  have hI3 := hR3.inv hE
  have hnext3 := (cap_makeAdjacent_next hok).trans hnext
  have hadj := (hI.makeAdjacent_getAdjacency hE hsa hsb hok).1
  rw [if_pos (by rw [hsas, hsbs])] at hadj
  refine ⟨_, hok, hadj, hR3, hnext3, ?_⟩
  have hstr : ∀ {w3 : World},
      cap_makeAdjacent env w (strandHandle w ⟨0, 0⟩) (strandHandle w ⟨1, 0⟩) = .ok w3 →
      ∀ p c, w3.isCap p → cap_getAdjacency env w3 p = some c →
        cap_getStrand w3 p = cap_getStrand w3 c := by
    intro w3 hok3 p c hp hc
    have hp2 : w.isCap p := ⟨by rw [← cap_makeAdjacent_next hok3]; exact hp.1, hp.2⟩
    have hblk : p.blk = (strandHandle w ⟨0, 0⟩).blk ∨ p.blk = (strandHandle w ⟨1, 0⟩).blk := by
      rw [hsab, hsbb]
      have := hp2.1
      rw [hnext] at this
      show p.blk = 0 ∨ p.blk = 1
      omega
    rw [(cap_makeAdjacent_payload hok3 p).2.2.1, (cap_makeAdjacent_payload hok3 c).2.2.1]
    rcases hblk with h | h
    · obtain ⟨c', h1, -, h2⟩ := (hI.makeAdjacent_strand hE hsa hsb hok3 hp2).1 h
      rw [h1] at hc
      cases hc
      exact h2.symm
    · obtain ⟨c', h1, -, h2⟩ := (hI.makeAdjacent_strand hE hsa hsb hok3 hp2).2 h
      rw [h1] at hc
      cases hc
      exact h2.symm
  intro p hp
  exact hI3.check_couple hE hK hnext3 (cap_makeAdjacent_plain hok hp0)
    (cap_makeAdjacent_plain hok hp1) (by rw [cap_makeAdjacent_endInstances hok]; exact hreg)
    hne he1 he2 hg hf ht hnest (hstr hok) hp

/-- C22: let `e1` and `e2` be non-null Ends of one group and one Flower, with
no built trees and no nested Flower, whose reverses are as `cap_check` relies
on, and let a cap pair be constructed by `cap_construct3` in each, under one
Event and with different names, in the empty memory.  Then `cap_makeAdjacent`
on the strand-normalised handles succeeds and links them, and `cap_check`
reports no violation on any of the four handles. -/
theorem C22_scenario_no_violation {env : Collab} (hE : EndContract env)
    (hK : CheckContract env) {e1 e2 ev : Ptr} {n1 n2 : Name} (he1 : e1 ≠ NULL)
    (he2 : e2 ≠ NULL) (hev : ev ≠ NULL) (hn1 : n1 ≠ env.NULL_NAME) (hn2 : n2 ≠ env.NULL_NAME)
    (hne : n1 ≠ n2) (hg : env.end_getGroup e1 = env.end_getGroup e2)
    (hf : env.end_getFlower e1 = env.end_getFlower e2)
    (ht : env.flower_builtTrees (env.end_getFlower e1) = false)
    (hnest : env.group_getNestedFlower (env.end_getGroup e1) = NULL) :
    ∃ w1 a w2 b w3, cap_construct3 env World.empty n1 ev e1 = .ok (w1, a) ∧
      cap_construct3 env w1 n2 ev e2 = .ok (w2, b) ∧
      cap_makeAdjacent env w2 (strandHandle w2 a) (strandHandle w2 b) = .ok w3 ∧
      cap_getAdjacency env w3 (strandHandle w2 a) = some (strandHandle w2 b) ∧
      cap_check env w3 a = .ok () ∧ cap_check env w3 (cap_getReverse w3 a) = .ok () ∧
      cap_check env w3 b = .ok () ∧ cap_check env w3 (cap_getReverse w3 b) = .ok () := by
  have c1 : cap_construct3 env World.empty n1 ev e1
      = .ok ((cap_construct3_body env World.empty n1 ev e1).1, ⟨0, 0⟩) :=
    cap_construct3_of_asserts he1 hev hn1 (cap_construct3_asserts_hold hE World.empty n1 ev he1)
  have hR1 : Reachable env (cap_construct3_body env World.empty n1 ev e1).1 :=
    Reachable.construct3 n1 ev e1 Reachable.empty c1
  have c2 : cap_construct3 env (cap_construct3_body env World.empty n1 ev e1).1 n2 ev e2
      = .ok ((cap_construct3_body env (cap_construct3_body env World.empty n1 ev e1).1
          n2 ev e2).1, ⟨1, 0⟩) :=
    cap_construct3_of_asserts he2 hev hn2 (cap_construct3_asserts_hold hE _ n2 ev he2)
  have hR2 := Reachable.construct3 n2 ev e2 hR1 c2
  have hp1 : (cap_construct3_body env (cap_construct3_body env World.empty n1 ev e1).1
      n2 ev e2).1.isPlainPair env 1 n2 ev e2 :=
    cap_construct3_body_plain env (cap_construct3_body env World.empty n1 ev e1).1 n2 ev e2
  have hp0 : (cap_construct3_body env (cap_construct3_body env World.empty n1 ev e1).1
      n2 ev e2).1.isPlainPair env 0 n1 ev e1 :=
    cap_construct3_body_plain_old env n2 ev e2 (by show (0 : Nat) ≠ 1; decide)
      (cap_construct3_body_plain env World.empty n1 ev e1)
  obtain ⟨w3, hok, hadj, hR3, hnext3, hchk⟩ :=
    hR2.link_and_check hE hK rfl hp0 hp1 rfl hne he1 he2 hg hf ht hnest
  have ha3 : w3.isCap ⟨0, 0⟩ := ⟨by rw [hnext3]; decide, Or.inl rfl⟩
  have hb3 : w3.isCap ⟨1, 0⟩ := ⟨by rw [hnext3]; decide, Or.inl rfl⟩
  have hI3 := hR3.inv hE
  exact ⟨_, _, _, _, w3, c1, c2, hok, hadj, hchk _ ha3, hchk _ (hI3.isCap_reverse ha3),
    hchk _ hb3, hchk _ (hI3.isCap_reverse hb3)⟩

theorem sampleEnv_check : CheckContract sampleEnv where
  reverse_reverse := by
    have key : ∀ n : Nat, (if (if n % 2 = 0 then n + 1 else n - 1) % 2 = 0
        then (if n % 2 = 0 then n + 1 else n - 1) + 1
        else (if n % 2 = 0 then n + 1 else n - 1) - 1) = n := by
      intro n
      split <;> split <;> omega
    intro e _
    exact key e
  group := by
    have key : ∀ n : Nat, (if (if n % 2 = 0 then n + 1 else n - 1) < 20 then 1 else 2)
        = (if n < 20 then (1 : Nat) else 2) := by
      intro n
      split <;> split <;> split <;> omega
    intro e _
    exact key e
  flower := fun _ _ => rfl
  side := sampleEnv_side

/-- C22 for the Ends 2 and 4, the Event 7 and the names 1 and 2 under
`sampleEnv`. -/
theorem C22_scenario_no_violation_witness :
    ∃ w1 a w2 b w3, cap_construct3 sampleEnv World.empty 1 7 2 = .ok (w1, a) ∧
      cap_construct3 sampleEnv w1 2 7 4 = .ok (w2, b) ∧
      cap_makeAdjacent sampleEnv w2 (strandHandle w2 a) (strandHandle w2 b) = .ok w3 ∧
      cap_getAdjacency sampleEnv w3 (strandHandle w2 a) = some (strandHandle w2 b) ∧
      cap_check sampleEnv w3 a = .ok () ∧ cap_check sampleEnv w3 (cap_getReverse w3 a) = .ok () ∧
      cap_check sampleEnv w3 b = .ok () ∧ cap_check sampleEnv w3 (cap_getReverse w3 b) = .ok () :=
  C22_scenario_no_violation sampleEnv_contract sampleEnv_check (by decide) (by decide)
    (by decide) (by decide) (by decide) (by decide) (by decide) (by decide) (by decide)
    (by decide)

/-! ## `cap_destruct` and the pair adjacent to the destroyed one -/

/-- The function `cap_destruct` writes to no other pair: whatever `free` leaves
in the freed block, a handle `a` of another pair keeps its `Cap` byte and its
contents record, so an adjacency stored there still points into the freed
pair; and the End no longer lists the destroyed cap. -/
theorem cap_destruct_other_pair {env : Collab} (hE : EndContract env) {w : World}
    (hR : Reachable env w) {a p : CapPtr} (ha : w.isCap a)
    (hadj : cap_getAdjacency env w a = some p) (bitsAfter : CapPtr → Nat)
    (contentsAfter : CapContents) :
    (cap_destruct env w p bitsAfter contentsAfter).bits a = w.bits a ∧
      cap_getContents (cap_destruct env w p bitsAfter contentsAfter) a = cap_getContents w a ∧
      (cap_destruct env w p bitsAfter contentsAfter).contents (cap_getContents w a)
        = w.contents (cap_getContents w a) ∧
      (∃ s, ((cap_destruct env w p bitsAfter contentsAfter).contents
          (cap_getContents (cap_destruct env w p bitsAfter contentsAfter) a)).adjacency = some s
        ∧ s.blk = p.blk) ∧
      (cap_getEnd env w p, p) ∉ (cap_destruct env w p bitsAfter contentsAfter).endInstances := by
  have hI := hR.inv hE
  obtain ⟨s, hs, -, hne, -, hblk, -⟩ := hI.adjacency_some ha hadj
  have hfb : (if cap_getOrder w p then p else cap_getReverse w p).blk = p.blk := by
    split
    · rfl
    · exact cap_getReverse_blk w p
  have hab : a.blk ≠ p.blk := by rw [hblk]; exact fun h => hne h.symm
  have hbits : (cap_destruct env w p bitsAfter contentsAfter).bits a = w.bits a := by
    show (if a.blk = (if cap_getOrder w p then p else cap_getReverse w p).blk then bitsAfter a
      else w.bits a) = w.bits a
    rw [hfb, if_neg hab]
  have hcont : cap_getContents (cap_destruct env w p bitsAfter contentsAfter) a
      = cap_getContents w a := by
    unfold cap_getContents cap_getOrder cap_getBit
    rw [hbits]
  have hca : (cap_getContents w a).blk = a.blk := by
    rw [hI.contents_eq ha]
  have hrec : (cap_destruct env w p bitsAfter contentsAfter).contents (cap_getContents w a)
      = w.contents (cap_getContents w a) := by
    show (if (cap_getContents w a).blk = (if cap_getOrder w p then p
        else cap_getReverse w p).blk then contentsAfter else w.contents (cap_getContents w a))
      = w.contents (cap_getContents w a)
    rw [hfb, hca, if_neg hab]
  refine ⟨hbits, hcont, hrec, ⟨s, ?_, hblk.symm⟩, ?_⟩
  · rw [hcont, hrec, hI.contents_eq ha]
    exact hs
  · show (cap_getEnd env w p, p) ∉ w.endInstances.filter _
    rw [List.mem_filter]
    simp

end Cactus
